import Mathlib

/-!
# Ride-pooling simulator (`tp2-ed`): shallow embedding and verified properties

The C++ program reads a list of ride demands, greedily clusters them into shared
rides (`main`, matching loop), builds each ride's stops and segments
(`construirCorrida`), replays the rides through a binary-heap event scheduler
(`Escalonador`) and prints the completed rides sorted by completion time
(`ordenarResultados`).

Conventions of the embedding

* `double` values are elements of an arbitrary linearly ordered field `R`
  (exact arithmetic); the library function `sqrt` of `<cmath>` is a parameter
  `sqrt : R → R`.
* A C array allocated with `new T[n]` is a list of `n` slots (`Arr`); a slot is
  `none` until it is written.  Reading an empty slot or reading/writing out of
  range is undefined behaviour in C++ and is the error `Erro.AcessoInvalido`.
* A pointer to an object that is never mutated after construction (`Evento*`,
  `Parada*`, `Trecho*`) is the value of the object.  A `Corrida*` stored in an
  event, a demand or a result is the position of the ride in the array `corridas`
  of `main`; a `Demanda*` stored in `demandas_corrida` is the position of the
  demand in the array `demandas`.
* `int` counters and indices that never become negative are natural numbers;
  `int` overflow is not modelled.
* A counting loop `for (i = 0; i < n; i++)` is `repetir`; a counting loop with
  `break` or `return` is a recursion over the list of the values that its counter
  still has to take.  The other loops (`while`) and the recursion of `quicksort`
  carry a step budget; running out of it is the error `Erro.LimitePassos`, and the
  theorems show that the budgets used are never exhausted.

The file has three parts: the embedding of the source, file by file; the closed
forms and invariants used in the proofs; the lemmas and the theorems for the
claims of the specification.
-/

set_option autoImplicit false
set_option linter.unusedSectionVars false
set_option linter.unusedVariables false

namespace TP2

/-! ## Errors and C arrays -/

/-- Ways in which a run fails: the two exception classes that the program throws
(`ParametroInvalidoException`, `EstadoInvalidoException`), undefined behaviour on an
array access, an input stream that ends before the announced records (the source does
not check for it; the model stops there), and exhaustion of a loop budget of the
model. -/
inductive Erro where
  | ParametroInvalido
  | EstadoInvalido
  | AcessoInvalido
  | EntradaIncompleta
  | LimitePassos
  deriving DecidableEq, Repr

deriving instance DecidableEq for Except

/-- A C array: one slot per allocated element, `none` while uninitialised. -/
abbrev Arr (α : Type) := List (Option α)

/-- Result of `new T[n]`: `n` uninitialised slots. -/
def novoArr {α : Type} (n : Nat) : Arr α := List.replicate n none

/-- Dereference of slot `i` (`*a[i]`, `a[i]->...`). -/
def ler {α : Type} (a : Arr α) (i : Nat) : Except Erro α :=
  match a[i]? with
  | some (some x) => .ok x
  | _ => .error .AcessoInvalido

/-- Assignment `a[i] = x`. -/
def gravar {α : Type} (a : Arr α) (i : Nat) (x : α) : Except Erro (Arr α) :=
  if i < a.length then .ok (a.set i (some x)) else .error .AcessoInvalido

/-- Counting loop `for (int i = 0; i < n; i++) s = corpo(i, s)`. -/
def repetir {σ : Type} (corpo : Nat → σ → Except Erro σ) : Nat → σ → Except Erro σ
  | 0, s => .ok s
  | n + 1, s => repetir corpo n s >>= corpo n

/-! ## Escalonador.hpp / Escalonador.cpp -/

inductive TipoEvento where
  | COLETA_PASSAGEIRO
  | ENTREGA_PASSAGEIRO
  deriving DecidableEq, Repr

/-- Class `Evento`. -/
structure Evento (R : Type) where
  tempo : R
  tipo : TipoEvento
  corrida_associada : Nat
  indice_parada : Nat
  deriving DecidableEq, Repr

/-- Class `Escalonador`: `heap` is the backing array of `capacidade` slots, of
which the first `tamanho` hold the queued events. -/
structure Escalonador (R : Type) where
  heap : Arr (Evento R)
  tamanho : Nat
  capacidade : Nat
  total_eventos_processados : Nat
  total_eventos_inseridos : Nat
  deriving DecidableEq, Repr

section Heap

variable {R : Type} [LinearOrderedField R]

/-- Method `Evento::operator>`. -/
def Evento.maior (a b : Evento R) : Bool := decide (a.tempo > b.tempo)

/-- Method `Escalonador::Escalonador(int capacidade_inicial)`. -/
def Escalonador.novo (capacidade_inicial : Nat) : Escalonador R :=
  { heap := novoArr capacidade_inicial
    tamanho := 0
    capacidade := capacidade_inicial
    total_eventos_processados := 0
    total_eventos_inseridos := 0 }

/-- Method `Escalonador::inicializa`. -/
def Escalonador.inicializa (e : Escalonador R) : Escalonador R :=
  { e with tamanho := 0, total_eventos_processados := 0, total_eventos_inseridos := 0 }

def getPai (indice : Nat) : Nat := (indice - 1) / 2

def getFilhoEsquerdo (indice : Nat) : Nat := 2 * indice + 1

def getFilhoDireito (indice : Nat) : Nat := 2 * indice + 2

/-- Method `Escalonador::trocar`: exchanges the two slots (pointer copies, nothing is
dereferenced). -/
def trocar (heap : Arr (Evento R)) (indice1 indice2 : Nat) : Except Erro (Arr (Evento R)) :=
  match heap[indice1]?, heap[indice2]? with
  | some temp, some outro => .ok ((heap.set indice1 outro).set indice2 temp)
  | _, _ => .error .AcessoInvalido

/-- Test `*heap[i] > *heap[j]`. -/
def maiorQue (heap : Arr (Evento R)) (i j : Nat) : Except Erro Bool := do
  let a ← ler heap i
  let b ← ler heap j
  pure (a.maior b)

/-- Loop of `Escalonador::heapifyUp`, one iteration per unit of budget. -/
def heapifyUpLoop : Nat → Arr (Evento R) → Nat → Except Erro (Arr (Evento R))
  | 0, heap, indice => if indice > 0 then .error .LimitePassos else .ok heap
  | passos + 1, heap, indice =>
    if indice > 0 then do
      let pai := getPai indice
      if (← maiorQue heap indice pai) then
        pure heap
      else
        let heap1 ← trocar heap indice pai
        heapifyUpLoop passos heap1 pai
    else
      pure heap

/-- Method `Escalonador::heapifyUp`; every iteration lowers `indice`, so `indice`
iterations are enough. -/
def heapifyUp (heap : Arr (Evento R)) (indice : Nat) : Except Erro (Arr (Evento R)) :=
  heapifyUpLoop indice heap indice

/-- Loop of `Escalonador::heapifyDown` (`while (true)`), one iteration per unit of
budget. -/
def heapifyDownLoop (tamanho : Nat) : Nat → Arr (Evento R) → Nat → Except Erro (Arr (Evento R))
  | 0, _, _ => .error .LimitePassos
  | passos + 1, heap, indice => do
    let menor := indice
    let esquerdo := getFilhoEsquerdo indice
    let direito := getFilhoDireito indice
    let c1 ← (if esquerdo < tamanho then maiorQue heap esquerdo menor else pure false)
    let menor := if c1 then esquerdo else menor
    let c2 ← (if direito < tamanho then maiorQue heap direito menor else pure false)
    let menor := if c2 then direito else menor
    if menor = indice then
      pure heap
    else
      let heap1 ← trocar heap indice menor
      heapifyDownLoop tamanho passos heap1 menor

/-- Method `Escalonador::heapifyDown`; every iteration but the last moves `indice` to a
larger position below `tamanho`, so `tamanho + 1` iterations are enough. -/
def heapifyDown (heap : Arr (Evento R)) (tamanho indice : Nat) : Except Erro (Arr (Evento R)) :=
  heapifyDownLoop tamanho (tamanho + 1) heap indice

/-- Method `Escalonador::redimensionar`: a new array of twice the capacity whose first
`tamanho` slots are copied from the old one. -/
def redimensionar (e : Escalonador R) : Escalonador R :=
  let nova_capacidade := e.capacidade * 2
  { e with
    heap := e.heap.take e.tamanho ++ novoArr (nova_capacidade - e.tamanho)
    capacidade := nova_capacidade }

/-- Method `Escalonador::insereEvento`. -/
def insereEvento (e : Escalonador R) (evento : Evento R) : Except Erro (Escalonador R) := do
  let e1 := if e.tamanho ≥ e.capacidade then redimensionar e else e
  let heap1 ← gravar e1.heap e1.tamanho evento
  let heap2 ← heapifyUp heap1 e1.tamanho
  pure { e1 with
    heap := heap2
    tamanho := e1.tamanho + 1
    total_eventos_inseridos := e1.total_eventos_inseridos + 1 }

/-- Method `Escalonador::retiraProximoEvento`; `none` in the first component is the
`nullptr` returned for an empty scheduler. -/
def retiraProximoEvento (e : Escalonador R) :
    Except Erro (Option (Evento R) × Escalonador R) :=
  if e.tamanho = 0 then
    .ok (none, e)
  else do
    let evento_minimo ← ler e.heap 0
    let tamanho := e.tamanho - 1
    let heap1 ←
      (if tamanho > 0 then do
        let ultimo ← ler e.heap tamanho
        let heap0 ← gravar e.heap 0 ultimo
        heapifyDown heap0 tamanho 0
      else
        pure e.heap)
    pure (some evento_minimo,
      { e with
        heap := heap1
        tamanho := tamanho
        total_eventos_processados := e.total_eventos_processados + 1 })

/-- Method `Escalonador::estaVazio`. -/
def estaVazio (e : Escalonador R) : Bool := decide (e.tamanho = 0)

/-- Method `Escalonador::getTamanho`. -/
def getTamanho (e : Escalonador R) : Nat := e.tamanho

/-- The events queued in the scheduler: the contents of slots `0 .. tamanho-1`. -/
def eventos (e : Escalonador R) : List (Evento R) :=
  (e.heap.take e.tamanho).filterMap id

/-- The time of the event in slot `(i-1)/2` is at most the time of the event in
slot `i`. -/
def paiNaoDepois (heap : Arr (Evento R)) (i : Nat) : Bool :=
  match ler heap (getPai i), ler heap i with
  | .ok p, .ok f => decide (p.tempo ≤ f.tempo)
  | _, _ => false

/-- Min-heap invariant of the scheduler. -/
def heapInvariante (e : Escalonador R) : Prop :=
  ∀ i, 1 ≤ i → i < e.tamanho → paiNaoDepois e.heap i = true

/-- A call on the public interface of the scheduler. -/
inductive Chamada (R : Type) where
  | insere (evento : Evento R)
  | retira

/-- Runs a sequence of `insereEvento` / `retiraProximoEvento` calls. -/
def executar : Escalonador R → List (Chamada R) → Except Erro (Escalonador R)
  | e, [] => .ok e
  | e, .insere evento :: cs => insereEvento e evento >>= fun e1 => executar e1 cs
  | e, .retira :: cs => retiraProximoEvento e >>= fun r => executar r.2 cs

/-- Inserts the events of a list one after the other. -/
def inserirTodos : Escalonador R → List (Evento R) → Except Erro (Escalonador R)
  | e, [] => .ok e
  | e, evento :: es => insereEvento e evento >>= fun e1 => inserirTodos e1 es

/-- Calls `retiraProximoEvento` until it returns `nullptr`, at most `passos + 1`
times, and collects the events returned. -/
def retirarTodos : Nat → Escalonador R → Except Erro (List (Evento R))
  | 0, e => if e.tamanho = 0 then .ok [] else .error .LimitePassos
  | passos + 1, e => do
    let r ← retiraProximoEvento e
    match r.1 with
    | none => pure []
    | some evento => do
      let resto ← retirarTodos passos r.2
      pure (evento :: resto)

end Heap

/-! ## Parada.hpp / Parada.cpp -/

inductive TipoParada where
  | EMBARQUE
  | DESEMBARQUE
  deriving DecidableEq, Repr

/-- Class `Parada`. -/
structure Parada (R : Type) where
  coord_x : R
  coord_y : R
  tipo : TipoParada
  id_demanda : Int
  deriving DecidableEq, Repr

/-! ## Trecho.hpp / Trecho.cpp -/

inductive NaturezaTrecho where
  | COLETA
  | ENTREGA
  | DESLOCAMENTO
  deriving DecidableEq, Repr

/-- Class `Trecho`; `none` is a null `Parada*`. -/
structure Trecho (R : Type) where
  parada_inicio : Option (Parada R)
  parada_fim : Option (Parada R)
  tempo : R
  distancia : R
  natureza : NaturezaTrecho
  deriving DecidableEq, Repr

/-! ## Corrida.hpp / Corrida.cpp -/

/-- Class `Corrida`: three growable arrays with their element counts and
capacities, and the three aggregates. -/
structure Corrida (R : Type) where
  ids_demandas : Arr Int
  num_demandas : Nat
  capacidade_ids : Nat
  trechos : Arr (Trecho R)
  num_trechos : Nat
  capacidade_trechos : Nat
  paradas : Arr (Parada R)
  num_paradas : Nat
  capacidade_paradas : Nat
  duracao_total : R
  distancia_total : R
  eficiencia : R
  deriving DecidableEq, Repr

/-! ## Demanda.hpp / Demanda.cpp -/

inductive EstadoDemanda where
  | DEMANDADA
  | INDIVIDUAL
  | COMBINADA
  | CONCLUIDA
  deriving DecidableEq, Repr

/-- Class `Demanda`; `corrida_associada = none` is the null pointer. -/
structure Demanda (R : Type) where
  id : Int
  tempo_solicitacao : R
  origem_x : R
  origem_y : R
  destino_x : R
  destino_y : R
  estado : EstadoDemanda
  corrida_associada : Option Nat
  tempo_conclusao : R
  distancia_percorrida : R
  deriving DecidableEq, Repr

section Modelo

variable {R : Type} [LinearOrderedField R] (sqrt : R → R)

/-- Method `Parada::calcularDistancia`. -/
def Parada.calcularDistancia (p outra : Parada R) : R :=
  let dx := p.coord_x - outra.coord_x
  let dy := p.coord_y - outra.coord_y
  sqrt (dx * dx + dy * dy)

/-- Method `Trecho::calcularTempoDistancia`. -/
def Trecho.calcularTempoDistancia (t : Trecho R) (velocidade : R) : Trecho R :=
  match t.parada_inicio, t.parada_fim with
  | some inicio, some fim =>
    let distancia := inicio.calcularDistancia sqrt fim
    { t with distancia := distancia, tempo := distancia / velocidade }
  | _, _ => t

/-- Method `Corrida::Corrida(int capacidade_inicial)`. -/
def Corrida.nova (capacidade_inicial : Nat) : Corrida R :=
  { ids_demandas := novoArr capacidade_inicial
    num_demandas := 0
    capacidade_ids := capacidade_inicial
    trechos := novoArr (capacidade_inicial * 2)
    num_trechos := 0
    capacidade_trechos := capacidade_inicial * 2
    paradas := novoArr (capacidade_inicial * 2)
    num_paradas := 0
    capacidade_paradas := capacidade_inicial * 2
    duracao_total := 0
    distancia_total := 0
    eficiencia := 1 }

/-- Body shared by `Corrida::redimensionarIds`, `redimensionarTrechos` and
`redimensionarParadas`: a new array of `nova_capacidade` slots whose first `num`
slots are copied from the old one. -/
def copiarPara {α : Type} (antigo : Arr α) (num nova_capacidade : Nat) : Arr α :=
  antigo.take num ++ novoArr (nova_capacidade - num)

/-- Method `Corrida::redimensionarIds`. -/
def Corrida.redimensionarIds (c : Corrida R) : Corrida R :=
  let nova_capacidade := c.capacidade_ids * 2
  { c with
    ids_demandas := copiarPara c.ids_demandas c.num_demandas nova_capacidade
    capacidade_ids := nova_capacidade }

/-- Method `Corrida::redimensionarTrechos`. -/
def Corrida.redimensionarTrechos (c : Corrida R) : Corrida R :=
  let nova_capacidade := c.capacidade_trechos * 2
  { c with
    trechos := copiarPara c.trechos c.num_trechos nova_capacidade
    capacidade_trechos := nova_capacidade }

/-- Method `Corrida::redimensionarParadas`. -/
def Corrida.redimensionarParadas (c : Corrida R) : Corrida R :=
  let nova_capacidade := c.capacidade_paradas * 2
  { c with
    paradas := copiarPara c.paradas c.num_paradas nova_capacidade
    capacidade_paradas := nova_capacidade }

/-- Method `Corrida::adicionarDemanda`. -/
def Corrida.adicionarDemanda (c : Corrida R) (id_demanda : Int) : Except Erro (Corrida R) := do
  let c1 := if c.num_demandas ≥ c.capacidade_ids then c.redimensionarIds else c
  let ids ← gravar c1.ids_demandas c1.num_demandas id_demanda
  pure { c1 with ids_demandas := ids, num_demandas := c1.num_demandas + 1 }

/-- Method `Corrida::adicionarTrecho`. -/
def Corrida.adicionarTrecho (c : Corrida R) (trecho : Trecho R) : Except Erro (Corrida R) := do
  let c1 := if c.num_trechos ≥ c.capacidade_trechos then c.redimensionarTrechos else c
  let trechos ← gravar c1.trechos c1.num_trechos trecho
  pure { c1 with trechos := trechos, num_trechos := c1.num_trechos + 1 }

/-- Method `Corrida::adicionarParada`. -/
def Corrida.adicionarParada (c : Corrida R) (parada : Parada R) : Except Erro (Corrida R) := do
  let c1 := if c.num_paradas ≥ c.capacidade_paradas then c.redimensionarParadas else c
  let paradas ← gravar c1.paradas c1.num_paradas parada
  pure { c1 with paradas := paradas, num_paradas := c1.num_paradas + 1 }

/-- Method `Corrida::calcularDuracaoDistancia`. -/
def Corrida.calcularDuracaoDistancia (c : Corrida R) : Except Erro (Corrida R) :=
  repetir (fun i c1 => do
      let trecho ← ler c1.trechos i
      pure { c1 with
        duracao_total := c1.duracao_total + trecho.tempo
        distancia_total := c1.distancia_total + trecho.distancia })
    c.num_trechos { c with duracao_total := 0, distancia_total := 0 }

/-- Method `Corrida::getNumDemandas`. -/
def Corrida.getNumDemandas (c : Corrida R) : Nat := c.num_demandas

/-- Method `Corrida::getNumTrechos`. -/
def Corrida.getNumTrechos (c : Corrida R) : Nat := c.num_trechos

/-- Method `Corrida::getNumParadas`. -/
def Corrida.getNumParadas (c : Corrida R) : Nat := c.num_paradas

/-- Method `Corrida::setEficiencia`. -/
def Corrida.setEficiencia (c : Corrida R) (eficiencia : R) : Corrida R :=
  { c with eficiencia := eficiencia }

/-- Method `Corrida::calcularEficiencia`. -/
def Corrida.calcularEficiencia (c : Corrida R) (distancias_individuais : Arr R) :
    Except Erro (Corrida R) :=
  if c.distancia_total = 0 then
    .ok { c with eficiencia := 1 }
  else do
    let soma_distancias_individuais ← repetir (fun i soma => do
        pure (soma + (← ler distancias_individuais i))) c.num_demandas 0
    pure { c with eficiencia := soma_distancias_individuais / c.distancia_total }

/-- Method `Demanda::Demanda(int id, double tempo, double ox, double oy, double dx, double dy)`. -/
def Demanda.nova (id : Int) (tempo ox oy dx dy : R) : Demanda R :=
  { id := id
    tempo_solicitacao := tempo
    origem_x := ox
    origem_y := oy
    destino_x := dx
    destino_y := dy
    estado := .DEMANDADA
    corrida_associada := none
    tempo_conclusao := 0
    distancia_percorrida := 0 }

/-- Method `Demanda::setEstado`. -/
def Demanda.setEstado (d : Demanda R) (novo_estado : EstadoDemanda) : Demanda R :=
  { d with estado := novo_estado }

/-- Method `Demanda::setCorridaAssociada`. -/
def Demanda.setCorridaAssociada (d : Demanda R) (corrida : Nat) : Demanda R :=
  { d with corrida_associada := some corrida }

/-- Method `Demanda::calcularDistanciaOrigem`. -/
def Demanda.calcularDistanciaOrigem (d outra : Demanda R) : R :=
  let dx := d.origem_x - outra.origem_x
  let dy := d.origem_y - outra.origem_y
  sqrt (dx * dx + dy * dy)

/-- Method `Demanda::calcularDistanciaDestino`. -/
def Demanda.calcularDistanciaDestino (d outra : Demanda R) : R :=
  let dx := d.destino_x - outra.destino_x
  let dy := d.destino_y - outra.destino_y
  sqrt (dx * dx + dy * dy)

/-- Method `Demanda::calcularDistanciaCorrida`. -/
def Demanda.calcularDistanciaCorrida (d : Demanda R) : R :=
  let dx := d.destino_x - d.origem_x
  let dy := d.destino_y - d.origem_y
  sqrt (dx * dx + dy * dy)

end Modelo

/-! ## Main.cpp -/

/-- Struct `ResultadoCorrida`. -/
structure ResultadoCorrida (R : Type) where
  tempo_conclusao : R
  corrida : Nat
  deriving DecidableEq, Repr

/-- Dereference of slot `i` for an `int` index that may be negative. -/
def lerZ {α : Type} (a : Arr α) (i : Int) : Except Erro α :=
  if 0 ≤ i then ler a i.toNat else .error .AcessoInvalido

/-- Assignment `a[i] = x` for an `int` index that may be negative. -/
def gravarZ {α : Type} (a : Arr α) (i : Int) (x : α) : Except Erro (Arr α) :=
  if 0 ≤ i then gravar a i.toNat x else .error .AcessoInvalido

/-- First `i` of the list for which `teste i` holds makes the loop return `true`
at once; `false` when the list is exhausted
(`for (...) { if (teste(i)) return ...; }`). -/
def algum (teste : Nat → Except Erro Bool) : List Nat → Except Erro Bool
  | [] => .ok false
  | i :: is => do
    if (← teste i) then pure true else algum teste is

section Principal

variable {R : Type} [LinearOrderedField R] (sqrt : R → R)

/-- Function `trocarResultados(resultados[a], resultados[b])`. -/
def trocarResultados (resultados : Arr (ResultadoCorrida R)) (a b : Int) :
    Except Erro (Arr (ResultadoCorrida R)) := do
  let temp ← lerZ resultados a
  let vb ← lerZ resultados b
  let r1 ← gravarZ resultados a vb
  gravarZ r1 b temp

/-- Function `particionar`: returns the array and the position of the pivot. -/
def particionar (resultados : Arr (ResultadoCorrida R)) (inicio fim : Int) :
    Except Erro (Arr (ResultadoCorrida R) × Int) := do
  let pivo := (← lerZ resultados fim).tempo_conclusao
  let i := inicio - 1
  let s ← repetir (fun k (s : Arr (ResultadoCorrida R) × Int) => do
      let j := inicio + (k : Int)
      if (← lerZ s.1 j).tempo_conclusao ≤ pivo then
        let i := s.2 + 1
        let r ← trocarResultados s.1 i j
        pure (r, i)
      else
        pure s)
    (fim - inicio).toNat (resultados, i)
  let r ← trocarResultados s.1 (s.2 + 1) fim
  pure (r, s.2 + 1)

/-- Recursion of `quicksort`, nested at most `passos` deep. -/
def quicksortLoop : Nat → Arr (ResultadoCorrida R) → Int → Int →
    Except Erro (Arr (ResultadoCorrida R))
  | 0, resultados, inicio, fim =>
    if inicio < fim then .error .LimitePassos else .ok resultados
  | passos + 1, resultados, inicio, fim =>
    if inicio < fim then do
      let p ← particionar resultados inicio fim
      let r1 ← quicksortLoop passos p.1 inicio (p.2 - 1)
      quicksortLoop passos r1 (p.2 + 1) fim
    else
      pure resultados

/-- Function `quicksort`; each nested call works on a strictly shorter range, so a depth of
`fim - inicio` is enough. -/
def quicksort (resultados : Arr (ResultadoCorrida R)) (inicio fim : Int) :
    Except Erro (Arr (ResultadoCorrida R)) :=
  quicksortLoop (fim - inicio).toNat resultados inicio fim

/-- Function `ordenarResultados`. -/
def ordenarResultados (resultados : Arr (ResultadoCorrida R)) (tamanho : Int) :
    Except Erro (Arr (ResultadoCorrida R)) :=
  if tamanho > 1 then quicksort resultados 0 (tamanho - 1) else .ok resultados

/-- Function `calcularDistancia`. -/
def calcularDistancia (x1 y1 x2 y2 : R) : R :=
  let dx := x2 - x1
  let dy := y2 - y1
  sqrt (dx * dx + dy * dy)

/-- Function `validarParametros`. -/
def validarParametros (eta : Int) (gama delta alfa beta lambda : R) : Except Erro Unit :=
  if eta ≤ 0 then .error .ParametroInvalido
  else if gama ≤ 0 then .error .ParametroInvalido
  else if delta < 0 then .error .ParametroInvalido
  else if alfa < 0 then .error .ParametroInvalido
  else if beta < 0 then .error .ParametroInvalido
  else if lambda < 0 ∨ lambda > 1 then .error .ParametroInvalido
  else .ok ()

/-- Function `verificarCriteriosCompartilhamento`. -/
def verificarCriteriosCompartilhamento (demandas_corrida : Arr (Demanda R)) (num_demandas : Nat)
    (nova_demanda : Demanda R) (alfa beta : R) : Except Erro Bool := do
  if (← algum (fun i => do
        let dist_origem := (← ler demandas_corrida i).calcularDistanciaOrigem sqrt nova_demanda
        pure (decide (dist_origem > alfa)))
      (List.range num_demandas)) then
    pure false
  else if (← algum (fun i => do
        let dist_destino := (← ler demandas_corrida i).calcularDistanciaDestino sqrt nova_demanda
        pure (decide (dist_destino > beta)))
      (List.range num_demandas)) then
    pure false
  else
    pure true

/-- Nature of the segment between two consecutive stops (the `if` chain in the
last loop of `construirCorrida`). -/
def naturezaEntre (a b : Parada R) : NaturezaTrecho :=
  if a.tipo = .EMBARQUE ∧ b.tipo = .EMBARQUE then .COLETA
  else if a.tipo = .DESEMBARQUE ∧ b.tipo = .DESEMBARQUE then .ENTREGA
  else .DESLOCAMENTO

/-- Function `construirCorrida`. The parameter `tempo_inicio` is not used by the source. -/
def construirCorrida (demandas_corrida : Arr (Demanda R)) (num_demandas : Int) (gama : R)
    (_tempo_inicio : R) : Except Erro (Corrida R) :=
  if num_demandas ≤ 0 then
    .error .EstadoInvalido
  else do
    let n := num_demandas.toNat
    let corrida : Corrida R := Corrida.nova n
    let corrida ← repetir (fun i c => do
        c.adicionarDemanda (← ler demandas_corrida i).id) n corrida
    let corrida ← repetir (fun i c => do
        let d ← ler demandas_corrida i
        let parada_embarque : Parada R := ⟨d.origem_x, d.origem_y, .EMBARQUE, d.id⟩
        c.adicionarParada parada_embarque) n corrida
    let corrida ← repetir (fun i c => do
        let d ← ler demandas_corrida i
        let parada_desembarque : Parada R := ⟨d.destino_x, d.destino_y, .DESEMBARQUE, d.id⟩
        c.adicionarParada parada_desembarque) n corrida
    let paradas := corrida.paradas
    let total_paradas := corrida.num_paradas
    let corrida ← repetir (fun i c => do
        let p0 ← ler paradas i
        let p1 ← ler paradas (i + 1)
        let natureza := naturezaEntre p0 p1
        let trecho : Trecho R := ⟨some p0, some p1, 0, 0, natureza⟩
        c.adicionarTrecho (trecho.calcularTempoDistancia sqrt gama)) (total_paradas - 1) corrida
    corrida.calcularDuracaoDistancia

/-- Function `calcularEficienciaCorrida`. -/
def calcularEficienciaCorrida (demandas_corrida : Arr (Demanda R)) (num_demandas : Nat)
    (distancia_total : R) : Except Erro R :=
  if distancia_total = 0 then
    .ok 1
  else do
    let soma_distancias_individuais ← repetir (fun i soma => do
        pure (soma + (← ler demandas_corrida i).calcularDistanciaCorrida sqrt)) num_demandas 0
    pure (soma_distancias_individuais / distancia_total)

/-- One line of output of `imprimirCorrida`, before formatting. -/
structure Linha (R : Type) where
  tempo_conclusao : R
  distancia_total : R
  eficiencia : R
  num_paradas : Nat
  coordenadas : List (R × R)

/-- Function `imprimirCorrida`. -/
def imprimirCorrida (corrida : Corrida R) (tempo_conclusao : R) : Except Erro (Linha R) := do
  let coordenadas ← repetir (fun i cs => do
      let p ← ler corrida.paradas i
      pure (cs ++ [(p.coord_x, p.coord_y)])) corrida.num_paradas []
  pure ⟨tempo_conclusao, corrida.distancia_total, corrida.eficiencia, corrida.num_paradas,
    coordenadas⟩

/-- One demand record of the input stream. -/
structure Registro (R : Type) where
  id : Int
  tempo : R
  ox : R
  oy : R
  dx : R
  dy : R

/-- The input stream: the seven parameters and the demand records that follow. -/
structure Entrada (R : Type) where
  eta : Int
  gama : R
  delta : R
  alfa : R
  beta : R
  lambda : R
  num_demandas : Int
  registros : List (Registro R)

/-- The array `demandas_corrida` seen through its pointers: slot `k` holds the
demand that `demandas_corrida[k]` points to. -/
def apontadas (demandas : Arr (Demanda R)) (demandas_corrida : Arr Nat) : Arr (Demanda R) :=
  demandas_corrida.map fun slot => slot.bind fun h => (demandas[h]?).join

/-- Inner loop of the matching phase
(`for (int j = i + 1; j < num_demandas && num_demandas_corrida < eta; j++)`),
over the values that `j` still has to take. -/
def tentarCombinar (demandas : Arr (Demanda R)) (eta : Int)
    (gama delta alfa beta lambda tempo_base : R) :
    List Nat → Arr Nat × Nat → Except Erro (Arr Nat × Nat)
  | [], s => .ok s
  | j :: js, (demandas_corrida, num_demandas_corrida) =>
    if (num_demandas_corrida : Int) < eta then do
      let dj ← ler demandas j
      if dj.estado ≠ .DEMANDADA then
        tentarCombinar demandas eta gama delta alfa beta lambda tempo_base js
          (demandas_corrida, num_demandas_corrida)
      else
        let diff_tempo := dj.tempo_solicitacao - tempo_base
        if diff_tempo ≥ delta then
          pure (demandas_corrida, num_demandas_corrida)
        else if !(← verificarCriteriosCompartilhamento sqrt
            (apontadas demandas demandas_corrida) num_demandas_corrida dj alfa beta) then
          tentarCombinar demandas eta gama delta alfa beta lambda tempo_base js
            (demandas_corrida, num_demandas_corrida)
        else
          let demandas_corrida1 ← gravar demandas_corrida num_demandas_corrida j
          let num1 := num_demandas_corrida + 1
          let corrida_temp ← construirCorrida sqrt (apontadas demandas demandas_corrida1)
            (num1 : Int) gama tempo_base
          let eficiencia ← calcularEficienciaCorrida sqrt (apontadas demandas demandas_corrida1)
            num1 corrida_temp.distancia_total
          if eficiencia < lambda then
            pure (demandas_corrida1, num1 - 1)
          else
            tentarCombinar demandas eta gama delta alfa beta lambda tempo_base js
              (demandas_corrida1, num1)
    else
      pure (demandas_corrida, num_demandas_corrida)

/-- The variables of `main` that the matching phase updates. -/
structure Simulacao (R : Type) where
  demandas : Arr (Demanda R)
  corridas : Arr (Corrida R)
  num_corridas : Nat
  escalonador : Escalonador R

/-- Body of the outer loop of the matching phase, for anchor position `i`. -/
def formarCorrida (e : Entrada R) (i : Nat) (s : Simulacao R) : Except Erro (Simulacao R) := do
  let di ← ler s.demandas i
  if di.estado ≠ .DEMANDADA then
    pure s
  else
    let demandas_corrida ← gravar (novoArr e.eta.toNat) 0 i
    let tempo_base := di.tempo_solicitacao
    let c ← tentarCombinar sqrt s.demandas e.eta e.gama e.delta e.alfa e.beta e.lambda tempo_base
      (List.range' (i + 1) (e.num_demandas.toNat - (i + 1))) (demandas_corrida, 1)
    let demandas_corrida := c.1
    let num_demandas_corrida := c.2
    let corrida_final ← construirCorrida sqrt (apontadas s.demandas demandas_corrida)
      (num_demandas_corrida : Int) e.gama tempo_base
    let eficiencia_final ← calcularEficienciaCorrida sqrt (apontadas s.demandas demandas_corrida)
      num_demandas_corrida corrida_final.distancia_total
    let corrida_final := corrida_final.setEficiencia eficiencia_final
    let demandas ← repetir (fun k ds => do
        let h ← ler demandas_corrida k
        let d ← ler ds h
        let d := if num_demandas_corrida = 1 then d.setEstado .INDIVIDUAL
          else d.setEstado .COMBINADA
        gravar ds h (d.setCorridaAssociada s.num_corridas)) num_demandas_corrida s.demandas
    let corridas ← gravar s.corridas s.num_corridas corrida_final
    let primeiro_evento : Evento R := ⟨tempo_base, .COLETA_PASSAGEIRO, s.num_corridas, 0⟩
    let escalonador ← insereEvento s.escalonador primeiro_evento
    pure
      { demandas := demandas
        corridas := corridas
        num_corridas := s.num_corridas + 1
        escalonador := escalonador }

/-- Reading and validation at the start of `main`: the array `demandas`. Record `i`
of the stream becomes `demandas[i]`; the run of the model stops with
`EntradaIncompleta` when the stream has no such record. -/
def lerDemandas (e : Entrada R) : Except Erro (Arr (Demanda R)) := do
  validarParametros e.eta e.gama e.delta e.alfa e.beta e.lambda
  if e.num_demandas ≤ 0 then
    throw .ParametroInvalido
  else
    repetir (fun i demandas => do
        match e.registros[i]? with
        | some r => gravar demandas i (Demanda.nova r.id r.tempo r.ox r.oy r.dx r.dy)
        | none => throw .EntradaIncompleta)
      e.num_demandas.toNat (novoArr e.num_demandas.toNat)

/-- Matching phase of `main` ("CONSTRUÇÃO DAS CORRIDAS"), from the array of
demands just read. -/
def construcaoDasCorridas (e : Entrada R) (demandas : Arr (Demanda R)) :
    Except Erro (Simulacao R) :=
  repetir (formarCorrida sqrt e) e.num_demandas.toNat
    { demandas := demandas
      corridas := novoArr e.num_demandas.toNat
      num_corridas := 0
      escalonador := (Escalonador.novo (e.num_demandas.toNat * 10)).inicializa }

/-- The variables that the simulation loop updates. -/
structure Andamento (R : Type) where
  escalonador : Escalonador R
  resultados : Arr (ResultadoCorrida R)
  num_resultados : Nat

/-- Simulation loop of `main` (`while (!escalonador.estaVazio())`), one iteration
per unit of budget. -/
def simulacaoLoop (corridas : Arr (Corrida R)) : Nat → Andamento R → Except Erro (Andamento R)
  | 0, s => if estaVazio s.escalonador then .ok s else .error .LimitePassos
  | passos + 1, s =>
    if !estaVazio s.escalonador then do
      let r ← retiraProximoEvento s.escalonador
      match r.1 with
      | none => pure { s with escalonador := r.2 }
      | some evento_atual =>
        let corrida_evento ← ler corridas evento_atual.corrida_associada
        let indice_parada_atual := evento_atual.indice_parada
        let total_paradas := corrida_evento.num_paradas
        if (indice_parada_atual : Int) ≥ (total_paradas : Int) - 1 then
          let tempo_conclusao := evento_atual.tempo
          let resultados ← gravar s.resultados s.num_resultados
            ⟨tempo_conclusao, evento_atual.corrida_associada⟩
          simulacaoLoop corridas passos
            { escalonador := r.2, resultados := resultados, num_resultados := s.num_resultados + 1 }
        else
          let trecho ← ler corrida_evento.trechos indice_parada_atual
          let tempo_proximo := evento_atual.tempo + trecho.tempo
          let proximo_evento : Evento R :=
            ⟨tempo_proximo, .COLETA_PASSAGEIRO, evento_atual.corrida_associada,
              indice_parada_atual + 1⟩
          let escalonador ← insereEvento r.2 proximo_evento
          simulacaoLoop corridas passos { s with escalonador := escalonador }
    else
      pure s

/-- Simulation phase of `main` ("SIMULAÇÃO DE EVENTOS"): allocation of
`resultados` and the loop. -/
def simulacaoDeEventos (passos : Nat) (s : Simulacao R) : Except Erro (Andamento R) :=
  simulacaoLoop s.corridas passos
    { escalonador := s.escalonador
      resultados := novoArr s.num_corridas
      num_resultados := 0 }

/-- Final loop of `main`: one line per result, in array order. -/
def imprimirResultados (corridas : Arr (Corrida R)) (resultados : Arr (ResultadoCorrida R))
    (num_resultados : Nat) : Except Erro (List (Linha R)) :=
  repetir (fun i linhas => do
      let r ← ler resultados i
      let linha ← imprimirCorrida (← ler corridas r.corrida) r.tempo_conclusao
      pure (linhas ++ [linha])) num_resultados []

/-- Function `main` up to the release of memory: the lines written to the
standard output. `passos` bounds the number of iterations of the simulation loop. -/
def main (passos : Nat) (e : Entrada R) : Except Erro (List (Linha R)) := do
  let demandas ← lerDemandas e
  let s ← construcaoDasCorridas sqrt e demandas
  let a ← simulacaoDeEventos passos s
  let resultados ← ordenarResultados a.resultados (a.num_resultados : Int)
  imprimirResultados s.corridas resultados a.num_resultados

end Principal

/-! ## Closed forms used in the statements and proofs -/

section Formas

variable {R : Type} [LinearOrderedField R] (sqrt : R → R)

/-- The stops of the route of a cluster: the origins in cluster order, then the
destinations in cluster order. -/
def paradasDe (ds : List (Demanda R)) : List (Parada R) :=
  ds.map (fun d => ⟨d.origem_x, d.origem_y, .EMBARQUE, d.id⟩) ++
    ds.map (fun d => ⟨d.destino_x, d.destino_y, .DESEMBARQUE, d.id⟩)

/-- The segment that the last loop of `construirCorrida` creates between two stops. -/
def trechoEntre (gama : R) (p0 p1 : Parada R) : Trecho R :=
  (Trecho.mk (some p0) (some p1) 0 0 (naturezaEntre p0 p1)).calcularTempoDistancia sqrt gama

/-- The segments between consecutive stops of a list. -/
def trechosDe (gama : R) (ps : List (Parada R)) : List (Trecho R) :=
  List.zipWith (trechoEntre sqrt gama) ps ps.tail

/-- The object that `construirCorrida` returns for the cluster `ds`. -/
def corridaDe (gama : R) (ds : List (Demanda R)) : Corrida R :=
  let n := ds.length
  let ts := trechosDe sqrt gama (paradasDe ds)
  { ids_demandas := (ds.map fun d => d.id).map some
    num_demandas := n
    capacidade_ids := n
    trechos := ts.map some ++ novoArr (n * 2 - (n * 2 - 1))
    num_trechos := n * 2 - 1
    capacidade_trechos := n * 2
    paradas := (paradasDe ds).map some
    num_paradas := n * 2
    capacidade_paradas := n * 2
    duracao_total := (ts.map fun t => t.tempo).sum
    distancia_total := (ts.map fun t => t.distancia).sum
    eficiencia := 1 }

end Formas

/-- The scheduler `e` is well formed and its queued events, slot by slot, are
`xs`: the backing array has `capacidade ≥ 1` slots and starts with the `tamanho`
events of `xs`. -/
def Representa {R : Type} (e : Escalonador R) (xs : List (Evento R)) : Prop :=
  ∃ resto : Arr (Evento R), e.heap = xs.map some ++ resto ∧ xs.length = e.tamanho
    ∧ e.heap.length = e.capacidade ∧ 1 ≤ e.capacidade

section Agrupamento

variable {R : Type} [LinearOrderedField R] (sqrt : R → R)

/-- The demands that the handles `hs` point to, in the order of `hs`. -/
def membros (vs : List (Demanda R)) (hs : List Nat) : List (Demanda R) :=
  hs.filterMap fun h => vs[h]?

/-- Value of `verificarCriteriosCompartilhamento` for the cluster `ms`: no member
has its origin farther than `alfa` from the origin of `nova`, and none has its
destination farther than `beta` from the destination of `nova`. -/
def compativel (ms : List (Demanda R)) (nova : Demanda R) (alfa beta : R) : Bool :=
  !(ms.any fun m => decide (m.calcularDistanciaOrigem sqrt nova > alfa))
    && !(ms.any fun m => decide (m.calcularDistanciaDestino sqrt nova > beta))

/-- Value of `calcularEficienciaCorrida` for the cluster `ms` and the total distance
of the ride that `construirCorrida` builds for it. -/
def eficienciaDe (gama : R) (ms : List (Demanda R)) : R :=
  if (corridaDe sqrt gama ms).distancia_total = 0 then 1
  else (ms.map fun d => d.calcularDistanciaCorrida sqrt).sum
    / (corridaDe sqrt gama ms).distancia_total

/-- The cluster that the inner loop of the matching phase reaches from the cluster
`hs` when `j` still has to take the values `js`. -/
def agrupar (vs : List (Demanda R)) (eta : Int) (gama delta alfa beta lambda tempo_base : R) :
    List Nat → List Nat → List Nat
  | [], hs => hs
  | j :: js, hs =>
    if (hs.length : Int) < eta then
      match vs[j]? with
      | none => hs
      | some dj =>
        if dj.estado ≠ .DEMANDADA then
          agrupar vs eta gama delta alfa beta lambda tempo_base js hs
        else if dj.tempo_solicitacao - tempo_base ≥ delta then hs
        else if !(compativel sqrt (membros vs hs) dj alfa beta) then
          agrupar vs eta gama delta alfa beta lambda tempo_base js hs
        else if eficienciaDe sqrt gama (membros vs (hs ++ [j])) < lambda then hs
        else agrupar vs eta gama delta alfa beta lambda tempo_base js (hs ++ [j])
    else hs

/-- The update that the matching phase applies to each member of a finished cluster. -/
def marca (estado : EstadoDemanda) (corrida : Nat) (d : Demanda R) : Demanda R :=
  (d.setEstado estado).setCorridaAssociada corrida

/-- The array of demands after the members `hs` of a finished cluster are updated. -/
def marcar (vs : List (Demanda R)) (hs : List Nat) (estado : EstadoDemanda) (corrida : Nat) :
    List (Demanda R) :=
  hs.foldl (fun acc j => acc.modify (marca estado corrida) j) vs

/-- The ride object that the matching phase stores for the cluster `ms`. -/
def corridaFinal (gama : R) (ms : List (Demanda R)) : Corrida R :=
  (corridaDe sqrt gama ms).setEficiencia (eficienciaDe sqrt gama ms)

end Agrupamento

section Agrupamento2
variable {R : Type} [LinearOrderedField R] (sqrt : R → R)

/-- The cluster that the matching phase forms for the anchor at position `i`, whose
demand is `di`. -/
def grupoDe (e : Entrada R) (vs : List (Demanda R)) (i : Nat) (di : Demanda R) : List Nat :=
  agrupar sqrt vs e.eta e.gama e.delta e.alfa e.beta e.lambda di.tempo_solicitacao
    (List.range' (i + 1) (e.num_demandas.toNat - (i + 1))) [i]

/-- The state that the matching phase gives to the members of a cluster. -/
def estadoDoGrupo (hs : List Nat) : EstadoDemanda :=
  if hs.length = 1 then .INDIVIDUAL else .COMBINADA

end Agrupamento2

section Invariantes
variable {R : Type} [LinearOrderedField R] (sqrt : R → R)

/-- The input passes the checks at the start of `main` and holds the announced
number of demand records. -/
def EntradaValida (e : Entrada R) : Prop :=
  validarParametros e.eta e.gama e.delta e.alfa e.beta e.lambda = .ok ()
    ∧ 0 < e.num_demandas ∧ e.num_demandas.toNat ≤ e.registros.length

/-- Invariant of the outer loop of the matching phase. The state `s` holds the
demands `vs`, the rides `cs` and a well-formed scheduler whose events `xs` are, up to
order, the initial events `es` of the rides: `es[h]` is the event of ride `h`. -/
structure InvConstrucao (e : Entrada R) (s : Simulacao R) (vs : List (Demanda R))
    (cs : List (Corrida R)) (xs es : List (Evento R)) : Prop where
  demandas_eq : s.demandas = vs.map some
  num_demandas_eq : vs.length = e.num_demandas.toNat
  corridas_eq : s.corridas = cs.map some ++ novoArr (vs.length - cs.length)
  num_corridas_eq : cs.length = s.num_corridas
  representa : Representa s.escalonador xs
  eventos_perm : xs.Perm es
  eventos_length : es.length = s.num_corridas
  inseridos : s.escalonador.total_eventos_inseridos = s.num_corridas
  processados : s.escalonador.total_eventos_processados = 0
  evento_inicial : ∀ (h : Nat) (x : Evento R), es[h]? = some x → x.corrida_associada = h ∧ x.indice_parada = 0
  corrida_forma : ∀ c ∈ cs, ∃ ms : List (Demanda R),
    ms ≠ [] ∧ (ms.length : Int) ≤ e.eta ∧ c = corridaFinal sqrt e.gama ms
  sem_corrida : ∀ (j : Nat) (d : Demanda R), vs[j]? = some d → d.estado = .DEMANDADA → d.corrida_associada = none
  corrida_valida : ∀ (j : Nat) (d : Demanda R) (h : Nat), vs[j]? = some d → d.corrida_associada = some h →
    h < s.num_corridas
  ancora : ∀ (h : Nat) (x : Evento R), es[h]? = some x →
    ∃ (a : Nat) (d : Demanda R), vs[a]? = some d ∧ d.corrida_associada = some h
    ∧ (∀ (j : Nat) (d1 : Demanda R), j < a → vs[j]? = some d1 → d1.corrida_associada ≠ some h)
    ∧ x.tempo = d.tempo_solicitacao
  contagem : (cs.map fun c => c.num_demandas).sum
    = vs.countP fun d => decide (d.estado ≠ .DEMANDADA)

end Invariantes

section
variable {R : Type} [LinearOrderedField R]
/-- The array of demands that `main` builds from the input records. -/
def demandasLidas (e : Entrada R) : List (Demanda R) :=
  (e.registros.take e.num_demandas.toNat).map fun r =>
    Demanda.nova r.id r.tempo r.ox r.oy r.dx r.dy
end

section InvariantesSimulacao
variable {R : Type} [LinearOrderedField R]

/-- The ride `c` has the segments `ts`, one fewer than its stops, and its total
duration is the sum of their durations. -/
structure RotaDe (c : Corrida R) (ts : List (Trecho R)) : Prop where
  trechos_eq : ∃ resto : Arr (Trecho R), c.trechos = ts.map some ++ resto
  paradas_eq : ts.length + 1 = c.num_paradas
  num_trechos_eq : c.num_trechos = ts.length
  duracao_eq : c.duracao_total = (ts.map fun t => t.tempo).sum

/-- Number of events that the simulation loop still has to process for the ride of
the event `x`, this event included. -/
def restante (cs : List (Corrida R)) (x : Evento R) : Nat :=
  match cs[x.corrida_associada]? with
  | some c => c.num_paradas - x.indice_parada
  | none => 0

/-- Invariant of the simulation loop for the rides `cs` with initial events `es0`:
the scheduler is well formed with events `xs`, the records written so far are `rs`,
every ride has either one queued event or one record, a queued event carries the time
at which its ride reaches its stop, and a record carries the time of the last stop. -/
structure InvSimulacao (cs : List (Corrida R)) (es0 : List (Evento R)) (a : Andamento R)
    (xs : List (Evento R)) (rs : List (ResultadoCorrida R)) : Prop where
  representa : Representa a.escalonador xs
  resultados_eq : a.resultados = rs.map some ++ novoArr (cs.length - rs.length)
  num_resultados_eq : rs.length = a.num_resultados
  perm : ((xs.map fun x => x.corrida_associada) ++ rs.map fun r => r.corrida).Perm
    (List.range cs.length)
  evento : ∀ x ∈ xs, ∃ (c : Corrida R) (e0 : Evento R) (ts : List (Trecho R)),
    cs[x.corrida_associada]? = some c ∧ es0[x.corrida_associada]? = some e0 ∧ RotaDe c ts
    ∧ x.indice_parada ≤ ts.length
    ∧ x.tempo = e0.tempo + ((ts.take x.indice_parada).map fun t => t.tempo).sum
  resultado : ∀ r ∈ rs, ∃ (c : Corrida R) (e0 : Evento R),
    cs[r.corrida]? = some c ∧ es0[r.corrida]? = some e0
    ∧ r.tempo_conclusao = e0.tempo + c.duracao_total
  inseridos : a.escalonador.total_eventos_inseridos
    = a.escalonador.total_eventos_processados + xs.length
  processados : a.escalonador.total_eventos_processados + (xs.map (restante cs)).sum
    = (cs.map fun c => c.num_paradas).sum

end InvariantesSimulacao

section
variable {R : Type} [LinearOrderedField R]

/-- The records are in non-decreasing order of completion time. -/
def Ordenada (rs : List (ResultadoCorrida R)) : Prop :=
  rs.Pairwise fun a b => a.tempo_conclusao ≤ b.tempo_conclusao

end

/-! ## Concrete data for the evaluated runs -/

/-- Event at time `t` for ride 0, stop 0. -/
def ev (t : ℚ) : Evento ℚ := ⟨t, .COLETA_PASSAGEIRO, 0, 0⟩

/-- A demand used in the concrete instances: id 1, requested at time 0, from (0,0) to
(0,10). -/
def demandaExemplo : Demanda ℚ := Demanda.nova 1 0 0 0 0 10

/-- Scenario C of the specification: capacity 2, speed 1, two demands from (0,0) to
(0,10) requested at times 0 and 1. -/
def cenarioC : Entrada ℚ :=
  ⟨2, 1, 10, 5, 5, 1 / 2, 2, [⟨1, 0, 0, 0, 0, 10⟩, ⟨2, 1, 0, 0, 0, 10⟩]⟩

/-- A square root that is exact on the two squared distances of scenario C, 0 and 100. -/
def raizExemplo (x : ℚ) : ℚ := if x = 100 then 10 else 0


/-! ## The clusters of the matching phase -/

section Grupos
variable {R : Type} [LinearOrderedField R] (sqrt : R → R)

/-- Every member of the list of positions `g` passed the spatial test of
`verificarCriteriosCompartilhamento` against every member that precedes it in `g`. -/
def Compativeis (vs : List (Demanda R)) (alfa beta : R) (g : List Nat) : Prop :=
  g.Pairwise fun a b => ∀ (da db : Demanda R), vs[a]? = some da → vs[b]? = some db →
    da.calcularDistanciaOrigem sqrt db ≤ alfa ∧ da.calcularDistanciaDestino sqrt db ≤ beta

/-- The list of positions `g`, in the order in which the matching phase added them, is
the cluster of the ride stored at position `h` of `corridas` as the object `c`, for the
array of demands `vs`. -/
structure GrupoDaCorrida (e : Entrada R) (vs : List (Demanda R)) (h : Nat) (g : List Nat)
    (c : Corrida R) : Prop where
  nao_vazio : g ≠ []
  crescente : g.Pairwise fun a b => a < b
  validos : ∀ j ∈ g, j < vs.length
  capacidade : (g.length : Int) ≤ e.eta
  corrida_eq : c = corridaFinal sqrt e.gama (membros vs g)
  membro : ∀ j ∈ g, ∀ (d : Demanda R), vs[j]? = some d →
    d.estado = estadoDoGrupo g ∧ d.corrida_associada = some h
  janela : ∀ (a : Nat) (resto : List Nat), g = a :: resto → ∀ (da : Demanda R),
    vs[a]? = some da → ∀ j ∈ resto, ∀ (dj : Demanda R), vs[j]? = some dj →
      dj.tempo_solicitacao - da.tempo_solicitacao < e.delta
  compativeis : Compativeis sqrt vs e.alfa e.beta g
  eficiente : g.length = 1 ∨ ¬ (eficienciaDe sqrt e.gama (membros vs g) < e.lambda)

/-- Invariant of the outer loop of the matching phase about the clusters: before the
iteration of the anchor position `i`, `gs[h]` is the cluster of the ride `cs[h]`, a
demand is associated with the ride `h` exactly when its position is in `gs[h]`, every
position below `i` has left the state `DEMANDADA`, every demand that left it has a ride,
and the anchors (first members) of the clusters are below `i` and increase with `h`. -/
structure InvGrupos (e : Entrada R) (i : Nat) (vs : List (Demanda R)) (cs : List (Corrida R))
    (gs : List (List Nat)) : Prop where
  grupos_length : gs.length = cs.length
  grupo : ∀ (h : Nat) (g : List Nat), gs[h]? = some g →
    ∃ c : Corrida R, cs[h]? = some c ∧ GrupoDaCorrida sqrt e vs h g c
  associada : ∀ (j : Nat) (d : Demanda R) (h : Nat), vs[j]? = some d →
    d.corrida_associada = some h → ∃ g : List Nat, gs[h]? = some g ∧ j ∈ g
  processadas : ∀ (j : Nat) (d : Demanda R), j < i → vs[j]? = some d → d.estado ≠ .DEMANDADA
  atendida : ∀ (j : Nat) (d : Demanda R), vs[j]? = some d → d.estado ≠ .DEMANDADA →
    ∃ h : Nat, d.corrida_associada = some h
  ancoras : ∀ g ∈ gs, ∀ (a : Nat), g.head? = some a → a < i
  ancoras_crescentes : gs.Pairwise fun g g1 => ∀ (a a1 : Nat), g.head? = some a →
    g1.head? = some a1 → a < a1

end Grupos

/-! ## More concrete data -/

/-- A square root that is exact on the squared distances 0 and 1. -/
def raizUnitaria (x : ℚ) : ℚ := if x = 1 then 1 else 0

/-- Two demands that do not move, the first at (0,0) and the second at (1,0), requested
at time 0, with capacity 2, all thresholds at 1 and minimum efficiency 0. -/
def cenarioParado : Entrada ℚ :=
  ⟨2, 1, 10, 1, 1, 0, 2, [⟨1, 0, 0, 0, 0, 0⟩, ⟨2, 0, 1, 0, 1, 0⟩]⟩

/-- Scenario A of the specification on the demands of scenario C: capacity 1. -/
def cenarioA : Entrada ℚ :=
  ⟨1, 1, 10, 5, 5, 1 / 2, 2, [⟨1, 0, 0, 0, 0, 10⟩, ⟨2, 1, 0, 0, 0, 10⟩]⟩

section Membros
variable {R : Type} [LinearOrderedField R]

/-- The demands associated with the ride `h` in the state `s`: `g` lists their
positions in the array of demands in increasing order and `ms` lists the demands
themselves in the same order. -/
structure MembrosDe (s : Simulacao R) (h : Nat) (g : List Nat) (ms : List (Demanda R)) :
    Prop where
  crescente : g.Pairwise fun a b => a < b
  associadas : ∀ (j : Nat) (d : Demanda R), ler s.demandas j = .ok d →
    (d.corrida_associada = some h ↔ j ∈ g)
  valores : List.Forall₂ (fun j d => ler s.demandas j = .ok d) g ms

end Membros

section
variable {R : Type} [LinearOrderedField R]

/-- The demand that `main` creates for the input record `r`. -/
def demandaDe (r : Registro R) : Demanda R :=
  Demanda.nova r.id r.tempo r.ox r.oy r.dx r.dy

end

/-! ## The states of the matching phase, one outer iteration at a time -/

section Passos
variable {R : Type} [LinearOrderedField R] (sqrt : R → R)

/-- The variables of `main` at the start of the matching phase, for the demands that
`main` has read from the input `e`. -/
def estadoInicial (e : Entrada R) : Simulacao R :=
  { demandas := (demandasLidas e).map some
    corridas := novoArr e.num_demandas.toNat
    num_corridas := 0
    escalonador := (Escalonador.novo (e.num_demandas.toNat * 10)).inicializa }

/-- The variables of `main` after the first `k` iterations of the outer loop of the
matching phase. -/
def estadoApos (e : Entrada R) (k : Nat) : Except Erro (Simulacao R) :=
  repetir (formarCorrida sqrt e) k (estadoInicial e)

end Passos

/-! ## The matching phase without the early exit -/

section SemParada
variable {R : Type} [LinearOrderedField R] (sqrt : R → R)

/-- The scan that the specification compares the inner loop with: the same loop as
`tentarCombinar`, except that a candidate outside the time window (`diff_tempo ≥ delta`)
is merely skipped and the scan continues with the next candidate. -/
def tentarCombinarSemParada (demandas : Arr (Demanda R)) (eta : Int)
    (gama delta alfa beta lambda tempo_base : R) :
    List Nat → Arr Nat × Nat → Except Erro (Arr Nat × Nat)
  | [], s => .ok s
  | j :: js, (demandas_corrida, num_demandas_corrida) =>
    if (num_demandas_corrida : Int) < eta then do
      let dj ← ler demandas j
      if dj.estado ≠ .DEMANDADA then
        tentarCombinarSemParada demandas eta gama delta alfa beta lambda tempo_base js
          (demandas_corrida, num_demandas_corrida)
      else
        let diff_tempo := dj.tempo_solicitacao - tempo_base
        if diff_tempo ≥ delta then
          tentarCombinarSemParada demandas eta gama delta alfa beta lambda tempo_base js
            (demandas_corrida, num_demandas_corrida)
        else if !(← verificarCriteriosCompartilhamento sqrt
            (apontadas demandas demandas_corrida) num_demandas_corrida dj alfa beta) then
          tentarCombinarSemParada demandas eta gama delta alfa beta lambda tempo_base js
            (demandas_corrida, num_demandas_corrida)
        else
          let demandas_corrida1 ← gravar demandas_corrida num_demandas_corrida j
          let num1 := num_demandas_corrida + 1
          let corrida_temp ← construirCorrida sqrt (apontadas demandas demandas_corrida1)
            (num1 : Int) gama tempo_base
          let eficiencia ← calcularEficienciaCorrida sqrt (apontadas demandas demandas_corrida1)
            num1 corrida_temp.distancia_total
          if eficiencia < lambda then
            pure (demandas_corrida1, num1 - 1)
          else
            tentarCombinarSemParada demandas eta gama delta alfa beta lambda tempo_base js
              (demandas_corrida1, num1)
    else
      pure (demandas_corrida, num_demandas_corrida)

/-- Body of the outer loop of the matching phase with the scan `tentarCombinarSemParada`
in the place of the inner loop; the rest is the body `formarCorrida`. -/
def formarCorridaSemParada (e : Entrada R) (i : Nat) (s : Simulacao R) :
    Except Erro (Simulacao R) := do
  let di ← ler s.demandas i
  if di.estado ≠ .DEMANDADA then
    pure s
  else
    let demandas_corrida ← gravar (novoArr e.eta.toNat) 0 i
    let tempo_base := di.tempo_solicitacao
    let c ← tentarCombinarSemParada sqrt s.demandas e.eta e.gama e.delta e.alfa e.beta e.lambda
      tempo_base (List.range' (i + 1) (e.num_demandas.toNat - (i + 1))) (demandas_corrida, 1)
    let demandas_corrida := c.1
    let num_demandas_corrida := c.2
    let corrida_final ← construirCorrida sqrt (apontadas s.demandas demandas_corrida)
      (num_demandas_corrida : Int) e.gama tempo_base
    let eficiencia_final ← calcularEficienciaCorrida sqrt (apontadas s.demandas demandas_corrida)
      num_demandas_corrida corrida_final.distancia_total
    let corrida_final := corrida_final.setEficiencia eficiencia_final
    let demandas ← repetir (fun k ds => do
        let h ← ler demandas_corrida k
        let d ← ler ds h
        let d := if num_demandas_corrida = 1 then d.setEstado .INDIVIDUAL
          else d.setEstado .COMBINADA
        gravar ds h (d.setCorridaAssociada s.num_corridas)) num_demandas_corrida s.demandas
    let corridas ← gravar s.corridas s.num_corridas corrida_final
    let primeiro_evento : Evento R := ⟨tempo_base, .COLETA_PASSAGEIRO, s.num_corridas, 0⟩
    let escalonador ← insereEvento s.escalonador primeiro_evento
    pure
      { demandas := demandas
        corridas := corridas
        num_corridas := s.num_corridas + 1
        escalonador := escalonador }

/-- The matching phase with the scan `tentarCombinarSemParada` in the place of the inner
loop. -/
def construcaoSemParada (e : Entrada R) (demandas : Arr (Demanda R)) :
    Except Erro (Simulacao R) :=
  repetir (formarCorridaSemParada sqrt e) e.num_demandas.toNat
    { demandas := demandas
      corridas := novoArr e.num_demandas.toNat
      num_corridas := 0
      escalonador := (Escalonador.novo (e.num_demandas.toNat * 10)).inicializa }

end SemParada

/-- The computation `x` ends normally or with the error of an invalid access. -/
def SoAcesso {α : Type} (x : Except Erro α) : Prop :=
  ∀ err, x = .error err → err = .AcessoInvalido

/-! ## The counters of the scheduler -/

section Contadores
variable {R : Type} [LinearOrderedField R]

/-- Method `Escalonador::getTotalEventosProcessados`. -/
def getTotalEventosProcessados (e : Escalonador R) : Nat := e.total_eventos_processados

/-- Method `Escalonador::getTotalEventosInseridos`. -/
def getTotalEventosInseridos (e : Escalonador R) : Nat := e.total_eventos_inseridos

/-- Runs a sequence of `insereEvento` / `retiraProximoEvento` calls as `executar` does
and counts them: the result is the final scheduler, the number of `insereEvento` calls
and the number of `retiraProximoEvento` calls that returned an event. -/
def executarContando : Escalonador R → List (Chamada R) → Except Erro (Escalonador R × Nat × Nat)
  | e, [] => .ok (e, 0, 0)
  | e, .insere evento :: cs =>
    insereEvento e evento >>= fun e1 =>
      executarContando e1 cs >>= fun t => .ok (t.1, t.2.1 + 1, t.2.2)
  | e, .retira :: cs =>
    retiraProximoEvento e >>= fun r =>
      executarContando r.2 cs >>= fun t =>
        .ok (t.1, t.2.1, if r.1.isSome then t.2.2 + 1 else t.2.2)

/-- The call is an `insereEvento`. -/
def Chamada.eInsere : Chamada R → Bool
  | .insere _ => true
  | .retira => false

end Contadores

/-! ## The iterations of the simulation loop -/

section Iteracoes
variable {R : Type} [LinearOrderedField R]

/-- Body of the `while` loop of the simulation phase of `main`, entered with a queue
that is not empty: the state at the end of the iteration and whether the loop goes on
(`false` after the `break`). -/
def iteracaoSimulacao (corridas : Arr (Corrida R)) (s : Andamento R) :
    Except Erro (Andamento R × Bool) := do
  let r ← retiraProximoEvento s.escalonador
  match r.1 with
  | none => pure ({ s with escalonador := r.2 }, false)
  | some evento_atual =>
    let corrida_evento ← ler corridas evento_atual.corrida_associada
    let indice_parada_atual := evento_atual.indice_parada
    let total_paradas := corrida_evento.num_paradas
    if (indice_parada_atual : Int) ≥ (total_paradas : Int) - 1 then
      let tempo_conclusao := evento_atual.tempo
      let resultados ← gravar s.resultados s.num_resultados
        ⟨tempo_conclusao, evento_atual.corrida_associada⟩
      pure ({ escalonador := r.2, resultados := resultados,
              num_resultados := s.num_resultados + 1 }, true)
    else
      let trecho ← ler corrida_evento.trechos indice_parada_atual
      let tempo_proximo := evento_atual.tempo + trecho.tempo
      let proximo_evento : Evento R :=
        ⟨tempo_proximo, .COLETA_PASSAGEIRO, evento_atual.corrida_associada,
          indice_parada_atual + 1⟩
      let escalonador ← insereEvento r.2 proximo_evento
      pure ({ s with escalonador := escalonador }, true)

/-- The state in which the simulation loop tests its condition for the `(k+1)`-th time,
started in the state `s`; `none` when the loop has ended before. -/
def simulacaoApos (corridas : Arr (Corrida R)) : Nat → Andamento R →
    Except Erro (Option (Andamento R))
  | 0, s => pure (some s)
  | k + 1, s =>
    if !estaVazio s.escalonador then do
      let r ← iteracaoSimulacao corridas s
      if r.2 then simulacaoApos corridas k r.1 else pure none
    else
      pure none

end Iteracoes

/-! ## More concrete data -/

/-- Two demands that do not move, at (0,0) and (1,0), followed by a third one that
coincides with the first, all requested at time 0, with capacity 2, thresholds 1 and
minimum efficiency 1/2. -/
def cenarioRejeitado : Entrada ℚ :=
  ⟨2, 1, 10, 1, 1, 1 / 2, 3, [⟨1, 0, 0, 0, 0, 0⟩, ⟨2, 0, 1, 0, 1, 0⟩, ⟨3, 0, 0, 0, 0, 0⟩]⟩

/-- Three simultaneous demands with capacity 2: the second one, from (10,0) to (10,10),
is far from the first one, from (0,0) to (0,10), and the third one coincides with the
first. -/
def cenarioSalto : Entrada ℚ :=
  ⟨2, 1, 10, 5, 5, 1 / 2, 3, [⟨1, 0, 0, 0, 0, 10⟩, ⟨2, 0, 10, 0, 10, 10⟩, ⟨3, 0, 0, 0, 0, 10⟩]⟩

/-- Scenario C of the specification over the number type `R`. -/
def cenarioCEm (R : Type) [LinearOrderedField R] : Entrada R :=
  ⟨2, 1, 10, 5, 5, 1 / 2, 2, [⟨1, 0, 0, 0, 0, 10⟩, ⟨2, 1, 0, 0, 0, 10⟩]⟩

/-! ## The order of the heap -/

section
variable {R : Type} [LinearOrderedField R]

/-- Method `Escalonador::getTempoProximoEvento`. -/
def getTempoProximoEvento (e : Escalonador R) : Except Erro R :=
  if e.tamanho = 0 then
    pure (-1)
  else do
    let primeiro ← ler e.heap 0
    pure primeiro.tempo

/-- The time of the event in position `j` of the list, 0 outside the list. -/
def tempoEm (xs : List (Evento R)) (j : Nat) : R :=
  match xs[j]? with
  | some x => x.tempo
  | none => 0

/-- Min-heap order of a list of events read as a binary tree: the time in position
`(j-1)/2` is at most the time in position `j`. -/
def OrdemHeap (xs : List (Evento R)) : Prop :=
  ∀ j, 1 ≤ j → j < xs.length → tempoEm xs (getPai j) ≤ tempoEm xs j

/-- Invariant of the loop of `heapifyUp` at the position `i`: the min-heap order holds
at every position but `i`, and the children of `i` are not before the parent of `i`. -/
def OrdemSobe (xs : List (Evento R)) (i : Nat) : Prop :=
  (∀ j, 1 ≤ j → j < xs.length → j ≠ i → tempoEm xs (getPai j) ≤ tempoEm xs j)
  ∧ (∀ j, 1 ≤ j → j < xs.length → getPai j = i → 1 ≤ i →
      tempoEm xs (getPai i) ≤ tempoEm xs j)

end
/-! ## Basic facts about errors, arrays and counting loops -/

section
variable {α σ : Type}

@[simp]
theorem ok_bind {ε β : Type} (a : α) (f : α → Except ε β) :
    (Except.ok a >>= f) = f a := rfl
@[simp]
theorem error_bind {ε β : Type} (e : ε) (f : α → Except ε β) :
    ((Except.error e : Except ε α) >>= f) = .error e := rfl
@[simp]
theorem pure_eq_ok {ε : Type} (a : α) : (pure a : Except ε α) = .ok a := rfl

theorem bind_eq_ok {ε β : Type} {x : Except ε α} {f : α → Except ε β} {b : β} :
    (x >>= f) = .ok b ↔ ∃ a, x = .ok a ∧ f a = .ok b := by
  cases x with
  | error e => simp
  | ok a => simp

theorem ler_eq_ok {a : Arr α} {i : Nat} {x : α} : ler a i = .ok x ↔ a[i]? = some (some x) := by
  unfold ler
  split
  · rename_i y h; simp [h]
  · rename_i h
    constructor
    · intro h'; cases h'
    · intro h'; exact absurd h' (h x)

theorem ler_map_some_append (l : List α) (resto : Arr α) (i : Nat) (h : i < l.length) :
    ler (l.map some ++ resto) i = .ok l[i] := by
  rw [ler_eq_ok, List.getElem?_append_left (by simpa using h)]
  simp [h]

theorem gravar_prefixo (l : List α) (m : Nat) (x : α) :
    gravar (l.map some ++ novoArr (m + 1)) l.length x = .ok ((l ++ [x]).map some ++ novoArr m) := by
  unfold gravar novoArr
  rw [if_pos (by simp)]
  congr 1
  rw [List.set_append_right _ _ (by simp)]
  simp [List.replicate_succ]

theorem repetir_trajetoria (corpo : Nat → σ → Except Erro σ) (f : Nat → σ) (n : Nat)
    (h : ∀ i, i < n → corpo i (f i) = .ok (f (i + 1))) : repetir corpo n (f 0) = .ok (f n) := by
  induction n with
  | zero => rfl
  | succ n ih =>
    rw [repetir, ih (fun i hi => h i (Nat.lt_succ_of_lt hi))]
    exact h n (Nat.lt_succ_self n)
end

/-! ## `construirCorrida` computes the closed form -/

section
variable {α σ : Type}

theorem getElem?_take_map_some_append (L : List α) (resto : Arr α) (i : Nat) (h : i < L.length) :
    (L.map some ++ resto)[i]? = some (some L[i]) := by
  rw [List.getElem?_append_left (by simpa using h)]
  simp [h]

theorem gravar_take (L : List α) (cap k : Nat) (hk : k < L.length) (hc : L.length ≤ cap) :
    gravar ((L.take k).map some ++ novoArr (cap - k)) k L[k]
      = .ok ((L.take (k + 1)).map some ++ novoArr (cap - (k + 1))) := by
  have h1 : cap - k = (cap - (k + 1)) + 1 := by omega
  have h2 : (L.take k).length = k := by simp; omega
  rw [h1]
  have := gravar_prefixo (L.take k) (cap - (k + 1)) L[k]
  rw [h2] at this
  rw [this, List.take_succ, List.getElem?_eq_getElem hk]
  simp
end

section
variable {R : Type} [LinearOrderedField R] (sqrt : R → R)

theorem length_paradasDe (ds : List (Demanda R)) : (paradasDe ds).length = ds.length * 2 := by
  simp [paradasDe]; omega

theorem length_trechosDe (gama : R) (ps : List (Parada R)) :
    (trechosDe sqrt gama ps).length = ps.length - 1 := by
  simp [trechosDe]

theorem loop_ids (ds : List (Demanda R)) (resto : Arr (Demanda R)) (c : Corrida R)
    (hn : c.num_demandas = 0) (hcap : c.capacidade_ids = ds.length)
    (hids : c.ids_demandas = novoArr ds.length) :
    repetir (fun i c => do
        c.adicionarDemanda (← ler (ds.map some ++ resto) i).id) ds.length c
      = .ok { c with ids_demandas := (ds.map fun d => d.id).map some, num_demandas := ds.length } := by
  have key := repetir_trajetoria (fun i c => do
        Corrida.adicionarDemanda c (← ler (ds.map some ++ resto) i).id)
    (fun k => { c with
      ids_demandas := (((ds.map fun d => d.id).take k).map some ++ novoArr (ds.length - k))
      num_demandas := k }) ds.length ?_
  · simp only [List.take_zero, List.map_nil, List.nil_append, Nat.sub_zero] at key
    rw [← hids, ← hn] at key
    rw [key]
    simp [novoArr]
  · intro i hi
    simp only [ler_map_some_append _ _ _ hi, ok_bind, Corrida.adicionarDemanda, hcap]
    rw [if_neg (by omega)]
    have := gravar_take (ds.map fun d => d.id) ds.length i (by simpa using hi) (by simp)
    simp only [List.getElem_map] at this
    simp only [this, ok_bind, pure_eq_ok]
end

section
variable {R : Type} [LinearOrderedField R] (sqrt : R → R)

theorem getElem_paradasDe_embarque (ds : List (Demanda R)) (i : Nat) (hi : i < ds.length)
    (hp : i < (paradasDe ds).length) :
    (paradasDe ds)[i] = ⟨ds[i].origem_x, ds[i].origem_y, .EMBARQUE, ds[i].id⟩ := by
  unfold paradasDe
  rw [List.getElem_append_left (by simpa using hi)]
  simp

theorem getElem_paradasDe_desembarque (ds : List (Demanda R)) (i : Nat) (hi : i < ds.length)
    (hp : ds.length + i < (paradasDe ds).length) :
    (paradasDe ds)[ds.length + i]
      = ⟨ds[i].destino_x, ds[i].destino_y, .DESEMBARQUE, ds[i].id⟩ := by
  unfold paradasDe
  rw [List.getElem_append_right (by simp)]
  simp

theorem loop_embarques (ds : List (Demanda R)) (resto : Arr (Demanda R)) (c : Corrida R)
    (hn : c.num_paradas = 0) (hcap : c.capacidade_paradas = ds.length * 2)
    (hps : c.paradas = novoArr (ds.length * 2)) :
    repetir (fun i c => do
        let d ← ler (ds.map some ++ resto) i
        let parada_embarque : Parada R := ⟨d.origem_x, d.origem_y, .EMBARQUE, d.id⟩
        c.adicionarParada parada_embarque) ds.length c
      = .ok { c with
          paradas := ((paradasDe ds).take ds.length).map some ++ novoArr (ds.length * 2 - ds.length)
          num_paradas := ds.length } := by
  have key := repetir_trajetoria (fun i c => do
        let d ← ler (ds.map some ++ resto) i
        let parada_embarque : Parada R := ⟨d.origem_x, d.origem_y, .EMBARQUE, d.id⟩
        Corrida.adicionarParada c parada_embarque)
    (fun k => { c with
      paradas := (((paradasDe ds).take k).map some ++ novoArr (ds.length * 2 - k))
      num_paradas := k }) ds.length ?_
  · simp only [List.take_zero, List.map_nil, List.nil_append, Nat.sub_zero] at key
    rw [← hps, ← hn] at key
    exact key
  · intro i hi
    simp only [ler_map_some_append _ _ _ hi, ok_bind, Corrida.adicionarParada, hcap]
    rw [if_neg (by omega)]
    have := gravar_take (paradasDe ds) (ds.length * 2) i (by rw [length_paradasDe]; omega)
      (by rw [length_paradasDe])
    rw [getElem_paradasDe_embarque ds i hi _] at this
    simp only [this, ok_bind, pure_eq_ok]

theorem loop_desembarques (ds : List (Demanda R)) (resto : Arr (Demanda R)) (c : Corrida R)
    (hn : c.num_paradas = ds.length) (hcap : c.capacidade_paradas = ds.length * 2)
    (hps : c.paradas
      = ((paradasDe ds).take ds.length).map some ++ novoArr (ds.length * 2 - ds.length)) :
    repetir (fun i c => do
        let d ← ler (ds.map some ++ resto) i
        let parada_desembarque : Parada R := ⟨d.destino_x, d.destino_y, .DESEMBARQUE, d.id⟩
        c.adicionarParada parada_desembarque) ds.length c
      = .ok { c with
          paradas := (paradasDe ds).map some
          num_paradas := ds.length * 2 } := by
  have key := repetir_trajetoria (fun i c => do
        let d ← ler (ds.map some ++ resto) i
        let parada_desembarque : Parada R := ⟨d.destino_x, d.destino_y, .DESEMBARQUE, d.id⟩
        Corrida.adicionarParada c parada_desembarque)
    (fun k => { c with
      paradas := (((paradasDe ds).take (ds.length + k)).map some
        ++ novoArr (ds.length * 2 - (ds.length + k)))
      num_paradas := ds.length + k }) ds.length ?_
  · have h2 : ds.length + ds.length = ds.length * 2 := by omega
    have h3 : (paradasDe ds).take (ds.length * 2) = paradasDe ds :=
      List.take_of_length_le (by rw [length_paradasDe])
    simp only [Nat.add_zero, h2, h3, Nat.sub_self, novoArr, List.replicate_zero,
      List.append_nil] at key
    obtain ⟨a1, a2, a3, a4, a5, a6, a7, a8, a9, a10, a11, a12⟩ := c
    simp only at hn hcap hps
    subst hn hps
    exact key
  · intro i hi
    simp only [ler_map_some_append _ _ _ hi, ok_bind, Corrida.adicionarParada, hcap]
    rw [if_neg (by omega)]
    have := gravar_take (paradasDe ds) (ds.length * 2) (ds.length + i)
      (by rw [length_paradasDe]; omega) (by rw [length_paradasDe])
    rw [getElem_paradasDe_desembarque ds i hi _] at this
    simp only [this, ok_bind, pure_eq_ok]
    rfl

end

section
variable {α : Type}
theorem ler_map_some (l : List α) (i : Nat) (h : i < l.length) :
    ler (l.map some) i = .ok l[i] := by
  rw [ler_eq_ok]; simp [h]
end
section
variable {R : Type} [LinearOrderedField R] (sqrt : R → R)

theorem getElem_trechosDe (gama : R) (ps : List (Parada R)) (i : Nat) (hi : i + 1 < ps.length)
    (ht : i < (trechosDe sqrt gama ps).length) :
    (trechosDe sqrt gama ps)[i] = trechoEntre sqrt gama ps[i] ps[i + 1] := by
  simp [trechosDe, List.getElem_zipWith]

theorem loop_trechos (gama : R) (ps : List (Parada R)) (cap : Nat) (c : Corrida R)
    (hn : c.num_trechos = 0) (hcap : c.capacidade_trechos = cap)
    (hts : c.trechos = novoArr cap) (hps : ps.length - 1 < cap) :
    repetir (fun i c => do
        let p0 ← ler (ps.map some) i
        let p1 ← ler (ps.map some) (i + 1)
        let natureza := naturezaEntre p0 p1
        let trecho : Trecho R := ⟨some p0, some p1, 0, 0, natureza⟩
        c.adicionarTrecho (trecho.calcularTempoDistancia sqrt gama)) (ps.length - 1) c
      = .ok { c with
          trechos := (trechosDe sqrt gama ps).map some ++ novoArr (cap - (ps.length - 1))
          num_trechos := ps.length - 1 } := by
  have key := repetir_trajetoria (fun i c => do
        let p0 ← ler (ps.map some) i
        let p1 ← ler (ps.map some) (i + 1)
        let natureza := naturezaEntre p0 p1
        let trecho : Trecho R := ⟨some p0, some p1, 0, 0, natureza⟩
        Corrida.adicionarTrecho c (trecho.calcularTempoDistancia sqrt gama))
    (fun k => { c with
      trechos := (((trechosDe sqrt gama ps).take k).map some ++ novoArr (cap - k))
      num_trechos := k }) (ps.length - 1) ?_
  · have h3 : (trechosDe sqrt gama ps).take (ps.length - 1) = trechosDe sqrt gama ps :=
      List.take_of_length_le (by rw [length_trechosDe])
    simp only [List.take_zero, List.map_nil, List.nil_append, Nat.sub_zero, h3] at key
    obtain ⟨a1, a2, a3, a4, a5, a6, a7, a8, a9, a10, a11, a12⟩ := c
    simp only at hn hcap hts
    subst hn hts
    exact key
  · intro i hi
    simp only [ler_map_some ps i (by omega), ler_map_some ps (i + 1) (by omega), ok_bind,
      Corrida.adicionarTrecho, hcap]
    rw [if_neg (by omega)]
    have := gravar_take (trechosDe sqrt gama ps) cap i (by rw [length_trechosDe]; omega)
      (by rw [length_trechosDe]; omega)
    rw [getElem_trechosDe sqrt gama ps i (by omega) _] at this
    simp only [trechoEntre] at this
    simp only [this, ok_bind, pure_eq_ok]

theorem sum_map_take_succ {α : Type} (f : α → R) (l : List α) (i : Nat) (hi : i < l.length) :
    ((l.take (i + 1)).map f).sum = ((l.take i).map f).sum + f l[i] := by
  rw [List.take_succ, List.getElem?_eq_getElem hi]
  simp only [Option.toList, List.map_append, List.sum_append, List.map_cons, List.map_nil,
    List.sum_cons, List.sum_nil, add_zero]

theorem calcularDuracaoDistancia_eq (ts : List (Trecho R)) (resto : Arr (Trecho R))
    (c : Corrida R) (hn : c.num_trechos = ts.length) (hts : c.trechos = ts.map some ++ resto) :
    c.calcularDuracaoDistancia
      = .ok { c with
          duracao_total := (ts.map fun t => t.tempo).sum
          distancia_total := (ts.map fun t => t.distancia).sum } := by
  unfold Corrida.calcularDuracaoDistancia
  have key := repetir_trajetoria (fun i (c1 : Corrida R) => do
      let trecho ← ler c1.trechos i
      pure { c1 with
        duracao_total := c1.duracao_total + trecho.tempo
        distancia_total := c1.distancia_total + trecho.distancia })
    (fun k => { c with
      duracao_total := ((ts.take k).map fun t => t.tempo).sum
      distancia_total := ((ts.take k).map fun t => t.distancia).sum }) ts.length ?_
  · simp only [List.take_zero, List.map_nil, List.sum_nil, List.take_length] at key
    obtain ⟨a1, a2, a3, a4, a5, a6, a7, a8, a9, a10, a11, a12⟩ := c
    simp only at hn hts
    subst hn
    exact key
  · intro i hi
    simp only [hts, ler_map_some_append _ _ _ hi, ok_bind, pure_eq_ok,
      sum_map_take_succ _ _ _ hi]
end

section
variable {R : Type} [LinearOrderedField R] (sqrt : R → R)

theorem construirCorrida_eq (gama t : R) (ds : List (Demanda R)) (resto : Arr (Demanda R))
    (h : ds ≠ []) :
    construirCorrida sqrt (ds.map some ++ resto) (ds.length : Int) gama t
      = .ok (corridaDe sqrt gama ds) := by
  have hpos : 0 < ds.length := List.length_pos.mpr h
  unfold construirCorrida
  rw [if_neg (by omega)]
  simp only [Int.toNat_ofNat]
  rw [loop_ids ds resto _ rfl rfl rfl]
  simp only [ok_bind]
  rw [loop_embarques ds resto _ rfl rfl rfl]
  simp only [ok_bind]
  rw [loop_desembarques ds resto _ rfl rfl rfl]
  simp only [ok_bind]
  have hl := length_paradasDe ds
  rw [← hl]
  rw [loop_trechos sqrt gama (paradasDe ds) (ds.length * 2) _ rfl rfl rfl (by omega)]
  simp only [ok_bind]
  rw [calcularDuracaoDistancia_eq (trechosDe sqrt gama (paradasDe ds)) _ _
    (by simp [length_trechosDe]) rfl]
  simp only [corridaDe, hl]
  rfl
end

/-! ## The scheduler keeps its events -/

section
variable {α : Type}

theorem cons_set_perm (t : List α) (j : Nat) (x : α) (h : j < t.length) :
    (t[j] :: t.set j x).Perm (x :: t) := by
  induction t generalizing j with
  | nil => simp at h
  | cons y t ih =>
    cases j with
    | zero => exact List.Perm.swap _ _ _
    | succ k =>
      have hk : k < t.length := by simpa using h
      have h1 := ih k hk
      simp only [List.getElem_cons_succ, List.set_cons_succ]
      exact (List.Perm.swap _ _ _).trans ((h1.cons y).trans (List.Perm.swap _ _ _))

theorem set_set_perm (xs : List α) (i j : Nat) (hi : i < xs.length) (hj : j < xs.length) :
    ((xs.set i xs[j]).set j xs[i]).Perm xs := by
  induction xs generalizing i j with
  | nil => simp at hi
  | cons x t ih =>
    cases i with
    | zero =>
      cases j with
      | zero => simp
      | succ k =>
        have hk : k < t.length := by simpa using hj
        simpa using cons_set_perm t k x hk
    | succ i =>
      cases j with
      | zero =>
        have hk : i < t.length := by simpa using hi
        simpa using cons_set_perm t i x hk
      | succ k =>
        have hi1 : i < t.length := by simpa using hi
        have hk : k < t.length := by simpa using hj
        simpa using ih i k hi1 hk

theorem map_some_append_getElem? (xs : List α) (resto : Arr α) (i : Nat) (h : i < xs.length) :
    (xs.map some ++ resto)[i]? = some (some xs[i]) := by
  rw [List.getElem?_append_left (by simpa using h)]
  simp [h]

theorem set_map_some_append (xs : List α) (resto : Arr α) (i : Nat) (x : α) (h : i < xs.length) :
    (xs.map some ++ resto).set i (some x) = (xs.set i x).map some ++ resto := by
  rw [List.set_append_left _ _ (by simpa using h), List.map_set]

end

section
variable {R : Type} [LinearOrderedField R]

theorem trocar_ok (xs : List (Evento R)) (resto : Arr (Evento R)) (i1 i2 : Nat)
    (h1 : i1 < xs.length) (h2 : i2 < xs.length) :
    trocar (xs.map some ++ resto) i1 i2
      = .ok (((xs.set i1 xs[i2]).set i2 xs[i1]).map some ++ resto) := by
  unfold trocar
  rw [map_some_append_getElem? xs resto i1 h1, map_some_append_getElem? xs resto i2 h2]
  simp only
  rw [set_map_some_append xs resto i1 _ h1,
    set_map_some_append _ resto i2 _ (by simpa using h2)]

theorem maiorQue_ok (xs : List (Evento R)) (resto : Arr (Evento R)) (i j : Nat)
    (hi : i < xs.length) (hj : j < xs.length) :
    maiorQue (xs.map some ++ resto) i j = .ok (xs[i].maior xs[j]) := by
  unfold maiorQue
  rw [ler_map_some_append xs resto i hi, ler_map_some_append xs resto j hj]
  rfl

theorem getPai_lt (i : Nat) (h : 0 < i) : getPai i < i := by
  unfold getPai; omega

theorem heapifyUpLoop_ok (resto : Arr (Evento R)) :
    ∀ (passos : Nat) (xs : List (Evento R)) (i : Nat), i < xs.length → i ≤ passos →
      ∃ ys : List (Evento R),
        heapifyUpLoop passos (xs.map some ++ resto) i = .ok (ys.map some ++ resto)
        ∧ ys.Perm xs := by
  intro passos
  induction passos with
  | zero =>
    intro xs i _ hp
    have : i = 0 := by omega
    subst this
    exact ⟨xs, by simp [heapifyUpLoop], List.Perm.refl _⟩
  | succ p ih =>
    intro xs i hi hp
    unfold heapifyUpLoop
    by_cases h0 : i > 0
    · rw [if_pos h0]
      have hpai := getPai_lt i h0
      have hpl : getPai i < xs.length := by omega
      simp only [maiorQue_ok xs resto i (getPai i) hi hpl, ok_bind]
      by_cases hm : xs[i].maior xs[getPai i] = true
      · simp only [hm, if_true, pure_eq_ok]
        exact ⟨xs, rfl, List.Perm.refl _⟩
      · simp only [hm, trocar_ok xs resto i (getPai i) hi hpl, ok_bind]
        obtain ⟨ys, hys, hperm⟩ := ih ((xs.set i xs[getPai i]).set (getPai i) xs[i]) (getPai i)
          (by simpa using hpl) (by omega)
        exact ⟨ys, by simpa using hys, hperm.trans (set_set_perm xs i (getPai i) hi hpl)⟩
    · rw [if_neg h0]
      exact ⟨xs, rfl, List.Perm.refl _⟩

end

section
variable {R : Type} [LinearOrderedField R]

theorem heapifyDownLoop_ok (resto : Arr (Evento R)) (tamanho : Nat) :
    ∀ (passos : Nat) (xs : List (Evento R)) (i : Nat), xs.length = tamanho →
      tamanho - i < passos →
      ∃ ys : List (Evento R),
        heapifyDownLoop tamanho passos (xs.map some ++ resto) i = .ok (ys.map some ++ resto)
        ∧ ys.Perm xs := by
  intro passos
  induction passos with
  | zero => intro xs i _ hp; omega
  | succ p ih =>
    intro xs i hlen hp
    unfold heapifyDownLoop
    have hc1 : ∃ b1, (if getFilhoEsquerdo i < tamanho
          then maiorQue (xs.map some ++ resto) (getFilhoEsquerdo i) i else pure false)
          = .ok b1 ∧ (b1 = true → getFilhoEsquerdo i < tamanho) := by
      by_cases hg : getFilhoEsquerdo i < tamanho
      · rw [if_pos hg]
        have : i < xs.length := by unfold getFilhoEsquerdo at hg; omega
        exact ⟨_, maiorQue_ok xs resto _ _ (by omega) this, fun _ => hg⟩
      · rw [if_neg hg]
        exact ⟨false, rfl, fun h => by cases h⟩
    obtain ⟨b1, hb1, hb1lt⟩ := hc1
    simp only [hb1, ok_bind]
    have hm1 : getFilhoDireito i < tamanho → (if b1 = true then getFilhoEsquerdo i else i) < xs.length := by
      intro hd
      unfold getFilhoDireito at hd
      split
      · unfold getFilhoEsquerdo; omega
      · omega
    have hc2 : ∃ b2, (if getFilhoDireito i < tamanho
          then maiorQue (xs.map some ++ resto) (getFilhoDireito i)
            (if b1 = true then getFilhoEsquerdo i else i) else pure false)
          = .ok b2 ∧ (b2 = true → getFilhoDireito i < tamanho) := by
      by_cases hg : getFilhoDireito i < tamanho
      · rw [if_pos hg]
        exact ⟨_, maiorQue_ok xs resto _ _ (by omega) (hm1 hg), fun _ => hg⟩
      · rw [if_neg hg]
        exact ⟨false, rfl, fun h => by cases h⟩
    obtain ⟨b2, hb2, hb2lt⟩ := hc2
    simp only [hb2, ok_bind]
    by_cases hme : (if b2 = true then getFilhoDireito i
        else if b1 = true then getFilhoEsquerdo i else i) = i
    · rw [if_pos hme]
      exact ⟨xs, rfl, List.Perm.refl _⟩
    · rw [if_neg hme]
      have hbound : i < (if b2 = true then getFilhoDireito i
          else if b1 = true then getFilhoEsquerdo i else i)
          ∧ (if b2 = true then getFilhoDireito i
            else if b1 = true then getFilhoEsquerdo i else i) < tamanho := by
        by_cases h2 : b2 = true
        · rw [if_pos h2]
          have := hb2lt h2
          unfold getFilhoDireito at *
          omega
        · rw [if_neg h2] at hme ⊢
          by_cases h1 : b1 = true
          · rw [if_pos h1]
            have := hb1lt h1
            unfold getFilhoEsquerdo at *
            omega
          · rw [if_neg h1] at hme
            exact absurd rfl hme
      obtain ⟨hgt, hlt⟩ := hbound
      generalize (if b2 = true then getFilhoDireito i
          else if b1 = true then getFilhoEsquerdo i else i) = m at hgt hlt hme ⊢
      have hi : i < xs.length := by omega
      have hm : m < xs.length := by omega
      simp only [trocar_ok xs resto i m hi hm, ok_bind]
      obtain ⟨ys, hys, hperm⟩ := ih ((xs.set i xs[m]).set m xs[i]) m (by simpa using hlen)
        (by omega)
      exact ⟨ys, hys, hperm.trans (set_set_perm xs i m hi hm)⟩

end

section
variable {α : Type}
theorem gravar_fim (l : List α) (r : Option α) (rs : Arr α) (x : α) :
    gravar (l.map some ++ r :: rs) l.length x = .ok ((l ++ [x]).map some ++ rs) := by
  unfold gravar
  rw [if_pos (by simp)]
  congr 1
  rw [List.set_append_right _ _ (by simp)]
  simp
end
section
variable {R : Type} [LinearOrderedField R]

theorem representa_eventos (e : Escalonador R) (xs : List (Evento R)) (h : Representa e xs) :
    eventos e = xs := by
  obtain ⟨resto, hh, hl, _, _⟩ := h
  unfold eventos
  rw [hh, ← hl, List.take_left' (by simp)]
  simp [List.filterMap_map]

theorem insereEvento_ok (e : Escalonador R) (xs : List (Evento R)) (evento : Evento R)
    (h : Representa e xs) :
    ∃ (e1 : Escalonador R) (ys : List (Evento R)), insereEvento e evento = .ok e1
      ∧ Representa e1 ys ∧ ys.Perm (xs ++ [evento])
      ∧ e1.total_eventos_inseridos = e.total_eventos_inseridos + 1
      ∧ e1.total_eventos_processados = e.total_eventos_processados := by
  obtain ⟨resto, hh, hl, hc, hc1⟩ := h
  obtain ⟨heap, tamanho, capacidade, tp, ti⟩ := e
  simp only at hh hl hc hc1
  subst hl hh
  have hrl : xs.length + resto.length = capacidade := by
    rw [← hc]; simp
  have key : ∃ (r : Option (Evento R)) (rs : Arr (Evento R)) (cap : Nat),
      (if xs.length ≥ capacidade
        then redimensionar (⟨xs.map some ++ resto, xs.length, capacidade, tp, ti⟩ : Escalonador R)
        else ⟨xs.map some ++ resto, xs.length, capacidade, tp, ti⟩)
        = ⟨xs.map some ++ r :: rs, xs.length, cap, tp, ti⟩
      ∧ (xs.map some ++ r :: rs).length = cap := by
    by_cases hge : xs.length ≥ capacidade
    · rw [if_pos hge]
      have hr0 : resto = [] := List.eq_nil_of_length_eq_zero (by omega)
      subst hr0
      have hcap : capacidade * 2 - xs.length = (capacidade * 2 - xs.length - 1) + 1 := by
        omega
      refine ⟨none, novoArr (capacidade * 2 - xs.length - 1), capacidade * 2, ?_, ?_⟩
      · unfold redimensionar
        simp only [List.append_nil]
        rw [List.take_of_length_le (by simp), hcap]
        rfl
      · simp [novoArr]; omega
    · rw [if_neg hge]
      cases resto with
      | nil => simp at hrl; omega
      | cons r rs => exact ⟨r, rs, capacidade, rfl, hc⟩
  obtain ⟨r, rs, cap, hk, hlen⟩ := key
  unfold insereEvento
  simp only [hk, gravar_fim, ok_bind, heapifyUp]
  obtain ⟨ys, hys, hperm⟩ := heapifyUpLoop_ok rs xs.length (xs ++ [evento]) xs.length
    (by simp) (le_refl _)
  simp only [hys, ok_bind, pure_eq_ok]
  have hyl := hperm.length_eq
  simp only [List.length_append, List.length_map, List.length_cons, List.length_singleton,
    List.length_nil] at hlen hyl
  refine ⟨_, ys, rfl, ⟨rs, rfl, ?_, ?_, ?_⟩, hperm, rfl, rfl⟩
  · exact hyl
  · simp only [List.length_append, List.length_map]
    omega
  · show 1 ≤ cap
    omega

end

section
variable {R : Type} [LinearOrderedField R]

theorem retiraProximoEvento_vazio (e : Escalonador R) (h : Representa e []) :
    retiraProximoEvento e = .ok (none, e) := by
  obtain ⟨_, _, hl, _, _⟩ := h
  unfold retiraProximoEvento
  rw [if_pos (by simpa using hl.symm)]

theorem retiraProximoEvento_ok (e : Escalonador R) (xs : List (Evento R))
    (h : Representa e xs) (hne : xs ≠ []) :
    ∃ (r : Evento R) (e1 : Escalonador R) (ys : List (Evento R)),
      retiraProximoEvento e = .ok (some r, e1)
      ∧ Representa e1 ys ∧ xs.Perm (r :: ys)
      ∧ e1.total_eventos_processados = e.total_eventos_processados + 1
      ∧ e1.total_eventos_inseridos = e.total_eventos_inseridos := by
  obtain ⟨resto, hh, hl, hc, hc1⟩ := h
  obtain ⟨heap, tamanho, capacidade, tp, ti⟩ := e
  simp only at hh hl hc hc1
  subst hl hh
  cases xs with
  | nil => exact absurd rfl hne
  | cons x t =>
    unfold retiraProximoEvento
    rw [if_neg (by simp)]
    have h0 : ler ((x :: t).map some ++ resto) 0 = .ok x := by
      rw [ler_eq_ok]; simp
    simp only [h0, ok_bind, List.length_cons, Nat.add_sub_cancel]
    rcases List.eq_nil_or_concat t with ht | ⟨m, u, ht⟩
    · subst ht
      simp only [List.length_nil, gt_iff_lt, lt_self_iff_false, if_false, pure_eq_ok, ok_bind]
      refine ⟨x, _, [], rfl, ⟨some x :: resto, ?_, rfl, ?_, hc1⟩, List.Perm.refl _, rfl, rfl⟩
      · simp
      · simpa using hc
    · rw [List.concat_eq_append] at ht
      subst ht
      rw [if_pos (by simp)]
      have hu : ler ((x :: (m ++ [u])).map some ++ resto) (m ++ [u]).length = .ok u := by
        rw [ler_eq_ok]
        rw [List.getElem?_append_left (by simp)]
        simp
      have hg : gravar ((x :: (m ++ [u])).map some ++ resto) 0 u
          = .ok ((u :: m).map some ++ some u :: resto) := by
        unfold gravar
        rw [if_pos (by simp)]
        simp
      simp only [hu, hg, ok_bind, heapifyDown]
      obtain ⟨ys, hys, hperm⟩ := heapifyDownLoop_ok (some u :: resto) (m ++ [u]).length
        ((m ++ [u]).length + 1) (u :: m) 0 (by simp) (by omega)
      simp only [hys, ok_bind, pure_eq_ok]
      have hyl := hperm.length_eq
      refine ⟨x, _, ys, rfl, ⟨some u :: resto, rfl, ?_, ?_, hc1⟩, ?_, rfl, rfl⟩
      · simp only [hyl]; simp
      · simp only [List.length_append, List.length_map, List.length_cons, hyl,
          List.length_singleton, List.length_nil] at hc ⊢
        omega
      · refine List.Perm.cons x ?_
        exact (List.perm_append_comm.trans (by simp)).trans hperm.symm

end

/-! ## The matching phase computes the closed forms -/
section
variable {R : Type} [LinearOrderedField R] (sqrt : R → R)

theorem algum_eq (teste : Nat → Except Erro Bool) (p : Nat → Bool) (is : List Nat)
    (h : ∀ i ∈ is, teste i = .ok (p i)) : algum teste is = .ok (is.any p) := by
  induction is with
  | nil => rfl
  | cons i is ih =>
    unfold algum
    simp only [h i (List.mem_cons_self _ _), ok_bind, List.any_cons]
    by_cases hp : p i = true
    · simp [hp]
    · simp only [hp, Bool.false_eq_true, if_false, Bool.false_or]
      exact ih fun k hk => h k (List.mem_cons_of_mem _ hk)

theorem any_range_getElem {α : Type} (ms : List α) (q : α → Bool) (f : Nat → Bool)
    (h : ∀ i (hi : i < ms.length), f i = q ms[i]) :
    (List.range ms.length).any f = ms.any q := by
  rw [Bool.eq_iff_iff]
  simp only [List.any_eq_true, List.mem_range]
  constructor
  · rintro ⟨i, hi, hf⟩
    exact ⟨ms[i], List.getElem_mem hi, by rw [← h i hi]; exact hf⟩
  · rintro ⟨x, hx, hq⟩
    obtain ⟨i, hi, rfl⟩ := List.getElem_of_mem hx
    exact ⟨i, hi, by rw [h i hi]; exact hq⟩

theorem verificarCriteriosCompartilhamento_eq (ms : List (Demanda R)) (resto : Arr (Demanda R))
    (nova : Demanda R) (alfa beta : R) :
    verificarCriteriosCompartilhamento sqrt (ms.map some ++ resto) ms.length nova alfa beta
      = .ok (compativel sqrt ms nova alfa beta) := by
  unfold verificarCriteriosCompartilhamento
  have h1 := algum_eq (fun i => do
        let dist_origem := (← ler (ms.map some ++ resto) i).calcularDistanciaOrigem sqrt nova
        pure (decide (dist_origem > alfa)))
      (fun i => if hi : i < ms.length
        then decide (ms[i].calcularDistanciaOrigem sqrt nova > alfa) else false)
      (List.range ms.length) (by
        intro i hi
        have hi : i < ms.length := List.mem_range.mp hi
        simp only [ler_map_some_append ms resto i hi, ok_bind, pure_eq_ok, dif_pos hi])
  have h2 := algum_eq (fun i => do
        let dist_destino := (← ler (ms.map some ++ resto) i).calcularDistanciaDestino sqrt nova
        pure (decide (dist_destino > beta)))
      (fun i => if hi : i < ms.length
        then decide (ms[i].calcularDistanciaDestino sqrt nova > beta) else false)
      (List.range ms.length) (by
        intro i hi
        have hi : i < ms.length := List.mem_range.mp hi
        simp only [ler_map_some_append ms resto i hi, ok_bind, pure_eq_ok, dif_pos hi])
  rw [any_range_getElem ms (fun m => decide (m.calcularDistanciaOrigem sqrt nova > alfa)) _
    (fun i hi => by simp only [dif_pos hi])] at h1
  rw [any_range_getElem ms (fun m => decide (m.calcularDistanciaDestino sqrt nova > beta)) _
    (fun i hi => by simp only [dif_pos hi])] at h2
  simp only [h1, ok_bind]
  unfold compativel
  by_cases ho : (ms.any fun m => decide (m.calcularDistanciaOrigem sqrt nova > alfa)) = true
  · simp only [ho, if_true, pure_eq_ok, Bool.not_true, Bool.false_and]
  · simp only [ho, Bool.false_eq_true, if_false, h2, ok_bind]
    by_cases hd : (ms.any fun m => decide (m.calcularDistanciaDestino sqrt nova > beta)) = true
    · simp [hd]
    · simp [hd, ho]

theorem calcularEficienciaCorrida_eq (ms : List (Demanda R)) (resto : Arr (Demanda R))
    (distancia_total : R) :
    calcularEficienciaCorrida sqrt (ms.map some ++ resto) ms.length distancia_total
      = .ok (if distancia_total = 0 then 1
          else (ms.map fun d => d.calcularDistanciaCorrida sqrt).sum / distancia_total) := by
  unfold calcularEficienciaCorrida
  by_cases h0 : distancia_total = 0
  · simp only [h0, if_true]
  · simp only [h0, if_false]
    have key := repetir_trajetoria (fun i (soma : R) => do
        pure (soma + (← ler (ms.map some ++ resto) i).calcularDistanciaCorrida sqrt))
      (fun k => ((ms.take k).map fun d => d.calcularDistanciaCorrida sqrt).sum) ms.length (by
        intro i hi
        simp only [ler_map_some_append ms resto i hi, ok_bind, pure_eq_ok,
          sum_map_take_succ _ _ _ hi])
    simp only [List.take_zero, List.map_nil, List.sum_nil, List.take_length] at key
    rw [key]
    rfl

theorem join_getElem?_map_some {α : Type} (vs : List α) (x : Nat) :
    ((vs.map some)[x]?).join = vs[x]? := by
  rw [List.getElem?_map]
  cases vs[x]? <;> rfl

theorem apontadas_cons_some (vs : List (Demanda R)) (x : Nat) (dc : Arr Nat) :
    apontadas (vs.map some) (some x :: dc) = vs[x]? :: apontadas (vs.map some) dc := by
  unfold apontadas
  rw [List.map_cons, Option.some_bind, join_getElem?_map_some]

theorem apontadas_eq (vs : List (Demanda R)) (hs : List Nat) (resto : Arr Nat)
    (h : ∀ x ∈ hs, x < vs.length) :
    apontadas (vs.map some) (hs.map some ++ resto)
      = (membros vs hs).map some ++ apontadas (vs.map some) resto
    ∧ (membros vs hs).length = hs.length := by
  induction hs with
  | nil => exact ⟨rfl, rfl⟩
  | cons x hs ih =>
    have hx : x < vs.length := h x (List.mem_cons_self _ _)
    obtain ⟨ih1, ih2⟩ := ih fun y hy => h y (List.mem_cons_of_mem _ hy)
    have hm : membros vs (x :: hs) = vs[x] :: membros vs hs := by
      unfold membros
      rw [List.filterMap_cons, List.getElem?_eq_getElem hx]
    rw [hm, List.map_cons, List.cons_append, apontadas_cons_some, ih1,
      List.getElem?_eq_getElem hx]
    exact ⟨rfl, by simp [ih2]⟩

end

section
variable {R : Type} [LinearOrderedField R] (sqrt : R → R)

theorem tentarCombinar_eq (vs : List (Demanda R)) (eta : Int)
    (gama delta alfa beta lambda tempo_base : R) :
    ∀ (js hs : List Nat) (resto : Arr Nat), hs ≠ [] → (∀ x ∈ hs, x < vs.length) →
      (∀ j ∈ js, j < vs.length) → hs.length + resto.length = eta.toNat →
      ∃ resto1 : Arr Nat,
        tentarCombinar sqrt (vs.map some) eta gama delta alfa beta lambda tempo_base js
            (hs.map some ++ resto, hs.length)
          = .ok ((agrupar sqrt vs eta gama delta alfa beta lambda tempo_base js hs).map some
              ++ resto1,
            (agrupar sqrt vs eta gama delta alfa beta lambda tempo_base js hs).length)
        ∧ (agrupar sqrt vs eta gama delta alfa beta lambda tempo_base js hs).length
            + resto1.length = eta.toNat := by
  intro js
  induction js with
  | nil =>
    intro hs resto _ _ _ hlen
    exact ⟨resto, rfl, hlen⟩
  | cons j js ih =>
    intro hs resto hne hhs hjs hlen
    have hj : j < vs.length := hjs j (List.mem_cons_self _ _)
    have hjs1 : ∀ k ∈ js, k < vs.length := fun k hk => hjs k (List.mem_cons_of_mem _ hk)
    unfold tentarCombinar agrupar
    by_cases hlt : (hs.length : Int) < eta
    · simp only [hlt, if_true, ler_map_some vs j hj, ok_bind, List.getElem?_eq_getElem hj]
      by_cases hest : vs[j].estado ≠ .DEMANDADA
      · rw [if_pos hest, if_pos hest]
        exact ih hs resto hne hhs hjs1 hlen
      · rw [if_neg hest, if_neg hest]
        by_cases hdiff : vs[j].tempo_solicitacao - tempo_base ≥ delta
        · simp only [hdiff, if_true, pure_eq_ok]
          exact ⟨resto, rfl, hlen⟩
        · simp only [hdiff, if_false]
          obtain ⟨hap, hml⟩ := apontadas_eq vs hs resto hhs
          have hv := verificarCriteriosCompartilhamento_eq sqrt (membros vs hs)
            (apontadas (vs.map some) resto) vs[j] alfa beta
          rw [hml, ← hap] at hv
          simp only [hv, ok_bind]
          by_cases hcomp : compativel sqrt (membros vs hs) vs[j] alfa beta = true
          · simp only [hcomp, Bool.not_true, Bool.false_eq_true, if_false]
            have hrest : ∃ r rs, resto = r :: rs := by
              cases resto with
              | nil => simp at hlen; omega
              | cons r rs => exact ⟨r, rs, rfl⟩
            obtain ⟨r, rs, rfl⟩ := hrest
            have hhs1 : ∀ x ∈ hs ++ [j], x < vs.length := by
              intro x hx
              rcases List.mem_append.mp hx with h | h
              · exact hhs x h
              · rw [List.mem_singleton.mp h]; exact hj
            obtain ⟨hap1, hml1⟩ := apontadas_eq vs (hs ++ [j]) rs hhs1
            have hmne : membros vs (hs ++ [j]) ≠ [] := by
              intro h0
              rw [h0] at hml1
              simp at hml1
            have hl1 : (membros vs (hs ++ [j])).length = hs.length + 1 := by
              rw [hml1]; simp
            have hc := construirCorrida_eq sqrt gama tempo_base (membros vs (hs ++ [j]))
              (apontadas (vs.map some) rs) hmne
            rw [hl1, ← hap1] at hc
            have hef := calcularEficienciaCorrida_eq sqrt (membros vs (hs ++ [j]))
              (apontadas (vs.map some) rs)
              (corridaDe sqrt gama (membros vs (hs ++ [j]))).distancia_total
            rw [hl1, ← hap1] at hef
            simp only [gravar_fim, ok_bind, hc, hef]
            have hefd : (if (corridaDe sqrt gama (membros vs (hs ++ [j]))).distancia_total = 0
                then 1
                else (List.map (fun d => Demanda.calcularDistanciaCorrida sqrt d)
                    (membros vs (hs ++ [j]))).sum
                  / (corridaDe sqrt gama (membros vs (hs ++ [j]))).distancia_total)
                = eficienciaDe sqrt gama (membros vs (hs ++ [j])) := rfl
            rw [hefd]
            by_cases hlam : eficienciaDe sqrt gama (membros vs (hs ++ [j])) < lambda
            · simp only [hlam, if_true, pure_eq_ok]
              refine ⟨some j :: rs, ?_, ?_⟩
              · rw [Nat.add_sub_cancel]
                simp
              · simpa using hlen
            · simp only [hlam, if_false]
              have := ih (hs ++ [j]) rs (by simp) hhs1 hjs1 (by simp at hlen ⊢; omega)
              simpa using this
          · simp only [hcomp, Bool.not_false, if_true]
            exact ih hs resto hne hhs hjs1 hlen
    · simp only [hlt, if_false, pure_eq_ok]
      exact ⟨resto, rfl, hlen⟩

end

section
variable {R : Type} [LinearOrderedField R] (sqrt : R → R)

theorem agrupar_spec (vs : List (Demanda R)) (eta : Int)
    (gama delta alfa beta lambda tempo_base : R) :
    ∀ (js hs : List Nat),
      ∃ novos : List Nat,
        agrupar sqrt vs eta gama delta alfa beta lambda tempo_base js hs = hs ++ novos
        ∧ novos.Sublist js
        ∧ (∀ x ∈ novos, ∃ d, vs[x]? = some d ∧ d.estado = .DEMANDADA)
        ∧ ((hs.length : Int) ≤ eta → ((hs ++ novos).length : Int) ≤ eta)
        ∧ (eta ≤ (hs.length : Int) → novos = []) := by
  intro js
  induction js with
  | nil =>
    intro hs
    exact ⟨[], by simp [agrupar], List.Sublist.refl _, by simp, by simp, fun _ => rfl⟩
  | cons j js ih =>
    intro hs
    unfold agrupar
    by_cases hlt : (hs.length : Int) < eta
    · rw [if_pos hlt]
      cases hvj : vs[j]? with
      | none =>
        exact ⟨[], by simp, List.nil_sublist _, by simp, by simp, fun _ => rfl⟩
      | some dj =>
        simp only
        by_cases hest : dj.estado ≠ .DEMANDADA
        · rw [if_pos hest]
          obtain ⟨novos, h1, h2, h3, h4, h5⟩ := ih hs
          exact ⟨novos, h1, h2.cons _, h3, h4, h5⟩
        · rw [if_neg hest]
          by_cases hdiff : dj.tempo_solicitacao - tempo_base ≥ delta
          · rw [if_pos hdiff]
            exact ⟨[], by simp, List.nil_sublist _, by simp, by simp, fun _ => rfl⟩
          · rw [if_neg hdiff]
            by_cases hcomp : (!compativel sqrt (membros vs hs) dj alfa beta) = true
            · rw [if_pos hcomp]
              obtain ⟨novos, h1, h2, h3, h4, h5⟩ := ih hs
              exact ⟨novos, h1, h2.cons _, h3, h4, h5⟩
            · rw [if_neg hcomp]
              by_cases hlam : eficienciaDe sqrt gama (membros vs (hs ++ [j])) < lambda
              · rw [if_pos hlam]
                exact ⟨[], by simp, List.nil_sublist _, by simp, by simp, fun _ => rfl⟩
              · rw [if_neg hlam]
                obtain ⟨novos, h1, h2, h3, h4, h5⟩ := ih (hs ++ [j])
                refine ⟨j :: novos, by simpa using h1, h2.cons₂ _, ?_, ?_, ?_⟩
                · intro x hx
                  rcases List.mem_cons.mp hx with h | h
                  · subst h
                    exact ⟨dj, hvj, by simpa using hest⟩
                  · exact h3 x h
                · intro _
                  have := h4 (by simp; omega)
                  simpa using this
                · intro h; omega
    · rw [if_neg hlt]
      exact ⟨[], by simp, List.nil_sublist _, by simp, by simp, fun _ => rfl⟩

end

section
variable {R : Type} [LinearOrderedField R] (sqrt : R → R)

theorem gravar_modify {α : Type} (l : List α) (j : Nat) (g : α → α) (hj : j < l.length) :
    gravar (l.map some) j (g l[j]) = .ok ((l.modify g j).map some) := by
  unfold gravar
  rw [if_pos (by simpa using hj)]
  congr 1
  apply List.ext_getElem?
  intro m
  rw [List.getElem?_set, List.getElem?_map, List.getElem?_map, List.getElem?_modify]
  by_cases hjm : j = m
  · subst hjm
    simp [hj]
  · simp only [hjm, if_false]
    cases l[m]? <;> rfl

theorem length_marcar (vs : List (Demanda R)) (hs : List Nat) (estado : EstadoDemanda)
    (corrida : Nat) : (marcar vs hs estado corrida).length = vs.length := by
  unfold marcar
  induction hs generalizing vs with
  | nil => rfl
  | cons x hs ih => rw [List.foldl_cons, ih]; simp

theorem marca_marca (estado : EstadoDemanda) (corrida : Nat) (d : Demanda R) :
    marca estado corrida (marca estado corrida d) = marca estado corrida d := rfl

theorem getElem?_marcar (vs : List (Demanda R)) (hs : List Nat) (estado : EstadoDemanda)
    (corrida : Nat) (j : Nat) :
    (marcar vs hs estado corrida)[j]?
      = (vs[j]?).map fun d => if j ∈ hs then marca estado corrida d else d := by
  unfold marcar
  induction hs generalizing vs with
  | nil => simp
  | cons x hs ih =>
    rw [List.foldl_cons, ih, List.getElem?_modify]
    cases vs[j]? with
    | none => rfl
    | some d =>
      by_cases hxj : x = j
      · subst hxj
        by_cases hm : x ∈ hs
        · simp [hm, marca_marca]
        · simp [hm]
      · have hjx : ¬ j = x := fun h => hxj h.symm
        simp [hxj, hjx]

theorem marcar_take_succ (vs : List (Demanda R)) (hs : List Nat) (estado : EstadoDemanda)
    (corrida : Nat) (k : Nat) (hk : k < hs.length) :
    marcar vs (hs.take (k + 1)) estado corrida
      = (marcar vs (hs.take k) estado corrida).modify (marca estado corrida) hs[k] := by
  unfold marcar
  rw [List.take_succ, List.getElem?_eq_getElem hk, List.foldl_append]
  rfl

theorem loop_marcar (vs : List (Demanda R)) (hs : List Nat) (resto : Arr Nat) (corrida : Nat)
    (hhs : ∀ x ∈ hs, x < vs.length) :
    repetir (fun k ds => do
        let h ← ler (hs.map some ++ resto) k
        let d ← ler ds h
        let d := if hs.length = 1 then d.setEstado .INDIVIDUAL
          else d.setEstado .COMBINADA
        gravar ds h (d.setCorridaAssociada corrida)) hs.length (vs.map some)
      = .ok ((marcar vs hs (if hs.length = 1 then .INDIVIDUAL else .COMBINADA) corrida).map
          some) := by
  have key := repetir_trajetoria (fun k (ds : Arr (Demanda R)) => do
        let h ← ler (hs.map some ++ resto) k
        let d ← ler ds h
        let d := if hs.length = 1 then Demanda.setEstado d .INDIVIDUAL
          else Demanda.setEstado d .COMBINADA
        gravar ds h (Demanda.setCorridaAssociada d corrida))
    (fun k => (marcar vs (hs.take k)
      (if hs.length = 1 then .INDIVIDUAL else .COMBINADA) corrida).map some) hs.length ?_
  · simp only [List.take_zero, List.take_length] at key
    exact key
  · intro k hk
    have hv : hs[k] < (marcar vs (hs.take k)
        (if hs.length = 1 then .INDIVIDUAL else .COMBINADA) corrida).length := by
      rw [length_marcar]; exact hhs _ (List.getElem_mem hk)
    simp only [ler_map_some_append hs resto k hk, ok_bind, ler_map_some _ _ hv]
    rw [marcar_take_succ vs hs _ corrida k hk]
    rw [← gravar_modify _ _ _ hv]
    by_cases h1 : hs.length = 1
    · simp only [h1, if_true]; rfl
    · simp only [h1, if_false]; rfl

end

section
variable {R : Type} [LinearOrderedField R] (sqrt : R → R)

theorem formarCorrida_pula (e : Entrada R) (i : Nat) (s : Simulacao R)
    (vs : List (Demanda R)) (hd : s.demandas = vs.map some) (hi : i < vs.length)
    (hest : vs[i].estado ≠ .DEMANDADA) : formarCorrida sqrt e i s = .ok s := by
  unfold formarCorrida
  simp only [hd, ler_map_some vs i hi, ok_bind]
  rw [if_pos hest]
  rfl

theorem grupoDe_spec (e : Entrada R) (vs : List (Demanda R)) (i : Nat) (di : Demanda R)
    (heta : 1 ≤ e.eta) (hN : vs.length = e.num_demandas.toNat) (hi : i < vs.length) :
    grupoDe sqrt e vs i di ≠ [] ∧ (∀ x ∈ grupoDe sqrt e vs i di, x < vs.length)
      ∧ ((grupoDe sqrt e vs i di).length : Int) ≤ e.eta := by
  obtain ⟨novos, h1, h2, h3, h4, _⟩ := agrupar_spec sqrt vs e.eta e.gama e.delta e.alfa e.beta
    e.lambda di.tempo_solicitacao (List.range' (i + 1) (e.num_demandas.toNat - (i + 1))) [i]
  unfold grupoDe
  rw [h1]
  refine ⟨by simp, ?_, h4 (by simpa using heta)⟩
  intro x hx
  rcases List.mem_append.mp hx with h | h
  · rw [List.mem_singleton.mp h]; exact hi
  · have := h2.subset h
    rw [List.mem_range'] at this
    obtain ⟨k, hk, rfl⟩ := this
    omega

theorem formarCorrida_nova (e : Entrada R) (i : Nat) (s : Simulacao R)
    (vs : List (Demanda R)) (cs : List (Corrida R)) (xs : List (Evento R))
    (heta : 1 ≤ e.eta) (hN : vs.length = e.num_demandas.toNat) (hi : i < vs.length)
    (hd : s.demandas = vs.map some)
    (hc : s.corridas = cs.map some ++ novoArr (vs.length - cs.length))
    (hcl : cs.length = s.num_corridas) (hnc : s.num_corridas < vs.length)
    (hx : Representa s.escalonador xs) (hest : vs[i].estado = .DEMANDADA) :
    ∃ (esc : Escalonador R) (ys : List (Evento R)),
      formarCorrida sqrt e i s
        = .ok
          { demandas := (marcar vs (grupoDe sqrt e vs i vs[i])
              (estadoDoGrupo (grupoDe sqrt e vs i vs[i])) s.num_corridas).map some
            corridas := (cs ++ [corridaFinal sqrt e.gama
                (membros vs (grupoDe sqrt e vs i vs[i]))]).map some
              ++ novoArr (vs.length - (cs.length + 1))
            num_corridas := s.num_corridas + 1
            escalonador := esc }
      ∧ Representa esc ys
      ∧ ys.Perm (xs ++ [⟨vs[i].tempo_solicitacao, .COLETA_PASSAGEIRO, s.num_corridas, 0⟩])
      ∧ esc.total_eventos_inseridos = s.escalonador.total_eventos_inseridos + 1
      ∧ esc.total_eventos_processados = s.escalonador.total_eventos_processados := by
  obtain ⟨hgne, hgv, hgl⟩ := grupoDe_spec sqrt e vs i vs[i] heta hN hi
  unfold formarCorrida
  simp only [hd, ler_map_some vs i hi, ok_bind]
  rw [if_neg (by simp [hest])]
  have hetaN : e.eta.toNat = (e.eta.toNat - 1) + 1 := by omega
  have hg0 : gravar (novoArr e.eta.toNat : Arr Nat) 0 i
      = .ok ([i].map some ++ novoArr (e.eta.toNat - 1)) := by
    rw [hetaN]
    exact gravar_fim [] none (novoArr (e.eta.toNat - 1)) i
  simp only [hg0, ok_bind]
  obtain ⟨resto1, ht, hlen1⟩ := tentarCombinar_eq sqrt vs e.eta e.gama e.delta e.alfa e.beta
    e.lambda vs[i].tempo_solicitacao (List.range' (i + 1) (e.num_demandas.toNat - (i + 1))) [i]
    (novoArr (e.eta.toNat - 1)) (by simp) (by simpa using hi)
    (by
      intro j hj
      rw [List.mem_range'] at hj
      obtain ⟨k, hk, rfl⟩ := hj
      omega)
    (by simp [novoArr]; omega)
  have ht1 : tentarCombinar sqrt (vs.map some) e.eta e.gama e.delta e.alfa e.beta e.lambda
      vs[i].tempo_solicitacao (List.range' (i + 1) (e.num_demandas.toNat - (i + 1)))
      ([i].map some ++ novoArr (e.eta.toNat - 1), 1)
      = .ok ((grupoDe sqrt e vs i vs[i]).map some ++ resto1,
          (grupoDe sqrt e vs i vs[i]).length) := ht
  simp only [ht1, ok_bind]
  obtain ⟨hap, hml⟩ := apontadas_eq vs (grupoDe sqrt e vs i vs[i]) resto1 hgv
  have hmne : membros vs (grupoDe sqrt e vs i vs[i]) ≠ [] := by
    intro h0
    rw [h0] at hml
    exact hgne (List.eq_nil_of_length_eq_zero hml.symm)
  have hcc := construirCorrida_eq sqrt e.gama vs[i].tempo_solicitacao
    (membros vs (grupoDe sqrt e vs i vs[i])) (apontadas (vs.map some) resto1) hmne
  rw [hml, ← hap] at hcc
  have hef := calcularEficienciaCorrida_eq sqrt (membros vs (grupoDe sqrt e vs i vs[i]))
    (apontadas (vs.map some) resto1)
    (corridaDe sqrt e.gama (membros vs (grupoDe sqrt e vs i vs[i]))).distancia_total
  rw [hml, ← hap] at hef
  simp only [hcc, hef, ok_bind]
  have hlm := loop_marcar vs (grupoDe sqrt e vs i vs[i]) resto1 s.num_corridas hgv
  simp only [hlm, ok_bind]
  have hcap : vs.length - cs.length = (vs.length - (cs.length + 1)) + 1 := by omega
  have hgc : gravar s.corridas s.num_corridas
      (corridaFinal sqrt e.gama (membros vs (grupoDe sqrt e vs i vs[i])))
      = .ok ((cs ++ [corridaFinal sqrt e.gama (membros vs (grupoDe sqrt e vs i vs[i]))]).map some
          ++ novoArr (vs.length - (cs.length + 1))) := by
    rw [hc, ← hcl, hcap]
    exact gravar_fim cs none _ _
  have hgc1 : gravar s.corridas s.num_corridas
      ((corridaDe sqrt e.gama (membros vs (grupoDe sqrt e vs i vs[i]))).setEficiencia
        (if (corridaDe sqrt e.gama (membros vs (grupoDe sqrt e vs i vs[i]))).distancia_total = 0
          then 1
          else (List.map (fun d => Demanda.calcularDistanciaCorrida sqrt d)
              (membros vs (grupoDe sqrt e vs i vs[i]))).sum
            / (corridaDe sqrt e.gama (membros vs (grupoDe sqrt e vs i vs[i]))).distancia_total))
      = .ok ((cs ++ [corridaFinal sqrt e.gama (membros vs (grupoDe sqrt e vs i vs[i]))]).map some
          ++ novoArr (vs.length - (cs.length + 1))) := hgc
  simp only [hgc1, ok_bind]
  obtain ⟨esc, ys, hins, hrep, hperm, hti, htp⟩ := insereEvento_ok s.escalonador xs
    ⟨vs[i].tempo_solicitacao, .COLETA_PASSAGEIRO, s.num_corridas, 0⟩ hx
  simp only [hins, ok_bind, pure_eq_ok]
  exact ⟨esc, ys, rfl, hrep, hperm, hti, htp⟩

end

section
variable {R : Type} [LinearOrderedField R] (sqrt : R → R)

theorem repetir_invariante {σ : Type} (corpo : Nat → σ → Except Erro σ) (P : Nat → σ → Prop)
    (n : Nat) (s : σ) (h0 : P 0 s)
    (hpasso : ∀ i s, i < n → P i s → ∃ s1, corpo i s = .ok s1 ∧ P (i + 1) s1) :
    ∃ s1, repetir corpo n s = .ok s1 ∧ P n s1 := by
  induction n with
  | zero => exact ⟨s, rfl, h0⟩
  | succ n ih =>
    obtain ⟨s1, h1, hp1⟩ := ih fun i s hi hp => hpasso i s (Nat.lt_succ_of_lt hi) hp
    obtain ⟨s2, h2, hp2⟩ := hpasso n s1 (Nat.lt_succ_self n) hp1
    exact ⟨s2, by rw [repetir, h1]; exact h2, hp2⟩

theorem grupoDe_eq (e : Entrada R) (vs : List (Demanda R)) (i : Nat) (di : Demanda R)
    (heta : 1 ≤ e.eta) :
    ∃ novos : List Nat, grupoDe sqrt e vs i di = i :: novos
      ∧ novos.Sublist (List.range' (i + 1) (e.num_demandas.toNat - (i + 1)))
      ∧ (∀ x ∈ novos, ∃ d, vs[x]? = some d ∧ d.estado = .DEMANDADA)
      ∧ (((i :: novos).length : Int) ≤ e.eta) := by
  obtain ⟨novos, h1, h2, h3, h4, _⟩ := agrupar_spec sqrt vs e.eta e.gama e.delta e.alfa e.beta
    e.lambda di.tempo_solicitacao (List.range' (i + 1) (e.num_demandas.toNat - (i + 1))) [i]
  exact ⟨novos, h1, h2, h3, h4 (by simpa using heta)⟩

theorem countP_modify {α : Type} (p : α → Bool) (f : α → α) (l : List α) (x : Nat)
    (hx : x < l.length) (h1 : p l[x] = false) (h2 : p (f l[x]) = true) :
    (l.modify f x).countP p = l.countP p + 1 := by
  induction l generalizing x with
  | nil => simp at hx
  | cons a l ih =>
    cases x with
    | zero =>
      simp only [List.getElem_cons_zero] at h1 h2
      simp [List.countP_cons, h1, h2]
    | succ k =>
      simp only [List.getElem_cons_succ] at h1 h2
      have hk : k < l.length := by simpa using hx
      simp only [List.modify_succ_cons, List.countP_cons, ih k hk h1 h2]
      omega

theorem countP_marcar (vs : List (Demanda R)) (hs : List Nat) (estado : EstadoDemanda)
    (corrida : Nat) (hest : estado ≠ .DEMANDADA) (hnd : hs.Nodup)
    (hdem : ∀ x ∈ hs, ∃ d, vs[x]? = some d ∧ d.estado = .DEMANDADA) :
    (marcar vs hs estado corrida).countP (fun d => decide (d.estado ≠ .DEMANDADA))
      = vs.countP (fun d => decide (d.estado ≠ .DEMANDADA)) + hs.length := by
  induction hs generalizing vs with
  | nil => rfl
  | cons x hs ih =>
    obtain ⟨hx, hnd1⟩ := List.nodup_cons.mp hnd
    obtain ⟨d, hd, hde⟩ := hdem x (List.mem_cons_self _ _)
    have hxl : x < vs.length := by
      by_contra hcon
      rw [List.getElem?_eq_none (by omega)] at hd
      cases hd
    have hdx : vs[x] = d := by
      rw [List.getElem?_eq_getElem hxl] at hd
      exact Option.some.inj hd
    have hm : marcar vs (x :: hs) estado corrida
        = marcar (vs.modify (marca estado corrida) x) hs estado corrida := rfl
    rw [hm, ih (vs.modify (marca estado corrida) x) hnd1]
    · rw [countP_modify _ _ vs x hxl (by simp [hdx, hde]) (by simpa [marca, Demanda.setEstado,
        Demanda.setCorridaAssociada] using hest)]
      simp only [List.length_cons]
      omega
    · intro y hy
      obtain ⟨dy, hdy, hdye⟩ := hdem y (List.mem_cons_of_mem _ hy)
      have hxy : x ≠ y := fun h => hx (h ▸ hy)
      refine ⟨dy, ?_, hdye⟩
      rw [List.getElem?_modify, hdy]
      simp [hxy]

end

section
variable {R : Type} [LinearOrderedField R] (sqrt : R → R)

theorem getElem?_marcar_some (vs : List (Demanda R)) (hs : List Nat) (estado : EstadoDemanda)
    (corrida : Nat) (j : Nat) (d : Demanda R)
    (h : (marcar vs hs estado corrida)[j]? = some d) :
    ∃ d0, vs[j]? = some d0 ∧ d = if j ∈ hs then marca estado corrida d0 else d0 := by
  rw [getElem?_marcar] at h
  cases hv : vs[j]? with
  | none => rw [hv] at h; cases h
  | some d0 =>
    rw [hv] at h
    exact ⟨d0, rfl, (Option.some.inj h).symm⟩

theorem estadoDoGrupo_ne (hs : List Nat) : estadoDoGrupo hs ≠ .DEMANDADA := by
  unfold estadoDoGrupo
  split <;> decide

theorem getElem?_append_singleton_some {α : Type} (es : List α) (ev x : α) (h : Nat)
    (hx : (es ++ [ev])[h]? = some x) :
    (h < es.length ∧ es[h]? = some x) ∨ (h = es.length ∧ x = ev) := by
  by_cases hlt : h < es.length
  · rw [List.getElem?_append_left hlt] at hx
    exact Or.inl ⟨hlt, hx⟩
  · have hle : es.length ≤ h := by omega
    rw [List.getElem?_append_right hle] at hx
    by_cases h0 : h - es.length = 0
    · rw [h0] at hx
      simp at hx
      exact Or.inr ⟨by omega, hx.symm⟩
    · rw [List.getElem?_eq_none (by simp; omega)] at hx
      cases hx

theorem formarCorrida_invariante (e : Entrada R) (heta : 1 ≤ e.eta) (i : Nat)
    (s : Simulacao R) (vs : List (Demanda R)) (cs : List (Corrida R))
    (xs es : List (Evento R)) (hinv : InvConstrucao sqrt e s vs cs xs es)
    (hnc : s.num_corridas ≤ i) (hi : i < vs.length) :
    ∃ (s1 : Simulacao R) (vs1 : List (Demanda R)) (cs1 : List (Corrida R))
      (xs1 es1 : List (Evento R)),
      formarCorrida sqrt e i s = .ok s1 ∧ InvConstrucao sqrt e s1 vs1 cs1 xs1 es1
        ∧ s1.num_corridas ≤ i + 1 := by
  by_cases hest : vs[i].estado = .DEMANDADA
  swap
  · exact ⟨s, vs, cs, xs, es, formarCorrida_pula sqrt e i s vs hinv.demandas_eq hi hest, hinv,
      by omega⟩
  obtain ⟨esc, ys, hform, hrep, hperm, hti, htp⟩ := formarCorrida_nova sqrt e i s vs cs xs heta
    hinv.num_demandas_eq hi hinv.demandas_eq hinv.corridas_eq hinv.num_corridas_eq (by omega)
    hinv.representa hest
  obtain ⟨novos, hg, hsub, hdem, hlen⟩ := grupoDe_eq sqrt e vs i vs[i] heta
  obtain ⟨hgne, hgv, _⟩ := grupoDe_spec sqrt e vs i vs[i] heta hinv.num_demandas_eq hi
  have hnovos_gt : ∀ x ∈ novos, i < x := by
    intro x hx
    have := hsub.subset hx
    rw [List.mem_range'] at this
    obtain ⟨k, _, rfl⟩ := this
    omega
  have hdemg : ∀ x ∈ grupoDe sqrt e vs i vs[i], ∃ d, vs[x]? = some d ∧ d.estado = .DEMANDADA := by
    intro x hx
    rw [hg] at hx
    rcases List.mem_cons.mp hx with h | h
    · subst h
      exact ⟨vs[x], List.getElem?_eq_getElem hi, hest⟩
    · exact hdem x h
  have hnd : (grupoDe sqrt e vs i vs[i]).Nodup := by
    rw [hg]
    refine List.nodup_cons.mpr ⟨fun h => ?_, (List.nodup_range' _ _).sublist hsub⟩
    have := hnovos_gt i h
    omega
  have hi_mem : i ∈ grupoDe sqrt e vs i vs[i] := by rw [hg]; exact List.mem_cons_self _ _
  have hlt_not_mem : ∀ j, j < i → j ∉ grupoDe sqrt e vs i vs[i] := by
    intro j hj hm
    rw [hg] at hm
    rcases List.mem_cons.mp hm with h | h
    · omega
    · have := hnovos_gt j h
      omega
  obtain ⟨_, hml⟩ := apontadas_eq vs (grupoDe sqrt e vs i vs[i]) [] hgv
  refine ⟨_, marcar vs (grupoDe sqrt e vs i vs[i]) (estadoDoGrupo (grupoDe sqrt e vs i vs[i]))
      s.num_corridas,
    cs ++ [corridaFinal sqrt e.gama (membros vs (grupoDe sqrt e vs i vs[i]))], ys,
    es ++ [⟨vs[i].tempo_solicitacao, .COLETA_PASSAGEIRO, s.num_corridas, 0⟩],
    hform, ?_, by simp only; omega⟩
  have hne := estadoDoGrupo_ne (grupoDe sqrt e vs i vs[i])
  constructor
  · rfl
  · rw [length_marcar]; exact hinv.num_demandas_eq
  · simp only [length_marcar, List.length_append, List.length_singleton]
  · simp only [List.length_append, List.length_singleton, hinv.num_corridas_eq]
  · exact hrep
  · exact hperm.trans (List.Perm.append_right _ hinv.eventos_perm)
  · simp only [List.length_append, List.length_singleton, hinv.eventos_length]
  · simp only [hti, hinv.inseridos]
  · simp only [htp, hinv.processados]
  · intro h x hx
    rcases getElem?_append_singleton_some _ _ _ _ hx with ⟨_, h1⟩ | ⟨h1, h2⟩
    · exact hinv.evento_inicial h x h1
    · subst h2
      exact ⟨by rw [h1, hinv.eventos_length], rfl⟩
  · intro c hc
    rcases List.mem_append.mp hc with h | h
    · exact hinv.corrida_forma c h
    · rw [List.mem_singleton.mp h]
      refine ⟨membros vs (grupoDe sqrt e vs i vs[i]), ?_, ?_, rfl⟩
      · intro h0
        rw [h0] at hml
        exact hgne (List.eq_nil_of_length_eq_zero hml.symm)
      · rw [hml, hg]; exact hlen
  · intro j d hd hde
    obtain ⟨d0, hd0, rfl⟩ := getElem?_marcar_some _ _ _ _ _ _ hd
    by_cases hm : j ∈ grupoDe sqrt e vs i vs[i]
    · rw [if_pos hm] at hde
      exact absurd hde hne
    · rw [if_neg hm] at hde ⊢
      exact hinv.sem_corrida j d0 hd0 hde
  · intro j d h hd hda
    obtain ⟨d0, hd0, rfl⟩ := getElem?_marcar_some _ _ _ _ _ _ hd
    by_cases hm : j ∈ grupoDe sqrt e vs i vs[i]
    · rw [if_pos hm] at hda
      have : s.num_corridas = h := Option.some.inj hda
      simp only; omega
    · rw [if_neg hm] at hda
      have := hinv.corrida_valida j d0 h hd0 hda
      simp only; omega
  · intro h x hx
    rcases getElem?_append_singleton_some _ _ _ _ hx with ⟨hlt, h1⟩ | ⟨h1, h2⟩
    · obtain ⟨a, d, hva, hda, hprev, htempo⟩ := hinv.ancora h x h1
      have ha_not : a ∉ grupoDe sqrt e vs i vs[i] := by
        intro hm
        obtain ⟨d', hd', hde'⟩ := hdemg a hm
        rw [hva] at hd'
        have := hinv.sem_corrida a d hva (by rw [Option.some.inj hd']; exact hde')
        rw [this] at hda
        cases hda
      refine ⟨a, d, ?_, hda, ?_, htempo⟩
      · rw [getElem?_marcar, hva]
        simp [ha_not]
      · intro j d1 hj hd1
        obtain ⟨d0, hd0, rfl⟩ := getElem?_marcar_some _ _ _ _ _ _ hd1
        by_cases hm : j ∈ grupoDe sqrt e vs i vs[i]
        · rw [if_pos hm]
          intro hc
          have : s.num_corridas = h := Option.some.inj hc
          rw [hinv.eventos_length] at hlt
          omega
        · rw [if_neg hm]
          exact hprev j d0 hj hd0
    · subst h2
      refine ⟨i, marca (estadoDoGrupo (grupoDe sqrt e vs i vs[i])) s.num_corridas vs[i], ?_, ?_,
        ?_, rfl⟩
      · rw [getElem?_marcar, List.getElem?_eq_getElem hi]
        simp [hi_mem]
      · rw [h1, hinv.eventos_length]; rfl
      · intro j d1 hj hd1
        obtain ⟨d0, hd0, rfl⟩ := getElem?_marcar_some _ _ _ _ _ _ hd1
        rw [if_neg (hlt_not_mem j hj)]
        intro hc
        have := hinv.corrida_valida j d0 h hd0 hc
        rw [h1, hinv.eventos_length] at this
        omega
  · rw [countP_marcar vs _ _ _ hne hnd hdemg, ← hinv.contagem]
    simp only [List.map_append, List.sum_append, List.map_cons, List.map_nil, List.sum_cons,
      List.sum_nil, add_zero]
    congr 1

end

section
variable {R : Type} [LinearOrderedField R] (sqrt : R → R)

theorem validarParametros_ok (eta : Int) (gama delta alfa beta lambda : R)
    (h : validarParametros eta gama delta alfa beta lambda = .ok ()) :
    1 ≤ eta ∧ 0 < gama ∧ 0 ≤ delta ∧ 0 ≤ alfa ∧ 0 ≤ beta ∧ 0 ≤ lambda ∧ lambda ≤ 1 := by
  unfold validarParametros at h
  split at h
  · cases h
  split at h
  · cases h
  split at h
  · cases h
  split at h
  · cases h
  split at h
  · cases h
  split at h
  · cases h
  rename_i h1 h2 h3 h4 h5 h6
  rw [not_or] at h6
  exact ⟨by omega, not_le.mp h2, not_lt.mp h3, not_lt.mp h4, not_lt.mp h5, not_lt.mp h6.1,
    not_lt.mp h6.2⟩

theorem length_demandasLidas (e : Entrada R)
    (hreg : e.num_demandas.toNat ≤ e.registros.length) :
    (demandasLidas e).length = e.num_demandas.toNat := by
  unfold demandasLidas
  simp only [List.length_map, List.length_take]
  exact Nat.min_eq_left hreg

theorem lerDemandas_eq (e : Entrada R) (hv : EntradaValida e) :
    lerDemandas e = .ok ((demandasLidas e).map some) := by
  unfold lerDemandas
  rw [hv.1]
  simp only [ok_bind]
  rw [if_neg (by have := hv.2.1; omega)]
  have hl := length_demandasLidas e hv.2.2
  have key := repetir_trajetoria (fun i (demandas : Arr (Demanda R)) => do
        match e.registros[i]? with
        | some r => gravar demandas i (Demanda.nova r.id r.tempo r.ox r.oy r.dx r.dy)
        | none => throw Erro.EntradaIncompleta)
    (fun k => ((demandasLidas e).take k).map some ++ novoArr (e.num_demandas.toNat - k))
    e.num_demandas.toNat ?_
  · simp only [List.take_zero, List.map_nil, List.nil_append, Nat.sub_zero, Nat.sub_self] at key
    rw [key, ← hl, List.take_length]
    simp [novoArr]
  · intro i hi
    have hir : i < e.registros.length := by have := hv.2.2; omega
    have hid : i < (demandasLidas e).length := by omega
    simp only [List.getElem?_eq_getElem hir]
    have := gravar_take (demandasLidas e) e.num_demandas.toNat i hid (by omega)
    rw [← this]
    congr 1
    unfold demandasLidas
    simp [List.getElem_take]

theorem demandasLidas_novas (e : Entrada R) (j : Nat) (d : Demanda R)
    (h : (demandasLidas e)[j]? = some d) :
    d.estado = .DEMANDADA ∧ d.corrida_associada = none := by
  unfold demandasLidas at h
  rw [List.getElem?_map] at h
  cases hr : (List.take e.num_demandas.toNat e.registros)[j]? with
  | none => rw [hr] at h; cases h
  | some r =>
    rw [hr] at h
    have := Option.some.inj h
    subst this
    exact ⟨rfl, rfl⟩

theorem invConstrucao_inicial (e : Entrada R) (hpos : 0 < e.num_demandas)
    (hreg : e.num_demandas.toNat ≤ e.registros.length) :
    InvConstrucao sqrt e
      { demandas := (demandasLidas e).map some
        corridas := novoArr e.num_demandas.toNat
        num_corridas := 0
        escalonador := (Escalonador.novo (e.num_demandas.toNat * 10)).inicializa }
      (demandasLidas e) [] [] [] := by
  have hl := length_demandasLidas e hreg
  constructor
  · rfl
  · exact hl
  · simp [hl]
  · rfl
  · refine ⟨novoArr (e.num_demandas.toNat * 10), rfl, rfl, ?_, ?_⟩
    · simp [Escalonador.inicializa, Escalonador.novo, novoArr]
    · simp only [Escalonador.inicializa, Escalonador.novo]; omega
  · exact List.Perm.refl _
  · rfl
  · rfl
  · rfl
  · intro h x hx; simp at hx
  · intro c hc; simp at hc
  · intro j d hd _; exact (demandasLidas_novas e j d hd).2
  · intro j d h hd hda
    rw [(demandasLidas_novas e j d hd).2] at hda
    cases hda
  · intro h x hx; simp at hx
  · simp only [List.map_nil, List.sum_nil]
    symm
    rw [List.countP_eq_zero]
    intro d hd
    obtain ⟨j, hj, rfl⟩ := List.getElem_of_mem hd
    have := (demandasLidas_novas e j _ (List.getElem?_eq_getElem hj)).1
    simp [this]

theorem construcaoDasCorridas_ok (e : Entrada R) (heta : 1 ≤ e.eta)
    (hpos : 0 < e.num_demandas) (hreg : e.num_demandas.toNat ≤ e.registros.length) :
    ∃ (s : Simulacao R) (vs : List (Demanda R)) (cs : List (Corrida R))
      (xs es : List (Evento R)),
      construcaoDasCorridas sqrt e ((demandasLidas e).map some) = .ok s
        ∧ InvConstrucao sqrt e s vs cs xs es := by
  unfold construcaoDasCorridas
  obtain ⟨s1, h1, vs, cs, xs, es, hinv, _⟩ := repetir_invariante (formarCorrida sqrt e)
    (fun i s => ∃ vs cs xs es, InvConstrucao sqrt e s vs cs xs es ∧ s.num_corridas ≤ i)
    e.num_demandas.toNat _
    ⟨_, _, _, _, invConstrucao_inicial sqrt e hpos hreg, le_refl _⟩
    (by
      intro i s hi ⟨vs, cs, xs, es, hinv, hnc⟩
      obtain ⟨s1, vs1, cs1, xs1, es1, hf, hinv1, hnc1⟩ := formarCorrida_invariante sqrt e heta i
        s vs cs xs es hinv hnc (by rw [hinv.num_demandas_eq]; exact hi)
      exact ⟨s1, hf, vs1, cs1, xs1, es1, hinv1, hnc1⟩)
  exact ⟨s1, vs, cs, xs, es, h1, hinv⟩

end

/-! ## The simulation loop -/
section
variable {R : Type} [LinearOrderedField R]

theorem restante_pos (cs : List (Corrida R)) (x : Evento R) (c : Corrida R)
    (ts : List (Trecho R)) (hc : cs[x.corrida_associada]? = some c) (hr : RotaDe c ts)
    (hx : x.indice_parada ≤ ts.length) :
    restante cs x = ts.length + 1 - x.indice_parada := by
  simp only [restante, hc, ← hr.paradas_eq]

theorem simulacaoLoop_ok (cs : List (Corrida R)) (es0 : List (Evento R))
    (resto : Arr (Corrida R)) :
    ∀ (passos : Nat) (a : Andamento R) (xs : List (Evento R))
      (rs : List (ResultadoCorrida R)), InvSimulacao cs es0 a xs rs →
      (xs.map (restante cs)).sum ≤ passos →
      ∃ (a1 : Andamento R) (rs1 : List (ResultadoCorrida R)),
        simulacaoLoop (cs.map some ++ resto) passos a = .ok a1
          ∧ InvSimulacao cs es0 a1 [] rs1 := by
  intro passos
  induction passos with
  | zero =>
    intro a xs rs hinv hm
    have hxs : xs = [] := by
      cases xs with
      | nil => rfl
      | cons x t =>
        obtain ⟨c, e0, ts, hc, _, hr, hx, _⟩ := hinv.evento x (List.mem_cons_self _ _)
        have := restante_pos cs x c ts hc hr hx
        simp only [List.map_cons, List.sum_cons] at hm
        omega
    subst hxs
    obtain ⟨_, _, hl, _, _⟩ := hinv.representa
    unfold simulacaoLoop estaVazio
    rw [if_pos (by simpa using hl.symm)]
    exact ⟨a, rs, rfl, hinv⟩
  | succ p ih =>
    intro a xs rs hinv hm
    by_cases hxs : xs = []
    · subst hxs
      obtain ⟨_, _, hl, _, _⟩ := hinv.representa
      unfold simulacaoLoop estaVazio
      rw [if_neg (by simpa using hl.symm)]
      exact ⟨a, rs, rfl, hinv⟩
    · have hrep := hinv.representa
      obtain ⟨_, _, hl, _, _⟩ := hrep
      obtain ⟨r, e1, ys, hret, hrep1, hperm, hproc, hins⟩ :=
        retiraProximoEvento_ok a.escalonador xs hinv.representa hxs
      have hrmem : r ∈ xs := hperm.symm.subset (List.mem_cons_self _ _)
      obtain ⟨c, e0, ts, hc, he0, hr, hidx, htempo⟩ := hinv.evento r hrmem
      have hclt : r.corrida_associada < cs.length := by
        by_contra hcon
        rw [List.getElem?_eq_none (by omega)] at hc
        cases hc
      have hcget : cs[r.corrida_associada] = c := by
        rw [List.getElem?_eq_getElem hclt] at hc
        exact Option.some.inj hc
      have hys : ∀ x ∈ ys, x ∈ xs := fun x hx => hperm.symm.subset (List.mem_cons_of_mem _ hx)
      have hsum : (xs.map (restante cs)).sum = restante cs r + (ys.map (restante cs)).sum := by
        rw [(hperm.map (restante cs)).sum_eq]
        simp
      have hlen : xs.length = ys.length + 1 := by rw [hperm.length_eq]; simp
      have hrest := restante_pos cs r c ts hc hr hidx
      have hpermca : ((ys.map fun x => x.corrida_associada) ++ (rs.map fun r => r.corrida)
          ++ [r.corrida_associada]).Perm (List.range cs.length) := by
        refine List.Perm.trans ?_ hinv.perm
        refine List.perm_append_comm.trans ?_
        simp only [List.singleton_append]
        have := (hperm.map fun x => x.corrida_associada).symm
        simp only [List.map_cons] at this
        exact (List.Perm.append_right _ this)
      unfold simulacaoLoop estaVazio
      rw [if_pos (by simp; omega)]
      simp only [hret, ok_bind, ler_map_some_append cs resto _ hclt, hcget]
      by_cases hfim : (r.indice_parada : Int) ≥ (c.num_paradas : Int) - 1
      · rw [if_pos hfim]
        have hidx_eq : r.indice_parada = ts.length := by
          have := hr.paradas_eq
          omega
        have hnl := hinv.perm.length_eq
        simp only [List.length_append, List.length_map, List.length_range] at hnl
        have hcap : cs.length - rs.length = (cs.length - (rs.length + 1)) + 1 := by omega
        have hg : gravar a.resultados a.num_resultados
            (⟨r.tempo, r.corrida_associada⟩ : ResultadoCorrida R)
            = .ok ((rs ++ [(⟨r.tempo, r.corrida_associada⟩ : ResultadoCorrida R)]).map some
                ++ novoArr (cs.length - (rs.length + 1))) := by
          rw [hinv.resultados_eq, ← hinv.num_resultados_eq, hcap]
          exact gravar_fim rs none _ _
        simp only [hg, ok_bind]
        refine ih _ ys (rs ++ [⟨r.tempo, r.corrida_associada⟩]) ?_ (by omega)
        constructor
        · exact hrep1
        · simp only [List.length_append, List.length_singleton]
        · simp only [List.length_append, List.length_singleton, hinv.num_resultados_eq]
        · simpa [List.map_append] using hpermca
        · intro x hx
          exact hinv.evento x (hys x hx)
        · intro q hq
          rcases List.mem_append.mp hq with h | h
          · exact hinv.resultado q h
          · rw [List.mem_singleton.mp h]
            refine ⟨c, e0, hc, he0, ?_⟩
            simp only [htempo, hidx_eq, List.take_length, hr.duracao_eq]
        · simp only [hins, hproc, hinv.inseridos]
          omega
        · simp only [hproc]
          have := hinv.processados
          omega
      · rw [if_neg hfim]
        have hidx_lt : r.indice_parada < ts.length := by
          have := hr.paradas_eq
          omega
        obtain ⟨restot, htr⟩ := hr.trechos_eq
        have hlt : ler c.trechos r.indice_parada = .ok ts[r.indice_parada] := by
          rw [htr]
          exact ler_map_some_append ts restot _ hidx_lt
        simp only [hlt, ok_bind]
        obtain ⟨e2, zs, hins2, hrep2, hperm2, hti2, htp2⟩ := insereEvento_ok e1 ys
          ⟨r.tempo + ts[r.indice_parada].tempo, .COLETA_PASSAGEIRO, r.corrida_associada,
            r.indice_parada + 1⟩ hrep1
        simp only [hins2, ok_bind]
        have hnew : restante cs (⟨r.tempo + ts[r.indice_parada].tempo, .COLETA_PASSAGEIRO,
            r.corrida_associada, r.indice_parada + 1⟩ : Evento R)
            = ts.length + 1 - (r.indice_parada + 1) :=
          restante_pos cs _ c ts hc hr (by simpa using hidx_lt)
        have hsum2 : (zs.map (restante cs)).sum
            = (ys.map (restante cs)).sum + (ts.length + 1 - (r.indice_parada + 1)) := by
          rw [(hperm2.map (restante cs)).sum_eq]
          simp [hnew]
        refine ih _ zs rs ?_ (by omega)
        constructor
        · exact hrep2
        · exact hinv.resultados_eq
        · exact hinv.num_resultados_eq
        · refine List.Perm.trans ?_ hpermca
          have := hperm2.map fun x => x.corrida_associada
          simp only [List.map_append, List.map_cons, List.map_nil] at this
          refine (List.Perm.append_right _ this).trans ?_
          simp only [List.append_assoc]
          exact List.Perm.append_left _ List.perm_append_comm
        · intro x hx
          rcases List.mem_append.mp (hperm2.subset hx) with h | h
          · exact hinv.evento x (hys x h)
          · rw [List.mem_singleton.mp h]
            refine ⟨c, e0, ts, hc, he0, hr, hidx_lt, ?_⟩
            simp only [htempo, sum_map_take_succ _ _ _ hidx_lt, add_assoc]
        · exact hinv.resultado
        · simp only [hti2, htp2, hins, hproc, hinv.inseridos, hperm2.length_eq,
            List.length_append, List.length_singleton]
          omega
        · simp only [htp2, hproc]
          have := hinv.processados
          omega

end

section
variable {R : Type} [LinearOrderedField R] (sqrt : R → R)

theorem rotaDe_corridaFinal (gama : R) (ms : List (Demanda R)) (h : ms ≠ []) :
    RotaDe (corridaFinal sqrt gama ms) (trechosDe sqrt gama (paradasDe ms)) := by
  have hpos : 0 < ms.length := List.length_pos.mpr h
  constructor
  · exact ⟨_, rfl⟩
  · rw [length_trechosDe, length_paradasDe]
    simp only [corridaFinal, corridaDe, Corrida.setEficiencia]
    omega
  · rw [length_trechosDe, length_paradasDe]
    rfl
  · rfl

theorem eq_range_of_getElem? (l : List Nat) (h : ∀ (i x : Nat), l[i]? = some x → x = i) :
    l = List.range l.length := by
  apply List.ext_getElem (by simp)
  intro i h1 h2
  rw [List.getElem_range]
  exact h i _ (List.getElem?_eq_getElem h1)

theorem invSimulacao_inicial (e : Entrada R) (s : Simulacao R) (vs : List (Demanda R))
    (cs : List (Corrida R)) (xs es : List (Evento R))
    (hinv : InvConstrucao sqrt e s vs cs xs es) :
    InvSimulacao cs es
      { escalonador := s.escalonador, resultados := novoArr s.num_corridas, num_resultados := 0 }
      xs []
    ∧ (xs.map (restante cs)).sum ≤ 2 * e.num_demandas.toNat := by
  have hes : es.map (fun x => x.corrida_associada) = List.range cs.length := by
    have := eq_range_of_getElem? (es.map fun x => x.corrida_associada) (by
      intro i x hx
      rw [List.getElem?_map] at hx
      cases hq : es[i]? with
      | none => rw [hq] at hx; cases hx
      | some q =>
        rw [hq] at hx
        rw [← Option.some.inj hx]
        exact (hinv.evento_inicial i q hq).1)
    rw [this, List.length_map, hinv.eventos_length, hinv.num_corridas_eq]
  have hrest : es.map (restante cs) = cs.map fun c => c.num_paradas := by
    apply List.ext_getElem
    · simp [hinv.eventos_length, hinv.num_corridas_eq]
    · intro i h1 h2
      simp only [List.length_map] at h1 h2
      obtain ⟨hca, hip⟩ := hinv.evento_inicial i es[i] (List.getElem?_eq_getElem h1)
      simp only [List.getElem_map, restante, hca, List.getElem?_eq_getElem h2, hip, Nat.sub_zero]
  have hsum : (xs.map (restante cs)).sum = (cs.map fun c => c.num_paradas).sum := by
    rw [(hinv.eventos_perm.map (restante cs)).sum_eq, hrest]
  have hdobro : ∀ l : List (Corrida R),
      (∀ c ∈ l, ∃ ms : List (Demanda R), ms ≠ [] ∧ (ms.length : Int) ≤ e.eta
        ∧ c = corridaFinal sqrt e.gama ms) →
      (l.map fun c => c.num_paradas).sum = 2 * (l.map fun c => c.num_demandas).sum := by
    intro l
    induction l with
    | nil => intro _; rfl
    | cons c l ih =>
      intro hl
      obtain ⟨ms, _, _, hc⟩ := hl c (List.mem_cons_self _ _)
      have := ih fun c1 hc1 => hl c1 (List.mem_cons_of_mem _ hc1)
      simp only [List.map_cons, List.sum_cons, this, hc]
      simp only [corridaFinal, corridaDe, Corrida.setEficiencia]
      omega
  refine ⟨?_, ?_⟩
  · constructor
    · exact hinv.representa
    · simp [hinv.num_corridas_eq]
    · rfl
    · simp only [List.map_nil, List.append_nil]
      rw [← hes]
      exact hinv.eventos_perm.map _
    · intro x hx
      have hxe : x ∈ es := hinv.eventos_perm.subset hx
      obtain ⟨h, hh, rfl⟩ := List.getElem_of_mem hxe
      obtain ⟨hca, hip⟩ := hinv.evento_inicial h es[h] (List.getElem?_eq_getElem hh)
      have hhc : h < cs.length := by
        rw [hinv.num_corridas_eq, ← hinv.eventos_length]; exact hh
      obtain ⟨ms, hne, _, hc⟩ := hinv.corrida_forma cs[h] (List.getElem_mem hhc)
      refine ⟨cs[h], es[h], trechosDe sqrt e.gama (paradasDe ms), ?_, ?_, ?_, ?_, ?_⟩
      · rw [hca]; exact List.getElem?_eq_getElem hhc
      · rw [hca]; exact List.getElem?_eq_getElem hh
      · rw [hc]; exact rotaDe_corridaFinal sqrt e.gama ms hne
      · rw [hip]; exact Nat.zero_le _
      · rw [hip]; simp
    · intro r hr; simp at hr
    · simp only [hinv.inseridos, hinv.processados, hinv.eventos_perm.length_eq,
        hinv.eventos_length]
      omega
    · simp only [hinv.processados, hsum]
      omega
  · rw [hsum, hdobro cs hinv.corrida_forma, hinv.contagem, ← hinv.num_demandas_eq]
    have : vs.countP (fun d : Demanda R => decide (d.estado ≠ .DEMANDADA)) ≤ vs.length :=
      List.countP_le_length _
    omega

theorem simulacaoDeEventos_ok (e : Entrada R) (s : Simulacao R) (vs : List (Demanda R))
    (cs : List (Corrida R)) (xs es : List (Evento R))
    (hinv : InvConstrucao sqrt e s vs cs xs es) (passos : Nat)
    (hp : 2 * e.num_demandas.toNat ≤ passos) :
    ∃ (a : Andamento R) (rs : List (ResultadoCorrida R)),
      simulacaoDeEventos passos s = .ok a ∧ InvSimulacao cs es a [] rs := by
  obtain ⟨h0, hb⟩ := invSimulacao_inicial sqrt e s vs cs xs es hinv
  unfold simulacaoDeEventos
  rw [hinv.corridas_eq]
  exact simulacaoLoop_ok cs es _ passos _ xs [] h0 (by omega)

end

section
variable {R : Type} [LinearOrderedField R] (sqrt : R → R)

theorem ler_prefixo_inv {α : Type} (l : List α) (m k : Nat) (x : α)
    (h : ler (l.map some ++ novoArr m) k = .ok x) : l[k]? = some x := by
  rw [ler_eq_ok] at h
  by_cases hk : k < l.length
  · rw [List.getElem?_append_left (by simpa using hk)] at h
    rw [List.getElem?_map] at h
    cases hl : l[k]? with
    | none => rw [hl] at h; cases h
    | some y =>
      rw [hl] at h
      simp only [Option.map_some', Option.some.injEq] at h
      rw [h]
  · rw [List.getElem?_append_right (by simp; omega)] at h
    unfold novoArr at h
    rw [List.getElem?_replicate] at h
    split at h <;> cases h

theorem fases_ok (e : Entrada R) (hv : EntradaValida e) (passos : Nat)
    (hp : 2 * e.num_demandas.toNat ≤ passos) :
    ∃ (s : Simulacao R) (a : Andamento R) (vs : List (Demanda R)) (cs : List (Corrida R))
      (xs es : List (Evento R)) (rs : List (ResultadoCorrida R)),
      lerDemandas e = .ok ((demandasLidas e).map some)
      ∧ construcaoDasCorridas sqrt e ((demandasLidas e).map some) = .ok s
      ∧ simulacaoDeEventos passos s = .ok a
      ∧ InvConstrucao sqrt e s vs cs xs es ∧ InvSimulacao cs es a [] rs := by
  obtain ⟨s, vs, cs, xs, es, hs, hinv⟩ := construcaoDasCorridas_ok sqrt e
    (validarParametros_ok _ _ _ _ _ _ hv.1).1 hv.2.1 hv.2.2
  obtain ⟨a, rs, ha, hsim⟩ := simulacaoDeEventos_ok sqrt e s vs cs xs es hinv passos hp
  exact ⟨s, a, vs, cs, xs, es, rs, lerDemandas_eq e hv, hs, ha, hinv, hsim⟩

end

theorem cenarioC_valida : EntradaValida cenarioC := by
  refine ⟨?_, by decide, by decide⟩
  simp [cenarioC, validarParametros]
  norm_num

/-! ## The sort of the results -/
section
variable {R : Type} [LinearOrderedField R]

theorem lerZ_eq {α : Type} (a : Arr α) (i : Int) (k : Nat) (h : i = (k : Int)) :
    lerZ a i = ler a k := by
  subst h
  unfold lerZ
  rw [if_pos (Int.ofNat_nonneg k)]
  rfl

theorem gravarZ_eq {α : Type} (a : Arr α) (i : Int) (k : Nat) (x : α) (h : i = (k : Int)) :
    gravarZ a i x = gravar a k x := by
  subst h
  unfold gravarZ
  rw [if_pos (Int.ofNat_nonneg k)]
  rfl

theorem ler_meio {α : Type} (X Z : List α) (a : α) :
    ler ((X ++ a :: Z).map some) X.length = .ok a := by
  rw [ler_eq_ok, List.map_append, List.map_cons, List.getElem?_append_right (by simp)]
  simp

theorem gravar_meio {α : Type} (X Z : List α) (a b : α) :
    gravar ((X ++ a :: Z).map some) X.length b = .ok ((X ++ b :: Z).map some) := by
  unfold gravar
  rw [if_pos (by simp)]
  congr 1
  simp

theorem trocarResultados_mesmo (X Z : List (ResultadoCorrida R)) (a : ResultadoCorrida R)
    (i j : Int) (hi : i = (X.length : Int)) (hj : j = (X.length : Int)) :
    trocarResultados ((X ++ a :: Z).map some) i j = .ok ((X ++ a :: Z).map some) := by
  unfold trocarResultados
  simp only [lerZ_eq _ i X.length hi, lerZ_eq _ j X.length hj, ler_meio, ok_bind,
    gravarZ_eq _ i X.length _ hi, gravarZ_eq _ j X.length _ hj, gravar_meio]

theorem trocarResultados_ok (X Y Z : List (ResultadoCorrida R)) (a b : ResultadoCorrida R)
    (i j : Int) (hi : i = (X.length : Int)) (hj : j = (X.length : Int) + Y.length + 1) :
    trocarResultados ((X ++ a :: (Y ++ b :: Z)).map some) i j
      = .ok ((X ++ b :: (Y ++ a :: Z)).map some) := by
  have hj1 : j = ((X ++ a :: Y).length : Int) := by
    rw [hj]; simp; omega
  have e1 : X ++ a :: (Y ++ b :: Z) = (X ++ a :: Y) ++ b :: Z := by simp
  have e2 : X ++ b :: (Y ++ b :: Z) = (X ++ b :: Y) ++ b :: Z := by simp
  have e3 : (X ++ b :: Y) ++ a :: Z = X ++ b :: (Y ++ a :: Z) := by simp
  have hl : (X ++ a :: Y).length = (X ++ b :: Y).length := by simp
  unfold trocarResultados
  rw [lerZ_eq _ i X.length hi, ler_meio]
  simp only [ok_bind]
  rw [lerZ_eq _ j (X ++ a :: Y).length hj1, e1, ler_meio]
  simp only [ok_bind]
  rw [← e1, gravarZ_eq _ i X.length _ hi, gravar_meio]
  simp only [ok_bind]
  rw [gravarZ_eq _ j (X ++ a :: Y).length _ hj1, e2, hl, gravar_meio, e3]

end

section
variable {R : Type} [LinearOrderedField R]

theorem particionar_loop (A T B : List (ResultadoCorrida R)) (pv : ResultadoCorrida R) :
    ∃ (L G : List (ResultadoCorrida R)),
      repetir (fun k (s : Arr (ResultadoCorrida R) × Int) => do
          let j := (A.length : Int) + (k : Int)
          if (← lerZ s.1 j).tempo_conclusao ≤ pv.tempo_conclusao then
            let i := s.2 + 1
            let r ← trocarResultados s.1 i j
            pure (r, i)
          else
            pure s)
        T.length ((A ++ T ++ pv :: B).map some, (A.length : Int) - 1)
        = .ok ((A ++ L ++ G ++ pv :: B).map some, (A.length : Int) + L.length - 1)
      ∧ (L ++ G).Perm T
      ∧ (∀ x ∈ L, x.tempo_conclusao ≤ pv.tempo_conclusao)
      ∧ (∀ x ∈ G, pv.tempo_conclusao < x.tempo_conclusao) := by
  obtain ⟨s1, hs1, L, G, hs, hperm, hL, hG⟩ := repetir_invariante
    (fun k (s : Arr (ResultadoCorrida R) × Int) => do
          let j := (A.length : Int) + (k : Int)
          if (← lerZ s.1 j).tempo_conclusao ≤ pv.tempo_conclusao then
            let i := s.2 + 1
            let r ← trocarResultados s.1 i j
            pure (r, i)
          else
            pure s)
    (fun k s => ∃ (L G : List (ResultadoCorrida R)),
      s = ((A ++ L ++ G ++ T.drop k ++ pv :: B).map some, (A.length : Int) + L.length - 1)
      ∧ (L ++ G).Perm (T.take k)
      ∧ (∀ x ∈ L, x.tempo_conclusao ≤ pv.tempo_conclusao)
      ∧ (∀ x ∈ G, pv.tempo_conclusao < x.tempo_conclusao))
    T.length ((A ++ T ++ pv :: B).map some, (A.length : Int) - 1)
    ⟨[], [], by simp, by simp, by simp, by simp⟩
    (by
      intro k s hk ⟨L, G, hs, hperm, hL, hG⟩
      subst hs
      have hlen : L.length + G.length = k := by
        have := hperm.length_eq
        simp only [List.length_append, List.length_take] at this
        omega
      have hdrop : T.drop k = T[k] :: T.drop (k + 1) := List.drop_eq_getElem_cons hk
      have hpt : (L ++ G ++ [T[k]]).Perm (T.take (k + 1)) := by
        rw [List.take_succ, List.getElem?_eq_getElem hk]
        exact List.Perm.append_right _ hperm
      have harr : A ++ L ++ G ++ T.drop k ++ pv :: B
          = (A ++ L ++ G) ++ T[k] :: (T.drop (k + 1) ++ pv :: B) := by
        rw [hdrop]; simp only [List.append_assoc, List.cons_append]
      have hj : (A.length : Int) + (k : Int) = ((A ++ L ++ G).length : Int) := by
        simp only [List.length_append]; omega
      simp only
      rw [harr, lerZ_eq _ _ _ hj, ler_meio]
      simp only [ok_bind]
      by_cases hle : T[k].tempo_conclusao ≤ pv.tempo_conclusao
      · rw [if_pos hle]
        cases G with
        | nil =>
          have e1 : A ++ L ++ [] = A ++ L := by simp
          rw [e1] at hj ⊢
          rw [trocarResultados_mesmo (A ++ L) _ T[k] _ _
            (by simp only [List.length_append]; omega) hj]
          simp only [ok_bind, pure_eq_ok]
          refine ⟨_, rfl, L ++ [T[k]], [], ?_, ?_, ?_, by simp⟩
          · congr 1
            · simp only [List.append_assoc, List.cons_append, List.nil_append,
                List.singleton_append]
            · simp only [List.length_append, List.length_singleton]; omega
          · simpa using hpt
          · intro x hx
            rcases List.mem_append.mp hx with h | h
            · exact hL x h
            · rw [List.mem_singleton.mp h]; exact hle
        | cons g G1 =>
          have e1 : (A ++ L ++ g :: G1) ++ T[k] :: (T.drop (k + 1) ++ pv :: B)
              = (A ++ L) ++ g :: (G1 ++ T[k] :: (T.drop (k + 1) ++ pv :: B)) := by simp
          rw [e1, trocarResultados_ok (A ++ L) G1 _ g T[k] _ _
            (by simp only [List.length_append]; omega)
            (by simp only [List.length_append, List.length_cons] at hlen ⊢; omega)]
          simp only [ok_bind, pure_eq_ok]
          refine ⟨_, rfl, L ++ [T[k]], G1 ++ [g], ?_, ?_, ?_, ?_⟩
          · congr 1
            · simp only [List.append_assoc, List.cons_append, List.nil_append,
                List.singleton_append]
            · simp only [List.length_append, List.length_singleton]; omega
          · refine List.Perm.trans ?_ hpt
            rw [List.append_assoc, List.append_assoc]
            exact List.Perm.append_left L
              (List.perm_append_comm.trans (List.Perm.append_right _ List.perm_append_comm))
          · intro x hx
            rcases List.mem_append.mp hx with h | h
            · exact hL x h
            · rw [List.mem_singleton.mp h]; exact hle
          · intro x hx
            rcases List.mem_append.mp hx with h | h
            · exact hG x (List.mem_cons_of_mem _ h)
            · rw [List.mem_singleton.mp h]; exact hG g (List.mem_cons_self _ _)
      · rw [if_neg hle]
        simp only [pure_eq_ok]
        refine ⟨_, rfl, L, G ++ [T[k]], ?_, ?_, hL, ?_⟩
        · congr 1
          simp only [List.append_assoc, List.cons_append, List.nil_append,
            List.singleton_append]
        · simpa using hpt
        · intro x hx
          rcases List.mem_append.mp hx with h | h
          · exact hG x h
          · rw [List.mem_singleton.mp h]; exact not_le.mp hle)
  refine ⟨L, G, ?_, ?_, hL, hG⟩
  · rw [hs1, hs]
    simp
  · simpa using hperm

end

section
variable {R : Type} [LinearOrderedField R]

theorem particionar_ok (A T B : List (ResultadoCorrida R)) (pv : ResultadoCorrida R) :
    ∃ (L G : List (ResultadoCorrida R)),
      particionar ((A ++ T ++ pv :: B).map some) (A.length : Int)
          ((A.length : Int) + (T.length : Int))
        = .ok ((A ++ L ++ pv :: (G ++ B)).map some, (A.length : Int) + (L.length : Int))
      ∧ (L ++ G).Perm T
      ∧ (∀ x ∈ L, x.tempo_conclusao ≤ pv.tempo_conclusao)
      ∧ (∀ x ∈ G, pv.tempo_conclusao < x.tempo_conclusao) := by
  obtain ⟨L, G, hloop, hperm, hL, hG⟩ := particionar_loop A T B pv
  have hfim : (A.length : Int) + (T.length : Int) = ((A ++ T).length : Int) := by
    simp only [List.length_append]; omega
  have hn : ((A.length : Int) + (T.length : Int) - (A.length : Int)).toNat = T.length := by
    omega
  have hlen : L.length + G.length = T.length := by
    have := hperm.length_eq
    simpa using this
  unfold particionar
  rw [lerZ_eq _ _ _ hfim, ler_meio]
  simp only [ok_bind, hn]
  rw [hloop]
  simp only [ok_bind]
  cases G with
  | nil =>
    have e1 : A ++ L ++ [] ++ pv :: B = (A ++ L) ++ pv :: B := by simp
    rw [e1, trocarResultados_mesmo (A ++ L) B pv _ _
      (by simp only [List.length_append]; omega)
      (by simp only [List.length_append, List.length_nil] at hlen ⊢; omega)]
    simp only [ok_bind, pure_eq_ok]
    refine ⟨L, [], ?_, by simpa using hperm, hL, by simp⟩
    congr 1
    congr 1
    omega
  | cons g G1 =>
    have e1 : A ++ L ++ g :: G1 ++ pv :: B = (A ++ L) ++ g :: (G1 ++ pv :: B) := by simp
    rw [e1, trocarResultados_ok (A ++ L) G1 B g pv _ _
      (by simp only [List.length_append]; omega)
      (by simp only [List.length_append, List.length_cons] at hlen ⊢; omega)]
    simp only [ok_bind, pure_eq_ok]
    refine ⟨L, G1 ++ [g], ?_, ?_, hL, ?_⟩
    · congr 1
      congr 1
      · simp
      · omega
    · refine List.Perm.trans ?_ hperm
      exact List.Perm.append_left L List.perm_append_comm
    · intro x hx
      rcases List.mem_append.mp hx with h | h
      · exact hG x (List.mem_cons_of_mem _ h)
      · rw [List.mem_singleton.mp h]; exact hG g (List.mem_cons_self _ _)

theorem ordenada_juntar (L G : List (ResultadoCorrida R)) (pv : ResultadoCorrida R)
    (hL : Ordenada L) (hG : Ordenada G)
    (hLp : ∀ x ∈ L, x.tempo_conclusao ≤ pv.tempo_conclusao)
    (hGp : ∀ x ∈ G, pv.tempo_conclusao < x.tempo_conclusao) :
    Ordenada (L ++ pv :: G) := by
  unfold Ordenada at *
  rw [List.pairwise_append]
  refine ⟨hL, List.pairwise_cons.mpr ⟨fun x hx => le_of_lt (hGp x hx), hG⟩, ?_⟩
  intro a ha b hb
  rcases List.mem_cons.mp hb with h | h
  · rw [h]; exact hLp a ha
  · exact le_trans (hLp a ha) (le_of_lt (hGp b h))

theorem quicksortLoop_ok :
    ∀ (passos : Nat) (A S B : List (ResultadoCorrida R)), S.length ≤ passos + 1 →
      ∃ S1 : List (ResultadoCorrida R),
        quicksortLoop passos ((A ++ S ++ B).map some) (A.length : Int)
            ((A.length : Int) + (S.length : Int) - 1)
          = .ok ((A ++ S1 ++ B).map some)
        ∧ S1.Perm S ∧ Ordenada S1 := by
  intro passos
  induction passos with
  | zero =>
    intro A S B hS
    unfold quicksortLoop
    rw [if_neg (by omega)]
    refine ⟨S, rfl, List.Perm.refl _, ?_⟩
    match S, hS with
    | [], _ => exact List.Pairwise.nil
    | [x], _ => exact List.pairwise_singleton _ _
  | succ p ih =>
    intro A S B hS
    unfold quicksortLoop
    by_cases hlt : (A.length : Int) < (A.length : Int) + (S.length : Int) - 1
    · rw [if_pos hlt]
      have hne : S ≠ [] := by
        intro h; rw [h] at hlt; simp at hlt; omega
      obtain ⟨T, pv, rfl⟩ : ∃ T pv, S = T ++ [pv] := by
        rcases List.eq_nil_or_concat S with h | ⟨T, pv, h⟩
        · exact absurd h hne
        · exact ⟨T, pv, by rw [h, List.concat_eq_append]⟩
      obtain ⟨L, G, hpart, hperm, hL, hG⟩ := particionar_ok A T B pv
      have hlen : L.length + G.length = T.length := by
        have := hperm.length_eq
        simpa using this
      have harr : A ++ (T ++ [pv]) ++ B = A ++ T ++ pv :: B := by simp
      have hfim : (A.length : Int) + ((T ++ [pv]).length : Int) - 1
          = (A.length : Int) + (T.length : Int) := by
        simp only [List.length_append, List.length_singleton]; omega
      rw [harr, hfim, hpart]
      simp only [ok_bind]
      simp only [List.length_append, List.length_singleton] at hS
      obtain ⟨L1, hq1, hperm1, hord1⟩ := ih A L (pv :: (G ++ B)) (by omega)
      rw [hq1]
      simp only [ok_bind]
      have hl1 := hperm1.length_eq
      obtain ⟨G1, hq2, hperm2, hord2⟩ := ih (A ++ L1 ++ [pv]) G B (by omega)
      have harr2 : A ++ L1 ++ pv :: (G ++ B) = (A ++ L1 ++ [pv]) ++ G ++ B := by simp
      have hini2 : (A.length : Int) + (L.length : Int) + 1
          = ((A ++ L1 ++ [pv]).length : Int) := by
        simp only [List.length_append, List.length_singleton]; omega
      have hfim2 : (A.length : Int) + (T.length : Int)
          = ((A ++ L1 ++ [pv]).length : Int) + (G.length : Int) - 1 := by
        simp only [List.length_append, List.length_singleton]; omega
      rw [harr2, hini2, hfim2, hq2]
      refine ⟨L1 ++ pv :: G1, ?_, ?_, ?_⟩
      · congr 1
        simp
      · have h1 : (L1 ++ pv :: G1).Perm (L ++ pv :: G) :=
          List.Perm.append hperm1 (List.Perm.cons pv hperm2)
        refine h1.trans ?_
        refine (List.perm_middle).trans ?_
        refine List.Perm.trans ?_ (@List.perm_append_comm _ [pv] T)
        exact List.Perm.cons pv hperm
      · exact ordenada_juntar L1 G1 pv hord1 hord2
          (fun x hx => hL x (hperm1.subset hx)) (fun x hx => hG x (hperm2.subset hx))
    · rw [if_neg hlt]
      refine ⟨S, rfl, List.Perm.refl _, ?_⟩
      match S, hlt with
      | [], _ => exact List.Pairwise.nil
      | [x], _ => exact List.pairwise_singleton _ _
      | x :: y :: t, h => simp at h; omega

theorem ordenarResultados_ok (rs : List (ResultadoCorrida R)) :
    ∃ rs1 : List (ResultadoCorrida R),
      ordenarResultados (rs.map some) (rs.length : Int) = .ok (rs1.map some)
      ∧ rs1.Perm rs ∧ Ordenada rs1 := by
  unfold ordenarResultados
  by_cases h1 : (rs.length : Int) > 1
  · rw [if_pos h1]
    unfold quicksort
    obtain ⟨S1, hq, hperm, hord⟩ := quicksortLoop_ok ((rs.length : Int) - 1 - 0).toNat [] rs []
      (by omega)
    simp only [List.nil_append, List.append_nil, List.length_nil, Int.ofNat_zero, Nat.cast_zero,
      zero_add] at hq
    exact ⟨S1, hq, hperm, hord⟩
  · rw [if_neg h1]
    refine ⟨rs, rfl, List.Perm.refl _, ?_⟩
    match rs, h1 with
    | [], _ => exact List.Pairwise.nil
    | [x], _ => exact List.pairwise_singleton _ _
    | x :: y :: t, h => simp at h

end

section
variable {R : Type} [LinearOrderedField R] (sqrt : R → R)

theorem map_take_succ {α β : Type} (f : α → β) (l : List α) (i : Nat) (hi : i < l.length) :
    (l.take (i + 1)).map f = (l.take i).map f ++ [f l[i]] := by
  rw [List.take_succ, List.getElem?_eq_getElem hi]
  simp only [Option.toList, List.map_append, List.map_cons, List.map_nil]

theorem imprimirCorrida_ok (c : Corrida R) (ps : List (Parada R)) (resto : Arr (Parada R))
    (tempo_conclusao : R) (hps : c.paradas = ps.map some ++ resto)
    (hn : c.num_paradas = ps.length) :
    ∃ linha, imprimirCorrida c tempo_conclusao = .ok linha
      ∧ linha.tempo_conclusao = tempo_conclusao := by
  unfold imprimirCorrida
  have key := repetir_trajetoria (fun i (cs : List (R × R)) => do
      let p ← ler c.paradas i
      pure (cs ++ [(p.coord_x, p.coord_y)]))
    (fun k => (ps.take k).map fun p => (p.coord_x, p.coord_y)) ps.length (by
      intro i hi
      simp only [hps, ler_map_some_append ps resto i hi, ok_bind, pure_eq_ok,
        map_take_succ _ _ _ hi])
  simp only [List.take_zero, List.map_nil] at key
  rw [hn, key]
  exact ⟨_, rfl, rfl⟩

theorem imprimirResultados_ok (cs : List (Corrida R)) (resto : Arr (Corrida R))
    (rs : List (ResultadoCorrida R))
    (h : ∀ r ∈ rs, ∃ c, cs[r.corrida]? = some c ∧ ∃ ms : List (Demanda R), ∃ gama : R,
      c = corridaFinal sqrt gama ms) :
    ∃ linhas, imprimirResultados (cs.map some ++ resto) (rs.map some) rs.length = .ok linhas
      ∧ linhas.map (fun l => l.tempo_conclusao) = rs.map fun r => r.tempo_conclusao := by
  unfold imprimirResultados
  obtain ⟨linhas, h1, h2⟩ := repetir_invariante (fun i (linhas : List (Linha R)) => do
      let r ← ler (rs.map some) i
      let linha ← imprimirCorrida (← ler (cs.map some ++ resto) r.corrida) r.tempo_conclusao
      pure (linhas ++ [linha]))
    (fun k linhas => linhas.map (fun l => l.tempo_conclusao)
      = (rs.take k).map fun r => r.tempo_conclusao)
    rs.length [] rfl (by
      intro i linhas hi hP
      obtain ⟨c, hc, ms, gama, hcf⟩ := h rs[i] (List.getElem_mem hi)
      have hclt : rs[i].corrida < cs.length := by
        by_contra hcon
        rw [List.getElem?_eq_none (by omega)] at hc
        cases hc
      have hcget : cs[rs[i].corrida] = c := by
        rw [List.getElem?_eq_getElem hclt] at hc
        exact Option.some.inj hc
      obtain ⟨linha, hl, hlt⟩ := imprimirCorrida_ok c (paradasDe ms) [] rs[i].tempo_conclusao
        (by rw [hcf]; simp [corridaFinal, corridaDe, Corrida.setEficiencia])
        (by rw [hcf, length_paradasDe]; rfl)
      simp only [ler_map_some rs i hi, ok_bind, ler_map_some_append cs resto _ hclt, hcget, hl,
        pure_eq_ok]
      refine ⟨_, rfl, ?_⟩
      rw [List.map_append, hP, map_take_succ _ _ _ hi]
      simp only [List.map_cons, List.map_nil, hlt])
  exact ⟨linhas, h1, by simpa using h2⟩

end


/-! ## Properties of the clusters of the matching phase -/

section
variable {R : Type} [LinearOrderedField R] (sqrt : R → R)

theorem mem_membros (vs : List (Demanda R)) (hs : List Nat) (a : Nat) (da : Demanda R)
    (ha : a ∈ hs) (hva : vs[a]? = some da) : da ∈ membros vs hs := by
  unfold membros
  exact List.mem_filterMap.mpr ⟨a, ha, hva⟩

theorem compativel_mem (ms : List (Demanda R)) (nova : Demanda R) (alfa beta : R)
    (h : compativel sqrt ms nova alfa beta = true) (m : Demanda R) (hm : m ∈ ms) :
    m.calcularDistanciaOrigem sqrt nova ≤ alfa ∧ m.calcularDistanciaDestino sqrt nova ≤ beta := by
  unfold compativel at h
  simp only [Bool.and_eq_true, Bool.not_eq_true', List.any_eq_false, decide_eq_true_eq,
    gt_iff_lt, not_lt] at h
  exact ⟨h.1 m hm, h.2 m hm⟩

theorem agrupar_janela (vs : List (Demanda R)) (eta : Int)
    (gama delta alfa beta lambda tempo_base : R) :
    ∀ (js hs : List Nat) (x : Nat),
      x ∈ agrupar sqrt vs eta gama delta alfa beta lambda tempo_base js hs →
      x ∈ hs ∨ ∃ d : Demanda R, vs[x]? = some d ∧ d.tempo_solicitacao - tempo_base < delta := by
  intro js
  induction js with
  | nil => intro hs x hx; exact Or.inl (by simpa [agrupar] using hx)
  | cons j js ih =>
    intro hs x
    unfold agrupar
    by_cases hlt : (hs.length : Int) < eta
    · rw [if_pos hlt]
      cases hvj : vs[j]? with
      | none => exact fun hx => Or.inl hx
      | some dj =>
        simp only
        by_cases hest : dj.estado ≠ .DEMANDADA
        · rw [if_pos hest]; exact ih hs x
        · rw [if_neg hest]
          by_cases hdiff : dj.tempo_solicitacao - tempo_base ≥ delta
          · rw [if_pos hdiff]; exact fun hx => Or.inl hx
          · rw [if_neg hdiff]
            by_cases hcomp : (!compativel sqrt (membros vs hs) dj alfa beta) = true
            · rw [if_pos hcomp]; exact ih hs x
            · rw [if_neg hcomp]
              by_cases hlam : eficienciaDe sqrt gama (membros vs (hs ++ [j])) < lambda
              · rw [if_pos hlam]; exact fun hx => Or.inl hx
              · rw [if_neg hlam]
                intro hx
                rcases ih (hs ++ [j]) x hx with h | h
                · rcases List.mem_append.mp h with h1 | h1
                  · exact Or.inl h1
                  · rw [List.mem_singleton.mp h1]
                    exact Or.inr ⟨dj, hvj, not_le.mp hdiff⟩
                · exact Or.inr h
    · rw [if_neg hlt]; exact fun hx => Or.inl hx

theorem agrupar_compativeis (vs : List (Demanda R)) (eta : Int)
    (gama delta alfa beta lambda tempo_base : R) :
    ∀ (js hs : List Nat), Compativeis sqrt vs alfa beta hs →
      Compativeis sqrt vs alfa beta
        (agrupar sqrt vs eta gama delta alfa beta lambda tempo_base js hs) := by
  intro js
  induction js with
  | nil => intro hs h; simpa [agrupar] using h
  | cons j js ih =>
    intro hs hc
    unfold agrupar
    by_cases hlt : (hs.length : Int) < eta
    · rw [if_pos hlt]
      cases hvj : vs[j]? with
      | none => exact hc
      | some dj =>
        simp only
        by_cases hest : dj.estado ≠ .DEMANDADA
        · rw [if_pos hest]; exact ih hs hc
        · rw [if_neg hest]
          by_cases hdiff : dj.tempo_solicitacao - tempo_base ≥ delta
          · rw [if_pos hdiff]; exact hc
          · rw [if_neg hdiff]
            by_cases hcomp : (!compativel sqrt (membros vs hs) dj alfa beta) = true
            · rw [if_pos hcomp]; exact ih hs hc
            · rw [if_neg hcomp]
              by_cases hlam : eficienciaDe sqrt gama (membros vs (hs ++ [j])) < lambda
              · rw [if_pos hlam]; exact hc
              · rw [if_neg hlam]
                apply ih
                unfold Compativeis
                rw [List.pairwise_append]
                refine ⟨hc, List.pairwise_singleton _ _, ?_⟩
                intro a ha b hb da db hda hdb
                rw [List.mem_singleton.mp hb, hvj] at hdb
                rw [← Option.some.inj hdb]
                have hct : compativel sqrt (membros vs hs) dj alfa beta = true := by
                  simpa using hcomp
                exact compativel_mem sqrt _ dj alfa beta hct da (mem_membros vs hs a da ha hda)
    · rw [if_neg hlt]; exact hc

theorem agrupar_eficiente (vs : List (Demanda R)) (eta : Int)
    (gama delta alfa beta lambda tempo_base : R) :
    ∀ (js hs : List Nat),
      agrupar sqrt vs eta gama delta alfa beta lambda tempo_base js hs = hs
      ∨ ¬ (eficienciaDe sqrt gama
            (membros vs (agrupar sqrt vs eta gama delta alfa beta lambda tempo_base js hs))
          < lambda) := by
  intro js
  induction js with
  | nil => intro hs; exact Or.inl (by simp [agrupar])
  | cons j js ih =>
    intro hs
    unfold agrupar
    by_cases hlt : (hs.length : Int) < eta
    · rw [if_pos hlt]
      cases hvj : vs[j]? with
      | none => exact Or.inl rfl
      | some dj =>
        simp only
        by_cases hest : dj.estado ≠ .DEMANDADA
        · rw [if_pos hest]; exact ih hs
        · rw [if_neg hest]
          by_cases hdiff : dj.tempo_solicitacao - tempo_base ≥ delta
          · rw [if_pos hdiff]; exact Or.inl rfl
          · rw [if_neg hdiff]
            by_cases hcomp : (!compativel sqrt (membros vs hs) dj alfa beta) = true
            · rw [if_pos hcomp]; exact ih hs
            · rw [if_neg hcomp]
              by_cases hlam : eficienciaDe sqrt gama (membros vs (hs ++ [j])) < lambda
              · rw [if_pos hlam]; exact Or.inl rfl
              · rw [if_neg hlam]
                rcases ih (hs ++ [j]) with h | h
                · rw [h]; exact Or.inr hlam
                · exact Or.inr h
    · rw [if_neg hlt]; exact Or.inl rfl

end

section
variable {R : Type} [LinearOrderedField R] (sqrt : R → R)
theorem paradasDe_map_marca (estado : EstadoDemanda) (corrida : Nat) (ms : List (Demanda R)) :
    paradasDe (ms.map (marca estado corrida)) = paradasDe ms := by
  unfold paradasDe
  simp only [List.map_map]
  rfl

theorem corridaDe_map_marca (gama : R) (estado : EstadoDemanda) (corrida : Nat)
    (ms : List (Demanda R)) :
    corridaDe sqrt gama (ms.map (marca estado corrida)) = corridaDe sqrt gama ms := by
  unfold corridaDe
  simp only [paradasDe_map_marca, List.length_map, List.map_map]
  rfl

theorem eficienciaDe_map_marca (gama : R) (estado : EstadoDemanda) (corrida : Nat)
    (ms : List (Demanda R)) :
    eficienciaDe sqrt gama (ms.map (marca estado corrida)) = eficienciaDe sqrt gama ms := by
  unfold eficienciaDe
  simp only [corridaDe_map_marca, List.map_map]
  rfl

theorem corridaFinal_map_marca (gama : R) (estado : EstadoDemanda) (corrida : Nat)
    (ms : List (Demanda R)) :
    corridaFinal sqrt gama (ms.map (marca estado corrida)) = corridaFinal sqrt gama ms := by
  unfold corridaFinal
  rw [corridaDe_map_marca, eficienciaDe_map_marca]

theorem membros_congr (vs vs1 : List (Demanda R)) (g : List Nat)
    (h : ∀ j ∈ g, vs1[j]? = vs[j]?) : membros vs1 g = membros vs g := by
  unfold membros
  induction g with
  | nil => rfl
  | cons a g ih =>
    rw [List.filterMap_cons, List.filterMap_cons, h a (List.mem_cons_self _ _),
      ih fun j hj => h j (List.mem_cons_of_mem _ hj)]

theorem membros_marcar (vs : List (Demanda R)) (hs : List Nat) (estado : EstadoDemanda)
    (corrida : Nat) :
    membros (marcar vs hs estado corrida) hs = (membros vs hs).map (marca estado corrida) := by
  unfold membros
  rw [List.map_filterMap]
  apply List.filterMap_congr
  intro j hj
  rw [getElem?_marcar]
  cases vs[j]? with
  | none => rfl
  | some d => simp [hj]

end

section
variable {R : Type} [LinearOrderedField R] (sqrt : R → R)

theorem grupoDaCorrida_congr (e : Entrada R) (vs vs1 : List (Demanda R)) (h : Nat)
    (g : List Nat) (c : Corrida R) (hl : vs1.length = vs.length)
    (hg : ∀ j ∈ g, vs1[j]? = vs[j]?) (hgr : GrupoDaCorrida sqrt e vs h g c) :
    GrupoDaCorrida sqrt e vs1 h g c := by
  constructor
  · exact hgr.nao_vazio
  · exact hgr.crescente
  · rw [hl]; exact hgr.validos
  · exact hgr.capacidade
  · rw [membros_congr vs vs1 g hg]; exact hgr.corrida_eq
  · intro j hj d hd
    rw [hg j hj] at hd
    exact hgr.membro j hj d hd
  · intro a resto hgeq da hda j hj dj hdj
    rw [hg a (by rw [hgeq]; exact List.mem_cons_self _ _)] at hda
    rw [hg j (by rw [hgeq]; exact List.mem_cons_of_mem _ hj)] at hdj
    exact hgr.janela a resto hgeq da hda j hj dj hdj
  · unfold Compativeis
    refine hgr.compativeis.imp_of_mem ?_
    intro a b ha hb hR da db hda hdb
    rw [hg a ha] at hda
    rw [hg b hb] at hdb
    exact hR da db hda hdb
  · rw [membros_congr vs vs1 g hg]; exact hgr.eficiente

theorem grupoDaCorrida_novo (e : Entrada R) (vs : List (Demanda R)) (i nc : Nat)
    (heta : 1 ≤ e.eta) (hN : vs.length = e.num_demandas.toNat) (hi : i < vs.length) :
    GrupoDaCorrida sqrt e
      (marcar vs (grupoDe sqrt e vs i vs[i]) (estadoDoGrupo (grupoDe sqrt e vs i vs[i])) nc)
      nc (grupoDe sqrt e vs i vs[i])
      (corridaFinal sqrt e.gama (membros vs (grupoDe sqrt e vs i vs[i]))) := by
  obtain ⟨novos, hg, hsub, hdem, hlen⟩ := grupoDe_eq sqrt e vs i vs[i] heta
  obtain ⟨hgne, hgv, _⟩ := grupoDe_spec sqrt e vs i vs[i] heta hN hi
  have hnovos_gt : ∀ x ∈ novos, i < x := by
    intro x hx
    have := hsub.subset hx
    rw [List.mem_range'] at this
    obtain ⟨k, _, rfl⟩ := this
    omega
  constructor
  · exact hgne
  · rw [hg]
    exact List.pairwise_cons.mpr ⟨hnovos_gt, (List.pairwise_lt_range' _ _).sublist hsub⟩
  · rw [length_marcar]; exact hgv
  · rw [hg]; exact hlen
  · rw [membros_marcar, corridaFinal_map_marca]
  · intro j hj d hd
    obtain ⟨d0, _, rfl⟩ := getElem?_marcar_some _ _ _ _ _ _ hd
    rw [if_pos hj]
    exact ⟨rfl, rfl⟩
  · intro a resto hgeq da hda j hj dj hdj
    rw [hg] at hgeq
    obtain ⟨h1, h2⟩ := List.cons.inj hgeq
    subst h1 h2
    have hig : i ∈ grupoDe sqrt e vs i vs[i] := by rw [hg]; exact List.mem_cons_self _ _
    obtain ⟨da0, hda0, rfl⟩ := getElem?_marcar_some _ _ _ _ _ _ hda
    obtain ⟨dj0, hdj0, rfl⟩ := getElem?_marcar_some _ _ _ _ _ _ hdj
    rw [List.getElem?_eq_getElem hi] at hda0
    have hda1 : vs[i] = da0 := Option.some.inj hda0
    have hjg : j ∈ grupoDe sqrt e vs i vs[i] := by rw [hg]; exact List.mem_cons_of_mem _ hj
    have key := agrupar_janela sqrt vs e.eta e.gama e.delta e.alfa e.beta e.lambda
      vs[i].tempo_solicitacao _ [i] j hjg
    rcases key with h | ⟨d, hd, hlt⟩
    · have := hnovos_gt j hj
      rw [List.mem_singleton.mp h] at this
      omega
    · rw [hdj0] at hd
      rw [← Option.some.inj hd, hda1] at hlt
      rw [if_pos hig, if_pos hjg]
      exact hlt
  · have key := agrupar_compativeis sqrt vs e.eta e.gama e.delta e.alfa e.beta e.lambda
      vs[i].tempo_solicitacao (List.range' (i + 1) (e.num_demandas.toNat - (i + 1))) [i]
      (List.pairwise_singleton _ _)
    unfold Compativeis
    refine List.Pairwise.imp_of_mem ?_ key
    intro a b ha hb hR da db hda hdb
    obtain ⟨da0, hda0, rfl⟩ := getElem?_marcar_some _ _ _ _ _ _ hda
    obtain ⟨db0, hdb0, rfl⟩ := getElem?_marcar_some _ _ _ _ _ _ hdb
    rw [if_pos ha, if_pos hb]
    exact hR da0 db0 hda0 hdb0
  · rcases agrupar_eficiente sqrt vs e.eta e.gama e.delta e.alfa e.beta e.lambda
      vs[i].tempo_solicitacao (List.range' (i + 1) (e.num_demandas.toNat - (i + 1))) [i]
      with h | h
    · left
      unfold grupoDe
      rw [h]; rfl
    · right
      rw [membros_marcar, eficienciaDe_map_marca]
      exact h

end

section
variable {R : Type} [LinearOrderedField R] (sqrt : R → R)

theorem getElem?_append_of_some {α : Type} (l r : List α) (k : Nat) (x : α)
    (h : l[k]? = some x) : (l ++ r)[k]? = some x := by
  by_cases hk : k < l.length
  · rw [List.getElem?_append_left hk]; exact h
  · rw [List.getElem?_eq_none (by omega)] at h
    cases h

theorem invConstrucao_unico (e : Entrada R) (s : Simulacao R) (vs : List (Demanda R))
    (cs : List (Corrida R)) (xs es : List (Evento R))
    (hinv : InvConstrucao sqrt e s vs cs xs es) (vs1 : List (Demanda R))
    (cs1 : List (Corrida R)) (k : Nat) (hd : s.demandas = vs1.map some)
    (hc : s.corridas = cs1.map some ++ novoArr k) (hl : cs1.length = s.num_corridas) :
    vs = vs1 ∧ cs = cs1 := by
  constructor
  · have h := hinv.demandas_eq
    rw [hd] at h
    exact ((List.map_injective_iff.mpr (Option.some_injective _)) h).symm
  · have h := hinv.corridas_eq
    rw [hc] at h
    have h1 := List.append_inj_left h (by
      simp only [List.length_map]; rw [hl, hinv.num_corridas_eq])
    exact ((List.map_injective_iff.mpr (Option.some_injective _)) h1).symm

theorem invGrupos_inicial (e : Entrada R) : InvGrupos sqrt e 0 (demandasLidas e) [] [] := by
  constructor
  · rfl
  · intro h g hg; simp at hg
  · intro j d h hd hda
    rw [(demandasLidas_novas e j d hd).2] at hda
    cases hda
  · intro j d hj; omega
  · intro j d hd hne
    exact absurd (demandasLidas_novas e j d hd).1 hne
  · intro g hg; simp at hg
  · exact List.Pairwise.nil

end

section
variable {R : Type} [LinearOrderedField R] (sqrt : R → R)

theorem invGrupos_nova (e : Entrada R) (heta : 1 ≤ e.eta) (i : Nat)
    (vs : List (Demanda R)) (cs : List (Corrida R)) (gs : List (List Nat))
    (hN : vs.length = e.num_demandas.toNat)
    (hgs : InvGrupos sqrt e i vs cs gs) (hi : i < vs.length)
    (hest : vs[i].estado = .DEMANDADA) :
    InvGrupos sqrt e (i + 1)
      (marcar vs (grupoDe sqrt e vs i vs[i]) (estadoDoGrupo (grupoDe sqrt e vs i vs[i]))
        cs.length)
      (cs ++ [corridaFinal sqrt e.gama (membros vs (grupoDe sqrt e vs i vs[i]))])
      (gs ++ [grupoDe sqrt e vs i vs[i]]) := by
  obtain ⟨novos, hg, hsub, hdem, hlen⟩ := grupoDe_eq sqrt e vs i vs[i] heta
  have hnovos_gt : ∀ x ∈ novos, i < x := by
    intro x hx
    have := hsub.subset hx
    rw [List.mem_range'] at this
    obtain ⟨k, _, rfl⟩ := this
    omega
  have hdemg : ∀ x ∈ grupoDe sqrt e vs i vs[i], ∃ d, vs[x]? = some d ∧ d.estado = .DEMANDADA := by
    intro x hx
    rw [hg] at hx
    rcases List.mem_cons.mp hx with h | h
    · subst h
      exact ⟨vs[x], List.getElem?_eq_getElem hi, hest⟩
    · exact hdem x h
  have hi_mem : i ∈ grupoDe sqrt e vs i vs[i] := by rw [hg]; exact List.mem_cons_self _ _
  have hne := estadoDoGrupo_ne (grupoDe sqrt e vs i vs[i])
  have hgl := hgs.grupos_length
  have hnovo : (gs ++ [grupoDe sqrt e vs i vs[i]])[cs.length]?
      = some (grupoDe sqrt e vs i vs[i]) := by
    rw [← hgl, List.getElem?_append_right (le_refl _)]
    simp
  constructor
  · simp only [List.length_append, List.length_singleton, hgl]
  · intro h g1 hg1
    rcases getElem?_append_singleton_some _ _ _ _ hg1 with ⟨hlt, h1⟩ | ⟨h1, h2⟩
    · obtain ⟨c, hc, hgr⟩ := hgs.grupo h g1 h1
      refine ⟨c, getElem?_append_of_some _ _ _ _ hc, ?_⟩
      refine grupoDaCorrida_congr sqrt e vs _ h g1 c (length_marcar _ _ _ _) ?_ hgr
      intro j hj
      rw [getElem?_marcar]
      have hjl := hgr.validos j hj
      rw [List.getElem?_eq_getElem hjl]
      have hjn : j ∉ grupoDe sqrt e vs i vs[i] := by
        intro hm
        obtain ⟨d, hd, hde⟩ := hdemg j hm
        have := (hgr.membro j hj d hd).1
        rw [hde] at this
        exact estadoDoGrupo_ne g1 this.symm
      simp [hjn]
    · subst h2
      rw [h1, hgl]
      refine ⟨_, ?_, grupoDaCorrida_novo sqrt e vs i cs.length heta hN hi⟩
      rw [List.getElem?_append_right (le_refl _)]
      simp
  · intro j d h hd hda
    obtain ⟨d0, hd0, rfl⟩ := getElem?_marcar_some _ _ _ _ _ _ hd
    by_cases hm : j ∈ grupoDe sqrt e vs i vs[i]
    · rw [if_pos hm] at hda
      have : cs.length = h := Option.some.inj hda
      rw [← this]
      exact ⟨_, hnovo, hm⟩
    · rw [if_neg hm] at hda
      obtain ⟨g0, hg0, hj⟩ := hgs.associada j d0 h hd0 hda
      exact ⟨g0, getElem?_append_of_some _ _ _ _ hg0, hj⟩
  · intro j d hj hd
    obtain ⟨d0, hd0, rfl⟩ := getElem?_marcar_some _ _ _ _ _ _ hd
    by_cases hm : j ∈ grupoDe sqrt e vs i vs[i]
    · rw [if_pos hm]; exact hne
    · rw [if_neg hm]
      have hji : j ≠ i := fun h => hm (h ▸ hi_mem)
      exact hgs.processadas j d0 (by omega) hd0
  · intro j d hd hde
    obtain ⟨d0, hd0, rfl⟩ := getElem?_marcar_some _ _ _ _ _ _ hd
    by_cases hm : j ∈ grupoDe sqrt e vs i vs[i]
    · rw [if_pos hm]; exact ⟨cs.length, rfl⟩
    · rw [if_neg hm] at hde ⊢
      exact hgs.atendida j d0 hd0 hde
  · intro g1 hg1 a ha
    rcases List.mem_append.mp hg1 with h | h
    · have := hgs.ancoras g1 h a ha
      omega
    · rw [List.mem_singleton.mp h, hg] at ha
      have : i = a := Option.some.inj ha
      omega
  · rw [List.pairwise_append]
    refine ⟨hgs.ancoras_crescentes, List.pairwise_singleton _ _, ?_⟩
    intro g0 hg0 g1 hg1 a a1 ha ha1
    rw [List.mem_singleton.mp hg1, hg] at ha1
    have h1 : i = a1 := Option.some.inj ha1
    have := hgs.ancoras g0 hg0 a ha
    omega

theorem formarCorrida_grupos (e : Entrada R) (heta : 1 ≤ e.eta) (i : Nat)
    (s : Simulacao R) (vs : List (Demanda R)) (cs : List (Corrida R))
    (xs es : List (Evento R)) (gs : List (List Nat))
    (hinv : InvConstrucao sqrt e s vs cs xs es) (hgs : InvGrupos sqrt e i vs cs gs)
    (hnc : s.num_corridas ≤ i) (hi : i < vs.length) :
    ∃ (s1 : Simulacao R) (vs1 : List (Demanda R)) (cs1 : List (Corrida R))
      (xs1 es1 : List (Evento R)) (gs1 : List (List Nat)),
      formarCorrida sqrt e i s = .ok s1 ∧ InvConstrucao sqrt e s1 vs1 cs1 xs1 es1
        ∧ InvGrupos sqrt e (i + 1) vs1 cs1 gs1 ∧ s1.num_corridas ≤ i + 1 := by
  by_cases hest : vs[i].estado = .DEMANDADA
  swap
  · refine ⟨s, vs, cs, xs, es, gs, formarCorrida_pula sqrt e i s vs hinv.demandas_eq hi hest,
      hinv, ?_, by omega⟩
    constructor
    · exact hgs.grupos_length
    · exact hgs.grupo
    · exact hgs.associada
    · intro j d hj hd
      by_cases hji : j = i
      · subst hji
        rw [List.getElem?_eq_getElem hi] at hd
        rw [← Option.some.inj hd]
        exact hest
      · exact hgs.processadas j d (by omega) hd
    · exact hgs.atendida
    · intro g hg a ha
      have := hgs.ancoras g hg a ha
      omega
    · exact hgs.ancoras_crescentes
  obtain ⟨s1, vs1, cs1, xs1, es1, hf, hinv1, hnc1⟩ := formarCorrida_invariante sqrt e heta i s
    vs cs xs es hinv hnc hi
  obtain ⟨esc, ys, hform, _, _, _, _⟩ := formarCorrida_nova sqrt e i s vs cs xs heta
    hinv.num_demandas_eq hi hinv.demandas_eq hinv.corridas_eq hinv.num_corridas_eq (by omega)
    hinv.representa hest
  rw [hf] at hform
  have hs1 := Except.ok.inj hform
  obtain ⟨hv, hc⟩ := invConstrucao_unico sqrt e s1 vs1 cs1 xs1 es1 hinv1
    (marcar vs (grupoDe sqrt e vs i vs[i]) (estadoDoGrupo (grupoDe sqrt e vs i vs[i]))
      s.num_corridas)
    (cs ++ [corridaFinal sqrt e.gama (membros vs (grupoDe sqrt e vs i vs[i]))])
    (vs.length - (cs.length + 1)) (by rw [hs1]) (by rw [hs1])
    (by rw [hs1]; simp only [List.length_append, List.length_singleton,
      hinv.num_corridas_eq])
  refine ⟨s1, vs1, cs1, xs1, es1, gs ++ [grupoDe sqrt e vs i vs[i]], hf, hinv1, ?_, hnc1⟩
  rw [hv, hc, ← hinv.num_corridas_eq]
  exact invGrupos_nova sqrt e heta i vs cs gs hinv.num_demandas_eq hgs hi hest

theorem construcaoDasCorridas_grupos (e : Entrada R) (heta : 1 ≤ e.eta)
    (hpos : 0 < e.num_demandas) (hreg : e.num_demandas.toNat ≤ e.registros.length) :
    ∃ (s : Simulacao R) (vs : List (Demanda R)) (cs : List (Corrida R))
      (xs es : List (Evento R)) (gs : List (List Nat)),
      construcaoDasCorridas sqrt e ((demandasLidas e).map some) = .ok s
        ∧ InvConstrucao sqrt e s vs cs xs es
        ∧ InvGrupos sqrt e e.num_demandas.toNat vs cs gs := by
  unfold construcaoDasCorridas
  obtain ⟨s1, h1, vs, cs, xs, es, gs, hinv, hgs, _⟩ := repetir_invariante (formarCorrida sqrt e)
    (fun i s => ∃ vs cs xs es gs, InvConstrucao sqrt e s vs cs xs es
      ∧ InvGrupos sqrt e i vs cs gs ∧ s.num_corridas ≤ i)
    e.num_demandas.toNat _
    ⟨_, _, _, _, _, invConstrucao_inicial sqrt e hpos hreg, invGrupos_inicial sqrt e, le_refl _⟩
    (by
      intro i s hi ⟨vs, cs, xs, es, gs, hinv, hgs, hnc⟩
      obtain ⟨s1, vs1, cs1, xs1, es1, gs1, hf, hinv1, hgs1, hnc1⟩ := formarCorrida_grupos sqrt e
        heta i s vs cs xs es gs hinv hgs hnc (by rw [hinv.num_demandas_eq]; exact hi)
      exact ⟨s1, hf, vs1, cs1, xs1, es1, gs1, hinv1, hgs1, hnc1⟩)
  exact ⟨s1, vs, cs, xs, es, gs, h1, hinv, hgs⟩

end

/-! ## The members of the rides in the final state of the matching phase -/

section
variable {R : Type} [LinearOrderedField R] (sqrt : R → R)

theorem ler_map_some_inv {α : Type} (l : List α) (k : Nat) (x : α)
    (h : ler (l.map some) k = .ok x) : l[k]? = some x := by
  rw [ler_eq_ok, List.getElem?_map] at h
  cases hl : l[k]? with
  | none => rw [hl] at h; cases h
  | some y =>
    rw [hl] at h
    exact congrArg some (Option.some.inj (Option.some.inj h))

theorem ler_of_getElem? {α : Type} (l : List α) (resto : Arr α) (k : Nat) (x : α)
    (h : l[k]? = some x) : ler (l.map some ++ resto) k = .ok x := by
  by_cases hk : k < l.length
  · rw [List.getElem?_eq_getElem hk] at h
    rw [← Option.some.inj h]
    exact ler_map_some_append l resto k hk
  · rw [List.getElem?_eq_none (by omega)] at h
    cases h

theorem forall2_membros (vs : List (Demanda R)) (g : List Nat)
    (hv : ∀ j ∈ g, j < vs.length) :
    List.Forall₂ (fun j d => ler (vs.map some) j = .ok d) g (membros vs g) := by
  induction g with
  | nil => exact List.Forall₂.nil
  | cons a g ih =>
    have ha := hv a (List.mem_cons_self _ _)
    have : membros vs (a :: g) = vs[a] :: membros vs g := by
      unfold membros
      rw [List.filterMap_cons, List.getElem?_eq_getElem ha]
    rw [this]
    exact List.Forall₂.cons (ler_map_some vs a ha)
      (ih fun j hj => hv j (List.mem_cons_of_mem _ hj))

theorem length_membros (vs : List (Demanda R)) (g : List Nat)
    (hv : ∀ j ∈ g, j < vs.length) : (membros vs g).length = g.length :=
  (forall2_membros vs g hv).length_eq.symm

theorem pairwise_lt_rel (rel : Nat → Nat → Prop) (g : List Nat)
    (hlt : g.Pairwise fun a b => a < b) (hR : g.Pairwise rel) (a b : Nat) (ha : a ∈ g)
    (hb : b ∈ g) (hab : a < b) : rel a b := by
  induction g with
  | nil => cases ha
  | cons x g ih =>
    rw [List.pairwise_cons] at hlt hR
    rcases List.mem_cons.mp ha with h1 | h1
    · rcases List.mem_cons.mp hb with h2 | h2
      · omega
      · rw [h1]; exact hR.1 b h2
    · rcases List.mem_cons.mp hb with h2 | h2
      · have := hlt.1 a h1
        omega
      · exact ih hlt.2 hR.2 h1 h2

theorem membro_iff (e : Entrada R) (i : Nat) (vs : List (Demanda R)) (cs : List (Corrida R))
    (gs : List (List Nat)) (hgs : InvGrupos sqrt e i vs cs gs) (h : Nat) (g : List Nat)
    (hg : gs[h]? = some g) (j : Nat) (d : Demanda R) (hd : vs[j]? = some d) :
    d.corrida_associada = some h ↔ j ∈ g := by
  constructor
  · intro hda
    obtain ⟨g1, hg1, hj⟩ := hgs.associada j d h hd hda
    rw [hg] at hg1
    rw [Option.some.inj hg1]
    exact hj
  · intro hj
    obtain ⟨c, _, hgr⟩ := hgs.grupo h g hg
    exact (hgr.membro j hj d hd).2

theorem membrosDe_final (e : Entrada R) (i : Nat) (s : Simulacao R) (vs : List (Demanda R))
    (cs : List (Corrida R)) (xs es : List (Evento R)) (gs : List (List Nat))
    (hinv : InvConstrucao sqrt e s vs cs xs es) (hgs : InvGrupos sqrt e i vs cs gs)
    (h : Nat) (g : List Nat) (hg : gs[h]? = some g) :
    ∃ c : Corrida R, ler s.corridas h = .ok c ∧ GrupoDaCorrida sqrt e vs h g c
      ∧ MembrosDe s h g (membros vs g) := by
  obtain ⟨c, hc, hgr⟩ := hgs.grupo h g hg
  refine ⟨c, ?_, hgr, ?_⟩
  · rw [hinv.corridas_eq]
    exact ler_of_getElem? cs _ h c hc
  · constructor
    · exact hgr.crescente
    · intro j d hd
      rw [hinv.demandas_eq] at hd
      exact membro_iff sqrt e i vs cs gs hgs h g hg j d (ler_map_some_inv vs j d hd)
    · rw [hinv.demandas_eq]
      exact forall2_membros vs g hgr.validos

theorem grupo_da_corrida (e : Entrada R) (i : Nat) (s : Simulacao R) (vs : List (Demanda R))
    (cs : List (Corrida R)) (xs es : List (Evento R)) (gs : List (List Nat))
    (hinv : InvConstrucao sqrt e s vs cs xs es) (hgs : InvGrupos sqrt e i vs cs gs)
    (h : Nat) (hh : h < s.num_corridas) : ∃ g : List Nat, gs[h]? = some g := by
  have : h < gs.length := by rw [hgs.grupos_length, hinv.num_corridas_eq]; exact hh
  exact ⟨gs[h], List.getElem?_eq_getElem this⟩

theorem calcularDistanciaOrigem_comm (d1 d2 : Demanda R) :
    d1.calcularDistanciaOrigem sqrt d2 = d2.calcularDistanciaOrigem sqrt d1 := by
  unfold Demanda.calcularDistanciaOrigem
  simp only []
  congr 1
  ring

theorem calcularDistanciaDestino_comm (d1 d2 : Demanda R) :
    d1.calcularDistanciaDestino sqrt d2 = d2.calcularDistanciaDestino sqrt d1 := by
  unfold Demanda.calcularDistanciaDestino
  simp only []
  congr 1
  ring

theorem distancia_total_um (gama : R) (d : Demanda R) :
    (corridaDe sqrt gama [d]).distancia_total = d.calcularDistanciaCorrida sqrt := by
  simp only [corridaDe, trechosDe, paradasDe, trechoEntre, Trecho.calcularTempoDistancia,
    Parada.calcularDistancia, Demanda.calcularDistanciaCorrida, List.map_cons, List.map_nil,
    List.cons_append, List.nil_append, List.tail_cons, List.zipWith_cons_cons,
    List.zipWith_nil_right, List.sum_cons, List.sum_nil, add_zero]
  congr 1
  ring

theorem eficienciaDe_um (gama : R) (d : Demanda R) : eficienciaDe sqrt gama [d] = 1 := by
  unfold eficienciaDe
  rw [distancia_total_um]
  split
  · rfl
  · rename_i h
    simp only [List.map_cons, List.map_nil, List.sum_cons, List.sum_nil, add_zero]
    exact div_self h

theorem estado_membros (e : Entrada R) (vs : List (Demanda R)) (h : Nat) (g : List Nat)
    (c : Corrida R) (hgr : GrupoDaCorrida sqrt e vs h g c) :
    c.num_demandas = (membros vs g).length ∧ c.num_demandas = g.length
      ∧ c.ids_demandas = ((membros vs g).map fun d => d.id).map some
      ∧ c.eficiencia = eficienciaDe sqrt e.gama (membros vs g)
      ∧ c.distancia_total = (corridaDe sqrt e.gama (membros vs g)).distancia_total
      ∧ ∀ d ∈ membros vs g, d.estado = estadoDoGrupo g ∧ d.corrida_associada = some h := by
  have hl := length_membros vs g hgr.validos
  refine ⟨by rw [hgr.corrida_eq]; rfl, by rw [hgr.corrida_eq, ← hl]; rfl,
    by rw [hgr.corrida_eq]; rfl, by rw [hgr.corrida_eq]; rfl, by rw [hgr.corrida_eq]; rfl, ?_⟩
  intro d hd
  unfold membros at hd
  obtain ⟨j, hj, hvj⟩ := List.mem_filterMap.mp hd
  exact hgr.membro j hj d hvj

end

/-! ## Sign of the efficiency, and concrete inputs -/

section
variable {R : Type} [LinearOrderedField R] (sqrt : R → R)

theorem mem_zipWith_exists {α β γ : Type} (f : α → β → γ) :
    ∀ (ps : List α) (qs : List β) (t : γ), t ∈ List.zipWith f ps qs → ∃ p q, t = f p q := by
  intro ps
  induction ps with
  | nil => intro qs t ht; simp at ht
  | cons p ps ih =>
    intro qs t ht
    cases qs with
    | nil => simp at ht
    | cons q qs =>
      rw [List.zipWith_cons_cons] at ht
      rcases List.mem_cons.mp ht with h | h
      · exact ⟨p, q, h⟩
      · exact ih qs t h

theorem distancia_total_nonneg (hsqrt : ∀ x, 0 ≤ sqrt x) (gama : R) (ms : List (Demanda R)) :
    0 ≤ (corridaDe sqrt gama ms).distancia_total := by
  simp only [corridaDe]
  apply List.sum_nonneg
  intro x hx
  obtain ⟨t, ht, rfl⟩ := List.mem_map.mp hx
  obtain ⟨p, q, rfl⟩ := mem_zipWith_exists _ _ _ t ht
  exact hsqrt _

theorem soma_individuais_nonneg (hsqrt : ∀ x, 0 ≤ sqrt x) (ms : List (Demanda R)) :
    ∀ x ∈ ms.map fun d => d.calcularDistanciaCorrida sqrt, 0 ≤ x := by
  intro x hx
  obtain ⟨d, _, rfl⟩ := List.mem_map.mp hx
  exact hsqrt _

theorem eficienciaDe_nonneg (hsqrt : ∀ x, 0 ≤ sqrt x) (gama : R) (ms : List (Demanda R)) :
    0 ≤ eficienciaDe sqrt gama ms := by
  unfold eficienciaDe
  split
  · exact zero_le_one
  · exact div_nonneg (List.sum_nonneg (soma_individuais_nonneg sqrt hsqrt ms))
      (distancia_total_nonneg sqrt hsqrt gama ms)

theorem eficienciaDe_pos (hsqrt : ∀ x, 0 ≤ sqrt x) (gama : R) (ms : List (Demanda R))
    (d : Demanda R) (hd : d ∈ ms) (hne : d.calcularDistanciaCorrida sqrt ≠ 0) :
    0 < eficienciaDe sqrt gama ms := by
  unfold eficienciaDe
  split
  · exact zero_lt_one
  · rename_i h0
    have hD := lt_of_le_of_ne (distancia_total_nonneg sqrt hsqrt gama ms) (Ne.symm h0)
    have hpos : 0 < d.calcularDistanciaCorrida sqrt := lt_of_le_of_ne (hsqrt _) (Ne.symm hne)
    have hle := List.single_le_sum (soma_individuais_nonneg sqrt hsqrt ms)
      (d.calcularDistanciaCorrida sqrt) (List.mem_map.mpr ⟨d, hd, rfl⟩)
    exact div_pos (lt_of_lt_of_le hpos hle) hD

theorem primeira_corrida {α : Type} (x : Except Erro (Simulacao ℚ))
    (f : Nat × Corrida ℚ → α) (v : α)
    (h : (x >>= fun s => (ler s.corridas 0).map fun c => f (s.num_corridas, c)) = .ok v) :
    ∃ (s : Simulacao ℚ) (c : Corrida ℚ), x = .ok s ∧ ler s.corridas 0 = .ok c
      ∧ f (s.num_corridas, c) = v := by
  cases x with
  | error err => cases h
  | ok s =>
    rw [ok_bind] at h
    cases hc : ler s.corridas 0 with
    | error err => rw [hc] at h; cases h
    | ok c =>
      rw [hc] at h
      exact ⟨s, c, rfl, hc, Except.ok.inj h⟩

end

theorem cenarioParado_valida : EntradaValida cenarioParado := by
  refine ⟨?_, by decide, by decide⟩
  simp [cenarioParado, validarParametros]
  norm_num

theorem cenarioA_valida : EntradaValida cenarioA := by
  refine ⟨?_, by decide, by decide⟩
  simp [cenarioA, validarParametros]
  norm_num

theorem raizExemplo_nonneg (x : ℚ) : 0 ≤ raizExemplo x := by
  unfold raizExemplo
  split <;> norm_num

theorem raizUnitaria_nonneg (x : ℚ) : 0 ≤ raizUnitaria x := by
  unfold raizUnitaria
  split <;> norm_num


section
variable {R : Type} [LinearOrderedField R] (sqrt : R → R)

theorem grupoDe_par (e : Entrada R) (d1 d2 : Demanda R)
    (hN : e.num_demandas = 2) (heta : 2 ≤ e.eta)
    (he1 : d1.estado = .DEMANDADA) (he2 : d2.estado = .DEMANDADA)
    (ho : d1.calcularDistanciaOrigem sqrt d2 ≤ e.alfa)
    (hd : d1.calcularDistanciaDestino sqrt d2 ≤ e.beta)
    (ht : d2.tempo_solicitacao - d1.tempo_solicitacao < e.delta)
    (hef : e.lambda ≤ eficienciaDe sqrt e.gama [d1, d2]) :
    grupoDe sqrt e [d1, d2] 0 d1 = [0, 1] := by
  unfold grupoDe
  rw [hN]
  have hr : List.range' (0 + 1) ((2 : Int).toNat - (0 + 1)) = [1] := rfl
  rw [hr]
  unfold agrupar
  rw [if_pos (by simp only [List.length_singleton, Nat.cast_one]; omega)]
  have h1 : ([d1, d2] : List (Demanda R))[1]? = some d2 := rfl
  simp only [h1]
  rw [if_neg (by simp [he2]), if_neg (not_le.mpr ht)]
  have hc : compativel sqrt (membros [d1, d2] [0]) d2 e.alfa e.beta = true := by
    simp [compativel, membros, not_lt.mpr ho, not_lt.mpr hd]
  rw [if_neg (by simp [hc])]
  have hm : membros [d1, d2] ([0] ++ [1]) = [d1, d2] := rfl
  rw [hm, if_neg (not_lt.mpr hef)]
  rfl

end

section
variable {R : Type} [LinearOrderedField R] (sqrt : R → R)

theorem construcao_par (e : Entrada R) (r1 r2 : Registro R) (resto : List (Registro R))
    (hreg : e.registros = r1 :: r2 :: resto) (hN : e.num_demandas = 2) (heta : 2 ≤ e.eta)
    (ho : (demandaDe r1).calcularDistanciaOrigem sqrt (demandaDe r2) ≤ e.alfa)
    (hd : (demandaDe r1).calcularDistanciaDestino sqrt (demandaDe r2) ≤ e.beta)
    (ht : r2.tempo - r1.tempo < e.delta)
    (hef : e.lambda ≤ eficienciaDe sqrt e.gama [demandaDe r1, demandaDe r2]) :
    ∃ s : Simulacao R,
      construcaoDasCorridas sqrt e ((demandasLidas e).map some) = .ok s
      ∧ s.num_corridas = 1
      ∧ s.corridas = [some (corridaFinal sqrt e.gama [demandaDe r1, demandaDe r2]), none]
      ∧ s.demandas = [some (marca .COMBINADA 0 (demandaDe r1)),
          some (marca .COMBINADA 0 (demandaDe r2))] := by
  have hvs : demandasLidas e = [demandaDe r1, demandaDe r2] := by
    unfold demandasLidas
    rw [hreg, hN]
    rfl
  have hpos : 0 < e.num_demandas := by omega
  have hreg1 : e.num_demandas.toNat ≤ e.registros.length := by
    rw [hreg, hN]
    simp
  have hinv := invConstrucao_inicial sqrt e hpos hreg1
  have hl : (demandasLidas e).length = 2 := by rw [hvs]; rfl
  obtain ⟨esc, ys, hform, _, _, _, _⟩ := formarCorrida_nova sqrt e 0 _ (demandasLidas e) [] []
    (by omega) hinv.num_demandas_eq (by omega) hinv.demandas_eq hinv.corridas_eq
    hinv.num_corridas_eq (by simp only; omega) hinv.representa
    (demandasLidas_novas e 0 _ (List.getElem?_eq_getElem (by omega))).1
  have hg : grupoDe sqrt e (demandasLidas e) 0 (demandasLidas e)[0] = [0, 1] := by
    have h0 : (demandasLidas e)[0] = demandaDe r1 := by simp only [hvs]; rfl
    rw [h0]
    simp only [hvs]
    exact grupoDe_par sqrt e _ _ hN heta rfl rfl ho hd ht hef
  rw [hg] at hform
  simp only [hvs] at hform
  unfold construcaoDasCorridas
  have h2 : e.num_demandas.toNat = 2 := by rw [hN]; rfl
  simp only [h2, hvs] at hform ⊢
  rw [repetir, repetir, repetir]
  simp only [ok_bind]
  rw [hform]
  simp only [ok_bind]
  rw [formarCorrida_pula sqrt e 1 _
    [marca .COMBINADA 0 (demandaDe r1), marca .COMBINADA 0 (demandaDe r2)] rfl
    (by simp) (by simp [marca, Demanda.setEstado, Demanda.setCorridaAssociada])]
  exact ⟨_, rfl, rfl, rfl, rfl⟩

end

theorem cenarioC_eficiencia :
    ∃ (c : Corrida ℚ) (ef : ℚ),
      construirCorrida raizExemplo [some (demandaDe ⟨1, 0, 0, 0, 0, 10⟩),
        some (demandaDe ⟨2, 1, 0, 0, 0, 10⟩)] 2 cenarioC.gama 0 = .ok c
      ∧ calcularEficienciaCorrida raizExemplo [some (demandaDe ⟨1, 0, 0, 0, 0, 10⟩),
          some (demandaDe ⟨2, 1, 0, 0, 0, 10⟩)] 2 c.distancia_total = .ok ef
      ∧ cenarioC.lambda ≤ ef := by
  have key : (construirCorrida raizExemplo [some (demandaDe ⟨1, 0, 0, 0, 0, 10⟩),
        some (demandaDe ⟨2, 1, 0, 0, 0, 10⟩)] 2 cenarioC.gama 0 >>= fun c =>
      calcularEficienciaCorrida raizExemplo [some (demandaDe ⟨1, 0, 0, 0, 0, 10⟩),
          some (demandaDe ⟨2, 1, 0, 0, 0, 10⟩)] 2 c.distancia_total) = .ok 2 := by decide!
  obtain ⟨c, hc, hef⟩ := bind_eq_ok.mp key
  exact ⟨c, 2, hc, hef, by norm_num [cenarioC]⟩


section
variable {R : Type} [LinearOrderedField R]

theorem calcularEficiencia_eq (c : Corrida R) (ds : List R) (resto : Arr R)
    (hn : c.num_demandas = ds.length) :
    c.calcularEficiencia (ds.map some ++ resto)
      = .ok (c.setEficiencia
          (if c.distancia_total = 0 then 1 else ds.sum / c.distancia_total)) := by
  unfold Corrida.calcularEficiencia
  by_cases h0 : c.distancia_total = 0
  · rw [if_pos h0, if_pos h0]
    rfl
  · rw [if_neg h0, if_neg h0]
    have key := repetir_trajetoria (fun i (soma : R) => do
        pure (soma + (← ler (ds.map some ++ resto) i)))
      (fun k => ((ds.take k).map id).sum) ds.length (by
        intro i hi
        simp only [ler_map_some_append ds resto i hi, ok_bind, pure_eq_ok,
          sum_map_take_succ _ _ _ hi, id])
    simp only [List.take_zero, List.map_nil, List.sum_nil, List.take_length, List.map_id] at key
    rw [← hn] at key
    rw [key]
    rfl

end

/-! ## Validation of the parameters -/

section
variable {R : Type} [LinearOrderedField R] (sqrt : R → R)

theorem validarParametros_erro (eta : Int) (gama delta alfa beta lambda : R) :
    validarParametros eta gama delta alfa beta lambda = .error .ParametroInvalido
      ↔ (eta ≤ 0 ∨ gama ≤ 0 ∨ delta < 0 ∨ alfa < 0 ∨ beta < 0 ∨ lambda < 0 ∨ lambda > 1) := by
  unfold validarParametros
  by_cases h1 : eta ≤ 0
  · simp [h1]
  by_cases h2 : gama ≤ 0
  · simp [h1, h2]
  by_cases h3 : delta < 0
  · simp [h1, h2, h3]
  by_cases h4 : alfa < 0
  · simp [h1, h2, h3, h4]
  by_cases h5 : beta < 0
  · simp [h1, h2, h3, h4, h5]
  by_cases h6 : lambda < 0 ∨ lambda > 1
  · rw [if_neg h1, if_neg h2, if_neg h3, if_neg h4, if_neg h5, if_pos h6]
    simp only [true_iff]
    right; right; right; right; right
    exact h6
  · rw [if_neg h1, if_neg h2, if_neg h3, if_neg h4, if_neg h5, if_neg h6]
    constructor
    · intro h; cases h
    · rintro (h | h | h | h | h | h)
      · exact absurd h h1
      · exact absurd h h2
      · exact absurd h h3
      · exact absurd h h4
      · exact absurd h h5
      · exact absurd h h6

theorem validarParametros_casos (eta : Int) (gama delta alfa beta lambda : R) :
    validarParametros eta gama delta alfa beta lambda = .error .ParametroInvalido
      ∨ validarParametros eta gama delta alfa beta lambda = .ok () := by
  unfold validarParametros
  split
  · exact Or.inl rfl
  split
  · exact Or.inl rfl
  split
  · exact Or.inl rfl
  split
  · exact Or.inl rfl
  split
  · exact Or.inl rfl
  split
  · exact Or.inl rfl
  exact Or.inr rfl

end

/-! ## The matching phase, one outer iteration at a time -/

section
variable {R : Type} [LinearOrderedField R] (sqrt : R → R)

theorem agrupar_append (vs : List (Demanda R)) (eta : Int)
    (gama delta alfa beta lambda tempo_base : R) (resto : List Nat) :
    ∀ (pre hs : List Nat),
      agrupar sqrt vs eta gama delta alfa beta lambda tempo_base (pre ++ resto) hs
        = agrupar sqrt vs eta gama delta alfa beta lambda tempo_base pre hs
      ∨ agrupar sqrt vs eta gama delta alfa beta lambda tempo_base (pre ++ resto) hs
        = agrupar sqrt vs eta gama delta alfa beta lambda tempo_base resto
            (agrupar sqrt vs eta gama delta alfa beta lambda tempo_base pre hs) := by
  intro pre
  induction pre with
  | nil => intro hs; right; simp [agrupar]
  | cons p pre ih =>
    intro hs
    simp only [List.cons_append, agrupar]
    by_cases hlt : (hs.length : Int) < eta
    · simp only [if_pos hlt]
      cases hvp : vs[p]? with
      | none => left; rfl
      | some dp =>
        simp only
        by_cases hest : dp.estado ≠ .DEMANDADA
        · simp only [if_pos hest]; exact ih hs
        · simp only [if_neg hest]
          by_cases hdiff : dp.tempo_solicitacao - tempo_base ≥ delta
          · simp only [if_pos hdiff]; left; trivial
          · simp only [if_neg hdiff]
            by_cases hcomp : (!compativel sqrt (membros vs hs) dp alfa beta) = true
            · simp only [if_pos hcomp]; exact ih hs
            · simp only [if_neg hcomp]
              by_cases hlam : eficienciaDe sqrt gama (membros vs (hs ++ [p])) < lambda
              · simp only [if_pos hlam]; left; trivial
              · simp only [if_neg hlam]; exact ih (hs ++ [p])
    · simp only [if_neg hlt]; left; trivial

end

section
variable {R : Type} [LinearOrderedField R] (sqrt : R → R)

theorem formarCorrida_passo (e : Entrada R) (heta : 1 ≤ e.eta) (i : Nat)
    (s : Simulacao R) (vs : List (Demanda R)) (cs : List (Corrida R))
    (xs es : List (Evento R)) (gs : List (List Nat))
    (hinv : InvConstrucao sqrt e s vs cs xs es) (hgs : InvGrupos sqrt e i vs cs gs)
    (hnc : s.num_corridas ≤ i) (hi : i < vs.length) :
    ∃ (s1 : Simulacao R) (vs1 : List (Demanda R)) (cs1 : List (Corrida R))
      (xs1 es1 : List (Evento R)) (gs1 : List (List Nat)),
      formarCorrida sqrt e i s = .ok s1 ∧ InvConstrucao sqrt e s1 vs1 cs1 xs1 es1
        ∧ InvGrupos sqrt e (i + 1) vs1 cs1 gs1 ∧ s1.num_corridas ≤ i + 1
        ∧ ((vs[i].estado ≠ .DEMANDADA ∧ s1 = s ∧ vs1 = vs ∧ cs1 = cs)
          ∨ (vs[i].estado = .DEMANDADA
            ∧ vs1 = marcar vs (grupoDe sqrt e vs i vs[i])
                (estadoDoGrupo (grupoDe sqrt e vs i vs[i])) s.num_corridas
            ∧ cs1 = cs ++ [corridaFinal sqrt e.gama (membros vs (grupoDe sqrt e vs i vs[i]))]
            ∧ s1.num_corridas = s.num_corridas + 1)) := by
  obtain ⟨s1, vs1, cs1, xs1, es1, gs1, hf, hinv1, hgs1, hnc1⟩ := formarCorrida_grupos sqrt e heta
    i s vs cs xs es gs hinv hgs hnc hi
  refine ⟨s1, vs1, cs1, xs1, es1, gs1, hf, hinv1, hgs1, hnc1, ?_⟩
  by_cases hest : vs[i].estado = .DEMANDADA
  swap
  · left
    have hp := formarCorrida_pula sqrt e i s vs hinv.demandas_eq hi hest
    rw [hf] at hp
    have hs1 := Except.ok.inj hp
    obtain ⟨hv, hc⟩ := invConstrucao_unico sqrt e s1 vs1 cs1 xs1 es1 hinv1 vs cs
      (vs.length - cs.length) (by rw [hs1]; exact hinv.demandas_eq)
      (by rw [hs1]; exact hinv.corridas_eq) (by rw [hs1]; exact hinv.num_corridas_eq)
    exact ⟨hest, hs1, hv, hc⟩
  · right
    obtain ⟨esc, ys, hform, _, _, _, _⟩ := formarCorrida_nova sqrt e i s vs cs xs heta
      hinv.num_demandas_eq hi hinv.demandas_eq hinv.corridas_eq hinv.num_corridas_eq (by omega)
      hinv.representa hest
    rw [hf] at hform
    have hs1 := Except.ok.inj hform
    obtain ⟨hv, hc⟩ := invConstrucao_unico sqrt e s1 vs1 cs1 xs1 es1 hinv1
      (marcar vs (grupoDe sqrt e vs i vs[i]) (estadoDoGrupo (grupoDe sqrt e vs i vs[i]))
        s.num_corridas)
      (cs ++ [corridaFinal sqrt e.gama (membros vs (grupoDe sqrt e vs i vs[i]))])
      (vs.length - (cs.length + 1)) (by rw [hs1]) (by rw [hs1])
      (by rw [hs1]; simp only [List.length_append, List.length_singleton,
        hinv.num_corridas_eq])
    exact ⟨hest, hv, hc, by rw [hs1]⟩

theorem tempos_marcar (vs : List (Demanda R)) (hs : List Nat) (estado : EstadoDemanda)
    (corrida : Nat) :
    (marcar vs hs estado corrida).map (fun d => d.tempo_solicitacao)
      = vs.map fun d => d.tempo_solicitacao := by
  apply List.ext_getElem?
  intro j
  rw [List.getElem?_map, List.getElem?_map, getElem?_marcar]
  cases vs[j]? with
  | none => rfl
  | some d =>
    by_cases hm : j ∈ hs
    · simp [hm, marca, Demanda.setEstado, Demanda.setCorridaAssociada]
    · simp [hm]

theorem prefixo_construcao (e : Entrada R) (heta : 1 ≤ e.eta)
    (hpos : 0 < e.num_demandas) (hreg : e.num_demandas.toNat ≤ e.registros.length)
    (k : Nat) (hk : k ≤ e.num_demandas.toNat) :
    ∃ (s : Simulacao R) (vs : List (Demanda R)) (cs : List (Corrida R))
      (xs es : List (Evento R)) (gs : List (List Nat)),
      repetir (formarCorrida sqrt e) k
          { demandas := (demandasLidas e).map some
            corridas := novoArr e.num_demandas.toNat
            num_corridas := 0
            escalonador := (Escalonador.novo (e.num_demandas.toNat * 10)).inicializa }
        = .ok s
      ∧ InvConstrucao sqrt e s vs cs xs es ∧ InvGrupos sqrt e k vs cs gs
      ∧ s.num_corridas ≤ k
      ∧ vs.map (fun d => d.tempo_solicitacao)
          = (demandasLidas e).map fun d => d.tempo_solicitacao := by
  obtain ⟨s1, h1, vs, cs, xs, es, gs, hinv, hgs, hnc, ht⟩ := repetir_invariante
    (formarCorrida sqrt e)
    (fun i s => ∃ vs cs xs es gs, InvConstrucao sqrt e s vs cs xs es
      ∧ InvGrupos sqrt e i vs cs gs ∧ s.num_corridas ≤ i
      ∧ vs.map (fun d => d.tempo_solicitacao)
          = (demandasLidas e).map fun d => d.tempo_solicitacao)
    k _
    ⟨_, _, _, _, _, invConstrucao_inicial sqrt e hpos hreg, invGrupos_inicial sqrt e, le_refl _,
      rfl⟩
    (by
      intro i s hi ⟨vs, cs, xs, es, gs, hinv, hgs, hnc, ht⟩
      obtain ⟨s1, vs1, cs1, xs1, es1, gs1, hf, hinv1, hgs1, hnc1, hcasos⟩ :=
        formarCorrida_passo sqrt e heta i s vs cs xs es gs hinv hgs hnc
          (by rw [hinv.num_demandas_eq]; omega)
      refine ⟨s1, hf, vs1, cs1, xs1, es1, gs1, hinv1, hgs1, hnc1, ?_⟩
      rcases hcasos with ⟨_, _, hv, _⟩ | ⟨_, hv, _, _⟩
      · rw [hv]; exact ht
      · rw [hv, tempos_marcar]; exact ht)
  exact ⟨s1, vs, cs, xs, es, gs, h1, hinv, hgs, hnc, ht⟩

end

section
variable {R : Type} [LinearOrderedField R] (sqrt : R → R)

/-- Inner loop of the matching phase: with the cluster below capacity, when the candidate `j` is
`DEMANDADA`, inside the time window and accepted by
`verificarCriteriosCompartilhamento`, but the ride built with `j` has an efficiency
below `lambda`, the inner loop ends at once, whatever candidates `js` remain: it returns
`num_demandas_corrida` unchanged and an array whose first `num_demandas_corrida` slots
are unchanged. -/
theorem tentarCombinar_rejeita (demandas : Arr (Demanda R)) (eta : Int)
    (gama delta alfa beta lambda tempo_base : R) (demandas_corrida : Arr Nat) (num : Nat)
    (j : Nat) (js : List Nat) (dj : Demanda R) (demandas_corrida1 : Arr Nat)
    (corrida_temp : Corrida R) (eficiencia : R)
    (hcap : (num : Int) < eta) (hj : ler demandas j = .ok dj)
    (hest : dj.estado = .DEMANDADA) (htempo : dj.tempo_solicitacao - tempo_base < delta)
    (hver : verificarCriteriosCompartilhamento sqrt (apontadas demandas demandas_corrida) num dj
      alfa beta = .ok true)
    (hgr : gravar demandas_corrida num j = .ok demandas_corrida1)
    (hcc : construirCorrida sqrt (apontadas demandas demandas_corrida1) ((num + 1 : Nat) : Int)
      gama tempo_base = .ok corrida_temp)
    (hef : calcularEficienciaCorrida sqrt (apontadas demandas demandas_corrida1) (num + 1)
      corrida_temp.distancia_total = .ok eficiencia)
    (hlam : eficiencia < lambda) :
    tentarCombinar sqrt demandas eta gama delta alfa beta lambda tempo_base (j :: js)
        (demandas_corrida, num) = .ok (demandas_corrida1, num)
    ∧ ∀ k, k < num → demandas_corrida1[k]? = demandas_corrida[k]? := by
  constructor
  · rw [tentarCombinar]
    rw [if_pos hcap]
    simp only [hj, ok_bind]
    rw [if_neg (by simp [hest]), if_neg (not_le.mpr htempo)]
    simp only [hver, ok_bind, hgr, hcc, hef]
    rw [if_pos hlam]
    rfl
  · intro k hk
    unfold gravar at hgr
    split at hgr
    · rw [← Except.ok.inj hgr, List.getElem?_set_ne (by omega)]
    · cases hgr

end

section
variable {R : Type} [LinearOrderedField R] (sqrt : R → R)

theorem estadoApos_ok (e : Entrada R) (heta : 1 ≤ e.eta)
    (hpos : 0 < e.num_demandas) (hreg : e.num_demandas.toNat ≤ e.registros.length)
    (k : Nat) (hk : k ≤ e.num_demandas.toNat) :
    ∃ (s : Simulacao R) (vs : List (Demanda R)) (cs : List (Corrida R))
      (xs es : List (Evento R)) (gs : List (List Nat)),
      estadoApos sqrt e k = .ok s
      ∧ InvConstrucao sqrt e s vs cs xs es ∧ InvGrupos sqrt e k vs cs gs
      ∧ s.num_corridas ≤ k
      ∧ vs.map (fun d => d.tempo_solicitacao)
          = (demandasLidas e).map fun d => d.tempo_solicitacao :=
  prefixo_construcao sqrt e heta hpos hreg k hk

theorem estadoApos_succ (e : Entrada R) (k : Nat) :
    estadoApos sqrt e (k + 1) = estadoApos sqrt e k >>= formarCorrida sqrt e k := rfl

theorem construcaoDasCorridas_estadoApos (e : Entrada R) :
    construcaoDasCorridas sqrt e ((demandasLidas e).map some)
      = estadoApos sqrt e e.num_demandas.toNat := rfl

theorem gravar_inicio (n i : Nat) (hn : 1 ≤ n) :
    gravar (novoArr n : Arr Nat) 0 i = .ok ([i].map some ++ novoArr (n - 1)) := by
  have h : n = (n - 1) + 1 := by omega
  rw [h]
  exact gravar_fim [] none (novoArr (n - 1)) i

theorem range'_divide (i j n : Nat) (hij : i < j) (hj : j < n) :
    List.range' (i + 1) (n - (i + 1))
      = List.range' (i + 1) (j - (i + 1)) ++ j :: List.range' (j + 1) (n - (j + 1)) := by
  obtain ⟨a, rfl⟩ : ∃ a, j = i + 1 + a := ⟨j - (i + 1), by omega⟩
  obtain ⟨b, rfl⟩ : ∃ b, n = i + 1 + a + 1 + b := ⟨n - (i + 1 + a + 1), by omega⟩
  have h1 : i + 1 + a + 1 + b - (i + 1) = (b + 1) + a := by omega
  have h2 : i + 1 + a - (i + 1) = a := by omega
  have h3 : i + 1 + a + 1 + b - (i + 1 + a + 1) = b := by omega
  rw [h1, h2, h3, ← List.range'_append_1, List.range'_succ]

theorem prefixo_igual (agr hs1 : List Nat) (r1 r2 : Arr Nat) (hl : agr.length = hs1.length)
    (h : ∀ k, k < hs1.length → (agr.map some ++ r2)[k]? = (hs1.map some ++ r1)[k]?) :
    agr = hs1 := by
  apply List.ext_getElem hl
  intro k h1 h2
  have := h k h2
  rw [List.getElem?_append_left (by simpa using h1),
    List.getElem?_append_left (by simpa using h2)] at this
  simpa [h1, h2] using this

end

section
variable {R : Type} [LinearOrderedField R] (sqrt : R → R)

theorem passo_demandas (e : Entrada R) (heta : 1 ≤ e.eta)
    (hpos : 0 < e.num_demandas) (hreg : e.num_demandas.toNat ≤ e.registros.length)
    (i : Nat) (hi : i < e.num_demandas.toNat) :
    ∃ (s s1 : Simulacao R), estadoApos sqrt e i = .ok s ∧ estadoApos sqrt e (i + 1) = .ok s1
      ∧ formarCorrida sqrt e i s = .ok s1
      ∧ ∀ (j : Nat) (d : Demanda R), ler s.demandas j = .ok d →
          ∃ d1 : Demanda R, ler s1.demandas j = .ok d1
            ∧ (d1 = d
              ∨ (d.estado = .DEMANDADA ∧ d.corrida_associada = none
                ∧ (d1.estado = .INDIVIDUAL ∨ d1.estado = .COMBINADA)
                ∧ d1 = (d.setEstado d1.estado).setCorridaAssociada s.num_corridas)) := by
  obtain ⟨s, vs, cs, xs, es, gs, hs, hinv, hgs, hnc, _⟩ :=
    estadoApos_ok sqrt e heta hpos hreg i (by omega)
  have hil : i < vs.length := by rw [hinv.num_demandas_eq]; exact hi
  obtain ⟨s1, vs1, cs1, xs1, es1, gs1, hf, hinv1, _, _, hcasos⟩ :=
    formarCorrida_passo sqrt e heta i s vs cs xs es gs hinv hgs hnc hil
  refine ⟨s, s1, hs, by rw [estadoApos_succ, hs]; exact hf, hf, ?_⟩
  intro j d hd
  rw [hinv.demandas_eq] at hd
  have hvj := ler_map_some_inv vs j d hd
  rcases hcasos with ⟨_, h1, _, _⟩ | ⟨hest, hv, _, _⟩
  · refine ⟨d, ?_, Or.inl rfl⟩
    rw [h1, hinv.demandas_eq]
    exact hd
  · obtain ⟨novos, hg, _, hdem, _⟩ := grupoDe_eq sqrt e vs i vs[i] heta
    have hjl : j < vs.length := by
      by_contra hc
      rw [List.getElem?_eq_none (by omega)] at hvj
      cases hvj
    have hler : ∀ d1, (marcar vs (grupoDe sqrt e vs i vs[i])
        (estadoDoGrupo (grupoDe sqrt e vs i vs[i])) s.num_corridas)[j]? = some d1 →
        ler s1.demandas j = .ok d1 := by
      intro d1 h
      rw [hinv1.demandas_eq, hv, ler_eq_ok, List.getElem?_map, h]
      rfl
    by_cases hm : j ∈ grupoDe sqrt e vs i vs[i]
    · refine ⟨marca (estadoDoGrupo (grupoDe sqrt e vs i vs[i])) s.num_corridas d, ?_,
        Or.inr ⟨?_, ?_, ?_, rfl⟩⟩
      · apply hler
        rw [getElem?_marcar, hvj]
        simp [hm]
      · rw [hg] at hm
        rcases List.mem_cons.mp hm with h | h
        · subst h
          rw [List.getElem?_eq_getElem hil] at hvj
          rw [← Option.some.inj hvj]
          exact hest
        · obtain ⟨d', hd', he'⟩ := hdem j h
          rw [hvj] at hd'
          rw [Option.some.inj hd']
          exact he'
      · apply hinv.sem_corrida j d hvj
        rw [hg] at hm
        rcases List.mem_cons.mp hm with h | h
        · subst h
          rw [List.getElem?_eq_getElem hil] at hvj
          rw [← Option.some.inj hvj]
          exact hest
        · obtain ⟨d', hd', he'⟩ := hdem j h
          rw [hvj] at hd'
          rw [Option.some.inj hd']
          exact he'
      · show estadoDoGrupo (grupoDe sqrt e vs i vs[i]) = .INDIVIDUAL
          ∨ estadoDoGrupo (grupoDe sqrt e vs i vs[i]) = .COMBINADA
        unfold estadoDoGrupo
        split
        · exact Or.inl rfl
        · exact Or.inr rfl
    · refine ⟨d, ?_, Or.inl rfl⟩
      apply hler
      rw [getElem?_marcar, hvj]
      simp [hm]

theorem demanda_fixa (e : Entrada R) (heta : 1 ≤ e.eta)
    (hpos : 0 < e.num_demandas) (hreg : e.num_demandas.toNat ≤ e.registros.length)
    (i k : Nat) (hik : i ≤ k) (hk : k ≤ e.num_demandas.toNat) :
    ∃ (s sk : Simulacao R), estadoApos sqrt e i = .ok s ∧ estadoApos sqrt e k = .ok sk
      ∧ ∀ (j : Nat) (d : Demanda R), ler s.demandas j = .ok d → d.estado ≠ .DEMANDADA →
          ler sk.demandas j = .ok d := by
  induction k, hik using Nat.le_induction with
  | base =>
    obtain ⟨s, _, _, _, _, _, hs, _⟩ := estadoApos_ok sqrt e heta hpos hreg i hk
    exact ⟨s, s, hs, hs, fun j d hd _ => hd⟩
  | succ k hik ih =>
    obtain ⟨s, sk, hs, hsk, hfix⟩ := ih (by omega)
    obtain ⟨s', s1, hs', hs1, _, hpasso⟩ := passo_demandas sqrt e heta hpos hreg k (by omega)
    rw [hsk] at hs'
    have := Except.ok.inj hs'
    subst this
    refine ⟨s, s1, hs, hs1, ?_⟩
    intro j d hd hne
    obtain ⟨d1, hd1, hc⟩ := hpasso j d (hfix j d hd hne)
    rcases hc with h | ⟨h, _⟩
    · rw [← h]; exact hd1
    · exact absurd h hne

end

/-! ## The scan without the early exit -/

section
variable {R : Type} [LinearOrderedField R] (sqrt : R → R)

theorem tentarCombinarSemParada_fora (vs : List (Demanda R)) (eta : Int)
    (gama delta alfa beta lambda tempo_base : R) :
    ∀ (js : List Nat) (dc : Arr Nat) (n : Nat),
      (∀ k ∈ js, ∃ dk : Demanda R, vs[k]? = some dk
        ∧ dk.tempo_solicitacao - tempo_base ≥ delta) →
      tentarCombinarSemParada sqrt (vs.map some) eta gama delta alfa beta lambda tempo_base js
        (dc, n) = .ok (dc, n) := by
  intro js
  induction js with
  | nil => intro dc n _; rfl
  | cons k ks ih =>
    intro dc n h
    obtain ⟨dk, hvk, hdk⟩ := h k (List.mem_cons_self _ _)
    have hk : ler (vs.map some) k = .ok dk := by
      rw [ler_eq_ok, List.getElem?_map, hvk]; rfl
    have ih1 := ih dc n fun x hx => h x (List.mem_cons_of_mem _ hx)
    rw [tentarCombinarSemParada]
    by_cases hcap : (n : Int) < eta
    · rw [if_pos hcap]
      simp only [hk, ok_bind]
      by_cases hest : dk.estado ≠ .DEMANDADA
      · rw [if_pos hest]; exact ih1
      · rw [if_neg hest, if_pos hdk]; exact ih1
    · rw [if_neg hcap]; rfl

theorem tentarCombinarSemParada_eq (vs : List (Demanda R)) (eta : Int)
    (gama delta alfa beta lambda tempo_base : R) :
    ∀ (js : List Nat) (dc : Arr Nat) (n : Nat),
      (∀ k ∈ js, k < vs.length) →
      js.Pairwise (fun a b => ∀ (da db : Demanda R), vs[a]? = some da → vs[b]? = some db →
        da.tempo_solicitacao ≤ db.tempo_solicitacao) →
      tentarCombinarSemParada sqrt (vs.map some) eta gama delta alfa beta lambda tempo_base js
          (dc, n)
        = tentarCombinar sqrt (vs.map some) eta gama delta alfa beta lambda tempo_base js
          (dc, n) := by
  intro js
  induction js with
  | nil => intro dc n _ _; rfl
  | cons j js ih =>
    intro dc n hv hp
    have hj := hv j (List.mem_cons_self _ _)
    have hvj : vs[j]? = some vs[j] := List.getElem?_eq_getElem hj
    rw [List.pairwise_cons] at hp
    have ih1 : ∀ (dc : Arr Nat) (n : Nat),
        tentarCombinarSemParada sqrt (vs.map some) eta gama delta alfa beta lambda tempo_base js
          (dc, n)
        = tentarCombinar sqrt (vs.map some) eta gama delta alfa beta lambda tempo_base js
          (dc, n) :=
      fun dc n => ih dc n (fun x hx => hv x (List.mem_cons_of_mem _ hx)) hp.2
    rw [tentarCombinarSemParada, tentarCombinar]
    by_cases hcap : (n : Int) < eta
    · rw [if_pos hcap, if_pos hcap]
      simp only [ler_map_some vs j hj, ok_bind]
      by_cases hest : vs[j].estado ≠ .DEMANDADA
      · rw [if_pos hest, if_pos hest]; exact ih1 dc n
      · rw [if_neg hest, if_neg hest]
        by_cases hdiff : vs[j].tempo_solicitacao - tempo_base ≥ delta
        · rw [if_pos hdiff, if_pos hdiff]
          apply tentarCombinarSemParada_fora
          intro k hk
          have hkl := hv k (List.mem_cons_of_mem _ hk)
          refine ⟨vs[k], List.getElem?_eq_getElem hkl, ?_⟩
          have := hp.1 k hk vs[j] vs[k] hvj (List.getElem?_eq_getElem hkl)
          exact le_trans hdiff (sub_le_sub_right this _)
        · rw [if_neg hdiff, if_neg hdiff]
          simp only [ih1]
    · rw [if_neg hcap, if_neg hcap]

end

section
variable {R : Type} [LinearOrderedField R] (sqrt : R → R)

theorem pairwise_range'_tempos (vs : List (Demanda R))
    (hord : vs.Pairwise fun a b => a.tempo_solicitacao ≤ b.tempo_solicitacao) (a n : Nat) :
    (List.range' a n).Pairwise (fun x y => ∀ (dx dy : Demanda R), vs[x]? = some dx →
      vs[y]? = some dy → dx.tempo_solicitacao ≤ dy.tempo_solicitacao) := by
  refine List.Pairwise.imp ?_ (List.pairwise_lt_range' a n)
  intro x y hxy dx dy hx hy
  have hxl : x < vs.length := by
    by_contra hc
    rw [List.getElem?_eq_none (by omega)] at hx
    cases hx
  have hyl : y < vs.length := by
    by_contra hc
    rw [List.getElem?_eq_none (by omega)] at hy
    cases hy
  rw [List.getElem?_eq_getElem hxl] at hx
  rw [List.getElem?_eq_getElem hyl] at hy
  rw [← Option.some.inj hx, ← Option.some.inj hy]
  exact List.pairwise_iff_getElem.mp hord x y hxl hyl hxy

theorem formarCorridaSemParada_eq (e : Entrada R) (i : Nat) (s : Simulacao R)
    (vs : List (Demanda R)) (hd : s.demandas = vs.map some)
    (hN : vs.length = e.num_demandas.toNat)
    (hord : vs.Pairwise fun a b => a.tempo_solicitacao ≤ b.tempo_solicitacao) :
    formarCorridaSemParada sqrt e i s = formarCorrida sqrt e i s := by
  have key : ∀ (tempo_base : R) (dc : Arr Nat) (n : Nat),
      tentarCombinarSemParada sqrt (vs.map some) e.eta e.gama e.delta e.alfa e.beta e.lambda
          tempo_base (List.range' (i + 1) (e.num_demandas.toNat - (i + 1))) (dc, n)
        = tentarCombinar sqrt (vs.map some) e.eta e.gama e.delta e.alfa e.beta e.lambda
          tempo_base (List.range' (i + 1) (e.num_demandas.toNat - (i + 1))) (dc, n) := by
    intro tempo_base dc n
    apply tentarCombinarSemParada_eq
    · intro k hk
      rw [List.mem_range'] at hk
      obtain ⟨x, hx, rfl⟩ := hk
      omega
    · exact pairwise_range'_tempos vs hord _ _
  unfold formarCorridaSemParada formarCorrida
  rw [hd]
  simp only [key]

theorem construcaoSemParada_eq (e : Entrada R) (heta : 1 ≤ e.eta)
    (hpos : 0 < e.num_demandas) (hreg : e.num_demandas.toNat ≤ e.registros.length)
    (hord : (demandasLidas e).Pairwise fun a b => a.tempo_solicitacao ≤ b.tempo_solicitacao)
    (k : Nat) (hk : k ≤ e.num_demandas.toNat) :
    repetir (formarCorridaSemParada sqrt e) k (estadoInicial e) = estadoApos sqrt e k := by
  induction k with
  | zero => rfl
  | succ k ih =>
    rw [repetir, ih (by omega), estadoApos_succ]
    obtain ⟨s, vs, cs, xs, es, gs, hs, hinv, _, _, ht⟩ :=
      estadoApos_ok sqrt e heta hpos hreg k (by omega)
    rw [hs]
    simp only [ok_bind]
    apply formarCorridaSemParada_eq sqrt e k s vs hinv.demandas_eq hinv.num_demandas_eq
    have h1 : (vs.map fun d => d.tempo_solicitacao).Pairwise (· ≤ ·) := by
      rw [ht]
      exact List.pairwise_map.mpr hord
    exact List.pairwise_map.mp h1

end

/-! ## The errors that `construirCorrida` can raise -/

section
variable {R : Type} [LinearOrderedField R] (sqrt : R → R)

theorem soAcesso_ok {α : Type} (a : α) : SoAcesso (.ok a : Except Erro α) := by
  intro err h; cases h

theorem soAcesso_ler {α : Type} (a : Arr α) (i : Nat) : SoAcesso (ler a i) := by
  intro err h
  unfold ler at h
  split at h
  · cases h
  · exact (Except.error.inj h).symm

theorem soAcesso_gravar {α : Type} (a : Arr α) (i : Nat) (x : α) : SoAcesso (gravar a i x) := by
  intro err h
  unfold gravar at h
  split at h
  · cases h
  · exact (Except.error.inj h).symm

theorem soAcesso_bind {α β : Type} (x : Except Erro α) (f : α → Except Erro β)
    (hx : SoAcesso x) (hf : ∀ a, SoAcesso (f a)) : SoAcesso (x >>= f) := by
  cases x with
  | error e1 =>
    intro err h
    rw [error_bind] at h
    exact hx err (congrArg Except.error (Except.error.inj h))
  | ok a => exact hf a

theorem soAcesso_repetir {σ : Type} (corpo : Nat → σ → Except Erro σ)
    (h : ∀ i s, SoAcesso (corpo i s)) : ∀ (n : Nat) (s : σ), SoAcesso (repetir corpo n s) := by
  intro n
  induction n with
  | zero => intro s; exact soAcesso_ok s
  | succ n ih =>
    intro s
    rw [repetir]
    exact soAcesso_bind _ _ (ih s) (h n)

theorem soAcesso_adicionarDemanda (c : Corrida R) (id : Int) :
    SoAcesso (c.adicionarDemanda id) := by
  unfold Corrida.adicionarDemanda
  exact soAcesso_bind _ _ (soAcesso_gravar _ _ _) fun _ => soAcesso_ok _

theorem soAcesso_adicionarParada (c : Corrida R) (p : Parada R) :
    SoAcesso (c.adicionarParada p) := by
  unfold Corrida.adicionarParada
  exact soAcesso_bind _ _ (soAcesso_gravar _ _ _) fun _ => soAcesso_ok _

theorem soAcesso_adicionarTrecho (c : Corrida R) (t : Trecho R) :
    SoAcesso (c.adicionarTrecho t) := by
  unfold Corrida.adicionarTrecho
  exact soAcesso_bind _ _ (soAcesso_gravar _ _ _) fun _ => soAcesso_ok _

theorem soAcesso_calcularDuracaoDistancia (c : Corrida R) :
    SoAcesso c.calcularDuracaoDistancia := by
  unfold Corrida.calcularDuracaoDistancia
  apply soAcesso_repetir
  intro i s
  exact soAcesso_bind _ _ (soAcesso_ler _ _) fun _ => soAcesso_ok _

theorem soAcesso_construirCorrida (dc : Arr (Demanda R)) (n : Int) (gama t : R)
    (hn : 0 < n) : SoAcesso (construirCorrida sqrt dc n gama t) := by
  unfold construirCorrida
  rw [if_neg (by omega)]
  refine soAcesso_bind _ _ (soAcesso_repetir _ ?_ _ _) fun c1 => ?_
  · intro i c
    exact soAcesso_bind _ _ (soAcesso_ler _ _) fun _ => soAcesso_adicionarDemanda _ _
  refine soAcesso_bind _ _ (soAcesso_repetir _ ?_ _ _) fun c2 => ?_
  · intro i c
    exact soAcesso_bind _ _ (soAcesso_ler _ _) fun _ => soAcesso_adicionarParada _ _
  refine soAcesso_bind _ _ (soAcesso_repetir _ ?_ _ _) fun c3 => ?_
  · intro i c
    exact soAcesso_bind _ _ (soAcesso_ler _ _) fun _ => soAcesso_adicionarParada _ _
  refine soAcesso_bind _ _ (soAcesso_repetir _ ?_ _ _) fun c4 => ?_
  · intro i c
    exact soAcesso_bind _ _ (soAcesso_ler _ _) fun _ =>
      soAcesso_bind _ _ (soAcesso_ler _ _) fun _ => soAcesso_adicionarTrecho c _
  exact soAcesso_calcularDuracaoDistancia _

theorem construirCorrida_estadoInvalido (dc : Arr (Demanda R)) (n : Int) (gama t : R) :
    construirCorrida sqrt dc n gama t = .error .EstadoInvalido ↔ n ≤ 0 := by
  constructor
  · intro h
    by_contra hn
    have := soAcesso_construirCorrida sqrt dc n gama t (by omega) _ h
    cases this
  · intro hn
    unfold construirCorrida
    rw [if_pos hn]

end

section
variable {R : Type} [LinearOrderedField R] (sqrt : R → R)

theorem main_ok (e : Entrada R) (hv : EntradaValida e)
    (passos : Nat) (hp : 2 * e.num_demandas.toNat ≤ passos) :
    ∃ linhas : List (Linha R), main sqrt passos e = .ok linhas := by
  obtain ⟨s, a, vs, cs, xs, es, rs, hler, hs, ha, hinv, hsim⟩ := fases_ok sqrt e hv passos hp
  have hperm := hsim.perm
  simp only [List.map_nil, List.nil_append] at hperm
  have hlen := hperm.length_eq
  simp only [List.length_map, List.length_range] at hlen
  have hres : a.resultados = rs.map some := by
    rw [hsim.resultados_eq, hlen]
    simp [novoArr]
  obtain ⟨rs1, hord, hperm1, _⟩ := ordenarResultados_ok rs
  obtain ⟨linhas, himp, _⟩ := imprimirResultados_ok sqrt cs
    (novoArr (vs.length - cs.length)) rs1 (by
      intro r hr
      obtain ⟨c, e0, hc, _, _⟩ := hsim.resultado r (hperm1.subset hr)
      obtain ⟨ms, _, _, hcf⟩ := hinv.corrida_forma c (List.getElem?_mem hc)
      exact ⟨c, hc, ms, e.gama, hcf⟩)
  refine ⟨linhas, ?_⟩
  unfold main
  rw [hler]
  simp only [ok_bind]
  rw [hs]
  simp only [ok_bind]
  rw [ha]
  simp only [ok_bind]
  rw [hres, ← hsim.num_resultados_eq, hord]
  simp only [ok_bind]
  rw [hinv.corridas_eq, ← hperm1.length_eq]
  exact himp

theorem varredura_ok (e : Entrada R) (heta : 1 ≤ e.eta)
    (hpos : 0 < e.num_demandas) (hreg : e.num_demandas.toNat ≤ e.registros.length)
    (i : Nat) (hi : i < e.num_demandas.toNat) :
    ∃ s : Simulacao R, estadoApos sqrt e i = .ok s
      ∧ ∀ (di : Demanda R) (demandas_corrida0 : Arr Nat),
          ler s.demandas i = .ok di → di.estado = .DEMANDADA →
          gravar (novoArr e.eta.toNat) 0 i = .ok demandas_corrida0 →
          ∃ (c : Arr Nat × Nat) (corrida_final : Corrida R),
            tentarCombinar sqrt s.demandas e.eta e.gama e.delta e.alfa e.beta e.lambda
                di.tempo_solicitacao (List.range' (i + 1) (e.num_demandas.toNat - (i + 1)))
                (demandas_corrida0, 1) = .ok c
            ∧ 1 ≤ c.2
            ∧ construirCorrida sqrt (apontadas s.demandas c.1) (c.2 : Int) e.gama
                di.tempo_solicitacao = .ok corrida_final := by
  obtain ⟨s, vs, cs, xs, es, gs, hs, hinv, hgs, hnc, _⟩ :=
    estadoApos_ok sqrt e heta hpos hreg i (by omega)
  refine ⟨s, hs, ?_⟩
  intro di dc0 hdi hesti hg0
  have hN := hinv.num_demandas_eq
  have hil : i < vs.length := by omega
  rw [hinv.demandas_eq] at hdi ⊢
  rw [ler_map_some vs i hil] at hdi
  have hdi1 : vs[i] = di := Except.ok.inj hdi
  rw [gravar_inicio e.eta.toNat i (by omega)] at hg0
  have hdc0 := Except.ok.inj hg0
  obtain ⟨resto1, ht, hlen1⟩ := tentarCombinar_eq sqrt vs e.eta e.gama e.delta e.alfa e.beta
    e.lambda di.tempo_solicitacao (List.range' (i + 1) (e.num_demandas.toNat - (i + 1))) [i]
    (novoArr (e.eta.toNat - 1)) (by simp) (by simpa using hil)
    (by
      intro j hj
      rw [List.mem_range'] at hj
      obtain ⟨k, hk, rfl⟩ := hj
      omega)
    (by simp [novoArr]; omega)
  obtain ⟨hgne, hgv, _⟩ := grupoDe_spec sqrt e vs i di heta hN hil
  have hge : agrupar sqrt vs e.eta e.gama e.delta e.alfa e.beta e.lambda di.tempo_solicitacao
      (List.range' (i + 1) (e.num_demandas.toNat - (i + 1))) [i] = grupoDe sqrt e vs i di := rfl
  rw [hge] at ht
  obtain ⟨hap, hml⟩ := apontadas_eq vs (grupoDe sqrt e vs i di) resto1 hgv
  have hmne : membros vs (grupoDe sqrt e vs i di) ≠ [] := by
    intro h0
    rw [h0] at hml
    exact hgne (List.eq_nil_of_length_eq_zero hml.symm)
  have hcc := construirCorrida_eq sqrt e.gama di.tempo_solicitacao
    (membros vs (grupoDe sqrt e vs i di)) (apontadas (vs.map some) resto1) hmne
  rw [hml, ← hap] at hcc
  refine ⟨((grupoDe sqrt e vs i di).map some ++ resto1, (grupoDe sqrt e vs i di).length),
    corridaDe sqrt e.gama (membros vs (grupoDe sqrt e vs i di)), ?_, ?_, hcc⟩
  · rw [← hdc0]
    exact ht
  · exact List.length_pos.mpr hgne

end

/-! ## The counters of the scheduler -/

section
variable {R : Type} [LinearOrderedField R]

theorem executarContando_ok :
    ∀ (cs : List (Chamada R)) (e : Escalonador R) (xs : List (Evento R)), Representa e xs →
      ∃ (e1 : Escalonador R) (ni nr : Nat) (ys : List (Evento R)),
        executarContando e cs = .ok (e1, ni, nr) ∧ executar e cs = .ok e1
        ∧ Representa e1 ys
        ∧ ni = cs.countP Chamada.eInsere
        ∧ e1.total_eventos_inseridos = e.total_eventos_inseridos + ni
        ∧ e1.total_eventos_processados = e.total_eventos_processados + nr
        ∧ ys.length + nr = xs.length + ni := by
  intro cs
  induction cs with
  | nil =>
    intro e xs h
    exact ⟨e, 0, 0, xs, rfl, rfl, h, rfl, rfl, rfl, rfl⟩
  | cons c cs ih =>
    intro e xs h
    cases c with
    | insere evento =>
      obtain ⟨e1, ys, hins, hrep, hperm, hti, htp⟩ := insereEvento_ok e xs evento h
      obtain ⟨e2, ni, nr, zs, h1, h2, h3, h4, h5, h6, h7⟩ := ih e1 ys hrep
      refine ⟨e2, ni + 1, nr, zs, ?_, ?_, h3, ?_, ?_, ?_, ?_⟩
      · rw [executarContando, hins]
        simp only [ok_bind, h1]
      · rw [executar, hins]
        simp only [ok_bind, h2]
      · rw [List.countP_cons_of_pos _ _ (by rfl), h4]
      · rw [h5, hti]; omega
      · rw [h6, htp]
      · have := hperm.length_eq
        simp only [List.length_append, List.length_singleton] at this
        omega
    | retira =>
      by_cases hxs : xs = []
      · subst hxs
        have hv := retiraProximoEvento_vazio e h
        obtain ⟨e2, ni, nr, zs, h1, h2, h3, h4, h5, h6, h7⟩ := ih e [] h
        refine ⟨e2, ni, nr, zs, ?_, ?_, h3, ?_, h5, h6, h7⟩
        · rw [executarContando, hv]
          simp only [ok_bind, h1]
          rfl
        · rw [executar, hv]
          simp only [ok_bind, h2]
        · rw [List.countP_cons_of_neg _ _ (by simp [Chamada.eInsere]), h4]
      · obtain ⟨r, e1, ys, hret, hrep, hperm, htp, hti⟩ := retiraProximoEvento_ok e xs h hxs
        obtain ⟨e2, ni, nr, zs, h1, h2, h3, h4, h5, h6, h7⟩ := ih e1 ys hrep
        refine ⟨e2, ni, nr + 1, zs, ?_, ?_, h3, ?_, ?_, ?_, ?_⟩
        · rw [executarContando, hret]
          simp only [ok_bind, h1]
          rfl
        · rw [executar, hret]
          simp only [ok_bind, h2]
        · rw [List.countP_cons_of_neg _ _ (by simp [Chamada.eInsere]), h4]
        · rw [h5, hti]
        · rw [h6, htp]; omega
        · have := hperm.length_eq
          simp only [List.length_cons] at this
          omega

end

/-! ## The iterations of the simulation loop -/

section
variable {R : Type} [LinearOrderedField R]

theorem simulacaoLoop_iteracao (corridas : Arr (Corrida R)) (p : Nat) (s : Andamento R) :
    simulacaoLoop corridas (p + 1) s
      = if !estaVazio s.escalonador then
          iteracaoSimulacao corridas s >>= fun r =>
            if r.2 then simulacaoLoop corridas p r.1 else pure r.1
        else pure s := by
  rw [simulacaoLoop]
  split
  · unfold iteracaoSimulacao
    cases hr : retiraProximoEvento s.escalonador with
    | error err => rfl
    | ok r =>
      obtain ⟨o, e1⟩ := r
      cases o with
      | none => rfl
      | some x =>
        simp only [ok_bind, bind_assoc]
        cases hc : ler corridas x.corrida_associada with
        | error err => rfl
        | ok c =>
          simp only [ok_bind]
          split
          · cases hg : gravar s.resultados s.num_resultados
              (⟨x.tempo, x.corrida_associada⟩ : ResultadoCorrida R) with
            | error err => rfl
            | ok rs => rfl
          · cases hl : ler c.trechos x.indice_parada with
            | error err => rfl
            | ok t =>
              simp only [ok_bind]
              cases hi : insereEvento e1 ⟨x.tempo + t.tempo, .COLETA_PASSAGEIRO,
                x.corrida_associada, x.indice_parada + 1⟩ with
              | error err => rfl
              | ok e2 => rfl
  · rfl

theorem iteracaoSimulacao_ok (cs : List (Corrida R)) (es0 : List (Evento R))
    (resto : Arr (Corrida R)) (a : Andamento R) (xs : List (Evento R))
    (rs : List (ResultadoCorrida R)) (hinv : InvSimulacao cs es0 a xs rs) (hxs : xs ≠ []) :
    ∃ (a1 : Andamento R) (xs1 : List (Evento R)) (rs1 : List (ResultadoCorrida R)),
      iteracaoSimulacao (cs.map some ++ resto) a = .ok (a1, true)
        ∧ InvSimulacao cs es0 a1 xs1 rs1
        ∧ a1.escalonador.total_eventos_processados
          = a.escalonador.total_eventos_processados + 1 := by
  obtain ⟨r, e1, ys, hret, hrep1, hperm, hproc, hins⟩ :=
    retiraProximoEvento_ok a.escalonador xs hinv.representa hxs
  have hrmem : r ∈ xs := hperm.symm.subset (List.mem_cons_self _ _)
  obtain ⟨c, e0, ts, hc, he0, hr, hidx, htempo⟩ := hinv.evento r hrmem
  have hclt : r.corrida_associada < cs.length := by
    by_contra hcon
    rw [List.getElem?_eq_none (by omega)] at hc
    cases hc
  have hcget : cs[r.corrida_associada] = c := by
    rw [List.getElem?_eq_getElem hclt] at hc
    exact Option.some.inj hc
  have hys : ∀ x ∈ ys, x ∈ xs := fun x hx => hperm.symm.subset (List.mem_cons_of_mem _ hx)
  have hsum : (xs.map (restante cs)).sum = restante cs r + (ys.map (restante cs)).sum := by
    rw [(hperm.map (restante cs)).sum_eq]
    simp
  have hlen : xs.length = ys.length + 1 := by rw [hperm.length_eq]; simp
  have hrest := restante_pos cs r c ts hc hr hidx
  have hpermca : ((ys.map fun x => x.corrida_associada) ++ (rs.map fun r => r.corrida)
      ++ [r.corrida_associada]).Perm (List.range cs.length) := by
    refine List.Perm.trans ?_ hinv.perm
    refine List.perm_append_comm.trans ?_
    simp only [List.singleton_append]
    have := (hperm.map fun x => x.corrida_associada).symm
    simp only [List.map_cons] at this
    exact (List.Perm.append_right _ this)
  unfold iteracaoSimulacao
  simp only [hret, ok_bind, ler_map_some_append cs resto _ hclt, hcget]
  by_cases hfim : (r.indice_parada : Int) ≥ (c.num_paradas : Int) - 1
  · rw [if_pos hfim]
    have hidx_eq : r.indice_parada = ts.length := by
      have := hr.paradas_eq
      omega
    have hnl := hinv.perm.length_eq
    simp only [List.length_append, List.length_map, List.length_range] at hnl
    have hcap : cs.length - rs.length = (cs.length - (rs.length + 1)) + 1 := by omega
    have hg : gravar a.resultados a.num_resultados
        (⟨r.tempo, r.corrida_associada⟩ : ResultadoCorrida R)
        = .ok ((rs ++ [(⟨r.tempo, r.corrida_associada⟩ : ResultadoCorrida R)]).map some
            ++ novoArr (cs.length - (rs.length + 1))) := by
      rw [hinv.resultados_eq, ← hinv.num_resultados_eq, hcap]
      exact gravar_fim rs none _ _
    simp only [hg, ok_bind]
    refine ⟨_, ys, rs ++ [⟨r.tempo, r.corrida_associada⟩], rfl, ?_, hproc⟩
    constructor
    · exact hrep1
    · simp only [List.length_append, List.length_singleton]
    · simp only [List.length_append, List.length_singleton, hinv.num_resultados_eq]
    · simpa [List.map_append] using hpermca
    · intro x hx
      exact hinv.evento x (hys x hx)
    · intro q hq
      rcases List.mem_append.mp hq with h | h
      · exact hinv.resultado q h
      · rw [List.mem_singleton.mp h]
        refine ⟨c, e0, hc, he0, ?_⟩
        simp only [htempo, hidx_eq, List.take_length, hr.duracao_eq]
    · simp only [hins, hproc, hinv.inseridos]
      omega
    · simp only [hproc]
      have := hinv.processados
      omega
  · rw [if_neg hfim]
    have hidx_lt : r.indice_parada < ts.length := by
      have := hr.paradas_eq
      omega
    obtain ⟨restot, htr⟩ := hr.trechos_eq
    have hlt : ler c.trechos r.indice_parada = .ok ts[r.indice_parada] := by
      rw [htr]
      exact ler_map_some_append ts restot _ hidx_lt
    simp only [hlt, ok_bind]
    obtain ⟨e2, zs, hins2, hrep2, hperm2, hti2, htp2⟩ := insereEvento_ok e1 ys
      ⟨r.tempo + ts[r.indice_parada].tempo, .COLETA_PASSAGEIRO, r.corrida_associada,
        r.indice_parada + 1⟩ hrep1
    simp only [hins2, ok_bind]
    have hnew : restante cs (⟨r.tempo + ts[r.indice_parada].tempo, .COLETA_PASSAGEIRO,
        r.corrida_associada, r.indice_parada + 1⟩ : Evento R)
        = ts.length + 1 - (r.indice_parada + 1) :=
      restante_pos cs _ c ts hc hr (by simpa using hidx_lt)
    have hsum2 : (zs.map (restante cs)).sum
        = (ys.map (restante cs)).sum + (ts.length + 1 - (r.indice_parada + 1)) := by
      rw [(hperm2.map (restante cs)).sum_eq]
      simp [hnew]
    refine ⟨_, zs, rs, rfl, ?_, htp2.trans hproc⟩
    constructor
    · exact hrep2
    · exact hinv.resultados_eq
    · exact hinv.num_resultados_eq
    · refine List.Perm.trans ?_ hpermca
      have := hperm2.map fun x => x.corrida_associada
      simp only [List.map_append, List.map_cons, List.map_nil] at this
      refine (List.Perm.append_right _ this).trans ?_
      simp only [List.append_assoc]
      exact List.Perm.append_left _ List.perm_append_comm
    · intro x hx
      rcases List.mem_append.mp (hperm2.subset hx) with h | h
      · exact hinv.evento x (hys x h)
      · rw [List.mem_singleton.mp h]
        refine ⟨c, e0, ts, hc, he0, hr, hidx_lt, ?_⟩
        simp only [htempo, sum_map_take_succ _ _ _ hidx_lt, add_assoc]
    · exact hinv.resultado
    · simp only [hti2, htp2, hins, hproc, hinv.inseridos, hperm2.length_eq,
        List.length_append, List.length_singleton]
      omega
    · simp only [htp2, hproc]
      have := hinv.processados
      omega

theorem simulacaoApos_ok (cs : List (Corrida R)) (es0 : List (Evento R))
    (resto : Arr (Corrida R)) :
    ∀ (k : Nat) (a : Andamento R) (xs : List (Evento R)) (rs : List (ResultadoCorrida R)),
      InvSimulacao cs es0 a xs rs →
      ∃ o : Option (Andamento R), simulacaoApos (cs.map some ++ resto) k a = .ok o
        ∧ ∀ a1 : Andamento R, o = some a1 →
          ∃ (xs1 : List (Evento R)) (rs1 : List (ResultadoCorrida R)),
            InvSimulacao cs es0 a1 xs1 rs1 := by
  intro k
  induction k with
  | zero =>
    intro a xs rs hinv
    refine ⟨some a, rfl, ?_⟩
    intro a1 h
    cases h
    exact ⟨xs, rs, hinv⟩
  | succ k ih =>
    intro a xs rs hinv
    obtain ⟨_, _, hl, _, _⟩ := hinv.representa
    by_cases hxs : xs = []
    · subst hxs
      refine ⟨none, ?_, fun a1 h => by cases h⟩
      unfold simulacaoApos estaVazio
      rw [if_neg (by simpa using hl.symm)]
      rfl
    · obtain ⟨a1, xs1, rs1, h1, hinv1, _⟩ := iteracaoSimulacao_ok cs es0 resto a xs rs hinv hxs
      obtain ⟨o, ho, hprop⟩ := ih a1 xs1 rs1 hinv1
      refine ⟨o, ?_, hprop⟩
      have hne : xs.length ≠ 0 := fun h => hxs (List.length_eq_zero.mp h)
      unfold simulacaoApos estaVazio
      rw [if_pos (by simp; omega)]
      simp only [h1, ok_bind, if_true]
      exact ho

/-- Consequences of the invariant of the simulation loop for the scheduler. -/
theorem invSimulacao_um_por_corrida (cs : List (Corrida R)) (es0 : List (Evento R))
    (a : Andamento R) (xs : List (Evento R)) (rs : List (ResultadoCorrida R))
    (hinv : InvSimulacao cs es0 a xs rs) :
    ((eventos a.escalonador).map fun x => x.corrida_associada).Nodup
    ∧ (∀ x ∈ eventos a.escalonador, ∀ (i : Nat) (r : ResultadoCorrida R),
        i < a.num_resultados → ler a.resultados i = .ok r → r.corrida ≠ x.corrida_associada)
    ∧ (∀ x ∈ eventos a.escalonador, x.corrida_associada < cs.length)
    ∧ getTamanho a.escalonador ≤ cs.length := by
  rw [representa_eventos _ _ hinv.representa]
  have hnd : ((xs.map fun x => x.corrida_associada) ++ rs.map fun r => r.corrida).Nodup :=
    hinv.perm.nodup_iff.mpr (List.nodup_range _)
  have hlen := hinv.perm.length_eq
  simp only [List.length_append, List.length_map, List.length_range] at hlen
  obtain ⟨_, _, hl, _, _⟩ := hinv.representa
  refine ⟨(List.nodup_append.mp hnd).1, ?_, ?_, ?_⟩
  · intro x hx i r hi hr heq
    rw [hinv.resultados_eq] at hr
    have hrs := ler_prefixo_inv rs _ i r hr
    have hmem : r ∈ rs := List.mem_iff_getElem?.mpr ⟨i, hrs⟩
    exact (List.nodup_append.mp hnd).2.2 (List.mem_map_of_mem _ hx)
      (heq ▸ List.mem_map_of_mem (fun r => r.corrida) hmem)
  · intro x hx
    have : x.corrida_associada ∈ List.range cs.length :=
      hinv.perm.subset (List.mem_append_left _ (List.mem_map_of_mem _ hx))
    exact List.mem_range.mp this
  · unfold getTamanho
    omega

theorem invSimulacao_apos_retirada (cs : List (Corrida R)) (es0 : List (Evento R))
    (a : Andamento R) (xs : List (Evento R)) (rs : List (ResultadoCorrida R))
    (hinv : InvSimulacao cs es0 a xs rs) (hne : getTamanho a.escalonador ≠ 0) :
    ∃ (r : Evento R) (e1 : Escalonador R),
      retiraProximoEvento a.escalonador = .ok (some r, e1)
      ∧ ((eventos e1).map fun x => x.corrida_associada).Nodup
      ∧ (∀ x ∈ eventos e1, x ∈ eventos a.escalonador
          ∧ x.corrida_associada ≠ r.corrida_associada) := by
  have hxs : xs ≠ [] := by
    obtain ⟨_, _, hl, _, _⟩ := hinv.representa
    intro h
    subst h
    exact hne hl.symm
  obtain ⟨r, e1, ys, hret, hrep1, hperm, _, _⟩ :=
    retiraProximoEvento_ok a.escalonador xs hinv.representa hxs
  have hnd : ((xs.map fun x => x.corrida_associada) ++ rs.map fun r => r.corrida).Nodup :=
    hinv.perm.nodup_iff.mpr (List.nodup_range _)
  have hnd1 : ((r :: ys).map fun x => x.corrida_associada).Nodup :=
    (hperm.map _).nodup_iff.mp (List.nodup_append.mp hnd).1
  simp only [List.map_cons, List.nodup_cons] at hnd1
  refine ⟨r, e1, hret, ?_, ?_⟩
  · rw [representa_eventos _ _ hrep1]
    exact hnd1.2
  · rw [representa_eventos _ _ hrep1, representa_eventos _ _ hinv.representa]
    intro x hx
    refine ⟨hperm.symm.subset (List.mem_cons_of_mem _ hx), ?_⟩
    intro heq
    exact hnd1.1 (heq ▸ List.mem_map_of_mem (fun x => x.corrida_associada) hx)

theorem simulacaoLoop_estado (cs : List (Corrida R)) (es0 : List (Evento R))
    (resto : Arr (Corrida R)) :
    ∀ (p : Nat) (a0 : Andamento R) (xs : List (Evento R)) (rs : List (ResultadoCorrida R))
      (a : Andamento R), InvSimulacao cs es0 a0 xs rs →
      simulacaoLoop (cs.map some ++ resto) p a0 = .ok a →
      estaVazio a.escalonador = true
      ∧ ∃ k : Nat, k ≤ p ∧ simulacaoApos (cs.map some ++ resto) k a0 = .ok (some a) := by
  intro p
  induction p with
  | zero =>
    intro a0 xs rs a _ h
    unfold simulacaoLoop at h
    split at h
    · rename_i hvz
      cases h
      exact ⟨hvz, 0, le_refl _, rfl⟩
    · cases h
  | succ p ih =>
    intro a0 xs rs a hinv h
    obtain ⟨_, _, hl, _, _⟩ := hinv.representa
    by_cases hxs : xs = []
    · subst hxs
      unfold simulacaoLoop estaVazio at h
      rw [if_neg (by simpa using hl.symm)] at h
      cases h
      refine ⟨?_, 0, Nat.zero_le _, rfl⟩
      unfold estaVazio
      simpa using hl.symm
    · obtain ⟨a1, xs1, rs1, h1, hinv1, _⟩ := iteracaoSimulacao_ok cs es0 resto a0 xs rs hinv hxs
      have hne : xs.length ≠ 0 := fun h => hxs (List.length_eq_zero.mp h)
      have hv : (!estaVazio a0.escalonador) = true := by
        unfold estaVazio
        simp
        omega
      rw [simulacaoLoop_iteracao, if_pos hv] at h
      simp only [h1, ok_bind, if_true] at h
      obtain ⟨hvz, k, hk, hk1⟩ := ih a1 xs1 rs1 a hinv1 h
      refine ⟨hvz, k + 1, by omega, ?_⟩
      unfold simulacaoApos
      rw [if_pos hv]
      simp only [h1, ok_bind, if_true]
      exact hk1

end

/-! ## The run of scenario C -/

section
variable {R : Type} [LinearOrderedField R]
variable (sqrt : R → R)

theorem cenarioC_trechos (h0 : sqrt 0 = 0) (h100 : sqrt 100 = 10) :
    (trechosDe sqrt 1 (paradasDe [demandaDe (⟨1, 0, 0, 0, 0, 10⟩ : Registro R),
        demandaDe ⟨2, 1, 0, 0, 0, 10⟩])).map (fun t => (t.tempo, t.distancia))
      = [(0, 0), (10, 10), (0, 0)] := by
  have e100 : (10 : R) * 10 = 100 := by norm_num
  simp [trechosDe, paradasDe, trechoEntre, Trecho.calcularTempoDistancia,
    Parada.calcularDistancia, demandaDe, Demanda.nova, h0, h100, e100]

theorem cenarioC_corrida (h0 : sqrt 0 = 0) (h100 : sqrt 100 = 10) :
    (corridaDe sqrt 1 [demandaDe (⟨1, 0, 0, 0, 0, 10⟩ : Registro R),
        demandaDe ⟨2, 1, 0, 0, 0, 10⟩]).distancia_total = 10
    ∧ (corridaDe sqrt 1 [demandaDe (⟨1, 0, 0, 0, 0, 10⟩ : Registro R),
        demandaDe ⟨2, 1, 0, 0, 0, 10⟩]).duracao_total = 10
    ∧ eficienciaDe sqrt 1 [demandaDe (⟨1, 0, 0, 0, 0, 10⟩ : Registro R),
        demandaDe ⟨2, 1, 0, 0, 0, 10⟩] = 2 := by
  have ht := cenarioC_trechos sqrt h0 h100
  have h1 : (corridaDe sqrt 1 [demandaDe (⟨1, 0, 0, 0, 0, 10⟩ : Registro R),
        demandaDe ⟨2, 1, 0, 0, 0, 10⟩]).distancia_total = 10 := by
    have := congrArg (fun l => (l.map Prod.snd).sum) ht
    simp only [List.map_map] at this
    simp only [corridaDe]
    refine Eq.trans ?_ (this.trans (by norm_num))
    rfl
  have h2 : (corridaDe sqrt 1 [demandaDe (⟨1, 0, 0, 0, 0, 10⟩ : Registro R),
        demandaDe ⟨2, 1, 0, 0, 0, 10⟩]).duracao_total = 10 := by
    have := congrArg (fun l => (l.map Prod.fst).sum) ht
    simp only [List.map_map] at this
    simp only [corridaDe]
    refine Eq.trans ?_ (this.trans (by norm_num))
    rfl
  refine ⟨h1, h2, ?_⟩
  have e100 : (10 : R) * 10 = 100 := by norm_num
  unfold eficienciaDe
  rw [h1, if_neg (by norm_num)]
  simp [Demanda.calcularDistanciaCorrida, demandaDe, Demanda.nova, h100, e100]
  norm_num

theorem cenarioCEm_valida : EntradaValida (cenarioCEm R) := by
  refine ⟨?_, by simp [cenarioCEm], by simp [cenarioCEm]⟩
  simp [cenarioCEm, validarParametros]
  norm_num

theorem cenarioC_execucao (h0 : sqrt 0 = 0) (h100 : sqrt 100 = 10) (passos : Nat)
    (hp : 4 ≤ passos) :
    ∃ (s : Simulacao R) (a : Andamento R),
      construcaoDasCorridas sqrt (cenarioCEm R) ((demandasLidas (cenarioCEm R)).map some)
        = .ok s
      ∧ simulacaoDeEventos passos s = .ok a
      ∧ s.num_corridas = 1
      ∧ s.corridas = [some (corridaFinal sqrt 1 [demandaDe (⟨1, 0, 0, 0, 0, 10⟩ : Registro R),
          demandaDe ⟨2, 1, 0, 0, 0, 10⟩]), none]
      ∧ s.demandas = [some (marca .COMBINADA 0 (demandaDe ⟨1, 0, 0, 0, 0, 10⟩)),
          some (marca .COMBINADA 0 (demandaDe ⟨2, 1, 0, 0, 0, 10⟩))]
      ∧ a.num_resultados = 1
      ∧ a.resultados = [some ⟨10, 0⟩] := by
  obtain ⟨hd1, hd2, hef⟩ := cenarioC_corrida sqrt h0 h100
  obtain ⟨s, a, vs, cs, xs, es, rs, hler, hs, ha, hinv, hsim⟩ :=
    fases_ok sqrt (cenarioCEm R) cenarioCEm_valida passos (by
      have : (cenarioCEm R).num_demandas.toNat = 2 := rfl
      omega)
  obtain ⟨s1, hs1, hn, hcor, hdem⟩ := construcao_par sqrt (cenarioCEm R)
    ⟨1, 0, 0, 0, 0, 10⟩ ⟨2, 1, 0, 0, 0, 10⟩ [] rfl rfl (by simp [cenarioCEm])
    (by simp [Demanda.calcularDistanciaOrigem, demandaDe, Demanda.nova, cenarioCEm, h0])
    (by simp [Demanda.calcularDistanciaDestino, demandaDe, Demanda.nova, cenarioCEm, h0])
    (by simp [cenarioCEm])
    (by
      have : (cenarioCEm R).gama = 1 := rfl
      rw [this, hef]
      simp only [cenarioCEm]
      norm_num)
  have hss : s = s1 := Except.ok.inj (hs.symm.trans hs1)
  subst hss
  have hgama : (cenarioCEm R).gama = 1 := rfl
  rw [hgama] at hcor
  -- the rides
  have hcl : cs.length = 1 := hinv.num_corridas_eq.trans hn
  have hvs : vs = [marca .COMBINADA 0 (demandaDe ⟨1, 0, 0, 0, 0, 10⟩),
      marca .COMBINADA 0 (demandaDe ⟨2, 1, 0, 0, 0, 10⟩)] := by
    have := hinv.demandas_eq.symm.trans hdem
    have h2 : vs.map some = ([marca .COMBINADA 0 (demandaDe ⟨1, 0, 0, 0, 0, 10⟩),
      marca .COMBINADA 0 (demandaDe ⟨2, 1, 0, 0, 0, 10⟩)] : List (Demanda R)).map some := this
    exact List.map_injective_iff.mpr (Option.some_injective _) h2
  have hcs : cs = [corridaFinal sqrt 1 [demandaDe (⟨1, 0, 0, 0, 0, 10⟩ : Registro R),
          demandaDe ⟨2, 1, 0, 0, 0, 10⟩]] := by
    have h3 := hinv.corridas_eq.symm.trans hcor
    match cs, hcl with
    | [c], _ =>
      simp only [List.map_cons, List.map_nil, List.cons_append, List.nil_append,
        List.cons.injEq, Option.some.injEq] at h3
      rw [h3.1]
  subst hcs
  -- the record
  have hperm := hsim.perm
  simp only [List.map_nil, List.nil_append, List.length_singleton] at hperm
  have hrl := hperm.length_eq
  simp only [List.length_map, List.length_range] at hrl
  obtain ⟨r, hr⟩ : ∃ r, rs = [r] := List.length_eq_one.mp hrl
  subst hr
  have hrc : r.corrida = 0 := by
    have := hperm.subset (List.mem_cons_self _ _)
    simpa using this
  obtain ⟨c, e0, hc, he0, hrt⟩ := hsim.resultado r (List.mem_cons_self _ _)
  rw [hrc] at hc he0
  have hc1 : c = corridaFinal sqrt 1 [demandaDe (⟨1, 0, 0, 0, 0, 10⟩ : Registro R),
          demandaDe ⟨2, 1, 0, 0, 0, 10⟩] := by
    simpa using hc.symm
  obtain ⟨j, d, hvj, hdj, hmin, hte⟩ := hinv.ancora 0 e0 he0
  have hj : j = 0 := by
    by_contra hne
    refine hmin 0 (marca .COMBINADA 0 (demandaDe ⟨1, 0, 0, 0, 0, 10⟩)) (by omega) ?_ rfl
    rw [hvs]
    rfl
  subst hj
  rw [hvs] at hvj
  have hd : d = marca .COMBINADA 0 (demandaDe ⟨1, 0, 0, 0, 0, 10⟩) := by
    simpa using hvj.symm
  have hrt1 : r.tempo_conclusao = 10 := by
    rw [hrt, hte, hd, hc1]
    have : (corridaFinal sqrt 1 [demandaDe (⟨1, 0, 0, 0, 0, 10⟩ : Registro R),
          demandaDe ⟨2, 1, 0, 0, 0, 10⟩]).duracao_total = 10 := hd2
    rw [this]
    simp [marca, Demanda.setEstado, Demanda.setCorridaAssociada, demandaDe, Demanda.nova]
  have hr : r = ⟨10, 0⟩ := by
    cases r
    simp only at hrt1 hrc
    rw [hrt1, hrc]
  refine ⟨s, a, hs, ha, hn, hcor, hdem, hsim.num_resultados_eq.symm, ?_⟩
  rw [hsim.resultados_eq, hr]
  rfl

theorem cenarioC_linha (h0 : sqrt 0 = 0) (h100 : sqrt 100 = 10) :
    imprimirResultados
        [some (corridaFinal sqrt 1 [demandaDe (⟨1, 0, 0, 0, 0, 10⟩ : Registro R),
          demandaDe ⟨2, 1, 0, 0, 0, 10⟩]), none]
        [some ⟨10, 0⟩] 1
      = .ok [⟨10, 10, 2, 4, [(0, 0), (0, 0), (0, 10), (0, 10)]⟩] := by
  obtain ⟨hd1, hd2, hef⟩ := cenarioC_corrida sqrt h0 h100
  have hc : corridaFinal sqrt 1 [demandaDe (⟨1, 0, 0, 0, 0, 10⟩ : Registro R),
      demandaDe ⟨2, 1, 0, 0, 0, 10⟩]
      = { corridaDe sqrt 1 [demandaDe (⟨1, 0, 0, 0, 0, 10⟩ : Registro R),
            demandaDe ⟨2, 1, 0, 0, 0, 10⟩] with eficiencia := 2 } := by
    unfold corridaFinal Corrida.setEficiencia
    rw [hef]
  rw [hc]
  simp only [imprimirResultados, imprimirCorrida, repetir, ler, ok_bind, pure_eq_ok, hd1]
  simp [corridaDe, paradasDe, demandaDe, Demanda.nova, repetir, ler]

end


/-! ## The multiset of queued events -/

section
variable {R : Type} [LinearOrderedField R]

theorem insereEvento_capacidade (e e1 : Escalonador R) (evento : Evento R)
    (h : insereEvento e evento = .ok e1) :
    e1.capacidade = (if e.tamanho ≥ e.capacidade then e.capacidade * 2 else e.capacidade)
    ∧ e1.tamanho = e.tamanho + 1 := by
  unfold insereEvento at h
  simp only [bind_eq_ok, pure_eq_ok] at h
  obtain ⟨h1, _, h2, _, h3⟩ := h
  have h4 := Except.ok.inj h3
  subst h4
  split <;> rename_i hc
  · simp only [if_pos hc, redimensionar, and_self]
  · simp only [if_neg hc, and_self]

end

/-! ## Insertions keep the min-heap order -/

section
variable {R : Type} [LinearOrderedField R]

theorem tempoEm_eq (xs : List (Evento R)) (j : Nat) (h : j < xs.length) :
    tempoEm xs j = xs[j].tempo := by
  unfold tempoEm
  rw [List.getElem?_eq_getElem h]

theorem tempoEm_troca (xs : List (Evento R)) (i p : Nat) (hi : i < xs.length)
    (hp : p < xs.length) (j : Nat) :
    tempoEm ((xs.set i xs[p]).set p xs[i]) j
      = if j = p then tempoEm xs i else if j = i then tempoEm xs p else tempoEm xs j := by
  unfold tempoEm
  by_cases hjp : j = p
  · subst hjp
    rw [if_pos rfl, List.getElem?_set_self (by simpa using hp), List.getElem?_eq_getElem hi]
  · rw [if_neg hjp, List.getElem?_set_ne (fun h => hjp h.symm)]
    by_cases hji : j = i
    · subst hji
      rw [if_pos rfl, List.getElem?_set_self hi, List.getElem?_eq_getElem hp]
    · rw [if_neg hji, List.getElem?_set_ne (fun h => hji h.symm)]

theorem ordemSobe_passo (xs : List (Evento R)) (i : Nat) (hi : i < xs.length) (h0 : 0 < i)
    (hp : getPai i < xs.length)
    (hinv : OrdemSobe xs i) (hle : tempoEm xs i ≤ tempoEm xs (getPai i)) :
    OrdemSobe ((xs.set i xs[getPai i]).set (getPai i) xs[i]) (getPai i) := by
  obtain ⟨hA, hB⟩ := hinv
  have hpi := getPai_lt i h0
  have hlen : ((xs.set i xs[getPai i]).set (getPai i) xs[i]).length = xs.length := by simp
  constructor
  · intro j hj1 hjl hjp
    rw [hlen] at hjl
    rw [tempoEm_troca xs i _ hi hp, tempoEm_troca xs i _ hi hp, if_neg hjp]
    have hpj := getPai_lt j hj1
    by_cases hji : j = i
    · subst hji
      rw [if_pos rfl, if_pos rfl]
      exact hle
    · rw [if_neg hji]
      by_cases hpp : getPai j = getPai i
      · rw [if_pos hpp]
        have := hA j hj1 hjl hji
        rw [hpp] at this
        exact le_trans hle this
      · rw [if_neg hpp]
        by_cases hpji : getPai j = i
        · rw [if_pos hpji]
          exact hB j hj1 hjl hpji h0
        · rw [if_neg hpji]
          exact hA j hj1 hjl hji
  · intro j hj1 hjl hjp hp1
    rw [hlen] at hjl
    have hpp := getPai_lt (getPai i) hp1
    rw [tempoEm_troca xs i _ hi hp, tempoEm_troca xs i _ hi hp,
      if_neg (by omega), if_neg (by omega)]
    have hAp := hA (getPai i) hp1 hp (by omega)
    have hpj := getPai_lt j hj1
    rw [if_neg (by omega)]
    by_cases hji : j = i
    · rw [if_pos hji]
      exact hAp
    · rw [if_neg hji]
      have := hA j hj1 hjl hji
      rw [hjp] at this
      exact le_trans hAp this

theorem heapifyUpLoop_ordem (resto : Arr (Evento R)) :
    ∀ (passos : Nat) (xs : List (Evento R)) (i : Nat), i < xs.length → i ≤ passos →
      OrdemSobe xs i →
      ∃ ys : List (Evento R),
        heapifyUpLoop passos (xs.map some ++ resto) i = .ok (ys.map some ++ resto)
        ∧ ys.Perm xs ∧ OrdemHeap ys := by
  intro passos
  induction passos with
  | zero =>
    intro xs i _ hp hinv
    have : i = 0 := by omega
    subst this
    refine ⟨xs, by simp [heapifyUpLoop], List.Perm.refl _, ?_⟩
    intro j hj1 hjl
    exact hinv.1 j hj1 hjl (by omega)
  | succ p ih =>
    intro xs i hi hp hinv
    unfold heapifyUpLoop
    by_cases h0 : i > 0
    · rw [if_pos h0]
      have hpai := getPai_lt i h0
      have hpl : getPai i < xs.length := by omega
      simp only [maiorQue_ok xs resto i (getPai i) hi hpl, ok_bind]
      by_cases hm : xs[i].maior xs[getPai i] = true
      · simp only [hm, if_true, pure_eq_ok]
        refine ⟨xs, rfl, List.Perm.refl _, ?_⟩
        intro j hj1 hjl
        by_cases hji : j = i
        · subst hji
          rw [tempoEm_eq xs j hi, tempoEm_eq xs _ hpl]
          unfold Evento.maior at hm
          exact le_of_lt (by simpa using hm)
        · exact hinv.1 j hj1 hjl hji
      · simp only [hm, trocar_ok xs resto i (getPai i) hi hpl, ok_bind]
        have hle : tempoEm xs i ≤ tempoEm xs (getPai i) := by
          rw [tempoEm_eq xs i hi, tempoEm_eq xs _ hpl]
          unfold Evento.maior at hm
          simpa using hm
        obtain ⟨ys, hys, hperm, hord⟩ := ih ((xs.set i xs[getPai i]).set (getPai i) xs[i])
          (getPai i) (by simpa using hpl) (by omega) (ordemSobe_passo xs i hi h0 hpl hinv hle)
        exact ⟨ys, by simpa using hys, hperm.trans (set_set_perm xs i (getPai i) hi hpl), hord⟩
    · rw [if_neg h0]
      refine ⟨xs, rfl, List.Perm.refl _, ?_⟩
      intro j hj1 hjl
      exact hinv.1 j hj1 hjl (by omega)

theorem tempoEm_append (xs : List (Evento R)) (x : Evento R) (j : Nat) (h : j < xs.length) :
    tempoEm (xs ++ [x]) j = tempoEm xs j := by
  unfold tempoEm
  rw [List.getElem?_append_left h]

theorem ordemSobe_inicial (xs : List (Evento R)) (x : Evento R) (h : OrdemHeap xs) :
    OrdemSobe (xs ++ [x]) xs.length := by
  constructor
  · intro j hj1 hjl hjn
    simp only [List.length_append, List.length_singleton] at hjl
    have hj : j < xs.length := by omega
    have hpj := getPai_lt j hj1
    rw [tempoEm_append xs x j hj, tempoEm_append xs x _ (by omega)]
    exact h j hj1 hj
  · intro j hj1 hjl hjp _
    simp only [List.length_append, List.length_singleton] at hjl
    have hpj := getPai_lt j hj1
    omega

theorem insereEvento_ordem (e : Escalonador R) (xs : List (Evento R)) (evento : Evento R)
    (h : Representa e xs) (hord : OrdemHeap xs) :
    ∃ (e1 : Escalonador R) (ys : List (Evento R)), insereEvento e evento = .ok e1
      ∧ Representa e1 ys ∧ ys.Perm (xs ++ [evento]) ∧ OrdemHeap ys := by
  obtain ⟨resto, hh, hl, hc, hc1⟩ := h
  obtain ⟨heap, tamanho, capacidade, tp, ti⟩ := e
  simp only at hh hl hc hc1
  subst hl hh
  have hrl : xs.length + resto.length = capacidade := by
    rw [← hc]; simp
  have key : ∃ (r : Option (Evento R)) (rs : Arr (Evento R)) (cap : Nat),
      (if xs.length ≥ capacidade
        then redimensionar (⟨xs.map some ++ resto, xs.length, capacidade, tp, ti⟩ : Escalonador R)
        else ⟨xs.map some ++ resto, xs.length, capacidade, tp, ti⟩)
        = ⟨xs.map some ++ r :: rs, xs.length, cap, tp, ti⟩
      ∧ (xs.map some ++ r :: rs).length = cap := by
    by_cases hge : xs.length ≥ capacidade
    · rw [if_pos hge]
      have hr0 : resto = [] := List.eq_nil_of_length_eq_zero (by omega)
      subst hr0
      have hcap : capacidade * 2 - xs.length = (capacidade * 2 - xs.length - 1) + 1 := by
        omega
      refine ⟨none, novoArr (capacidade * 2 - xs.length - 1), capacidade * 2, ?_, ?_⟩
      · unfold redimensionar
        simp only [List.append_nil]
        rw [List.take_of_length_le (by simp), hcap]
        rfl
      · simp [novoArr]; omega
    · rw [if_neg hge]
      cases resto with
      | nil => simp at hrl; omega
      | cons r rs => exact ⟨r, rs, capacidade, rfl, hc⟩
  obtain ⟨r, rs, cap, hk, hlen⟩ := key
  unfold insereEvento
  simp only [hk, gravar_fim, ok_bind, heapifyUp]
  obtain ⟨ys, hys, hperm, hord1⟩ := heapifyUpLoop_ordem rs xs.length (xs ++ [evento]) xs.length
    (by simp) (le_refl _) (ordemSobe_inicial xs evento hord)
  simp only [hys, ok_bind, pure_eq_ok]
  have hyl := hperm.length_eq
  simp only [List.length_append, List.length_map, List.length_cons, List.length_singleton,
    List.length_nil] at hlen hyl
  refine ⟨_, ys, rfl, ⟨rs, rfl, ?_, ?_, ?_⟩, hperm, hord1⟩
  · exact hyl
  · simp only [List.length_append, List.length_map]
    omega
  · show 1 ≤ cap
    omega

theorem inserirTodos_ordem :
    ∀ (es : List (Evento R)) (e : Escalonador R) (xs : List (Evento R)), Representa e xs →
      OrdemHeap xs →
      ∃ (e1 : Escalonador R) (ys : List (Evento R)), inserirTodos e es = .ok e1
        ∧ Representa e1 ys ∧ ys.Perm (xs ++ es) ∧ OrdemHeap ys := by
  intro es
  induction es with
  | nil =>
    intro e xs h hord
    exact ⟨e, xs, rfl, h, by simp, hord⟩
  | cons x es ih =>
    intro e xs h hord
    obtain ⟨e1, ys, h1, hrep1, hperm1, hord1⟩ := insereEvento_ordem e xs x h hord
    obtain ⟨e2, zs, h2, hrep2, hperm2, hord2⟩ := ih e1 ys hrep1 hord1
    refine ⟨e2, zs, ?_, hrep2, ?_, hord2⟩
    · unfold inserirTodos
      rw [h1, ok_bind, h2]
    · refine hperm2.trans ?_
      have := List.Perm.append_right es hperm1
      simpa using this

theorem ordemHeap_raiz (ys : List (Evento R)) (h : OrdemHeap ys) :
    ∀ j, j < ys.length → tempoEm ys 0 ≤ tempoEm ys j := by
  intro j
  induction j using Nat.strong_induction_on with
  | _ j ih =>
    intro hj
    by_cases h0 : j = 0
    · subst h0; exact le_refl _
    · have hpj := getPai_lt j (by omega)
      exact le_trans (ih (getPai j) hpj (by omega)) (h j (by omega) hj)

theorem heapInvariante_iff (e : Escalonador R) (xs : List (Evento R)) (h : Representa e xs) :
    heapInvariante e ↔ OrdemHeap xs := by
  obtain ⟨resto, hh, hl, _, _⟩ := h
  unfold heapInvariante OrdemHeap
  refine forall_congr' fun j => forall_congr' fun hj1 => ?_
  rw [← hl]
  refine forall_congr' fun hjl => ?_
  have hpj := getPai_lt j (by omega)
  have hpl : getPai j < xs.length := by omega
  unfold paiNaoDepois
  rw [hh, ler_map_some_append xs resto j hjl, ler_map_some_append xs resto _ hpl,
    tempoEm_eq xs j hjl, tempoEm_eq xs _ hpl]
  simp

theorem retiraProximoEvento_raiz (e e1 : Escalonador R) (r : Evento R)
    (h : retiraProximoEvento e = .ok (some r, e1)) : ler e.heap 0 = .ok r := by
  unfold retiraProximoEvento at h
  split at h
  · cases h
  · simp only [bind_eq_ok, pure_eq_ok] at h
    obtain ⟨x, hx, _, _, h2⟩ := h
    have := (Prod.mk.inj (Except.ok.inj h2)).1
    rw [hx, Option.some.inj this]

end

/-! ## The number of events of a run -/

section
variable {R : Type} [LinearOrderedField R] (sqrt : R → R)

theorem sum_map_dobro {α : Type} (f : α → Nat) (l : List α) :
    (l.map fun x => f x * 2).sum = (l.map f).sum * 2 := by
  induction l with
  | nil => rfl
  | cons c t ih =>
    simp only [List.map_cons, List.sum_cons, ih]
    omega

theorem total_paradas (e : Entrada R) (s : Simulacao R) (vs : List (Demanda R))
    (cs : List (Corrida R)) (xs es : List (Evento R)) (gs : List (List Nat))
    (hinv : InvConstrucao sqrt e s vs cs xs es)
    (hgs : InvGrupos sqrt e e.num_demandas.toNat vs cs gs) :
    (cs.map fun c => c.num_paradas).sum = 2 * e.num_demandas.toNat := by
  have h1 : (cs.map fun c => c.num_paradas) = cs.map fun c => c.num_demandas * 2 := by
    apply List.map_congr_left
    intro c hc
    obtain ⟨ms, _, _, hcf⟩ := hinv.corrida_forma c hc
    rw [hcf]
    rfl
  have h3 : vs.countP (fun d => decide (d.estado ≠ .DEMANDADA)) = vs.length := by
    rw [List.countP_eq_length]
    intro d hd
    obtain ⟨j, hj, rfl⟩ := List.getElem_of_mem hd
    have := hgs.processadas j vs[j] (by rw [← hinv.num_demandas_eq]; exact hj)
      (List.getElem?_eq_getElem hj)
    simpa using this
  rw [h1, sum_map_dobro, hinv.contagem, h3, hinv.num_demandas_eq]
  omega

end

section
variable {R : Type} [LinearOrderedField R]

theorem invSimulacao_vazio (cs : List (Corrida R)) (es0 : List (Evento R))
    (a : Andamento R) (xs : List (Evento R)) (rs : List (ResultadoCorrida R))
    (hinv : InvSimulacao cs es0 a xs rs) :
    (xs = [] ↔ a.escalonador.total_eventos_processados = (cs.map fun c => c.num_paradas).sum)
    ∧ (estaVazio a.escalonador = true ↔ xs = []) := by
  constructor
  · constructor
    · intro h
      subst h
      have := hinv.processados
      simpa using this
    · intro h
      cases xs with
      | nil => rfl
      | cons x t =>
        obtain ⟨c, e0, ts, hc, _, hr, hx, _⟩ := hinv.evento x (List.mem_cons_self _ _)
        have := restante_pos cs x c ts hc hr hx
        have hp := hinv.processados
        simp only [List.map_cons, List.sum_cons] at hp
        omega
  · obtain ⟨_, _, hl, _, _⟩ := hinv.representa
    unfold estaVazio
    simp only [decide_eq_true_eq]
    rw [← hl]
    exact List.length_eq_zero

theorem simulacaoApos_contagem (cs : List (Corrida R)) (es0 : List (Evento R))
    (resto : Arr (Corrida R)) :
    ∀ (m : Nat) (a : Andamento R) (xs : List (Evento R)) (rs : List (ResultadoCorrida R)),
      InvSimulacao cs es0 a xs rs →
      a.escalonador.total_eventos_processados + m = (cs.map fun c => c.num_paradas).sum →
      (∀ k, k ≤ m → ∃ (ak : Andamento R) (xsk : List (Evento R))
          (rsk : List (ResultadoCorrida R)),
          simulacaoApos (cs.map some ++ resto) k a = .ok (some ak)
          ∧ InvSimulacao cs es0 ak xsk rsk
          ∧ ak.escalonador.total_eventos_processados
            = a.escalonador.total_eventos_processados + k)
      ∧ simulacaoApos (cs.map some ++ resto) (m + 1) a = .ok none
      ∧ ∀ passos, m ≤ passos → ∃ af : Andamento R,
          simulacaoLoop (cs.map some ++ resto) passos a = .ok af
          ∧ simulacaoApos (cs.map some ++ resto) m a = .ok (some af) := by
  intro m
  induction m with
  | zero =>
    intro a xs rs hinv hm
    obtain ⟨hv1, hv2⟩ := invSimulacao_vazio cs es0 a xs rs hinv
    have hxs : xs = [] := hv1.mpr (by omega)
    have hvz : estaVazio a.escalonador = true := hv2.mpr hxs
    refine ⟨?_, ?_, ?_⟩
    · intro k hk
      have : k = 0 := by omega
      subst this
      exact ⟨a, xs, rs, rfl, hinv, rfl⟩
    · unfold simulacaoApos
      rw [hvz]
      rfl
    · intro passos _
      refine ⟨a, ?_, rfl⟩
      cases passos with
      | zero =>
        unfold simulacaoLoop
        rw [if_pos hvz]
      | succ p =>
        unfold simulacaoLoop
        rw [hvz]
        rfl
  | succ m ih =>
    intro a xs rs hinv hm
    obtain ⟨hv1, hv2⟩ := invSimulacao_vazio cs es0 a xs rs hinv
    have hxs : xs ≠ [] := fun h => by
      have := hv1.mp h
      omega
    have hvz : (!estaVazio a.escalonador) = true := by
      cases hb : estaVazio a.escalonador with
      | false => rfl
      | true => exact absurd (hv2.mp hb) hxs
    obtain ⟨a1, xs1, rs1, h1, hinv1, hp1⟩ := iteracaoSimulacao_ok cs es0 resto a xs rs hinv hxs
    obtain ⟨ih1, ih2, ih3⟩ := ih a1 xs1 rs1 hinv1 (by omega)
    have hstep : ∀ k, simulacaoApos (cs.map some ++ resto) (k + 1) a
        = simulacaoApos (cs.map some ++ resto) k a1 := by
      intro k
      rw [simulacaoApos, if_pos hvz]
      simp only [h1, ok_bind, if_true]
    refine ⟨?_, ?_, ?_⟩
    · intro k hk
      cases k with
      | zero => exact ⟨a, xs, rs, rfl, hinv, rfl⟩
      | succ k =>
        obtain ⟨ak, xsk, rsk, hk1, hk2, hk3⟩ := ih1 k (by omega)
        refine ⟨ak, xsk, rsk, ?_, hk2, by omega⟩
        rw [hstep, hk1]
    · rw [hstep, ih2]
    · intro passos hp
      cases passos with
      | zero => omega
      | succ p =>
        obtain ⟨af, hf1, hf2⟩ := ih3 p (by omega)
        refine ⟨af, ?_, ?_⟩
        · rw [simulacaoLoop_iteracao, if_pos hvz]
          simp only [h1, ok_bind, if_true]
          exact hf1
        · rw [hstep, hf2]

end


/-! ## The indices of a run -/

section
variable {R : Type} [LinearOrderedField R] (sqrt : R → R)

theorem gravar_ok_inv {α : Type} (a a1 : Arr α) (i : Nat) (x : α)
    (h : gravar a i x = .ok a1) : i < a.length ∧ a1 = a.set i (some x) := by
  unfold gravar at h
  split at h
  · rename_i hi
    exact ⟨hi, (Except.ok.inj h).symm⟩
  · cases h

theorem tentarCombinar_escritas (demandas : Arr (Demanda R)) (eta : Int)
    (gama delta alfa beta lambda tempo_base : R) :
    ∀ (js : List Nat) (dc : Arr Nat) (n : Nat) (dc1 : Arr Nat) (n1 : Nat),
      tentarCombinar sqrt demandas eta gama delta alfa beta lambda tempo_base js (dc, n)
        = .ok (dc1, n1) →
      dc1.length = dc.length ∧ n ≤ n1 ∧ ((n : Int) ≤ eta → (n1 : Int) ≤ eta)
      ∧ ∀ p, dc1[p]? ≠ dc[p]? → n ≤ p ∧ (p : Int) < eta ∧ p < dc.length := by
  intro js
  induction js with
  | nil =>
    intro dc n dc1 n1 h
    unfold tentarCombinar at h
    obtain ⟨h1, h2⟩ := Prod.mk.inj (Except.ok.inj h)
    subst h1 h2
    exact ⟨rfl, le_refl _, fun h => h, fun p hp => absurd rfl hp⟩
  | cons j js ih =>
    intro dc n dc1 n1 h
    unfold tentarCombinar at h
    have hfim : (Except.ok (dc, n) : Except Erro (Arr Nat × Nat)) = .ok (dc1, n1) →
        dc1.length = dc.length ∧ n ≤ n1 ∧ ((n : Int) ≤ eta → (n1 : Int) ≤ eta)
        ∧ ∀ p, dc1[p]? ≠ dc[p]? → n ≤ p ∧ (p : Int) < eta ∧ p < dc.length := by
      intro h
      obtain ⟨h1, h2⟩ := Prod.mk.inj (Except.ok.inj h)
      subst h1 h2
      exact ⟨rfl, le_refl _, fun h => h, fun p hp => absurd rfl hp⟩
    split at h
    · rename_i hlt
      simp only [bind_eq_ok] at h
      obtain ⟨dj, _, h⟩ := h
      split at h
      · exact ih dc n dc1 n1 h
      · split at h
        · exact hfim h
        · simp only [bind_eq_ok] at h
          obtain ⟨b, _, h⟩ := h
          split at h
          · exact ih dc n dc1 n1 h
          · simp only [bind_eq_ok] at h
            obtain ⟨dca, hg, ct, _, ef, _, h⟩ := h
            obtain ⟨hnl, hset⟩ := gravar_ok_inv dc dca n j hg
            have hmud : ∀ p, dca[p]? ≠ dc[p]? → p = n := by
              intro p hp
              by_contra hne
              apply hp
              rw [hset, List.getElem?_set_ne (fun h => hne h.symm)]
            have hlen : dca.length = dc.length := by rw [hset]; simp
            split at h
            · obtain ⟨h1, h2⟩ := Prod.mk.inj (Except.ok.inj h)
              subst h1 h2
              refine ⟨hlen, by omega, fun _ => by omega, ?_⟩
              intro p hp
              have := hmud p hp
              subst this
              exact ⟨le_refl _, hlt, hnl⟩
            · obtain ⟨i1, i2, i3, i4⟩ := ih dca (n + 1) dc1 n1 h
              refine ⟨i1.trans hlen, by omega, fun _ => i3 (by omega), ?_⟩
              intro p hp
              by_cases hpa : dc1[p]? = dca[p]?
              · have := hmud p (by rw [← hpa]; exact hp)
                subst this
                exact ⟨le_refl _, hlt, hnl⟩
              · obtain ⟨j1, j2, j3⟩ := i4 p hpa
                exact ⟨by omega, j2, by omega⟩
    · exact hfim h

end

section
variable {R : Type} [LinearOrderedField R]

theorem invSimulacao_indices (cs : List (Corrida R)) (es0 : List (Evento R))
    (a : Andamento R) (xs : List (Evento R)) (rs : List (ResultadoCorrida R))
    (hinv : InvSimulacao cs es0 a xs rs) (hne : getTamanho a.escalonador ≠ 0) :
    ∃ (r : Evento R) (e1 : Escalonador R) (c : Corrida R),
      retiraProximoEvento a.escalonador = .ok (some r, e1)
      ∧ r.corrida_associada < cs.length ∧ cs[r.corrida_associada]? = some c
      ∧ r.indice_parada + 1 ≤ c.num_paradas
      ∧ a.resultados.length = cs.length
      ∧ ((r.indice_parada : Int) ≥ (c.num_paradas : Int) - 1 → a.num_resultados < cs.length)
      ∧ (¬ (r.indice_parada : Int) ≥ (c.num_paradas : Int) - 1 →
          r.indice_parada + 2 ≤ c.num_paradas ∧ r.indice_parada < c.num_trechos
          ∧ ∃ t : Trecho R, ler c.trechos r.indice_parada = .ok t) := by
  have hxs : xs ≠ [] := by
    obtain ⟨_, _, hl, _, _⟩ := hinv.representa
    intro h
    subst h
    exact hne hl.symm
  obtain ⟨r, e1, ys, hret, _, hperm, _, _⟩ :=
    retiraProximoEvento_ok a.escalonador xs hinv.representa hxs
  have hrmem : r ∈ xs := hperm.symm.subset (List.mem_cons_self _ _)
  obtain ⟨c, e0, ts, hc, _, hr, hidx, _⟩ := hinv.evento r hrmem
  have hclt : r.corrida_associada < cs.length := by
    by_contra hcon
    rw [List.getElem?_eq_none (by omega)] at hc
    cases hc
  have hnl := hinv.perm.length_eq
  simp only [List.length_append, List.length_map, List.length_range] at hnl
  have hxl : 0 < xs.length := List.length_pos.mpr hxs
  have hpe := hr.paradas_eq
  refine ⟨r, e1, c, hret, hclt, hc, by omega, ?_, ?_, ?_⟩
  · rw [hinv.resultados_eq]
    simp [novoArr]
    omega
  · intro _
    rw [← hinv.num_resultados_eq]
    omega
  · intro hnf
    have hidx_lt : r.indice_parada < ts.length := by omega
    obtain ⟨restot, htr⟩ := hr.trechos_eq
    refine ⟨by omega, by rw [hr.num_trechos_eq]; exact hidx_lt, ts[r.indice_parada], ?_⟩
    rw [htr]
    exact ler_map_some_append ts restot _ hidx_lt

end


/-! ## The anchor of an iteration -/

section
variable {R : Type} [LinearOrderedField R] (sqrt : R → R)

theorem ancora_da_iteracao (e : Entrada R) (heta : 1 ≤ e.eta)
    (hpos : 0 < e.num_demandas) (hreg : e.num_demandas.toNat ≤ e.registros.length)
    (i : Nat) (hi : i < e.num_demandas.toNat) :
    ∃ (si si1 sn : Simulacao R), estadoApos sqrt e i = .ok si
      ∧ estadoApos sqrt e (i + 1) = .ok si1
      ∧ estadoApos sqrt e e.num_demandas.toNat = .ok sn
      ∧ ∀ (di : Demanda R), ler si.demandas i = .ok di →
          (di.estado ≠ .DEMANDADA → si1.num_corridas = si.num_corridas)
          ∧ (di.estado = .DEMANDADA → si1.num_corridas = si.num_corridas + 1
              ∧ (∃ d : Demanda R, ler sn.demandas i = .ok d
                  ∧ d.corrida_associada = some si.num_corridas)
              ∧ ∀ (j : Nat) (dj : Demanda R), j < i → ler sn.demandas j = .ok dj →
                  dj.corrida_associada ≠ some si.num_corridas) := by
  obtain ⟨si, vs, cs, xs, es, gs, hs, hinv, hgs, hnc, _⟩ :=
    estadoApos_ok sqrt e heta hpos hreg i (by omega)
  have hil : i < vs.length := by rw [hinv.num_demandas_eq]; exact hi
  obtain ⟨s1, vs1, cs1, xs1, es1, gs1, hf, hinv1, hgs1, _, hcasos⟩ :=
    formarCorrida_passo sqrt e heta i si vs cs xs es gs hinv hgs hnc hil
  have hs1 : estadoApos sqrt e (i + 1) = .ok s1 := by rw [estadoApos_succ, hs]; exact hf
  obtain ⟨sa, sb, hsa, hsb, _, hpasso⟩ := passo_demandas sqrt e heta hpos hreg i hi
  have e1 : si = sa := Except.ok.inj (hs.symm.trans hsa)
  have e2 : s1 = sb := Except.ok.inj (hs1.symm.trans hsb)
  subst e1 e2
  obtain ⟨sc, sn, hsc, hsn, hfix1⟩ :=
    demanda_fixa sqrt e heta hpos hreg (i + 1) e.num_demandas.toNat (by omega) (le_refl _)
  have e3 : s1 = sc := Except.ok.inj (hs1.symm.trans hsc)
  subst e3
  obtain ⟨sd, sn1, hsd, hsn1, hfix0⟩ :=
    demanda_fixa sqrt e heta hpos hreg i e.num_demandas.toNat (by omega) (le_refl _)
  have e4 : si = sd := Except.ok.inj (hs.symm.trans hsd)
  have e5 : sn = sn1 := Except.ok.inj (hsn.symm.trans hsn1)
  subst e4 e5
  refine ⟨si, s1, sn, hs, hs1, hsn, ?_⟩
  intro di hdi
  have hvi : vs[i]? = some di := by
    rw [hinv.demandas_eq] at hdi
    exact ler_map_some_inv vs i di hdi
  have hvi1 : vs[i] = di := by
    rw [List.getElem?_eq_getElem hil] at hvi
    exact Option.some.inj hvi
  constructor
  · intro hne
    rcases hcasos with ⟨_, h1, _, _⟩ | ⟨hest, _, _, _⟩
    · rw [h1]
    · rw [hvi1] at hest
      exact absurd hest hne
  · intro hest
    rcases hcasos with ⟨hne, _, _, _⟩ | ⟨_, _, _, hnum⟩
    · rw [hvi1] at hne
      exact absurd hest hne
    · refine ⟨hnum, ?_, ?_⟩
      · obtain ⟨d1, hd1, hou⟩ := hpasso i di hdi
        have hd1v : vs1[i]? = some d1 := by
          rw [hinv1.demandas_eq] at hd1
          exact ler_map_some_inv vs1 i d1 hd1
        have hne1 := hgs1.processadas i d1 (by omega) hd1v
        rcases hou with h | ⟨_, _, _, hd⟩
        · rw [h] at hne1
          exact absurd hest hne1
        · refine ⟨d1, hfix1 i d1 hd1 hne1, ?_⟩
          rw [hd]
          rfl
      · intro j dj hj hdj hcontra
        have hjl : j < vs.length := by omega
        have hvj : vs[j]? = some vs[j] := List.getElem?_eq_getElem hjl
        have hnej := hgs.processadas j vs[j] hj hvj
        obtain ⟨h1, hh1⟩ := hgs.atendida j vs[j] hvj hnej
        have hlt := hinv.corrida_valida j vs[j] h1 hvj hh1
        have hlj : ler si.demandas j = .ok vs[j] := by
          rw [hinv.demandas_eq]
          exact ler_map_some vs j hjl
        have := hfix0 j vs[j] hlj hnej
        rw [hdj] at this
        have hdd := Except.ok.inj this
        rw [hdd, hh1] at hcontra
        have := Option.some.inj hcontra
        omega

end

/-! ## Claims about the scheduler's ordering (C1–C3) -/

/-- C1 (defect of `heapifyDown`, evaluated): inserting events with times 1, 2, 3 into
an empty scheduler and extracting once leaves two queued events with time 3 in slot 0
and time 2 in slot 1, so the parent at index 0 is later than its child at index 1 and
the heap invariant does not hold in a reachable state. -/
theorem C1_heap_invariant_broken_by_extraction :
    executar (Escalonador.novo 4).inicializa
        [.insere (ev 1), .insere (ev 2), .insere (ev 3), .retira]
      = .ok ⟨[some (ev 3), some (ev 2), some (ev 3), none], 2, 4, 1, 3⟩
    ∧ ¬ heapInvariante
        (⟨[some (ev 3), some (ev 2), some (ev 3), none], 2, 4, 1, 3⟩ : Escalonador ℚ) := by
  refine ⟨by decide, fun h => ?_⟩
  have h1 := h 1 (by decide) (by decide)
  revert h1
  decide

/-- C2 (defect of `heapifyDown`, evaluated): in the state reached by inserting times
1, 2, 3 and extracting once, which holds the events with times 3 and 2,
`retiraProximoEvento` returns the event with time 3 although an event with time 2 is
queued: the returned event is not the earliest one. -/
theorem C2_extraction_returns_later_event :
    executar (Escalonador.novo 4).inicializa
        [.insere (ev 1), .insere (ev 2), .insere (ev 3), .retira]
      = .ok ⟨[some (ev 3), some (ev 2), some (ev 3), none], 2, 4, 1, 3⟩
    ∧ eventos (⟨[some (ev 3), some (ev 2), some (ev 3), none], 2, 4, 1, 3⟩ : Escalonador ℚ)
      = [ev 3, ev 2]
    ∧ (retiraProximoEvento
        (⟨[some (ev 3), some (ev 2), some (ev 3), none], 2, 4, 1, 3⟩ : Escalonador ℚ)).map
          (fun r => r.1) = .ok (some (ev 3))
    ∧ ¬ ((ev 3).tempo ≤ (ev 2).tempo) := by
  refine ⟨by decide, by decide, by decide, by decide⟩

/-- C3 (defect of `heapifyDown`, evaluated): inserting events with times 1, 2, 3 into
an empty scheduler and extracting until it is empty returns the times 1, 3, 2 in that
order, which is not a non-decreasing sequence. -/
theorem C3_extraction_order_not_monotone :
    ((inserirTodos (Escalonador.novo 4).inicializa [ev 1, ev 2, ev 3] >>= retirarTodos 3).map
        fun es => es.map fun e => e.tempo) = .ok [1, 3, 2]
    ∧ ¬ List.Sorted (· ≤ ·) ([1, 3, 2] : List ℚ) := by
  refine ⟨by decide, by decide⟩

/-! ## Claims about `construirCorrida` (C7–C9) -/

section
variable {R : Type} [LinearOrderedField R] (sqrt : R → R)

/-- C7: for a cluster `ds` of `n ≥ 1` demands (the first `n` slots of
`demandas_corrida`, whatever the remaining slots hold), `construirCorrida` returns a
ride with `getNumDemandas() = n`, `getNumParadas() = 2 * n` and
`getNumTrechos() = 2 * n - 1`. -/
theorem C7_construirCorrida_counts (gama tempo_inicio : R) (ds : List (Demanda R))
    (resto : Arr (Demanda R)) (h : ds ≠ []) :
    ∃ c, construirCorrida sqrt (ds.map some ++ resto) (ds.length : Int) gama tempo_inicio = .ok c
      ∧ c.getNumDemandas = ds.length
      ∧ c.getNumParadas = 2 * ds.length
      ∧ c.getNumTrechos = 2 * ds.length - 1 := by
  refine ⟨_, construirCorrida_eq sqrt gama tempo_inicio ds resto h, rfl, ?_, ?_⟩
  · simp only [Corrida.getNumParadas, corridaDe]; omega
  · simp only [Corrida.getNumTrechos, corridaDe]; omega

/-- C8: for a cluster `ds` of `n ≥ 1` demands, the ride returned by `construirCorrida`
has, for each `i < n`, at stop `i` a pickup at the origin of `ds[i]` with its id, and at
stop `n + i` a drop-off at the destination of `ds[i]` with its id. -/
theorem C8_construirCorrida_two_phase_layout (gama tempo_inicio : R) (ds : List (Demanda R))
    (resto : Arr (Demanda R)) (h : ds ≠ []) :
    ∃ c, construirCorrida sqrt (ds.map some ++ resto) (ds.length : Int) gama tempo_inicio = .ok c
      ∧ ∀ (i : Nat) (hi : i < ds.length),
          ler c.paradas i
            = .ok ⟨ds[i].origem_x, ds[i].origem_y, .EMBARQUE, ds[i].id⟩
          ∧ ler c.paradas (ds.length + i)
            = .ok ⟨ds[i].destino_x, ds[i].destino_y, .DESEMBARQUE, ds[i].id⟩ := by
  refine ⟨_, construirCorrida_eq sqrt gama tempo_inicio ds resto h, fun i hi => ⟨?_, ?_⟩⟩
  · simp only [corridaDe]
    rw [ler_map_some _ i (by rw [length_paradasDe]; omega), getElem_paradasDe_embarque ds i hi _]
  · simp only [corridaDe]
    rw [ler_map_some _ (ds.length + i) (by rw [length_paradasDe]; omega),
      getElem_paradasDe_desembarque ds i hi _]

/-- C9: for a ride built by `construirCorrida` with speed `gama > 0`, every segment
`i < num_trechos` starts at stop `i` and ends at stop `i + 1`; its nature is `COLETA`
when both stops are pickups, `ENTREGA` when both are drop-offs and `DESLOCAMENTO` when
the kinds differ; its distance is `sqrt (dx * dx + dy * dy)` for the coordinate
differences of the two stops and its duration is that distance divided by `gama`. -/
theorem C9_construirCorrida_segments (gama tempo_inicio : R) (ds : List (Demanda R))
    (resto : Arr (Demanda R)) (h : ds ≠ []) (hg : 0 < gama) :
    ∃ c, construirCorrida sqrt (ds.map some ++ resto) (ds.length : Int) gama tempo_inicio = .ok c
      ∧ ∀ i, i < c.num_trechos →
          ∃ p0 p1 t, ler c.paradas i = .ok p0 ∧ ler c.paradas (i + 1) = .ok p1
            ∧ ler c.trechos i = .ok t
            ∧ t.parada_inicio = some p0 ∧ t.parada_fim = some p1
            ∧ (p0.tipo = .EMBARQUE → p1.tipo = .EMBARQUE → t.natureza = .COLETA)
            ∧ (p0.tipo = .DESEMBARQUE → p1.tipo = .DESEMBARQUE → t.natureza = .ENTREGA)
            ∧ (p0.tipo ≠ p1.tipo → t.natureza = .DESLOCAMENTO)
            ∧ t.distancia
              = sqrt ((p0.coord_x - p1.coord_x) * (p0.coord_x - p1.coord_x)
                  + (p0.coord_y - p1.coord_y) * (p0.coord_y - p1.coord_y))
            ∧ t.tempo = t.distancia / gama := by
  refine ⟨_, construirCorrida_eq sqrt gama tempo_inicio ds resto h, fun i hi => ?_⟩
  have hl := length_paradasDe ds
  simp only [corridaDe] at hi
  have h0 : i < (paradasDe ds).length := by omega
  have h1 : i + 1 < (paradasDe ds).length := by omega
  refine ⟨(paradasDe ds)[i], (paradasDe ds)[i + 1],
    trechoEntre sqrt gama (paradasDe ds)[i] (paradasDe ds)[i + 1], ?_, ?_, ?_, rfl, rfl, ?_, ?_,
    ?_, rfl, rfl⟩
  · exact ler_map_some _ i h0
  · exact ler_map_some _ (i + 1) h1
  · simp only [corridaDe]
    rw [ler_map_some_append _ _ i (by rw [length_trechosDe]; omega),
      getElem_trechosDe sqrt gama _ i h1 _]
  · intro a b
    simp [trechoEntre, Trecho.calcularTempoDistancia, naturezaEntre, a, b]
  · intro a b
    simp [trechoEntre, Trecho.calcularTempoDistancia, naturezaEntre, a, b]
  · intro a
    have : ¬ ((paradasDe ds)[i].tipo = .EMBARQUE ∧ (paradasDe ds)[i + 1].tipo = .EMBARQUE) := by
      rintro ⟨x, y⟩; exact a (x.trans y.symm)
    have h2 : ¬ ((paradasDe ds)[i].tipo = .DESEMBARQUE
        ∧ (paradasDe ds)[i + 1].tipo = .DESEMBARQUE) := by
      rintro ⟨x, y⟩; exact a (x.trans y.symm)
    simp [trechoEntre, Trecho.calcularTempoDistancia, naturezaEntre, this, h2]

end

/-- Instance of C7: the one-member cluster `[demandaExemplo]`. -/
theorem C7_construirCorrida_counts_witness :
    [demandaExemplo] ≠ [] ∧
    ∃ c, construirCorrida (fun x : ℚ => x) ([demandaExemplo].map some ++ [])
          ([demandaExemplo].length : Int) 1 0 = .ok c
      ∧ c.getNumDemandas = [demandaExemplo].length
      ∧ c.getNumParadas = 2 * [demandaExemplo].length
      ∧ c.getNumTrechos = 2 * [demandaExemplo].length - 1 :=
  ⟨by decide, C7_construirCorrida_counts (fun x : ℚ => x) 1 0 [demandaExemplo] [] (by decide)⟩

/-- Instance of C8: the one-member cluster `[demandaExemplo]`. -/
theorem C8_construirCorrida_two_phase_layout_witness :
    [demandaExemplo] ≠ [] ∧
    ∃ c, construirCorrida (fun x : ℚ => x) ([demandaExemplo].map some ++ [])
          ([demandaExemplo].length : Int) 1 0 = .ok c
      ∧ ∀ (i : Nat) (hi : i < [demandaExemplo].length),
          ler c.paradas i
            = .ok ⟨[demandaExemplo][i].origem_x, [demandaExemplo][i].origem_y, .EMBARQUE,
                [demandaExemplo][i].id⟩
          ∧ ler c.paradas ([demandaExemplo].length + i)
            = .ok ⟨[demandaExemplo][i].destino_x, [demandaExemplo][i].destino_y, .DESEMBARQUE,
                [demandaExemplo][i].id⟩ :=
  ⟨by decide,
    C8_construirCorrida_two_phase_layout (fun x : ℚ => x) 1 0 [demandaExemplo] [] (by decide)⟩

/-- Instance of C9: the one-member cluster `[demandaExemplo]` at speed 1. -/
theorem C9_construirCorrida_segments_witness :
    [demandaExemplo] ≠ [] ∧ (0 : ℚ) < 1 ∧
    ∃ c, construirCorrida (fun x : ℚ => x) ([demandaExemplo].map some ++ [])
          ([demandaExemplo].length : Int) 1 0 = .ok c
      ∧ ∀ i, i < c.num_trechos →
          ∃ p0 p1 t, ler c.paradas i = .ok p0 ∧ ler c.paradas (i + 1) = .ok p1
            ∧ ler c.trechos i = .ok t
            ∧ t.parada_inicio = some p0 ∧ t.parada_fim = some p1
            ∧ (p0.tipo = .EMBARQUE → p1.tipo = .EMBARQUE → t.natureza = .COLETA)
            ∧ (p0.tipo = .DESEMBARQUE → p1.tipo = .DESEMBARQUE → t.natureza = .ENTREGA)
            ∧ (p0.tipo ≠ p1.tipo → t.natureza = .DESLOCAMENTO)
            ∧ t.distancia
              = (fun x : ℚ => x) ((p0.coord_x - p1.coord_x) * (p0.coord_x - p1.coord_x)
                  + (p0.coord_y - p1.coord_y) * (p0.coord_y - p1.coord_y))
            ∧ t.tempo = t.distancia / 1 :=
  ⟨by decide, by decide,
    C9_construirCorrida_segments (fun x : ℚ => x) 1 0 [demandaExemplo] [] (by decide)
      (by decide)⟩

/-! ## Claim about the capacity of the clusters (C10) -/
section
variable {R : Type} [LinearOrderedField R] (sqrt : R → R)

/-- C10: for every input with `eta ≥ 1` (and a positive number of demands, all of
them present in the stream), the matching phase ends normally and every ride it has
stored, at positions `0 .. num_corridas - 1` of `corridas`, has at least 1 and at most
`eta` members. -/
theorem C10_clusters_respect_capacity (e : Entrada R) (heta : 1 ≤ e.eta)
    (hpos : 0 < e.num_demandas) (hreg : e.num_demandas.toNat ≤ e.registros.length) :
    ∃ s : Simulacao R,
      construcaoDasCorridas sqrt e ((demandasLidas e).map some) = .ok s
      ∧ ∀ h, h < s.num_corridas →
          ∃ c, ler s.corridas h = .ok c ∧ 1 ≤ c.num_demandas
            ∧ (c.num_demandas : Int) ≤ e.eta := by
  obtain ⟨s, vs, cs, xs, es, hs, hinv⟩ := construcaoDasCorridas_ok sqrt e heta hpos hreg
  refine ⟨s, hs, fun h hh => ?_⟩
  have hlt : h < cs.length := by rw [hinv.num_corridas_eq]; exact hh
  obtain ⟨ms, hne, hle, hc⟩ := hinv.corrida_forma cs[h] (List.getElem_mem hlt)
  refine ⟨cs[h], ?_, ?_, ?_⟩
  · rw [hinv.corridas_eq]
    exact ler_map_some_append cs _ h hlt
  · rw [hc]
    exact List.length_pos.mpr hne
  · rw [hc]
    exact hle

end

/-- Instance of C10: scenario C. -/
theorem C10_clusters_respect_capacity_witness :
    1 ≤ cenarioC.eta ∧ 0 < cenarioC.num_demandas
    ∧ cenarioC.num_demandas.toNat ≤ cenarioC.registros.length ∧
    ∃ s : Simulacao ℚ,
      construcaoDasCorridas raizExemplo cenarioC ((demandasLidas cenarioC).map some) = .ok s
      ∧ ∀ h, h < s.num_corridas →
          ∃ c, ler s.corridas h = .ok c ∧ 1 ≤ c.num_demandas
            ∧ (c.num_demandas : Int) ≤ cenarioC.eta :=
  ⟨by decide, by decide, by decide,
    C10_clusters_respect_capacity raizExemplo cenarioC (by decide) (by decide) (by decide)⟩

/-! ## Claims about the simulation loop (C5, C6) -/

section
variable {R : Type} [LinearOrderedField R] (sqrt : R → R)

/-- C5: for every validated input and every budget of at least `2 * num_demandas`
iterations, reading, matching and the simulation loop end normally with an empty
scheduler, and the result array holds exactly one record for each ride built by the
matching phase and nothing else: the rides of the records `rs` are a permutation of
`0, …, num_corridas - 1` and `num_resultados = num_corridas`. -/
theorem C5_one_record_per_ride (e : Entrada R) (hv : EntradaValida e) (passos : Nat)
    (hp : 2 * e.num_demandas.toNat ≤ passos) :
    ∃ (demandas : Arr (Demanda R)) (s : Simulacao R) (a : Andamento R)
      (rs : List (ResultadoCorrida R)),
      lerDemandas e = .ok demandas
      ∧ construcaoDasCorridas sqrt e demandas = .ok s
      ∧ simulacaoDeEventos passos s = .ok a
      ∧ estaVazio a.escalonador = true
      ∧ a.num_resultados = s.num_corridas
      ∧ a.resultados = rs.map some ∧ rs.length = a.num_resultados
      ∧ (rs.map fun r => r.corrida).Perm (List.range s.num_corridas) := by
  obtain ⟨s, a, vs, cs, xs, es, rs, hler, hs, ha, hinv, hsim⟩ := fases_ok sqrt e hv passos hp
  have hperm := hsim.perm
  simp only [List.map_nil, List.nil_append] at hperm
  have hlen := hperm.length_eq
  simp only [List.length_map, List.length_range] at hlen
  obtain ⟨_, _, hl, _, _⟩ := hsim.representa
  refine ⟨_, s, a, rs, hler, hs, ha, ?_, ?_, ?_, hsim.num_resultados_eq, ?_⟩
  · unfold estaVazio
    simpa using hl.symm
  · rw [← hsim.num_resultados_eq, hlen, hinv.num_corridas_eq]
  · rw [hsim.resultados_eq, hlen]
    simp [novoArr]
  · rw [← hinv.num_corridas_eq]
    exact hperm

/-- C6: for every validated input and every budget of at least `2 * num_demandas`
iterations, every ride `h` has a record, and every record `r` of the simulation loop
carries the time `d.tempo_solicitacao + c.duracao_total`, where `c` is the ride of the
record, `d` is the first demand (lowest input position) associated with that ride, and
`c.duracao_total` is the sum of the durations of the `num_trechos` segments of `c`. -/
theorem C6_completion_time (e : Entrada R) (hv : EntradaValida e) (passos : Nat)
    (hp : 2 * e.num_demandas.toNat ≤ passos) :
    ∃ (demandas : Arr (Demanda R)) (s : Simulacao R) (a : Andamento R),
      lerDemandas e = .ok demandas
      ∧ construcaoDasCorridas sqrt e demandas = .ok s
      ∧ simulacaoDeEventos passos s = .ok a
      ∧ (∀ h, h < s.num_corridas → ∃ k r, ler a.resultados k = .ok r ∧ r.corrida = h)
      ∧ ∀ (k : Nat) (r : ResultadoCorrida R), ler a.resultados k = .ok r →
          ∃ (c : Corrida R) (ancora : Nat) (d : Demanda R) (ts : List (Trecho R)),
            ler s.corridas r.corrida = .ok c
            ∧ ler s.demandas ancora = .ok d
            ∧ d.corrida_associada = some r.corrida
            ∧ (∀ (j : Nat) (d1 : Demanda R), j < ancora → ler s.demandas j = .ok d1 →
                d1.corrida_associada ≠ some r.corrida)
            ∧ ts.length = c.num_trechos
            ∧ (∀ (i : Nat) (hi : i < ts.length), ler c.trechos i = .ok ts[i])
            ∧ c.duracao_total = (ts.map fun t => t.tempo).sum
            ∧ r.tempo_conclusao = d.tempo_solicitacao + c.duracao_total := by
  obtain ⟨s, a, vs, cs, xs, es, rs, hler, hs, ha, hinv, hsim⟩ := fases_ok sqrt e hv passos hp
  have hperm := hsim.perm
  simp only [List.map_nil, List.nil_append] at hperm
  refine ⟨_, s, a, hler, hs, ha, ?_, ?_⟩
  · intro h hh
    have hmem : h ∈ rs.map fun r => r.corrida := by
      apply hperm.symm.subset
      rw [List.mem_range, hinv.num_corridas_eq]
      exact hh
    obtain ⟨r, hr, hrc⟩ := List.mem_map.mp hmem
    obtain ⟨k, hk, rfl⟩ := List.getElem_of_mem hr
    refine ⟨k, rs[k], ?_, hrc⟩
    rw [hsim.resultados_eq]
    exact ler_map_some_append rs _ k hk
  · intro k r hk
    rw [hsim.resultados_eq] at hk
    have hrk := ler_prefixo_inv rs _ k r hk
    have hr : r ∈ rs := List.getElem?_mem hrk
    obtain ⟨c, e0, hc, he0, htempo⟩ := hsim.resultado r hr
    obtain ⟨anc, d, hva, hda, hprev, hte⟩ := hinv.ancora r.corrida e0 he0
    have hcm : c ∈ cs := List.getElem?_mem hc
    obtain ⟨ms, hne, _, hcf⟩ := hinv.corrida_forma c hcm
    have hrota := rotaDe_corridaFinal sqrt e.gama ms hne
    rw [← hcf] at hrota
    obtain ⟨resto, htr⟩ := hrota.trechos_eq
    refine ⟨c, anc, d, trechosDe sqrt e.gama (paradasDe ms), ?_, ?_, hda, ?_,
      hrota.num_trechos_eq.symm, ?_, hrota.duracao_eq, ?_⟩
    · rw [hinv.corridas_eq, ler_eq_ok]
      rw [List.getElem?_append_left (by
        simp only [List.length_map]
        by_contra hcon
        rw [List.getElem?_eq_none (by omega)] at hc
        cases hc)]
      rw [List.getElem?_map, hc]
      rfl
    · rw [hinv.demandas_eq, ler_eq_ok, List.getElem?_map, hva]
      rfl
    · intro j d1 hj hd1
      rw [hinv.demandas_eq, ler_eq_ok, List.getElem?_map] at hd1
      cases hq : vs[j]? with
      | none => rw [hq] at hd1; cases hd1
      | some q =>
        rw [hq] at hd1
        simp only [Option.map_some', Option.some.injEq] at hd1
        rw [← hd1]
        exact hprev j q hj hq
    · intro i hi
      rw [htr]
      exact ler_map_some_append _ _ i hi
    · rw [htempo, hte]

end

/-- Instance of C5: scenario C with a budget of 4 iterations. -/
theorem C5_one_record_per_ride_witness :
    EntradaValida cenarioC ∧ 2 * cenarioC.num_demandas.toNat ≤ 4 ∧
    ∃ (demandas : Arr (Demanda ℚ)) (s : Simulacao ℚ) (a : Andamento ℚ)
      (rs : List (ResultadoCorrida ℚ)),
      lerDemandas cenarioC = .ok demandas
      ∧ construcaoDasCorridas raizExemplo cenarioC demandas = .ok s
      ∧ simulacaoDeEventos 4 s = .ok a
      ∧ estaVazio a.escalonador = true
      ∧ a.num_resultados = s.num_corridas
      ∧ a.resultados = rs.map some ∧ rs.length = a.num_resultados
      ∧ (rs.map fun r => r.corrida).Perm (List.range s.num_corridas) :=
  ⟨cenarioC_valida, by decide,
    C5_one_record_per_ride raizExemplo cenarioC cenarioC_valida 4 (by decide)⟩

/-- Instance of C6: scenario C with a budget of 4 iterations. -/
theorem C6_completion_time_witness :
    EntradaValida cenarioC ∧ 2 * cenarioC.num_demandas.toNat ≤ 4 ∧
    ∃ (demandas : Arr (Demanda ℚ)) (s : Simulacao ℚ) (a : Andamento ℚ),
      lerDemandas cenarioC = .ok demandas
      ∧ construcaoDasCorridas raizExemplo cenarioC demandas = .ok s
      ∧ simulacaoDeEventos 4 s = .ok a
      ∧ (∀ h, h < s.num_corridas → ∃ k r, ler a.resultados k = .ok r ∧ r.corrida = h)
      ∧ ∀ (k : Nat) (r : ResultadoCorrida ℚ), ler a.resultados k = .ok r →
          ∃ (c : Corrida ℚ) (ancora : Nat) (d : Demanda ℚ) (ts : List (Trecho ℚ)),
            ler s.corridas r.corrida = .ok c
            ∧ ler s.demandas ancora = .ok d
            ∧ d.corrida_associada = some r.corrida
            ∧ (∀ (j : Nat) (d1 : Demanda ℚ), j < ancora → ler s.demandas j = .ok d1 →
                d1.corrida_associada ≠ some r.corrida)
            ∧ ts.length = c.num_trechos
            ∧ (∀ (i : Nat) (hi : i < ts.length), ler c.trechos i = .ok ts[i])
            ∧ c.duracao_total = (ts.map fun t => t.tempo).sum
            ∧ r.tempo_conclusao = d.tempo_solicitacao + c.duracao_total :=
  ⟨cenarioC_valida, by decide,
    C6_completion_time raizExemplo cenarioC cenarioC_valida 4 (by decide)⟩

/-! ## Claim about the order of the output (C4) -/
section
variable {R : Type} [LinearOrderedField R] (sqrt : R → R)

/-- C4: for every validated input and every budget of at least `2 * num_demandas`
iterations of the simulation loop, `main` ends normally and the completion times of
the lines it prints, in the order of printing, are non-decreasing. -/
theorem C4_output_sorted_by_completion_time (e : Entrada R) (hv : EntradaValida e)
    (passos : Nat) (hp : 2 * e.num_demandas.toNat ≤ passos) :
    ∃ linhas : List (Linha R), main sqrt passos e = .ok linhas
      ∧ (linhas.map fun l => l.tempo_conclusao).Sorted (· ≤ ·) := by
  obtain ⟨s, a, vs, cs, xs, es, rs, hler, hs, ha, hinv, hsim⟩ := fases_ok sqrt e hv passos hp
  have hperm := hsim.perm
  simp only [List.map_nil, List.nil_append] at hperm
  have hlen := hperm.length_eq
  simp only [List.length_map, List.length_range] at hlen
  have hres : a.resultados = rs.map some := by
    rw [hsim.resultados_eq, hlen]
    simp [novoArr]
  obtain ⟨rs1, hord, hperm1, hsorted⟩ := ordenarResultados_ok rs
  obtain ⟨linhas, himp, htempos⟩ := imprimirResultados_ok sqrt cs
    (novoArr (vs.length - cs.length)) rs1 (by
      intro r hr
      obtain ⟨c, e0, hc, _, _⟩ := hsim.resultado r (hperm1.subset hr)
      obtain ⟨ms, _, _, hcf⟩ := hinv.corrida_forma c (List.getElem?_mem hc)
      exact ⟨c, hc, ms, e.gama, hcf⟩)
  refine ⟨linhas, ?_, ?_⟩
  · unfold main
    rw [hler]
    simp only [ok_bind]
    rw [hs]
    simp only [ok_bind]
    rw [ha]
    simp only [ok_bind]
    rw [hres, ← hsim.num_resultados_eq, hord]
    simp only [ok_bind]
    rw [hinv.corridas_eq, ← hperm1.length_eq]
    exact himp
  · rw [htempos]
    unfold Ordenada at hsorted
    exact List.pairwise_map.mpr hsorted

end

/-- Instance of C4: scenario C with a budget of 4 iterations. -/
theorem C4_output_sorted_by_completion_time_witness :
    EntradaValida cenarioC ∧ 2 * cenarioC.num_demandas.toNat ≤ 4 ∧
    ∃ linhas : List (Linha ℚ), main raizExemplo 4 cenarioC = .ok linhas
      ∧ (linhas.map fun l => l.tempo_conclusao).Sorted (· ≤ ·) :=
  ⟨cenarioC_valida, by decide,
    C4_output_sorted_by_completion_time raizExemplo cenarioC cenarioC_valida 4 (by decide)⟩


/-! ## Claims about the members of the rides (C11, C12, C13) -/

section
variable {R : Type} [LinearOrderedField R] (sqrt : R → R)

/-- C11: for every input with `eta ≥ 1` (and a positive number of demands, all of them
present in the stream), the matching phase ends normally and every ride `h` it has
stored has a first member: the demand at the lowest position `a` associated with the
ride, whose id is the first of the ids stored in the ride. Every other demand `j`
associated with the ride was requested less than `delta` after it:
`requestTime(j) - requestTime(a) < delta`. -/
theorem C11_time_window_relative_to_anchor (e : Entrada R) (heta : 1 ≤ e.eta)
    (hpos : 0 < e.num_demandas) (hreg : e.num_demandas.toNat ≤ e.registros.length) :
    ∃ s : Simulacao R,
      construcaoDasCorridas sqrt e ((demandasLidas e).map some) = .ok s
      ∧ ∀ h, h < s.num_corridas →
          ∃ (c : Corrida R) (a : Nat) (da : Demanda R),
            ler s.corridas h = .ok c ∧ ler c.ids_demandas 0 = .ok da.id
            ∧ ler s.demandas a = .ok da ∧ da.corrida_associada = some h
            ∧ (∀ (k : Nat) (dk : Demanda R), k < a → ler s.demandas k = .ok dk →
                dk.corrida_associada ≠ some h)
            ∧ ∀ (j : Nat) (dj : Demanda R), j ≠ a → ler s.demandas j = .ok dj →
                dj.corrida_associada = some h →
                dj.tempo_solicitacao - da.tempo_solicitacao < e.delta := by
  obtain ⟨s, vs, cs, xs, es, gs, hs, hinv, hgs⟩ :=
    construcaoDasCorridas_grupos sqrt e heta hpos hreg
  refine ⟨s, hs, fun h hh => ?_⟩
  obtain ⟨g, hg⟩ := grupo_da_corrida sqrt e _ s vs cs xs es gs hinv hgs h hh
  obtain ⟨c, hc, hgr, _⟩ := membrosDe_final sqrt e _ s vs cs xs es gs hinv hgs h g hg
  cases g with
  | nil => exact absurd rfl hgr.nao_vazio
  | cons a resto =>
    have ha := hgr.validos a (List.mem_cons_self _ _)
    have hva : vs[a]? = some vs[a] := List.getElem?_eq_getElem ha
    have hcr := List.pairwise_cons.mp hgr.crescente
    refine ⟨c, a, vs[a], hc, ?_, ?_, (hgr.membro a (List.mem_cons_self _ _) vs[a] hva).2,
      ?_, ?_⟩
    · rw [(estado_membros sqrt e vs h _ c hgr).2.2.1]
      unfold membros
      rw [List.filterMap_cons, hva]
      simp only [List.map_cons]
      rw [ler_eq_ok]
      exact List.getElem?_cons_zero
    · rw [hinv.demandas_eq]
      exact ler_map_some vs a ha
    · intro k dk hk hdk hda
      rw [hinv.demandas_eq] at hdk
      have hm := (membro_iff sqrt e _ vs cs gs hgs h _ hg k dk
        (ler_map_some_inv vs k dk hdk)).mp hda
      rcases List.mem_cons.mp hm with h1 | h1
      · omega
      · have := hcr.1 k h1
        omega
    · intro j dj hja hdj hda
      rw [hinv.demandas_eq] at hdj
      have hvj := ler_map_some_inv vs j dj hdj
      have hm := (membro_iff sqrt e _ vs cs gs hgs h _ hg j dj hvj).mp hda
      rcases List.mem_cons.mp hm with h1 | h1
      · exact absurd h1 hja
      · exact hgr.janela a resto rfl vs[a] hva j h1 dj hvj

/-- C12: for every input with `eta ≥ 1` (and a positive number of demands, all of them
present in the stream), the matching phase ends normally and any two distinct demands
associated with the same ride have origins at most `alfa` apart and destinations at
most `beta` apart, with the distances that `calcularDistanciaOrigem` and
`calcularDistanciaDestino` compute. -/
theorem C12_pairwise_spatial_compatibility (e : Entrada R) (heta : 1 ≤ e.eta)
    (hpos : 0 < e.num_demandas) (hreg : e.num_demandas.toNat ≤ e.registros.length) :
    ∃ s : Simulacao R,
      construcaoDasCorridas sqrt e ((demandasLidas e).map some) = .ok s
      ∧ ∀ (h j1 j2 : Nat) (d1 d2 : Demanda R), j1 ≠ j2 →
          ler s.demandas j1 = .ok d1 → ler s.demandas j2 = .ok d2 →
          d1.corrida_associada = some h → d2.corrida_associada = some h →
          d1.calcularDistanciaOrigem sqrt d2 ≤ e.alfa
            ∧ d1.calcularDistanciaDestino sqrt d2 ≤ e.beta := by
  obtain ⟨s, vs, cs, xs, es, gs, hs, hinv, hgs⟩ :=
    construcaoDasCorridas_grupos sqrt e heta hpos hreg
  refine ⟨s, hs, ?_⟩
  intro h j1 j2 d1 d2 hne hd1 hd2 ha1 ha2
  rw [hinv.demandas_eq] at hd1 hd2
  have hv1 := ler_map_some_inv vs j1 d1 hd1
  have hv2 := ler_map_some_inv vs j2 d2 hd2
  obtain ⟨g, hg, hj1⟩ := hgs.associada j1 d1 h hv1 ha1
  have hj2 := (membro_iff sqrt e _ vs cs gs hgs h g hg j2 d2 hv2).mp ha2
  obtain ⟨c, _, hgr⟩ := hgs.grupo h g hg
  rcases Nat.lt_or_gt_of_ne hne with hlt | hlt
  · exact pairwise_lt_rel _ g hgr.crescente hgr.compativeis j1 j2 hj1 hj2 hlt d1 d2 hv1 hv2
  · have := pairwise_lt_rel _ g hgr.crescente hgr.compativeis j2 j1 hj2 hj1 hlt d2 d1 hv2 hv1
    rw [calcularDistanciaOrigem_comm, calcularDistanciaDestino_comm]
    exact this

/-- C13: for every validated input (so `0 ≤ lambda ≤ 1`), reading and matching end
normally and the efficiency stored in every ride of `corridas` is at least `lambda`. -/
theorem C13_efficiency_threshold_met (e : Entrada R) (hv : EntradaValida e) :
    ∃ (demandas : Arr (Demanda R)) (s : Simulacao R),
      lerDemandas e = .ok demandas
      ∧ construcaoDasCorridas sqrt e demandas = .ok s
      ∧ ∀ h, h < s.num_corridas →
          ∃ c, ler s.corridas h = .ok c ∧ e.lambda ≤ c.eficiencia := by
  have hp := validarParametros_ok _ _ _ _ _ _ hv.1
  obtain ⟨s, vs, cs, xs, es, gs, hs, hinv, hgs⟩ :=
    construcaoDasCorridas_grupos sqrt e hp.1 hv.2.1 hv.2.2
  refine ⟨_, s, lerDemandas_eq e hv, hs, fun h hh => ?_⟩
  obtain ⟨g, hg⟩ := grupo_da_corrida sqrt e _ s vs cs xs es gs hinv hgs h hh
  obtain ⟨c, hc, hgr, _⟩ := membrosDe_final sqrt e _ s vs cs xs es gs hinv hgs h g hg
  refine ⟨c, hc, ?_⟩
  rw [hgr.corrida_eq]
  show e.lambda ≤ eficienciaDe sqrt e.gama (membros vs g)
  rcases hgr.eficiente with h1 | h1
  · have hl := length_membros vs g hgr.validos
    rw [h1] at hl
    obtain ⟨d, hd⟩ := List.length_eq_one.mp hl
    rw [hd, eficienciaDe_um]
    exact hp.2.2.2.2.2.2
  · exact not_lt.mp h1

end

/-- Instance of C11: scenario C. -/
theorem C11_time_window_relative_to_anchor_witness :
    1 ≤ cenarioC.eta ∧ 0 < cenarioC.num_demandas
    ∧ cenarioC.num_demandas.toNat ≤ cenarioC.registros.length ∧
    ∃ s : Simulacao ℚ,
      construcaoDasCorridas raizExemplo cenarioC ((demandasLidas cenarioC).map some) = .ok s
      ∧ ∀ h, h < s.num_corridas →
          ∃ (c : Corrida ℚ) (a : Nat) (da : Demanda ℚ),
            ler s.corridas h = .ok c ∧ ler c.ids_demandas 0 = .ok da.id
            ∧ ler s.demandas a = .ok da ∧ da.corrida_associada = some h
            ∧ (∀ (k : Nat) (dk : Demanda ℚ), k < a → ler s.demandas k = .ok dk →
                dk.corrida_associada ≠ some h)
            ∧ ∀ (j : Nat) (dj : Demanda ℚ), j ≠ a → ler s.demandas j = .ok dj →
                dj.corrida_associada = some h →
                dj.tempo_solicitacao - da.tempo_solicitacao < cenarioC.delta :=
  ⟨by decide, by decide, by decide,
    C11_time_window_relative_to_anchor raizExemplo cenarioC (by decide) (by decide)
      (by decide)⟩

/-- Instance of C12: scenario C. -/
theorem C12_pairwise_spatial_compatibility_witness :
    1 ≤ cenarioC.eta ∧ 0 < cenarioC.num_demandas
    ∧ cenarioC.num_demandas.toNat ≤ cenarioC.registros.length ∧
    ∃ s : Simulacao ℚ,
      construcaoDasCorridas raizExemplo cenarioC ((demandasLidas cenarioC).map some) = .ok s
      ∧ ∀ (h j1 j2 : Nat) (d1 d2 : Demanda ℚ), j1 ≠ j2 →
          ler s.demandas j1 = .ok d1 → ler s.demandas j2 = .ok d2 →
          d1.corrida_associada = some h → d2.corrida_associada = some h →
          d1.calcularDistanciaOrigem raizExemplo d2 ≤ cenarioC.alfa
            ∧ d1.calcularDistanciaDestino raizExemplo d2 ≤ cenarioC.beta :=
  ⟨by decide, by decide, by decide,
    C12_pairwise_spatial_compatibility raizExemplo cenarioC (by decide) (by decide)
      (by decide)⟩

/-- Instance of C13: scenario C. -/
theorem C13_efficiency_threshold_met_witness :
    EntradaValida cenarioC ∧
    ∃ (demandas : Arr (Demanda ℚ)) (s : Simulacao ℚ),
      lerDemandas cenarioC = .ok demandas
      ∧ construcaoDasCorridas raizExemplo cenarioC demandas = .ok s
      ∧ ∀ h, h < s.num_corridas →
          ∃ c, ler s.corridas h = .ok c ∧ cenarioC.lambda ≤ c.eficiencia :=
  ⟨cenarioC_valida, C13_efficiency_threshold_met raizExemplo cenarioC cenarioC_valida⟩

/-! ## Claims about the partition of the demands and the efficiency (C14, C15) -/

section
variable {R : Type} [LinearOrderedField R] (sqrt : R → R)

/-- C14: for every input with `eta ≥ 1` (and a positive number of demands, all of them
present in the stream), the matching phase ends normally and, in its final state,
every demand has left the state `DEMANDADA` and is associated with one stored ride;
and for every stored ride `h`, the demands `ms` associated with it, in input order, are
exactly its members (`num_demandas` of them, with their ids in `ids_demandas`), and
each of them is `INDIVIDUAL` if the ride has exactly one member and `COMBINADA`
otherwise. -/
theorem C14_matching_partitions_demands (e : Entrada R) (heta : 1 ≤ e.eta)
    (hpos : 0 < e.num_demandas) (hreg : e.num_demandas.toNat ≤ e.registros.length) :
    ∃ s : Simulacao R,
      construcaoDasCorridas sqrt e ((demandasLidas e).map some) = .ok s
      ∧ (∀ j, j < e.num_demandas.toNat →
          ∃ (d : Demanda R) (h : Nat), ler s.demandas j = .ok d ∧ d.estado ≠ .DEMANDADA
            ∧ d.corrida_associada = some h ∧ h < s.num_corridas)
      ∧ ∀ h, h < s.num_corridas →
          ∃ (c : Corrida R) (g : List Nat) (ms : List (Demanda R)),
            ler s.corridas h = .ok c ∧ MembrosDe s h g ms
            ∧ c.num_demandas = ms.length
            ∧ c.ids_demandas = (ms.map fun d => d.id).map some
            ∧ ∀ d ∈ ms, d.estado = if c.num_demandas = 1 then .INDIVIDUAL else .COMBINADA := by
  obtain ⟨s, vs, cs, xs, es, gs, hs, hinv, hgs⟩ :=
    construcaoDasCorridas_grupos sqrt e heta hpos hreg
  refine ⟨s, hs, ?_, ?_⟩
  · intro j hj
    have hjl : j < vs.length := by rw [hinv.num_demandas_eq]; exact hj
    have hvj : vs[j]? = some vs[j] := List.getElem?_eq_getElem hjl
    have hne := hgs.processadas j vs[j] hj hvj
    obtain ⟨h, hh⟩ := hgs.atendida j vs[j] hvj hne
    refine ⟨vs[j], h, ?_, hne, hh, hinv.corrida_valida j vs[j] h hvj hh⟩
    rw [hinv.demandas_eq]
    exact ler_map_some vs j hjl
  · intro h hh
    obtain ⟨g, hg⟩ := grupo_da_corrida sqrt e _ s vs cs xs es gs hinv hgs h hh
    obtain ⟨c, hc, hgr, hm⟩ := membrosDe_final sqrt e _ s vs cs xs es gs hinv hgs h g hg
    obtain ⟨h1, h2, h3, _, _, h6⟩ := estado_membros sqrt e vs h g c hgr
    refine ⟨c, g, membros vs g, hc, hm, h1, h3, ?_⟩
    intro d hd
    rw [(h6 d hd).1, h2]
    rfl

/-- C15: for every cluster `ms` (the first slots of `demandas_corrida`) and every total
distance `D`, `calcularEficienciaCorrida` returns 1 if `D = 0` and otherwise the sum of
the straight-line origin-to-destination distances of the demands of the cluster divided
by `D`; the method `Corrida::calcularEficiencia` stores the same value for the ride's
own total distance when it is given the array of these distances; and for every input
with `eta ≥ 1` (and a positive number of demands, all of them present in the stream),
the matching phase ends normally and the efficiency stored in every ride is the value that
`calcularEficienciaCorrida` returns for the demands `ms` associated with the ride and
the ride's own `distancia_total`. -/
theorem C15_efficiency_definition (e : Entrada R) (heta : 1 ≤ e.eta)
    (hpos : 0 < e.num_demandas) (hreg : e.num_demandas.toNat ≤ e.registros.length) :
    (∀ (ms : List (Demanda R)) (resto : Arr (Demanda R)) (D : R),
        calcularEficienciaCorrida sqrt (ms.map some ++ resto) ms.length D
          = .ok (if D = 0 then 1
              else (ms.map fun d => d.calcularDistanciaCorrida sqrt).sum / D))
    ∧ (∀ (c : Corrida R) (ds : List R) (resto : Arr R), c.num_demandas = ds.length →
        c.calcularEficiencia (ds.map some ++ resto)
          = .ok (c.setEficiencia
              (if c.distancia_total = 0 then 1 else ds.sum / c.distancia_total)))
    ∧ ∃ s : Simulacao R,
      construcaoDasCorridas sqrt e ((demandasLidas e).map some) = .ok s
      ∧ ∀ h, h < s.num_corridas →
          ∃ (c : Corrida R) (g : List Nat) (ms : List (Demanda R)),
            ler s.corridas h = .ok c ∧ MembrosDe s h g ms
            ∧ c.num_demandas = ms.length
            ∧ calcularEficienciaCorrida sqrt (ms.map some) c.num_demandas c.distancia_total
              = .ok c.eficiencia
            ∧ c.eficiencia = (if c.distancia_total = 0 then 1
                else (ms.map fun d => d.calcularDistanciaCorrida sqrt).sum
                  / c.distancia_total) := by
  refine ⟨calcularEficienciaCorrida_eq sqrt, calcularEficiencia_eq, ?_⟩
  obtain ⟨s, vs, cs, xs, es, gs, hs, hinv, hgs⟩ :=
    construcaoDasCorridas_grupos sqrt e heta hpos hreg
  refine ⟨s, hs, fun h hh => ?_⟩
  obtain ⟨g, hg⟩ := grupo_da_corrida sqrt e _ s vs cs xs es gs hinv hgs h hh
  obtain ⟨c, hc, hgr, hm⟩ := membrosDe_final sqrt e _ s vs cs xs es gs hinv hgs h g hg
  obtain ⟨h1, _, _, h4, h5, _⟩ := estado_membros sqrt e vs h g c hgr
  have hval : c.eficiencia = (if c.distancia_total = 0 then 1
      else ((membros vs g).map fun d => d.calcularDistanciaCorrida sqrt).sum
        / c.distancia_total) := by
    rw [h4, h5]; rfl
  refine ⟨c, g, membros vs g, hc, hm, h1, ?_, hval⟩
  have key := calcularEficienciaCorrida_eq sqrt (membros vs g) [] c.distancia_total
  rw [List.append_nil] at key
  rw [h1, key, hval]

end

/-- Instance of C14: scenario C. -/
theorem C14_matching_partitions_demands_witness :
    1 ≤ cenarioC.eta ∧ 0 < cenarioC.num_demandas
    ∧ cenarioC.num_demandas.toNat ≤ cenarioC.registros.length ∧
    ∃ s : Simulacao ℚ,
      construcaoDasCorridas raizExemplo cenarioC ((demandasLidas cenarioC).map some) = .ok s
      ∧ (∀ j, j < cenarioC.num_demandas.toNat →
          ∃ (d : Demanda ℚ) (h : Nat), ler s.demandas j = .ok d ∧ d.estado ≠ .DEMANDADA
            ∧ d.corrida_associada = some h ∧ h < s.num_corridas)
      ∧ ∀ h, h < s.num_corridas →
          ∃ (c : Corrida ℚ) (g : List Nat) (ms : List (Demanda ℚ)),
            ler s.corridas h = .ok c ∧ MembrosDe s h g ms
            ∧ c.num_demandas = ms.length
            ∧ c.ids_demandas = (ms.map fun d => d.id).map some
            ∧ ∀ d ∈ ms, d.estado = if c.num_demandas = 1 then .INDIVIDUAL else .COMBINADA :=
  ⟨by decide, by decide, by decide,
    C14_matching_partitions_demands raizExemplo cenarioC (by decide) (by decide) (by decide)⟩

/-- Instance of C15: scenario C. -/
theorem C15_efficiency_definition_witness :
    1 ≤ cenarioC.eta ∧ 0 < cenarioC.num_demandas
    ∧ cenarioC.num_demandas.toNat ≤ cenarioC.registros.length ∧
    ∃ s : Simulacao ℚ,
      construcaoDasCorridas raizExemplo cenarioC ((demandasLidas cenarioC).map some) = .ok s
      ∧ ∀ h, h < s.num_corridas →
          ∃ (c : Corrida ℚ) (g : List Nat) (ms : List (Demanda ℚ)),
            ler s.corridas h = .ok c ∧ MembrosDe s h g ms
            ∧ c.num_demandas = ms.length
            ∧ calcularEficienciaCorrida raizExemplo (ms.map some) c.num_demandas
                c.distancia_total = .ok c.eficiencia
            ∧ c.eficiencia = (if c.distancia_total = 0 then 1
                else (ms.map fun d => d.calcularDistanciaCorrida raizExemplo).sum
                  / c.distancia_total) :=
  ⟨by decide, by decide, by decide,
    (C15_efficiency_definition raizExemplo cenarioC (by decide) (by decide) (by decide)).2.2⟩

/-! ## Claims about the value of the efficiency (C16, C17, C18) -/

section
variable {R : Type} [LinearOrderedField R] (sqrt : R → R)

/-- C17, amended, over exact real arithmetic (the numbers are the elements of a
linearly ordered field, so no operation overflows or rounds): for every validated input
(including `lambda = 0`), with a square root that takes no negative value, reading and
matching end normally and every stored ride whose total distance is not 0 has an
efficiency `≥ 0`; the efficiency is `> 0` when at least one of the demands associated
with the ride has a non-zero straight-line distance from its origin to its destination.
The restriction to exact arithmetic is needed: with IEEE `double` values a coordinate
difference whose square overflows (one demand from (0,0) to (1e200,0)) gives the total
distance `inf`, which is not 0, and the efficiency `inf / inf`, which is NaN and so not
`≥ 0`. -/
theorem C17_efficiency_sign (e : Entrada R) (hv : EntradaValida e)
    (hsqrt : ∀ x, 0 ≤ sqrt x) :
    ∃ (demandas : Arr (Demanda R)) (s : Simulacao R),
      lerDemandas e = .ok demandas
      ∧ construcaoDasCorridas sqrt e demandas = .ok s
      ∧ ∀ h, h < s.num_corridas →
          ∃ (c : Corrida R) (g : List Nat) (ms : List (Demanda R)),
            ler s.corridas h = .ok c ∧ MembrosDe s h g ms
            ∧ (c.distancia_total ≠ 0 →
                0 ≤ c.eficiencia
                ∧ ((∃ d ∈ ms, d.calcularDistanciaCorrida sqrt ≠ 0) → 0 < c.eficiencia)) := by
  have hp := validarParametros_ok _ _ _ _ _ _ hv.1
  obtain ⟨s, vs, cs, xs, es, gs, hs, hinv, hgs⟩ :=
    construcaoDasCorridas_grupos sqrt e hp.1 hv.2.1 hv.2.2
  refine ⟨_, s, lerDemandas_eq e hv, hs, fun h hh => ?_⟩
  obtain ⟨g, hg⟩ := grupo_da_corrida sqrt e _ s vs cs xs es gs hinv hgs h hh
  obtain ⟨c, hc, hgr, hm⟩ := membrosDe_final sqrt e _ s vs cs xs es gs hinv hgs h g hg
  obtain ⟨_, _, _, h4, _, _⟩ := estado_membros sqrt e vs h g c hgr
  refine ⟨c, g, membros vs g, hc, hm, fun _ => ⟨?_, ?_⟩⟩
  · rw [h4]
    exact eficienciaDe_nonneg sqrt hsqrt e.gama _
  · rintro ⟨d, hd, hne⟩
    rw [h4]
    exact eficienciaDe_pos sqrt hsqrt e.gama _ d hd hne

/-- C18: for every demand `d` (its origin may equal its destination) and every speed
`gama > 0`, `construirCorrida` on the cluster that holds only `d` returns a ride with 2
stops, 1 segment and a total distance equal to the straight-line distance of `d` from
its origin to its destination, and `calcularEficienciaCorrida` returns exactly 1 for
that cluster and that total distance, which is the value that the matching phase then
stores in the ride. -/
theorem C18_single_member_ride (gama tempo_inicio : R) (hg : 0 < gama) (d : Demanda R)
    (resto : Arr (Demanda R)) :
    ∃ (c : Corrida R) (ef : R),
      construirCorrida sqrt (some d :: resto) 1 gama tempo_inicio = .ok c
      ∧ c.getNumParadas = 2 ∧ c.getNumTrechos = 1
      ∧ c.distancia_total = d.calcularDistanciaCorrida sqrt
      ∧ calcularEficienciaCorrida sqrt (some d :: resto) 1 c.distancia_total = .ok ef
      ∧ ef = 1 ∧ (c.setEficiencia ef).eficiencia = 1 := by
  have h1 := construirCorrida_eq sqrt gama tempo_inicio [d] resto (by simp)
  have h2 := calcularEficienciaCorrida_eq sqrt [d] resto
    (corridaDe sqrt gama [d]).distancia_total
  have h3 := eficienciaDe_um sqrt gama d
  unfold eficienciaDe at h3
  rw [h3] at h2
  exact ⟨corridaDe sqrt gama [d], 1, h1, rfl, rfl, distancia_total_um sqrt gama d, h2, rfl, rfl⟩

end

/-- Counterexample of C17: on two demands that do not move, at (0,0) and (1,0), with
`lambda = 0`, the matching phase stores one ride with both demands; its total distance
is 3 and its efficiency is 0. -/
theorem C17_counterexample_zero_efficiency :
    EntradaValida cenarioParado ∧
    ∃ (s : Simulacao ℚ) (c : Corrida ℚ),
      construcaoDasCorridas raizUnitaria cenarioParado
        ((demandasLidas cenarioParado).map some) = .ok s
      ∧ s.num_corridas = 1 ∧ ler s.corridas 0 = .ok c ∧ c.num_demandas = 2
      ∧ c.distancia_total = 3 ∧ c.eficiencia = 0
      ∧ ¬ (c.distancia_total ≠ 0 → 0 < c.eficiencia) := by
  refine ⟨cenarioParado_valida, ?_⟩
  have key : (construcaoDasCorridas raizUnitaria cenarioParado
        ((demandasLidas cenarioParado).map some)
      >>= fun s => (ler s.corridas 0).map fun c =>
        (fun p : Nat × Corrida ℚ =>
            (p.1, p.2.num_demandas, p.2.distancia_total, p.2.eficiencia))
          (s.num_corridas, c)) = .ok (1, 2, 3, 0) := by decide!
  obtain ⟨s, c, hs, hc, hv⟩ := primeira_corrida _
    (fun p : Nat × Corrida ℚ => (p.1, p.2.num_demandas, p.2.distancia_total, p.2.eficiencia))
    _ key
  simp only [Prod.mk.injEq] at hv
  refine ⟨s, c, hs, hv.1, hc, hv.2.1, hv.2.2.1, hv.2.2.2, ?_⟩
  rw [hv.2.2.1, hv.2.2.2]
  norm_num

/-- Instance of C17, amended: scenario C. -/
theorem C17_efficiency_sign_witness :
    EntradaValida cenarioC ∧ (∀ x, 0 ≤ raizExemplo x) ∧
    ∃ (demandas : Arr (Demanda ℚ)) (s : Simulacao ℚ),
      lerDemandas cenarioC = .ok demandas
      ∧ construcaoDasCorridas raizExemplo cenarioC demandas = .ok s
      ∧ ∀ h, h < s.num_corridas →
          ∃ (c : Corrida ℚ) (g : List Nat) (ms : List (Demanda ℚ)),
            ler s.corridas h = .ok c ∧ MembrosDe s h g ms
            ∧ (c.distancia_total ≠ 0 →
                0 ≤ c.eficiencia
                ∧ ((∃ d ∈ ms, d.calcularDistanciaCorrida raizExemplo ≠ 0) →
                    0 < c.eficiencia)) :=
  ⟨cenarioC_valida, raizExemplo_nonneg,
    C17_efficiency_sign raizExemplo cenarioC cenarioC_valida raizExemplo_nonneg⟩

/-- Instance of C18: the demand from (0,0) to (0,10) at speed 1. -/
theorem C18_single_member_ride_witness :
    (0 : ℚ) < 1 ∧
    ∃ (c : Corrida ℚ) (ef : ℚ),
      construirCorrida raizExemplo (some demandaExemplo :: []) 1 1 0 = .ok c
      ∧ c.getNumParadas = 2 ∧ c.getNumTrechos = 1
      ∧ c.distancia_total = demandaExemplo.calcularDistanciaCorrida raizExemplo
      ∧ calcularEficienciaCorrida raizExemplo (some demandaExemplo :: []) 1 c.distancia_total
        = .ok ef
      ∧ ef = 1 ∧ (c.setEficiencia ef).eficiencia = 1 :=
  ⟨by decide, C18_single_member_ride raizExemplo 1 0 (by decide) demandaExemplo []⟩


/-! ## Claims about the scenarios A and B (C19, C20) -/

section
variable {R : Type} [LinearOrderedField R] (sqrt : R → R)

theorem sum_map_um {α : Type} (f : α → Nat) (l : List α) (h : ∀ x ∈ l, f x = 1) :
    (l.map f).sum = l.length := by
  induction l with
  | nil => rfl
  | cons x l ih =>
    rw [List.map_cons, List.sum_cons, h x (List.mem_cons_self _ _),
      ih fun y hy => h y (List.mem_cons_of_mem _ hy), List.length_cons]
    omega

/-- C19 (scenario A): for every validated input with `eta = 1`, reading and matching
end normally, the number of stored rides equals the number of demands, every stored
ride has exactly one member and exactly 2 stops, and every demand ends in the state
`INDIVIDUAL`. -/
theorem C19_scenario_A_capacity_one (e : Entrada R) (hv : EntradaValida e)
    (h1 : e.eta = 1) :
    ∃ (demandas : Arr (Demanda R)) (s : Simulacao R),
      lerDemandas e = .ok demandas
      ∧ construcaoDasCorridas sqrt e demandas = .ok s
      ∧ s.num_corridas = e.num_demandas.toNat
      ∧ (∀ h, h < s.num_corridas →
          ∃ c, ler s.corridas h = .ok c ∧ c.getNumDemandas = 1 ∧ c.getNumParadas = 2)
      ∧ ∀ j, j < e.num_demandas.toNat →
          ∃ d, ler s.demandas j = .ok d ∧ d.estado = .INDIVIDUAL := by
  have hp := validarParametros_ok _ _ _ _ _ _ hv.1
  obtain ⟨s, vs, cs, xs, es, gs, hs, hinv, hgs⟩ :=
    construcaoDasCorridas_grupos sqrt e hp.1 hv.2.1 hv.2.2
  have hum : ∀ (h : Nat) (g : List Nat) (c : Corrida R), GrupoDaCorrida sqrt e vs h g c →
      g.length = 1 := by
    intro h g c hgr
    have := hgr.capacidade
    have := List.length_pos.mpr hgr.nao_vazio
    omega
  have hcs : ∀ c ∈ cs, c.num_demandas = 1 := by
    intro c hc
    obtain ⟨h, hh, rfl⟩ := List.getElem_of_mem hc
    have hlt : h < gs.length := by rw [hgs.grupos_length]; exact hh
    obtain ⟨c1, hc1, hgr⟩ := hgs.grupo h gs[h] (List.getElem?_eq_getElem hlt)
    rw [List.getElem?_eq_getElem hh] at hc1
    rw [Option.some.inj hc1, (estado_membros sqrt e vs h _ c1 hgr).2.1]
    exact hum h _ c1 hgr
  have hproc : ∀ j, j < vs.length → vs[j]?.isSome ∧ ∀ d, vs[j]? = some d →
      d.estado ≠ .DEMANDADA := by
    intro j hj
    refine ⟨by rw [List.getElem?_eq_getElem hj]; rfl, fun d hd => ?_⟩
    exact hgs.processadas j d (by rw [← hinv.num_demandas_eq]; exact hj) hd
  refine ⟨_, s, lerDemandas_eq e hv, hs, ?_, ?_, ?_⟩
  · have hc := hinv.contagem
    rw [sum_map_um _ cs hcs] at hc
    rw [← hinv.num_corridas_eq, hc, ← hinv.num_demandas_eq, List.countP_eq_length]
    intro d hd
    obtain ⟨j, hj, rfl⟩ := List.getElem_of_mem hd
    simpa using (hproc j hj).2 vs[j] (List.getElem?_eq_getElem hj)
  · intro h hh
    obtain ⟨g, hg⟩ := grupo_da_corrida sqrt e _ s vs cs xs es gs hinv hgs h hh
    obtain ⟨c, hc, hgr, _⟩ := membrosDe_final sqrt e _ s vs cs xs es gs hinv hgs h g hg
    have hl := hum h g c hgr
    refine ⟨c, hc, ?_, ?_⟩
    · show c.num_demandas = 1
      rw [(estado_membros sqrt e vs h g c hgr).2.1, hl]
    · rw [hgr.corrida_eq]
      show (membros vs g).length * 2 = 2
      rw [length_membros vs g hgr.validos, hl]
  · intro j hj
    have hjl : j < vs.length := by rw [hinv.num_demandas_eq]; exact hj
    have hvj : vs[j]? = some vs[j] := List.getElem?_eq_getElem hjl
    have hne := hgs.processadas j vs[j] hj hvj
    obtain ⟨h, hh⟩ := hgs.atendida j vs[j] hvj hne
    obtain ⟨g, hg, hjg⟩ := hgs.associada j vs[j] h hvj hh
    obtain ⟨c, _, hgr⟩ := hgs.grupo h g hg
    refine ⟨vs[j], ?_, ?_⟩
    · rw [hinv.demandas_eq]
      exact ler_map_some vs j hjl
    · rw [(hgr.membro j hjg vs[j] hvj).1]
      unfold estadoDoGrupo
      rw [if_pos (hum h g c hgr)]

end

/-- Instance of C19: scenario A on the two demands of scenario C. -/
theorem C19_scenario_A_capacity_one_witness :
    EntradaValida cenarioA ∧ cenarioA.eta = 1 ∧
    ∃ (demandas : Arr (Demanda ℚ)) (s : Simulacao ℚ),
      lerDemandas cenarioA = .ok demandas
      ∧ construcaoDasCorridas raizExemplo cenarioA demandas = .ok s
      ∧ s.num_corridas = cenarioA.num_demandas.toNat
      ∧ (∀ h, h < s.num_corridas →
          ∃ c, ler s.corridas h = .ok c ∧ c.getNumDemandas = 1 ∧ c.getNumParadas = 2)
      ∧ ∀ j, j < cenarioA.num_demandas.toNat →
          ∃ d, ler s.demandas j = .ok d ∧ d.estado = .INDIVIDUAL :=
  ⟨cenarioA_valida, by decide,
    C19_scenario_A_capacity_one raizExemplo cenarioA cenarioA_valida (by decide)⟩


section
variable {R : Type} [LinearOrderedField R] (sqrt : R → R)

/-- C20 (scenario B): for every input of exactly two demands `d1`, `d2` (the demands of
the records `r1`, `r2`, in that order) with `eta ≥ 2`, origins at most `alfa` apart,
destinations at most `beta` apart, `requestTime(d2) - requestTime(d1) < delta`, and
such that the efficiency that `calcularEficienciaCorrida` returns for the two-member
route built by `construirCorrida` is at least `lambda`, the matching phase ends
normally with exactly one ride; the ride has 4 stops, in the order pickup of `d1`,
pickup of `d2`, drop-off of `d1`, drop-off of `d2`, and its list of demand ids is
`[id(d1), id(d2)]`. -/
theorem C20_scenario_B_two_demands_pooled (e : Entrada R) (r1 r2 : Registro R)
    (resto : List (Registro R))
    (hreg : e.registros = r1 :: r2 :: resto) (hN : e.num_demandas = 2) (heta : 2 ≤ e.eta)
    (ho : (demandaDe r1).calcularDistanciaOrigem sqrt (demandaDe r2) ≤ e.alfa)
    (hd : (demandaDe r1).calcularDistanciaDestino sqrt (demandaDe r2) ≤ e.beta)
    (ht : r2.tempo - r1.tempo < e.delta)
    (hef : ∃ (c : Corrida R) (ef : R),
      construirCorrida sqrt [some (demandaDe r1), some (demandaDe r2)] 2 e.gama r1.tempo
        = .ok c
      ∧ calcularEficienciaCorrida sqrt [some (demandaDe r1), some (demandaDe r2)] 2
          c.distancia_total = .ok ef
      ∧ e.lambda ≤ ef) :
    ∃ (s : Simulacao R) (c : Corrida R),
      construcaoDasCorridas sqrt e ((demandasLidas e).map some) = .ok s
      ∧ s.num_corridas = 1 ∧ ler s.corridas 0 = .ok c
      ∧ c.getNumParadas = 4
      ∧ ler c.paradas 0 = .ok ⟨r1.ox, r1.oy, .EMBARQUE, r1.id⟩
      ∧ ler c.paradas 1 = .ok ⟨r2.ox, r2.oy, .EMBARQUE, r2.id⟩
      ∧ ler c.paradas 2 = .ok ⟨r1.dx, r1.dy, .DESEMBARQUE, r1.id⟩
      ∧ ler c.paradas 3 = .ok ⟨r2.dx, r2.dy, .DESEMBARQUE, r2.id⟩
      ∧ c.getNumDemandas = 2
      ∧ ler c.ids_demandas 0 = .ok r1.id ∧ ler c.ids_demandas 1 = .ok r2.id := by
  have hef1 : e.lambda ≤ eficienciaDe sqrt e.gama [demandaDe r1, demandaDe r2] := by
    obtain ⟨c, ef, hc, hefc, hle⟩ := hef
    have h1 := construirCorrida_eq sqrt e.gama r1.tempo [demandaDe r1, demandaDe r2] []
      (by simp)
    have h1a : construirCorrida sqrt [some (demandaDe r1), some (demandaDe r2)] 2 e.gama
        r1.tempo = .ok (corridaDe sqrt e.gama [demandaDe r1, demandaDe r2]) := h1
    rw [h1a] at hc
    have hcc := Except.ok.inj hc
    have h2 := calcularEficienciaCorrida_eq sqrt [demandaDe r1, demandaDe r2] [] c.distancia_total
    have h2a : calcularEficienciaCorrida sqrt [some (demandaDe r1), some (demandaDe r2)] 2
        c.distancia_total = .ok (if c.distancia_total = 0 then 1
          else (([demandaDe r1, demandaDe r2] : List (Demanda R)).map
            fun d => d.calcularDistanciaCorrida sqrt).sum / c.distancia_total) := h2
    rw [h2a] at hefc
    have := Except.ok.inj hefc
    rw [← this, ← hcc] at hle
    exact hle
  obtain ⟨s, hs, hn, hcs, _⟩ := construcao_par sqrt e r1 r2 resto hreg hN heta ho hd ht hef1
  refine ⟨s, corridaFinal sqrt e.gama [demandaDe r1, demandaDe r2], hs, hn, ?_, rfl, rfl, rfl,
    rfl, rfl, rfl, rfl, rfl⟩
  rw [hcs]
  rfl

end

/-- Instance of C20: scenario C, whose two demands are pooled. -/
theorem C20_scenario_B_two_demands_pooled_witness :
    cenarioC.registros = ⟨1, 0, 0, 0, 0, 10⟩ :: ⟨2, 1, 0, 0, 0, 10⟩ :: []
    ∧ cenarioC.num_demandas = 2 ∧ 2 ≤ cenarioC.eta ∧
    ∃ (s : Simulacao ℚ) (c : Corrida ℚ),
      construcaoDasCorridas raizExemplo cenarioC ((demandasLidas cenarioC).map some) = .ok s
      ∧ s.num_corridas = 1 ∧ ler s.corridas 0 = .ok c
      ∧ c.getNumParadas = 4
      ∧ ler c.paradas 0 = .ok ⟨0, 0, .EMBARQUE, 1⟩
      ∧ ler c.paradas 1 = .ok ⟨0, 0, .EMBARQUE, 2⟩
      ∧ ler c.paradas 2 = .ok ⟨0, 10, .DESEMBARQUE, 1⟩
      ∧ ler c.paradas 3 = .ok ⟨0, 10, .DESEMBARQUE, 2⟩
      ∧ c.getNumDemandas = 2
      ∧ ler c.ids_demandas 0 = .ok 1 ∧ ler c.ids_demandas 1 = .ok 2 :=
  ⟨rfl, rfl, by decide,
    C20_scenario_B_two_demands_pooled raizExemplo cenarioC ⟨1, 0, 0, 0, 0, 10⟩
      ⟨2, 1, 0, 0, 0, 10⟩ [] rfl rfl (by decide)
      (by simp [Demanda.calcularDistanciaOrigem, demandaDe, Demanda.nova, raizExemplo, cenarioC])
      (by simp [Demanda.calcularDistanciaDestino, demandaDe, Demanda.nova, raizExemplo, cenarioC])
      (by norm_num [cenarioC]) cenarioC_eficiencia⟩


/-! ## Claims about equal times and about validation (C30, C25) -/

/-- C30: the events `a` (ride 0) and `b` (ride 1) have the same time 5; after `a` and
then `b` are inserted into an empty scheduler, `b` is in slot 0 (`heapifyUp` exchanges
a child with its parent when their times are equal), the first `retiraProximoEvento`
returns `b` and the second returns `a`: the extraction is not first-in first-out. -/
theorem C30_equal_times_not_fifo :
    (⟨5, .COLETA_PASSAGEIRO, 0, 0⟩ : Evento ℚ).tempo
      = (⟨5, .COLETA_PASSAGEIRO, 1, 0⟩ : Evento ℚ).tempo
    ∧ (executar (Escalonador.novo 4).inicializa
        [.insere (⟨5, .COLETA_PASSAGEIRO, 0, 0⟩ : Evento ℚ),
          .insere ⟨5, .COLETA_PASSAGEIRO, 1, 0⟩]).map eventos
      = .ok [⟨5, .COLETA_PASSAGEIRO, 1, 0⟩, ⟨5, .COLETA_PASSAGEIRO, 0, 0⟩]
    ∧ ((executar (Escalonador.novo 4).inicializa
        [.insere (⟨5, .COLETA_PASSAGEIRO, 0, 0⟩ : Evento ℚ),
          .insere ⟨5, .COLETA_PASSAGEIRO, 1, 0⟩]
        >>= retiraProximoEvento).map fun r => r.1)
      = .ok (some ⟨5, .COLETA_PASSAGEIRO, 1, 0⟩)
    ∧ (inserirTodos (Escalonador.novo 4).inicializa
        [(⟨5, .COLETA_PASSAGEIRO, 0, 0⟩ : Evento ℚ), ⟨5, .COLETA_PASSAGEIRO, 1, 0⟩]
        >>= retirarTodos 2)
      = .ok [⟨5, .COLETA_PASSAGEIRO, 1, 0⟩, ⟨5, .COLETA_PASSAGEIRO, 0, 0⟩] := by
  refine ⟨rfl, by decide, by decide, by decide⟩

section
variable {R : Type} [LinearOrderedField R] (sqrt : R → R)

/-- C25: `validarParametros` raises `ParametroInvalidoException` if and only if
`eta ≤ 0` or `gama ≤ 0` or `delta < 0` or `alfa < 0` or `beta < 0` or `lambda < 0` or
`lambda > 1`, and returns normally if and only if none of these holds; and when the
parameters pass and `num_demandas ≤ 0`, `main` raises the same exception whatever the
stream holds after the parameters, so before any demand is read. -/
theorem C25_parameter_validation (eta : Int) (gama delta alfa beta lambda : R) :
    (validarParametros eta gama delta alfa beta lambda = .error .ParametroInvalido
      ↔ (eta ≤ 0 ∨ gama ≤ 0 ∨ delta < 0 ∨ alfa < 0 ∨ beta < 0 ∨ lambda < 0 ∨ lambda > 1))
    ∧ (validarParametros eta gama delta alfa beta lambda = .ok ()
      ↔ ¬ (eta ≤ 0 ∨ gama ≤ 0 ∨ delta < 0 ∨ alfa < 0 ∨ beta < 0 ∨ lambda < 0 ∨ lambda > 1))
    ∧ ((eta ≤ 0 ∨ gama ≤ 0 ∨ delta < 0 ∨ alfa < 0 ∨ beta < 0 ∨ lambda < 0 ∨ lambda > 1) →
        ∀ (num_demandas : Int) (registros : List (Registro R)) (passos : Nat),
          main sqrt passos ⟨eta, gama, delta, alfa, beta, lambda, num_demandas, registros⟩
            = .error .ParametroInvalido)
    ∧ (validarParametros eta gama delta alfa beta lambda = .ok () →
        ∀ (num_demandas : Int) (registros : List (Registro R)) (passos : Nat),
          num_demandas ≤ 0 →
          lerDemandas ⟨eta, gama, delta, alfa, beta, lambda, num_demandas, registros⟩
            = .error .ParametroInvalido
          ∧ main sqrt passos ⟨eta, gama, delta, alfa, beta, lambda, num_demandas, registros⟩
            = .error .ParametroInvalido) := by
  have h1 := validarParametros_erro eta gama delta alfa beta lambda
  refine ⟨h1, ?_, ?_, ?_⟩
  · constructor
    · intro hok hc
      rw [h1.mpr hc] at hok
      cases hok
    · intro hn
      rcases validarParametros_casos eta gama delta alfa beta lambda with h | h
      · exact absurd (h1.mp h) hn
      · exact h
  · intro hc num_demandas registros passos
    unfold main lerDemandas
    simp only [h1.mpr hc]
    rfl
  · intro hok num_demandas registros passos hn
    have hl : lerDemandas ⟨eta, gama, delta, alfa, beta, lambda, num_demandas, registros⟩
        = .error .ParametroInvalido := by
      unfold lerDemandas
      simp only [hok, ok_bind]
      rw [if_pos hn]
      rfl
    refine ⟨hl, ?_⟩
    unfold main
    rw [hl]
    rfl

end

/-! ## Claims about the scan of the candidates (C28, C27, C26) -/

section
variable {R : Type} [LinearOrderedField R] (sqrt : R → R)

/-- C28: in the inner loop of the matching phase, with the cluster below capacity, a
candidate `j` that is still `DEMANDADA`, is inside the time window and is refused by
`verificarCriteriosCompartilhamento` leaves `demandas_corrida` and
`num_demandas_corrida` unchanged and the scan goes on with the next candidates; so
when the next candidate `k` is `DEMANDADA`, is inside the time window, is accepted by
`verificarCriteriosCompartilhamento` and gives an efficiency that is not below `lambda`,
`k` is written in slot `num_demandas_corrida` and the scan goes on with one more
member. -/
theorem C28_spatial_rejection_is_skip (demandas : Arr (Demanda R)) (eta : Int)
    (gama delta alfa beta lambda tempo_base : R) (demandas_corrida : Arr Nat) (num : Nat)
    (j : Nat) (js : List Nat) (dj : Demanda R)
    (hcap : (num : Int) < eta) (hj : ler demandas j = .ok dj)
    (hest : dj.estado = .DEMANDADA) (htempo : dj.tempo_solicitacao - tempo_base < delta)
    (hrej : verificarCriteriosCompartilhamento sqrt (apontadas demandas demandas_corrida) num dj
      alfa beta = .ok false) :
    tentarCombinar sqrt demandas eta gama delta alfa beta lambda tempo_base (j :: js)
        (demandas_corrida, num)
      = tentarCombinar sqrt demandas eta gama delta alfa beta lambda tempo_base js
        (demandas_corrida, num)
    ∧ ∀ (k : Nat) (ks : List Nat) (dk : Demanda R) (demandas_corrida1 : Arr Nat)
        (corrida_temp : Corrida R) (eficiencia : R),
        js = k :: ks → ler demandas k = .ok dk → dk.estado = .DEMANDADA →
        dk.tempo_solicitacao - tempo_base < delta →
        verificarCriteriosCompartilhamento sqrt (apontadas demandas demandas_corrida) num dk
          alfa beta = .ok true →
        gravar demandas_corrida num k = .ok demandas_corrida1 →
        construirCorrida sqrt (apontadas demandas demandas_corrida1) ((num + 1 : Nat) : Int) gama
          tempo_base = .ok corrida_temp →
        calcularEficienciaCorrida sqrt (apontadas demandas demandas_corrida1) (num + 1)
          corrida_temp.distancia_total = .ok eficiencia →
        ¬ eficiencia < lambda →
        tentarCombinar sqrt demandas eta gama delta alfa beta lambda tempo_base (j :: js)
            (demandas_corrida, num)
          = tentarCombinar sqrt demandas eta gama delta alfa beta lambda tempo_base ks
            (demandas_corrida1, num + 1) := by
  have hpasso : tentarCombinar sqrt demandas eta gama delta alfa beta lambda tempo_base (j :: js)
        (demandas_corrida, num)
      = tentarCombinar sqrt demandas eta gama delta alfa beta lambda tempo_base js
        (demandas_corrida, num) := by
    rw [tentarCombinar]
    rw [if_pos hcap]
    simp only [hj, ok_bind]
    rw [if_neg (by simp [hest]), if_neg (not_le.mpr htempo)]
    simp only [hrej, ok_bind]
    rfl
  refine ⟨hpasso, ?_⟩
  intro k ks dk dc1 ct ef hjs hk hestk htk hver hgr hcc hef hlam
  rw [hpasso, hjs, tentarCombinar]
  rw [if_pos hcap]
  simp only [hk, ok_bind]
  rw [if_neg (by simp [hestk]), if_neg (not_le.mpr htk)]
  simp only [hver, ok_bind, hgr, hcc, hef]
  rw [if_neg hlam]
  rfl

end

section
variable {R : Type} [LinearOrderedField R] (sqrt : R → R)

/-- C27: for every input with `eta ≥ 1` (and a positive number of demands, all of them
present in the stream), every anchor position `i` and every later candidate `j`: in
the state `s` before the iteration of the anchor, if the scan of the candidates before
`j` leaves the cluster `(demandas_corrida, num)` below capacity, `j` is `DEMANDADA`,
inside the time window and accepted by `verificarCriteriosCompartilhamento`, and the
ride built with `j` added has an efficiency below `lambda`, then the iteration stores a
ride whose members are exactly the `num` demands of the cluster as it was before `j` was
tried (no candidate at or after `j` joins it), and the demand `j` is unchanged after the
iteration, so it is still `DEMANDADA`. -/
theorem C27_efficiency_rejection_is_hard_break (e : Entrada R) (heta : 1 ≤ e.eta)
    (hpos : 0 < e.num_demandas) (hreg : e.num_demandas.toNat ≤ e.registros.length)
    (i j : Nat) (hij : i < j) (hjN : j < e.num_demandas.toNat) :
    ∃ s : Simulacao R, estadoApos sqrt e i = .ok s
      ∧ ∀ (di dj : Demanda R) (demandas_corrida0 demandas_corrida demandas_corrida1 : Arr Nat)
          (num : Nat) (corrida_temp : Corrida R) (eficiencia : R),
          ler s.demandas i = .ok di → di.estado = .DEMANDADA →
          gravar (novoArr e.eta.toNat) 0 i = .ok demandas_corrida0 →
          tentarCombinar sqrt s.demandas e.eta e.gama e.delta e.alfa e.beta e.lambda
              di.tempo_solicitacao (List.range' (i + 1) (j - (i + 1))) (demandas_corrida0, 1)
            = .ok (demandas_corrida, num) →
          (num : Int) < e.eta → ler s.demandas j = .ok dj → dj.estado = .DEMANDADA →
          dj.tempo_solicitacao - di.tempo_solicitacao < e.delta →
          verificarCriteriosCompartilhamento sqrt (apontadas s.demandas demandas_corrida) num dj
            e.alfa e.beta = .ok true →
          gravar demandas_corrida num j = .ok demandas_corrida1 →
          construirCorrida sqrt (apontadas s.demandas demandas_corrida1) ((num + 1 : Nat) : Int)
            e.gama di.tempo_solicitacao = .ok corrida_temp →
          calcularEficienciaCorrida sqrt (apontadas s.demandas demandas_corrida1) (num + 1)
            corrida_temp.distancia_total = .ok eficiencia →
          eficiencia < e.lambda →
          ∃ (s1 : Simulacao R) (corrida_final : Corrida R),
            formarCorrida sqrt e i s = .ok s1
            ∧ ler s1.demandas j = .ok dj
            ∧ ler s1.corridas s.num_corridas = .ok corrida_final
            ∧ corrida_final.num_demandas = num
            ∧ ∀ k, k < num → ∃ (h : Nat) (d : Demanda R),
                ler demandas_corrida k = .ok h ∧ h < j ∧ ler s.demandas h = .ok d
                ∧ ler corrida_final.ids_demandas k = .ok d.id := by
  obtain ⟨s, vs, cs, xs, es, gs, hs, hinv, hgs, hnc, _⟩ :=
    estadoApos_ok sqrt e heta hpos hreg i (by omega)
  refine ⟨s, hs, ?_⟩
  intro di dj dc0 dc dc1 num ct ef hdi hesti hg0 hpre hcap hdj hestj htempo hver hgr hcc hef hlam
  have hN := hinv.num_demandas_eq
  have hi : i < vs.length := by omega
  have hj : j < vs.length := by omega
  rw [hinv.demandas_eq] at hdi hdj hpre hver hcc hef
  rw [ler_map_some vs i hi] at hdi
  rw [ler_map_some vs j hj] at hdj
  have hdi1 : vs[i] = di := Except.ok.inj hdi
  have hdj1 : vs[j] = dj := Except.ok.inj hdj
  rw [gravar_inicio e.eta.toNat i (by omega)] at hg0
  have hdc0 := Except.ok.inj hg0
  -- the scan of the candidates before `j`
  obtain ⟨resto1, ht1, hlen1⟩ := tentarCombinar_eq sqrt vs e.eta e.gama e.delta e.alfa e.beta
    e.lambda di.tempo_solicitacao (List.range' (i + 1) (j - (i + 1))) [i]
    (novoArr (e.eta.toNat - 1)) (by simp) (by simpa using hi)
    (by
      intro x hx
      rw [List.mem_range'] at hx
      obtain ⟨k, hk, rfl⟩ := hx
      omega)
    (by simp [novoArr]; omega)
  rw [← hdc0] at hpre
  have ht1a : tentarCombinar sqrt (vs.map some) e.eta e.gama e.delta e.alfa e.beta e.lambda
      di.tempo_solicitacao (List.range' (i + 1) (j - (i + 1)))
      ([i].map some ++ novoArr (e.eta.toNat - 1), 1) = _ := ht1
  rw [ht1a] at hpre
  have hpre1 := Except.ok.inj hpre
  have hdc : dc = (agrupar sqrt vs e.eta e.gama e.delta e.alfa e.beta e.lambda
      di.tempo_solicitacao (List.range' (i + 1) (j - (i + 1))) [i]).map some ++ resto1 :=
    (congrArg Prod.fst hpre1).symm
  have hnum : num = (agrupar sqrt vs e.eta e.gama e.delta e.alfa e.beta e.lambda
      di.tempo_solicitacao (List.range' (i + 1) (j - (i + 1))) [i]).length :=
    (congrArg Prod.snd hpre1).symm
  obtain ⟨novos, hagr, hsub, _, _, _⟩ := agrupar_spec sqrt vs e.eta e.gama e.delta e.alfa
    e.beta e.lambda di.tempo_solicitacao (List.range' (i + 1) (j - (i + 1))) [i]
  generalize hgen : agrupar sqrt vs e.eta e.gama e.delta e.alfa e.beta e.lambda
      di.tempo_solicitacao (List.range' (i + 1) (j - (i + 1))) [i] = hs1
    at hdc hnum hagr hlen1
  have hhs1 : ∀ x ∈ hs1, x < j := by
    intro x hx
    rw [hagr] at hx
    rcases List.mem_append.mp hx with h | h
    · rw [List.mem_singleton.mp h]; exact hij
    · have := hsub.subset h
      rw [List.mem_range'] at this
      obtain ⟨k, hk, rfl⟩ := this
      omega
  have hhs1v : ∀ x ∈ hs1, x < vs.length := fun x hx => by have := hhs1 x hx; omega
  have hne1 : hs1 ≠ [] := by rw [hagr]; simp
  -- the rejection of `j`
  obtain ⟨hrej, hpref⟩ := tentarCombinar_rejeita sqrt (vs.map some) e.eta e.gama e.delta e.alfa
    e.beta e.lambda di.tempo_solicitacao dc num j
    (List.range' (j + 1) (e.num_demandas.toNat - (j + 1))) dj dc1 ct ef hcap
    (by rw [ler_map_some vs j hj, hdj1]) hestj htempo hver hgr hcc hef hlam
  obtain ⟨resto2, ht2, _⟩ := tentarCombinar_eq sqrt vs e.eta e.gama e.delta e.alfa e.beta
    e.lambda di.tempo_solicitacao (j :: List.range' (j + 1) (e.num_demandas.toNat - (j + 1)))
    hs1 resto1 hne1 hhs1v
    (by
      intro x hx
      rcases List.mem_cons.mp hx with h | h
      · rw [h]; exact hj
      · rw [List.mem_range'] at h
        obtain ⟨k, hk, rfl⟩ := h
        omega)
    hlen1
  rw [← hdc, ← hnum, hrej] at ht2
  have ht2a := Except.ok.inj ht2
  have hagr2 : agrupar sqrt vs e.eta e.gama e.delta e.alfa e.beta e.lambda
      di.tempo_solicitacao (j :: List.range' (j + 1) (e.num_demandas.toNat - (j + 1))) hs1
      = hs1 := by
    obtain ⟨h2f, h2s⟩ := Prod.mk.inj ht2a
    apply prefixo_igual _ hs1 resto1 resto2 (by rw [← h2s]; exact hnum)
    intro k hk
    rw [← h2f, ← hdc]
    exact hpref k (by omega)
  -- the cluster of the anchor
  have hgrupo : grupoDe sqrt e vs i vs[i] = hs1 := by
    unfold grupoDe
    rw [hdi1, range'_divide i j e.num_demandas.toNat hij hjN]
    rcases agrupar_append sqrt vs e.eta e.gama e.delta e.alfa e.beta e.lambda
      di.tempo_solicitacao (j :: List.range' (j + 1) (e.num_demandas.toNat - (j + 1)))
      (List.range' (i + 1) (j - (i + 1))) [i] with h | h
    · rw [h]; exact hgen
    · rw [h, hgen]; exact hagr2
  have hest : vs[i].estado = .DEMANDADA := by rw [hdi1]; exact hesti
  obtain ⟨esc, ys, hform, _, _, _, _⟩ := formarCorrida_nova sqrt e i s vs cs xs heta hN hi
    hinv.demandas_eq hinv.corridas_eq hinv.num_corridas_eq (by omega) hinv.representa hest
  rw [hgrupo] at hform
  have hjn : j ∉ hs1 := fun hm => by have := hhs1 j hm; omega
  have hml := length_membros vs hs1 hhs1v
  refine ⟨_, corridaFinal sqrt e.gama (membros vs hs1), hform, ?_, ?_, ?_, ?_⟩
  · simp only
    rw [ler_eq_ok, List.getElem?_map, getElem?_marcar, List.getElem?_eq_getElem hj]
    simp [hjn, hdj1]
  · simp only
    rw [← hinv.num_corridas_eq]
    have := ler_map_some_append (cs ++ [corridaFinal sqrt e.gama (membros vs hs1)])
      (novoArr (vs.length - (cs.length + 1))) cs.length (by simp)
    rw [this]
    simp
  · show (membros vs hs1).length = num
    rw [hml, hnum]
  · intro k hk
    have hk1 : k < hs1.length := by omega
    have hkm : k < (membros vs hs1).length := by omega
    have hv := hhs1v hs1[k] (List.getElem_mem hk1)
    refine ⟨hs1[k], vs[hs1[k]], ?_, hhs1 _ (List.getElem_mem hk1), ?_, ?_⟩
    · rw [hdc]
      exact ler_map_some_append hs1 resto1 k hk1
    · rw [hinv.demandas_eq]
      exact ler_map_some vs _ hv
    · have hf2 := forall2_membros vs hs1 hhs1v
      have hrel := List.Forall₂.get hf2 hk1 hkm
      simp only [List.get_eq_getElem] at hrel
      rw [ler_map_some vs _ hv] at hrel
      have hmk : (membros vs hs1)[k] = vs[hs1[k]] := (Except.ok.inj hrel).symm
      show ler (((membros vs hs1).map fun d => d.id).map some) k = .ok vs[hs1[k]].id
      rw [ler_map_some _ k (by simpa using hkm)]
      simp [hmk]

end

/-- Instance of C28: three simultaneous demands with capacity 2. The second demand is
refused by the spatial test against the first, the scan goes on and adds the third, and
the run stores the rides with demand ids `[1, 3]` and `[2]`. -/
theorem C28_spatial_rejection_is_skip_witness :
    ((1 : Nat) : Int) < 2
    ∧ ler ((demandasLidas cenarioSalto).map some) 1 = .ok (demandaDe ⟨2, 0, 10, 0, 10, 10⟩)
    ∧ verificarCriteriosCompartilhamento raizExemplo
        (apontadas ((demandasLidas cenarioSalto).map some) [some 0, none]) 1
        (demandaDe ⟨2, 0, 10, 0, 10, 10⟩) 5 5 = .ok false
    ∧ tentarCombinar raizExemplo ((demandasLidas cenarioSalto).map some) 2 1 10 5 5 (1 / 2) 0
        [1, 2] ([some 0, none], 1)
      = tentarCombinar raizExemplo ((demandasLidas cenarioSalto).map some) 2 1 10 5 5 (1 / 2) 0
        [2] ([some 0, none], 1)
    ∧ tentarCombinar raizExemplo ((demandasLidas cenarioSalto).map some) 2 1 10 5 5 (1 / 2) 0
        [1, 2] ([some 0, none], 1) = .ok ([some 0, some 2], 2)
    ∧ (construcaoDasCorridas raizExemplo cenarioSalto ((demandasLidas cenarioSalto).map some)).map
        (fun s => (s.num_corridas, s.corridas.map fun c => c.map fun x => x.ids_demandas))
      = .ok (2, [some [some 1, some 3], some [some 2], none]) :=
  ⟨by decide, by decide!, by decide!,
    (C28_spatial_rejection_is_skip raizExemplo ((demandasLidas cenarioSalto).map some) 2 1 10 5 5
      (1 / 2) 0 [some 0, none] 1 1 [2] (demandaDe ⟨2, 0, 10, 0, 10, 10⟩) (by decide)
      (by decide!) rfl (by decide!) (by decide!)).1,
    by decide!, by decide!⟩

/-- Instance of C27: capacity 2 and `lambda = 1/2`, with two demands that do not move,
at (0,0) and (1,0), followed by a third one that coincides with the first. For the
anchor 0 the candidate 1 is accepted by the spatial test but gives efficiency 0, so the
ride of the anchor has the anchor as its only member, although the candidate 2 would
have been accepted, and the demand 1 is unchanged. -/
theorem C27_efficiency_rejection_is_hard_break_witness :
    1 ≤ cenarioRejeitado.eta ∧ 0 < cenarioRejeitado.num_demandas
    ∧ cenarioRejeitado.num_demandas.toNat ≤ cenarioRejeitado.registros.length
    ∧ tentarCombinar raizUnitaria ((demandasLidas cenarioRejeitado).map some) 2 1 10 1 1 (1 / 2)
        0 [2] ([some 0, none], 1) = .ok ([some 0, some 2], 2)
    ∧ ∃ (s1 : Simulacao ℚ) (corrida_final : Corrida ℚ),
        formarCorrida raizUnitaria cenarioRejeitado 0 (estadoInicial cenarioRejeitado) = .ok s1
        ∧ ler s1.demandas 1 = .ok (demandaDe ⟨2, 0, 1, 0, 1, 0⟩)
        ∧ ler s1.corridas 0 = .ok corrida_final
        ∧ corrida_final.num_demandas = 1
        ∧ ler corrida_final.ids_demandas 0 = .ok 1 := by
  refine ⟨by decide, by decide, by decide, by decide!, ?_⟩
  obtain ⟨s, hs, h⟩ := C27_efficiency_rejection_is_hard_break raizUnitaria cenarioRejeitado
    (by decide) (by decide) (by decide) 0 1 (by decide) (by decide)
  have hs0 : estadoInicial cenarioRejeitado = s := Except.ok.inj hs
  subst hs0
  obtain ⟨s1, cf, h1, h2, h3, h4, h5⟩ := h (demandaDe ⟨1, 0, 0, 0, 0, 0⟩)
    (demandaDe ⟨2, 0, 1, 0, 1, 0⟩) [some 0, none] [some 0, none] [some 0, some 1] 1
    (corridaDe raizUnitaria 1 [demandaDe ⟨1, 0, 0, 0, 0, 0⟩, demandaDe ⟨2, 0, 1, 0, 1, 0⟩]) 0
    (by decide!) rfl (by decide) rfl (by decide) (by decide!) rfl (by decide!) (by decide!)
    (by decide)
    (construirCorrida_eq raizUnitaria 1 0
      [demandaDe ⟨1, 0, 0, 0, 0, 0⟩, demandaDe ⟨2, 0, 1, 0, 1, 0⟩] [] (by simp))
    (by decide!) (by norm_num [cenarioRejeitado])
  obtain ⟨hh, d, hk1, _, hk2, hk3⟩ := h5 0 (by decide)
  have hh0 : 0 = hh := Except.ok.inj hk1
  subst hh0
  have hd : demandaDe ⟨1, 0, 0, 0, 0, 0⟩ = d := Except.ok.inj hk2
  subst hd
  exact ⟨s1, cf, h1, h2, h3, h4, hk3⟩


section
variable {R : Type} [LinearOrderedField R] (sqrt : R → R)

/-- C26: for every input with `eta ≥ 1` (and a positive number of demands, all of them
present in the stream) whose demands are in non-decreasing order of request time, the
matching phase ends normally and the matching phase in which a candidate outside the
time window is skipped, and the scan continued, ends in the same state: same rides with
the same members, same demands, same scheduler. The two scans also return the same
cluster from every cluster `(dc, n)`, for every anchor position `i` and every
reference time. -/
theorem C26_early_exit_is_sound (e : Entrada R) (heta : 1 ≤ e.eta)
    (hpos : 0 < e.num_demandas) (hreg : e.num_demandas.toNat ≤ e.registros.length)
    (hord : (e.registros.take e.num_demandas.toNat).Pairwise fun a b => a.tempo ≤ b.tempo) :
    ∃ s : Simulacao R,
      construcaoDasCorridas sqrt e ((demandasLidas e).map some) = .ok s
      ∧ construcaoSemParada sqrt e ((demandasLidas e).map some) = .ok s
      ∧ ∀ i, i < e.num_demandas.toNat →
          ∃ si : Simulacao R, estadoApos sqrt e i = .ok si
            ∧ formarCorridaSemParada sqrt e i si = formarCorrida sqrt e i si
            ∧ ∀ (tempo_base : R) (dc : Arr Nat) (n : Nat),
                tentarCombinarSemParada sqrt si.demandas e.eta e.gama e.delta e.alfa e.beta
                    e.lambda tempo_base (List.range' (i + 1) (e.num_demandas.toNat - (i + 1)))
                    (dc, n)
                  = tentarCombinar sqrt si.demandas e.eta e.gama e.delta e.alfa e.beta
                    e.lambda tempo_base (List.range' (i + 1) (e.num_demandas.toNat - (i + 1)))
                    (dc, n) := by
  have hord1 : (demandasLidas e).Pairwise
      fun a b => a.tempo_solicitacao ≤ b.tempo_solicitacao := by
    unfold demandasLidas
    exact List.pairwise_map.mpr hord
  obtain ⟨s, vs, cs, xs, es, gs, hs, _, _, _, _⟩ :=
    estadoApos_ok sqrt e heta hpos hreg e.num_demandas.toNat (le_refl _)
  refine ⟨s, hs, ?_, ?_⟩
  · have := construcaoSemParada_eq sqrt e heta hpos hreg hord1 e.num_demandas.toNat (le_refl _)
    rw [hs] at this
    exact this
  · intro i hi
    obtain ⟨si, vsi, csi, xsi, esi, gsi, hsi, hinv, _, _, ht⟩ :=
      estadoApos_ok sqrt e heta hpos hreg i (by omega)
    have hordi : vsi.Pairwise fun a b => a.tempo_solicitacao ≤ b.tempo_solicitacao := by
      have h1 : (vsi.map fun d => d.tempo_solicitacao).Pairwise (· ≤ ·) := by
        rw [ht]
        exact List.pairwise_map.mpr hord1
      exact List.pairwise_map.mp h1
    refine ⟨si, hsi, formarCorridaSemParada_eq sqrt e i si vsi hinv.demandas_eq
      hinv.num_demandas_eq hordi, ?_⟩
    intro tempo_base dc n
    rw [hinv.demandas_eq]
    apply tentarCombinarSemParada_eq
    · intro k hk
      rw [List.mem_range'] at hk
      obtain ⟨x, hx, rfl⟩ := hk
      have := hinv.num_demandas_eq
      omega
    · exact pairwise_range'_tempos vsi hordi _ _

end

/-- Instance of C26: scenario C, whose demands are requested at times 0 and 1. -/
theorem C26_early_exit_is_sound_witness :
    1 ≤ cenarioC.eta ∧ 0 < cenarioC.num_demandas
    ∧ cenarioC.num_demandas.toNat ≤ cenarioC.registros.length
    ∧ ((cenarioC.registros.take cenarioC.num_demandas.toNat).Pairwise
        fun a b => a.tempo ≤ b.tempo)
    ∧ ∃ s : Simulacao ℚ,
      construcaoDasCorridas raizExemplo cenarioC ((demandasLidas cenarioC).map some) = .ok s
      ∧ construcaoSemParada raizExemplo cenarioC ((demandasLidas cenarioC).map some) = .ok s := by
  obtain ⟨s, h1, h2, _⟩ := C26_early_exit_is_sound raizExemplo cenarioC (by decide)
    (by decide) (by decide) (by decide)
  exact ⟨by decide, by decide, by decide, by decide, s, h1, h2⟩


/-! ## Claims about the states of the demands and the invalid state (C22, C24) -/

section
variable {R : Type} [LinearOrderedField R] (sqrt : R → R)

/-- C22: for every input with `eta ≥ 1` (and a positive number of demands, all of them
present in the stream): every demand starts `DEMANDADA` with no ride; one iteration of
the outer loop of the matching phase either leaves a demand as it is or takes it from
`DEMANDADA` with no ride to `INDIVIDUAL` or `COMBINADA` by one `setEstado` followed by
one `setCorridaAssociada` with the ride of the iteration; and a demand that has left
`DEMANDADA` after `i` iterations is the same after every later iteration, so its state
never goes back, never changes between `INDIVIDUAL` and `COMBINADA`, and its ride is
set once. The simulation phase has no access to the demands (`simulacaoDeEventos`
reads only the rides and the scheduler), and no statement of `main` sets `CONCLUIDA`. -/
theorem C22_demand_state_machine (e : Entrada R) (heta : 1 ≤ e.eta)
    (hpos : 0 < e.num_demandas) (hreg : e.num_demandas.toNat ≤ e.registros.length) :
    (∀ (j : Nat) (d : Demanda R), ler (estadoInicial e).demandas j = .ok d →
        d.estado = .DEMANDADA ∧ d.corrida_associada = none)
    ∧ (∀ i, i < e.num_demandas.toNat →
        ∃ (s s1 : Simulacao R), estadoApos sqrt e i = .ok s
          ∧ estadoApos sqrt e (i + 1) = .ok s1
          ∧ ∀ (j : Nat) (d : Demanda R), ler s.demandas j = .ok d →
              ∃ d1 : Demanda R, ler s1.demandas j = .ok d1
                ∧ (d1 = d
                  ∨ (d.estado = .DEMANDADA ∧ d.corrida_associada = none
                    ∧ (d1.estado = .INDIVIDUAL ∨ d1.estado = .COMBINADA)
                    ∧ d1 = (d.setEstado d1.estado).setCorridaAssociada s.num_corridas)))
    ∧ (∀ i k, i ≤ k → k ≤ e.num_demandas.toNat →
        ∃ (s sk : Simulacao R), estadoApos sqrt e i = .ok s ∧ estadoApos sqrt e k = .ok sk
          ∧ ∀ (j : Nat) (d : Demanda R), ler s.demandas j = .ok d → d.estado ≠ .DEMANDADA →
              ler sk.demandas j = .ok d)
    ∧ ∃ s : Simulacao R,
        construcaoDasCorridas sqrt e ((demandasLidas e).map some) = .ok s
        ∧ estadoApos sqrt e e.num_demandas.toNat = .ok s := by
  refine ⟨?_, ?_, ?_, ?_⟩
  · intro j d hd
    exact demandasLidas_novas e j d (ler_map_some_inv _ j d hd)
  · intro i hi
    obtain ⟨s, s1, hs, hs1, _, h⟩ := passo_demandas sqrt e heta hpos hreg i hi
    exact ⟨s, s1, hs, hs1, h⟩
  · intro i k hik hk
    exact demanda_fixa sqrt e heta hpos hreg i k hik hk
  · obtain ⟨s, _, _, _, _, _, hs, _⟩ :=
      estadoApos_ok sqrt e heta hpos hreg e.num_demandas.toNat (le_refl _)
    exact ⟨s, hs, hs⟩

/-- C24: `construirCorrida` raises `EstadoInvalidoException` exactly when
`num_demandas ≤ 0`, so never for the argument `num + 1` of the call inside the inner
loop; and for every validated input, before every iteration `i` of the outer loop whose
anchor is `DEMANDADA`, the inner loop returns a cluster of at least 1 demand and the
call of `construirCorrida` on that cluster returns a ride; the matching phase ends
normally, and so does `main` for every budget of at least `2 * num_demandas`
iterations of the simulation loop. -/
theorem C24_invalid_state_unreachable (e : Entrada R) (hv : EntradaValida e)
    (passos : Nat) (hp : 2 * e.num_demandas.toNat ≤ passos) :
    (∀ (demandas_corrida : Arr (Demanda R)) (num_demandas : Int) (gama tempo_inicio : R),
        construirCorrida sqrt demandas_corrida num_demandas gama tempo_inicio
          = .error .EstadoInvalido ↔ num_demandas ≤ 0)
    ∧ (∀ (demandas_corrida : Arr (Demanda R)) (num : Nat) (gama tempo_inicio : R),
        construirCorrida sqrt demandas_corrida ((num + 1 : Nat) : Int) gama tempo_inicio
          ≠ .error .EstadoInvalido)
    ∧ (∀ i, i < e.num_demandas.toNat →
        ∃ s : Simulacao R, estadoApos sqrt e i = .ok s
          ∧ ∀ (di : Demanda R) (demandas_corrida0 : Arr Nat),
              ler s.demandas i = .ok di → di.estado = .DEMANDADA →
              gravar (novoArr e.eta.toNat) 0 i = .ok demandas_corrida0 →
              ∃ (c : Arr Nat × Nat) (corrida_final : Corrida R),
                tentarCombinar sqrt s.demandas e.eta e.gama e.delta e.alfa e.beta e.lambda
                    di.tempo_solicitacao
                    (List.range' (i + 1) (e.num_demandas.toNat - (i + 1)))
                    (demandas_corrida0, 1) = .ok c
                ∧ 1 ≤ c.2
                ∧ construirCorrida sqrt (apontadas s.demandas c.1) (c.2 : Int) e.gama
                    di.tempo_solicitacao = .ok corrida_final)
    ∧ (∃ (demandas : Arr (Demanda R)) (s : Simulacao R),
        lerDemandas e = .ok demandas ∧ construcaoDasCorridas sqrt e demandas = .ok s)
    ∧ ∃ linhas : List (Linha R), main sqrt passos e = .ok linhas := by
  have hpar := validarParametros_ok _ _ _ _ _ _ hv.1
  refine ⟨construirCorrida_estadoInvalido sqrt, ?_, ?_, ?_, main_ok sqrt e hv passos hp⟩
  · intro dc num gama t h
    have := (construirCorrida_estadoInvalido sqrt dc _ gama t).mp h
    omega
  · intro i hi
    exact varredura_ok sqrt e hpar.1 hv.2.1 hv.2.2 i hi
  · obtain ⟨s, _, _, _, _, hs, _⟩ := construcaoDasCorridas_ok sqrt e hpar.1 hv.2.1 hv.2.2
    exact ⟨_, s, lerDemandas_eq e hv, hs⟩

end

/-- Instance of C22: scenario C. -/
theorem C22_demand_state_machine_witness :
    1 ≤ cenarioC.eta ∧ 0 < cenarioC.num_demandas
    ∧ cenarioC.num_demandas.toNat ≤ cenarioC.registros.length
    ∧ (∀ i k, i ≤ k → k ≤ cenarioC.num_demandas.toNat →
        ∃ (s sk : Simulacao ℚ), estadoApos raizExemplo cenarioC i = .ok s
          ∧ estadoApos raizExemplo cenarioC k = .ok sk
          ∧ ∀ (j : Nat) (d : Demanda ℚ), ler s.demandas j = .ok d → d.estado ≠ .DEMANDADA →
              ler sk.demandas j = .ok d)
    ∧ (estadoApos raizExemplo cenarioC 2).map
        (fun s => s.demandas.map fun d => d.map fun x => (x.estado, x.corrida_associada))
      = .ok [some (.COMBINADA, some 0), some (.COMBINADA, some 0)] :=
  ⟨by decide, by decide, by decide,
    (C22_demand_state_machine raizExemplo cenarioC (by decide) (by decide) (by decide)).2.2.1,
    by decide!⟩

/-- Instance of C24: scenario C with a budget of 4 iterations. -/
theorem C24_invalid_state_unreachable_witness :
    EntradaValida cenarioC ∧ 2 * cenarioC.num_demandas.toNat ≤ 4
    ∧ (∃ (demandas : Arr (Demanda ℚ)) (s : Simulacao ℚ),
        lerDemandas cenarioC = .ok demandas
        ∧ construcaoDasCorridas raizExemplo cenarioC demandas = .ok s)
    ∧ ∃ linhas : List (Linha ℚ), main raizExemplo 4 cenarioC = .ok linhas :=
  ⟨cenarioC_valida, by decide,
    (C24_invalid_state_unreachable raizExemplo cenarioC cenarioC_valida 4 (by decide)).2.2.2.1,
    (C24_invalid_state_unreachable raizExemplo cenarioC cenarioC_valida 4 (by decide)).2.2.2.2⟩


/-! ## Claim about the counters of the scheduler (C23) -/

section
variable {R : Type} [LinearOrderedField R]

/-- C23: for a scheduler whose backing array has `capacidade ≥ 1` slots, after
`inicializa` and any sequence of `insereEvento` and `retiraProximoEvento` calls, no call
fails, `getTotalEventosInseridos()` is the number `ni` of `insereEvento` calls,
`getTotalEventosProcessados()` is the number `nr` of `retiraProximoEvento` calls that
returned an event, `getTamanho()` is `ni - nr`, and `estaVazio()` holds exactly when
this difference is 0; a `retiraProximoEvento` call on an empty scheduler returns
`nullptr` and changes nothing. -/
theorem C23_scheduler_counters (e0 : Escalonador R) (hcap : 1 ≤ e0.capacidade)
    (hheap : e0.heap.length = e0.capacidade) (chamadas : List (Chamada R)) :
    (∃ (e1 : Escalonador R) (ni nr : Nat),
      executarContando e0.inicializa chamadas = .ok (e1, ni, nr)
      ∧ executar e0.inicializa chamadas = .ok e1
      ∧ ni = chamadas.countP Chamada.eInsere
      ∧ getTotalEventosInseridos e1 = ni ∧ getTotalEventosProcessados e1 = nr
      ∧ nr ≤ ni ∧ getTamanho e1 = ni - nr
      ∧ (estaVazio e1 = true ↔ ni - nr = 0))
    ∧ ∀ e : Escalonador R, getTamanho e = 0 → retiraProximoEvento e = .ok (none, e) := by
  constructor
  · have hrep : Representa e0.inicializa [] :=
      ⟨e0.heap, rfl, rfl, hheap, hcap⟩
    obtain ⟨e1, ni, nr, ys, h1, h2, h3, h4, h5, h6, h7⟩ :=
      executarContando_ok chamadas e0.inicializa [] hrep
    obtain ⟨_, _, hl, _, _⟩ := h3
    simp only [List.length_nil, Nat.zero_add] at h7
    have h5a : e1.total_eventos_inseridos = ni := by
      rw [h5]; simp [Escalonador.inicializa]
    have h6a : e1.total_eventos_processados = nr := by
      rw [h6]; simp [Escalonador.inicializa]
    refine ⟨e1, ni, nr, h1, h2, h4, h5a, h6a, by omega, ?_, ?_⟩
    · unfold getTamanho; omega
    · unfold estaVazio
      simp only [decide_eq_true_eq]
      omega
  · intro e he
    have he1 : e.tamanho = 0 := he
    unfold retiraProximoEvento
    rw [if_pos he1]

end

/-- Instance of C23: a scheduler of capacity 4 and the calls insert, extract, extract
(on the empty scheduler), insert. -/
theorem C23_scheduler_counters_witness :
    1 ≤ (Escalonador.novo 4 : Escalonador ℚ).capacidade
    ∧ (Escalonador.novo 4 : Escalonador ℚ).heap.length
      = (Escalonador.novo 4 : Escalonador ℚ).capacidade
    ∧ (∃ (e1 : Escalonador ℚ) (ni nr : Nat),
      executarContando (Escalonador.novo 4).inicializa
          [.insere (ev 1), .retira, .retira, .insere (ev 2)] = .ok (e1, ni, nr)
      ∧ executar (Escalonador.novo 4).inicializa
          [.insere (ev 1), .retira, .retira, .insere (ev 2)] = .ok e1
      ∧ ni = ([.insere (ev 1), .retira, .retira, .insere (ev 2)] :
          List (Chamada ℚ)).countP Chamada.eInsere
      ∧ getTotalEventosInseridos e1 = ni ∧ getTotalEventosProcessados e1 = nr
      ∧ nr ≤ ni ∧ getTamanho e1 = ni - nr
      ∧ (estaVazio e1 = true ↔ ni - nr = 0))
    ∧ (executarContando (Escalonador.novo 4).inicializa
          [.insere (ev 1), .retira, .retira, .insere (ev 2)]).map
        (fun t => (t.2.1, t.2.2, getTamanho t.1, estaVazio t.1)) = .ok (2, 1, 1, false) :=
  ⟨by decide, by decide,
    (C23_scheduler_counters (Escalonador.novo 4) (by decide) (by decide)
      [.insere (ev 1), .retira, .retira, .insere (ev 2)]).1,
    by decide⟩


/-! ## Claim about the events of a ride (C29) -/

section
variable {R : Type} [LinearOrderedField R] (sqrt : R → R)

/-- C29: for a validated input, the matching phase returns a state `s`, and every state
`a` in which the simulation loop tests its condition (`simulacaoApos … k`, for every
`k`, up to and including the state in which the queue is empty, which is the state that
the loop returns) satisfies: the events queued in the scheduler belong to pairwise
different rides, none of them belongs to a ride that has a record in `resultados`, and
their number `getTamanho()` is at most `num_corridas`. Inside an iteration, after
`retiraProximoEvento`, the queued events are among those before the call and belong to
pairwise different rides, none of them to the ride of the extracted event. -/
theorem C29_one_outstanding_event_per_ride (e : Entrada R) (hv : EntradaValida e) :
    ∃ s : Simulacao R,
      lerDemandas e = .ok ((demandasLidas e).map some)
      ∧ construcaoDasCorridas sqrt e ((demandasLidas e).map some) = .ok s
      ∧ (∀ k : Nat, ∃ o : Option (Andamento R),
          simulacaoApos s.corridas k ⟨s.escalonador, novoArr s.num_corridas, 0⟩ = .ok o
          ∧ ∀ a : Andamento R, o = some a →
            ((eventos a.escalonador).map fun x => x.corrida_associada).Nodup
            ∧ (∀ x ∈ eventos a.escalonador, ∀ (i : Nat) (r : ResultadoCorrida R),
                i < a.num_resultados → ler a.resultados i = .ok r →
                r.corrida ≠ x.corrida_associada)
            ∧ (eventos a.escalonador).length = getTamanho a.escalonador
            ∧ getTamanho a.escalonador ≤ s.num_corridas
            ∧ (getTamanho a.escalonador ≠ 0 →
                ∃ (r : Evento R) (e1 : Escalonador R),
                  retiraProximoEvento a.escalonador = .ok (some r, e1)
                  ∧ ((eventos e1).map fun x => x.corrida_associada).Nodup
                  ∧ (∀ x ∈ eventos e1, x ∈ eventos a.escalonador
                      ∧ x.corrida_associada ≠ r.corrida_associada)))
      ∧ (∀ (passos : Nat) (a : Andamento R), simulacaoDeEventos passos s = .ok a →
          estaVazio a.escalonador = true
          ∧ ∃ k : Nat, k ≤ passos
            ∧ simulacaoApos s.corridas k ⟨s.escalonador, novoArr s.num_corridas, 0⟩
              = .ok (some a)) := by
  obtain ⟨s, vs, cs, xs, es, hs, hinv⟩ := construcaoDasCorridas_ok sqrt e
    (validarParametros_ok _ _ _ _ _ _ hv.1).1 hv.2.1 hv.2.2
  obtain ⟨h0, _⟩ := invSimulacao_inicial sqrt e s vs cs xs es hinv
  refine ⟨s, lerDemandas_eq e hv, hs, ?_, ?_⟩
  · intro k
    rw [hinv.corridas_eq]
    obtain ⟨o, ho, hprop⟩ := simulacaoApos_ok cs es _ k _ xs [] h0
    refine ⟨o, ho, ?_⟩
    intro a ha
    obtain ⟨xs1, rs1, hinv1⟩ := hprop a ha
    obtain ⟨h1, h2, _, h4⟩ := invSimulacao_um_por_corrida cs es a xs1 rs1 hinv1
    refine ⟨h1, h2, ?_, ?_, ?_⟩
    · rw [representa_eventos _ _ hinv1.representa]
      obtain ⟨_, _, hl, _, _⟩ := hinv1.representa
      unfold getTamanho
      omega
    · rw [← hinv.num_corridas_eq]
      exact h4
    · intro hne
      exact invSimulacao_apos_retirada cs es a xs1 rs1 hinv1 hne
  · intro passos a ha
    unfold simulacaoDeEventos at ha
    rw [hinv.corridas_eq] at ha ⊢
    exact simulacaoLoop_estado cs es _ passos _ xs [] a h0 ha

end
/-- Instance of C29 on scenario C, whose single ride has four stops: the queue holds one
event in each of the first four states of the loop and none in the fifth. -/
theorem C29_one_outstanding_event_per_ride_witness :
    EntradaValida cenarioC
    ∧ (∃ s : Simulacao ℚ,
      lerDemandas cenarioC = .ok ((demandasLidas cenarioC).map some)
      ∧ construcaoDasCorridas raizExemplo cenarioC ((demandasLidas cenarioC).map some) = .ok s
      ∧ (∀ k : Nat, ∃ o : Option (Andamento ℚ),
          simulacaoApos s.corridas k ⟨s.escalonador, novoArr s.num_corridas, 0⟩ = .ok o
          ∧ ∀ a : Andamento ℚ, o = some a →
            ((eventos a.escalonador).map fun x => x.corrida_associada).Nodup
            ∧ (∀ x ∈ eventos a.escalonador, ∀ (i : Nat) (r : ResultadoCorrida ℚ),
                i < a.num_resultados → ler a.resultados i = .ok r →
                r.corrida ≠ x.corrida_associada)
            ∧ (eventos a.escalonador).length = getTamanho a.escalonador
            ∧ getTamanho a.escalonador ≤ s.num_corridas
            ∧ (getTamanho a.escalonador ≠ 0 →
                ∃ (r : Evento ℚ) (e1 : Escalonador ℚ),
                  retiraProximoEvento a.escalonador = .ok (some r, e1)
                  ∧ ((eventos e1).map fun x => x.corrida_associada).Nodup
                  ∧ (∀ x ∈ eventos e1, x ∈ eventos a.escalonador
                      ∧ x.corrida_associada ≠ r.corrida_associada)))
      ∧ (∀ (passos : Nat) (a : Andamento ℚ), simulacaoDeEventos passos s = .ok a →
          estaVazio a.escalonador = true
          ∧ ∃ k : Nat, k ≤ passos
            ∧ simulacaoApos s.corridas k ⟨s.escalonador, novoArr s.num_corridas, 0⟩
              = .ok (some a)))
    ∧ (List.range 6).map (fun k =>
        (construcaoDasCorridas raizExemplo cenarioC ((demandasLidas cenarioC).map some)
          >>= fun s => simulacaoApos s.corridas k
            ⟨s.escalonador, novoArr s.num_corridas, 0⟩).map
          fun o => o.map fun a =>
            ((eventos a.escalonador).map fun x => (x.corrida_associada, x.indice_parada),
              a.num_resultados))
      = [.ok (some ([(0, 0)], 0)), .ok (some ([(0, 1)], 0)), .ok (some ([(0, 2)], 0)),
          .ok (some ([(0, 3)], 0)), .ok (some ([], 1)), .ok none] :=
  ⟨cenarioC_valida, C29_one_outstanding_event_per_ride raizExemplo cenarioC cenarioC_valida,
    by decide!⟩


/-! ## Claim about the run of scenario C (C21) -/

section
variable {R : Type} [LinearOrderedField R] (sqrt : R → R)

/-- C21 (scenario C, concrete run): for the input `eta=2, gama=1, delta=10, alfa=5,
beta=5, lambda=0.5` with the demands `(1, 0, 0,0, 0,10)` and `(2, 1, 0,0, 0,10)`, over
any ordered field and any square-root function that is exact on 0 and 100 (the only
squared distances of the run), and with a budget of at least 4 iterations of the
simulation loop: reading succeeds; matching stores a single ride, number 0; both
demands end in the state `COMBINADA`, associated with ride 0; the ride has the 4 stops
(0,0), (0,0), (0,10), (0,10), total distance 10, total duration 10 and efficiency 2; the
simulation records the completion time 10 for it; and `main` prints the single line with
completion time 10, distance 10, efficiency 2, 4 stops and these coordinates. -/
theorem C21_scenario_C_concrete_run (h0 : sqrt 0 = 0) (h100 : sqrt 100 = 10)
    (passos : Nat) (hp : 4 ≤ passos) :
    ∃ (s : Simulacao R) (a : Andamento R) (c : Corrida R) (d1 d2 : Demanda R),
      lerDemandas (cenarioCEm R) = .ok ((demandasLidas (cenarioCEm R)).map some)
      ∧ construcaoDasCorridas sqrt (cenarioCEm R) ((demandasLidas (cenarioCEm R)).map some)
        = .ok s
      ∧ simulacaoDeEventos passos s = .ok a
      ∧ s.num_corridas = 1
      ∧ ler s.demandas 0 = .ok d1 ∧ d1.id = 1 ∧ d1.estado = .COMBINADA
      ∧ d1.corrida_associada = some 0
      ∧ ler s.demandas 1 = .ok d2 ∧ d2.id = 2 ∧ d2.estado = .COMBINADA
      ∧ d2.corrida_associada = some 0
      ∧ ler s.corridas 0 = .ok c
      ∧ c.getNumDemandas = 2 ∧ c.getNumParadas = 4
      ∧ ler c.paradas 0 = .ok ⟨0, 0, .EMBARQUE, 1⟩
      ∧ ler c.paradas 1 = .ok ⟨0, 0, .EMBARQUE, 2⟩
      ∧ ler c.paradas 2 = .ok ⟨0, 10, .DESEMBARQUE, 1⟩
      ∧ ler c.paradas 3 = .ok ⟨0, 10, .DESEMBARQUE, 2⟩
      ∧ c.distancia_total = 10 ∧ c.duracao_total = 10 ∧ c.eficiencia = 2
      ∧ a.num_resultados = 1 ∧ ler a.resultados 0 = .ok ⟨10, 0⟩
      ∧ main sqrt passos (cenarioCEm R)
        = .ok [⟨10, 10, 2, 4, [(0, 0), (0, 0), (0, 10), (0, 10)]⟩] := by
  obtain ⟨hd1, hd2, hef⟩ := cenarioC_corrida sqrt h0 h100
  obtain ⟨s, a, hs, ha, hn, hcor, hdem, hnr, hres⟩ := cenarioC_execucao sqrt h0 h100 passos hp
  have hler := lerDemandas_eq (cenarioCEm R) cenarioCEm_valida
  refine ⟨s, a, corridaFinal sqrt 1 [demandaDe (⟨1, 0, 0, 0, 0, 10⟩ : Registro R),
      demandaDe ⟨2, 1, 0, 0, 0, 10⟩], marca .COMBINADA 0 (demandaDe ⟨1, 0, 0, 0, 0, 10⟩),
    marca .COMBINADA 0 (demandaDe ⟨2, 1, 0, 0, 0, 10⟩), hler, hs, ha, hn, ?_, ?_, ?_, ?_, ?_, ?_, ?_, ?_, ?_, ?_, ?_, ?_, ?_,
    ?_, ?_, ?_, ?_, ?_, hnr, ?_, ?_⟩
  · rw [hdem]; rfl
  · rfl
  · rfl
  · rfl
  · rw [hdem]; rfl
  · rfl
  · rfl
  · rfl
  · rw [hcor]; rfl
  · rfl
  · rfl
  · rfl
  · rfl
  · rfl
  · rfl
  · exact hd1
  · exact hd2
  · exact hef
  · rw [hres]; rfl
  · unfold main
    rw [hler]
    simp only [ok_bind]
    rw [hs]
    simp only [ok_bind]
    rw [ha]
    simp only [ok_bind]
    rw [hres, hnr, hcor]
    have hord : ordenarResultados [some (⟨10, 0⟩ : ResultadoCorrida R)] ((1 : Nat) : Int)
        = .ok [some ⟨10, 0⟩] := by
      unfold ordenarResultados
      rw [if_neg (by simp)]
    rw [hord]
    simp only [ok_bind]
    exact cenarioC_linha sqrt h0 h100

end

/-- Instance of C21 over the rationals, where the input is `cenarioC` and the square
root is `raizExemplo`. -/
theorem C21_scenario_C_concrete_run_witness :
    raizExemplo 0 = 0 ∧ raizExemplo 100 = 10 ∧ 4 ≤ 4 ∧ cenarioCEm ℚ = cenarioC
    ∧ ∃ (s : Simulacao ℚ) (a : Andamento ℚ) (c : Corrida ℚ) (d1 d2 : Demanda ℚ),
      lerDemandas (cenarioCEm ℚ) = .ok ((demandasLidas (cenarioCEm ℚ)).map some)
      ∧ construcaoDasCorridas raizExemplo (cenarioCEm ℚ)
          ((demandasLidas (cenarioCEm ℚ)).map some) = .ok s
      ∧ simulacaoDeEventos 4 s = .ok a
      ∧ s.num_corridas = 1
      ∧ ler s.demandas 0 = .ok d1 ∧ d1.id = 1 ∧ d1.estado = .COMBINADA
      ∧ d1.corrida_associada = some 0
      ∧ ler s.demandas 1 = .ok d2 ∧ d2.id = 2 ∧ d2.estado = .COMBINADA
      ∧ d2.corrida_associada = some 0
      ∧ ler s.corridas 0 = .ok c
      ∧ c.getNumDemandas = 2 ∧ c.getNumParadas = 4
      ∧ ler c.paradas 0 = .ok ⟨0, 0, .EMBARQUE, 1⟩
      ∧ ler c.paradas 1 = .ok ⟨0, 0, .EMBARQUE, 2⟩
      ∧ ler c.paradas 2 = .ok ⟨0, 10, .DESEMBARQUE, 1⟩
      ∧ ler c.paradas 3 = .ok ⟨0, 10, .DESEMBARQUE, 2⟩
      ∧ c.distancia_total = 10 ∧ c.duracao_total = 10 ∧ c.eficiencia = 2
      ∧ a.num_resultados = 1 ∧ ler a.resultados 0 = .ok ⟨10, 0⟩
      ∧ main raizExemplo 4 (cenarioCEm ℚ)
        = .ok [⟨10, 10, 2, 4, [(0, 0), (0, 0), (0, 10), (0, 10)]⟩] :=
  ⟨by decide, by decide, le_refl 4, rfl,
    C21_scenario_C_concrete_run raizExemplo (by decide) (by decide) 4 (le_refl 4)⟩


/-! ## Claim about the multiset of queued events (C31) -/

section
variable {R : Type} [LinearOrderedField R]

/-- C31: for every well-formed scheduler state `e` (a backing array of `capacidade ≥ 1`
slots whose first `tamanho` slots hold the events `xs`): `insereEvento(evento)` does not
fail and the multiset of held events afterwards is the old multiset plus `evento`, also
when the backing array is full and `redimensionar` doubles it; `retiraProximoEvento` on
a non-empty scheduler does not fail, returns an event `r` that was held and leaves the
old multiset minus one occurrence of `r`. The state after either call is well formed
again. -/
theorem C31_scheduler_keeps_multiset (e : Escalonador R) (xs : List (Evento R))
    (h : Representa e xs) :
    eventos e = xs
    ∧ (∀ evento : Evento R, ∃ e1 : Escalonador R,
        insereEvento e evento = .ok e1
        ∧ (↑(eventos e1) : Multiset (Evento R)) = evento ::ₘ ↑(eventos e)
        ∧ getTamanho e1 = getTamanho e + 1
        ∧ e1.capacidade
            = (if e.tamanho ≥ e.capacidade then e.capacidade * 2 else e.capacidade)
        ∧ Representa e1 (eventos e1))
    ∧ (getTamanho e ≠ 0 → ∃ (r : Evento R) (e1 : Escalonador R),
        retiraProximoEvento e = .ok (some r, e1)
        ∧ r ∈ eventos e
        ∧ (↑(eventos e) : Multiset (Evento R)) = r ::ₘ ↑(eventos e1)
        ∧ getTamanho e1 + 1 = getTamanho e
        ∧ Representa e1 (eventos e1)) := by
  have hev := representa_eventos e xs h
  refine ⟨hev, ?_, ?_⟩
  · intro evento
    obtain ⟨e1, ys, h1, hrep1, hperm, _, _⟩ := insereEvento_ok e xs evento h
    have hev1 := representa_eventos e1 ys hrep1
    obtain ⟨hcap, htam⟩ := insereEvento_capacidade e e1 evento h1
    refine ⟨e1, h1, ?_, htam, hcap, hev1 ▸ hrep1⟩
    rw [hev, hev1, Multiset.cons_coe, Multiset.coe_eq_coe]
    exact hperm.trans (List.perm_append_singleton _ _)
  · intro hne
    have hxs : xs ≠ [] := by
      obtain ⟨_, _, hl, _, _⟩ := h
      intro h0
      subst h0
      exact hne hl.symm
    obtain ⟨r, e1, ys, h1, hrep1, hperm, _, _⟩ := retiraProximoEvento_ok e xs h hxs
    have hev1 := representa_eventos e1 ys hrep1
    refine ⟨r, e1, h1, ?_, ?_, ?_, hev1 ▸ hrep1⟩
    · rw [hev]
      exact hperm.symm.subset (List.mem_cons_self _ _)
    · rw [hev, hev1, Multiset.cons_coe, Multiset.coe_eq_coe]
      exact hperm
    · obtain ⟨_, _, hl, _, _⟩ := h
      obtain ⟨_, _, hl1, _, _⟩ := hrep1
      have := hperm.length_eq
      simp only [List.length_cons] at this
      unfold getTamanho
      omega

end

/-- Instance of C31: a full backing array of capacity 1 holding one event. The insertion
doubles the array. -/
theorem C31_scheduler_keeps_multiset_witness :
    Representa (⟨[some (ev 1)], 1, 1, 0, 1⟩ : Escalonador ℚ) [ev 1]
    ∧ (∃ e1 : Escalonador ℚ,
        insereEvento (⟨[some (ev 1)], 1, 1, 0, 1⟩ : Escalonador ℚ) (ev 0) = .ok e1
        ∧ (↑(eventos e1) : Multiset (Evento ℚ))
            = ev 0 ::ₘ ↑(eventos (⟨[some (ev 1)], 1, 1, 0, 1⟩ : Escalonador ℚ))
        ∧ e1.capacidade = 2)
    ∧ (insereEvento (⟨[some (ev 1)], 1, 1, 0, 1⟩ : Escalonador ℚ) (ev 0)).map
        (fun e1 => (e1.heap, e1.tamanho, e1.capacidade))
      = .ok ([some (ev 0), some (ev 1)], 2, 2)
    ∧ (retiraProximoEvento (⟨[some (ev 1)], 1, 1, 0, 1⟩ : Escalonador ℚ)).map
        (fun r => (r.1, r.2.tamanho)) = .ok (some (ev 1), 0) := by
  have hrep : Representa (⟨[some (ev 1)], 1, 1, 0, 1⟩ : Escalonador ℚ) [ev 1] :=
    ⟨[], rfl, rfl, rfl, le_refl 1⟩
  obtain ⟨e1, h1, h2, _, h4, _⟩ :=
    (C31_scheduler_keeps_multiset (⟨[some (ev 1)], 1, 1, 0, 1⟩ : Escalonador ℚ) [ev 1] hrep).2.1
      (ev 0)
  exact ⟨hrep, ⟨e1, h1, h2, h4⟩, by decide, by decide⟩


/-! ## Claim about insert-only heaps (C32) -/

section
variable {R : Type} [LinearOrderedField R]

/-- C32: for every scheduler object with a backing array of `capacidade ≥ 1` slots,
emptied by `inicializa`, and every finite list `es` of events inserted with
`insereEvento` and no extraction: no insertion fails, the scheduler holds the events of
`es`, and for every position `i` with `1 ≤ i < tamanho` the time of `heap[(i-1)/2]` is
at most the time of `heap[i]`; when `es` is not empty, `getTempoProximoEvento` returns
the minimum of the times of `es`, and the first `retiraProximoEvento` returns an event
of `es` with that time. -/
theorem C32_insert_only_min_heap (e0 : Escalonador R) (hcap : 1 ≤ e0.capacidade)
    (hheap : e0.heap.length = e0.capacidade) (es : List (Evento R)) :
    ∃ e1 : Escalonador R,
      inserirTodos e0.inicializa es = .ok e1
      ∧ (eventos e1).Perm es
      ∧ heapInvariante e1
      ∧ (es ≠ [] → ∃ (t : R) (r : Evento R) (e2 : Escalonador R),
          getTempoProximoEvento e1 = .ok t
          ∧ (∀ x ∈ es, t ≤ x.tempo) ∧ (∃ x ∈ es, x.tempo = t)
          ∧ retiraProximoEvento e1 = .ok (some r, e2)
          ∧ r ∈ es ∧ r.tempo = t) := by
  have hrep : Representa e0.inicializa [] := ⟨e0.heap, rfl, rfl, hheap, hcap⟩
  have hvazio : OrdemHeap ([] : List (Evento R)) := by
    intro j _ hj
    simp at hj
  obtain ⟨e1, ys, h1, hrep1, hperm, hord⟩ := inserirTodos_ordem es e0.inicializa [] hrep hvazio
  simp only [List.nil_append] at hperm
  refine ⟨e1, h1, ?_, (heapInvariante_iff e1 ys hrep1).mpr hord, ?_⟩
  · rw [representa_eventos e1 ys hrep1]
    exact hperm
  · intro hne
    have hys : ys ≠ [] := by
      intro h
      subst h
      exact hne (List.Perm.nil_eq hperm).symm
    have hlen : 0 < ys.length := List.length_pos.mpr hys
    obtain ⟨r, e2, zs, hret, _, hperm2, _, _⟩ := retiraProximoEvento_ok e1 ys hrep1 hys
    have hraiz := retiraProximoEvento_raiz e1 e2 r hret
    obtain ⟨resto, hh, hl, _, _⟩ := hrep1
    rw [hh, ler_map_some_append ys resto 0 hlen] at hraiz
    have hr0 : ys[0] = r := Except.ok.inj hraiz
    have hrt : tempoEm ys 0 = r.tempo := by rw [tempoEm_eq ys 0 hlen, hr0]
    have hrm : r ∈ es := hperm.subset (hr0 ▸ List.getElem_mem hlen)
    refine ⟨r.tempo, r, e2, ?_, ?_, ⟨r, hrm, rfl⟩, hret, hrm, rfl⟩
    · unfold getTempoProximoEvento
      rw [if_neg (by omega), hh, ler_map_some_append ys resto 0 hlen, hr0]
      rfl
    · intro x hx
      obtain ⟨j, hj, hxj⟩ := List.getElem_of_mem (hperm.symm.subset hx)
      have := ordemHeap_raiz ys hord j hj
      rw [hrt, tempoEm_eq ys j hj, hxj] at this
      exact this

end

/-- Instance of C32: the events with times 3, 1, 2 inserted into a scheduler of
capacity 1, whose backing array is doubled twice. -/
theorem C32_insert_only_min_heap_witness :
    1 ≤ (Escalonador.novo 1 : Escalonador ℚ).capacidade
    ∧ (Escalonador.novo 1 : Escalonador ℚ).heap.length
      = (Escalonador.novo 1 : Escalonador ℚ).capacidade
    ∧ (∃ e1 : Escalonador ℚ,
      inserirTodos (Escalonador.novo 1).inicializa [ev 3, ev 1, ev 2] = .ok e1
      ∧ (eventos e1).Perm [ev 3, ev 1, ev 2]
      ∧ heapInvariante e1
      ∧ (([ev 3, ev 1, ev 2] : List (Evento ℚ)) ≠ [] → ∃ (t : ℚ) (r : Evento ℚ)
          (e2 : Escalonador ℚ),
          getTempoProximoEvento e1 = .ok t
          ∧ (∀ x ∈ [ev 3, ev 1, ev 2], t ≤ x.tempo) ∧ (∃ x ∈ [ev 3, ev 1, ev 2], x.tempo = t)
          ∧ retiraProximoEvento e1 = .ok (some r, e2)
          ∧ r ∈ [ev 3, ev 1, ev 2] ∧ r.tempo = t))
    ∧ (inserirTodos (Escalonador.novo 1).inicializa [ev 3, ev 1, ev 2]).map
        (fun e1 => (e1.heap, e1.capacidade)) = .ok ([some (ev 1), some (ev 3), some (ev 2), none], 4)
    ∧ (inserirTodos (Escalonador.novo 1).inicializa [ev 3, ev 1, ev 2]
        >>= getTempoProximoEvento) = .ok 1 :=
  ⟨by decide, by decide,
    C32_insert_only_min_heap (Escalonador.novo 1) (by decide) (by decide) [ev 3, ev 1, ev 2],
    by decide, by decide⟩


/-! ## Claim about the number of events of a run (C33) -/

section
variable {R : Type} [LinearOrderedField R] (sqrt : R → R)

/-- C33: for every validated input with `N = num_demandas` demands and every budget of
at least `2 * N` iterations: the stop counts of the rides stored by the matching phase
add up to `2 * N`; the simulation loop ends; when it ends the scheduler is empty and
`total_eventos_inseridos = total_eventos_processados = 2 * N`; the loop tests its
condition with a non-empty queue exactly `2 * N` times: before the iteration `k + 1`
the scheduler has returned exactly `k` events and is empty only for `k = 2 * N`, the
state after `2 * N` iterations is the state in which the loop ends, and there is no
further iteration. -/
theorem C33_simulation_event_count (e : Entrada R) (hv : EntradaValida e) (passos : Nat)
    (hp : 2 * e.num_demandas.toNat ≤ passos) :
    ∃ (s : Simulacao R) (a : Andamento R) (cs : List (Corrida R)),
      construcaoDasCorridas sqrt e ((demandasLidas e).map some) = .ok s
      ∧ s.corridas = cs.map some ++ novoArr (e.num_demandas.toNat - cs.length)
      ∧ cs.length = s.num_corridas
      ∧ (cs.map fun c => c.getNumParadas).sum = 2 * e.num_demandas.toNat
      ∧ simulacaoDeEventos passos s = .ok a
      ∧ getTotalEventosInseridos a.escalonador = 2 * e.num_demandas.toNat
      ∧ getTotalEventosProcessados a.escalonador = 2 * e.num_demandas.toNat
      ∧ estaVazio a.escalonador = true
      ∧ (∀ k, k ≤ 2 * e.num_demandas.toNat → ∃ ak : Andamento R,
          simulacaoApos s.corridas k ⟨s.escalonador, novoArr s.num_corridas, 0⟩ = .ok (some ak)
          ∧ getTotalEventosProcessados ak.escalonador = k
          ∧ (estaVazio ak.escalonador = true ↔ k = 2 * e.num_demandas.toNat))
      ∧ simulacaoApos s.corridas (2 * e.num_demandas.toNat)
          ⟨s.escalonador, novoArr s.num_corridas, 0⟩ = .ok (some a)
      ∧ simulacaoApos s.corridas (2 * e.num_demandas.toNat + 1)
          ⟨s.escalonador, novoArr s.num_corridas, 0⟩ = .ok none := by
  have hpar := validarParametros_ok _ _ _ _ _ _ hv.1
  obtain ⟨s, vs, cs, xs, es, gs, hs, hinv, hgs⟩ :=
    construcaoDasCorridas_grupos sqrt e hpar.1 hv.2.1 hv.2.2
  obtain ⟨h0, _⟩ := invSimulacao_inicial sqrt e s vs cs xs es hinv
  have htot := total_paradas sqrt e s vs cs xs es gs hinv hgs
  have hp0 : s.escalonador.total_eventos_processados = 0 := hinv.processados
  obtain ⟨c1, c2, c3⟩ := simulacaoApos_contagem cs es (novoArr (vs.length - cs.length))
    (2 * e.num_demandas.toNat) _ xs [] h0 (by
      show s.escalonador.total_eventos_processados + _ = _
      rw [hp0, htot]
      omega)
  obtain ⟨af, hf1, hf2⟩ := c3 passos hp
  have hcor := hinv.corridas_eq
  obtain ⟨akf, xsf, rsf, hkf1, hkf2, hkf3⟩ := c1 (2 * e.num_demandas.toNat) (le_refl _)
  have haf : akf = af := Option.some.inj (Except.ok.inj (hkf1.symm.trans hf2))
  subst haf
  have hprocf : akf.escalonador.total_eventos_processados = 2 * e.num_demandas.toNat := by
    rw [hkf3]
    show s.escalonador.total_eventos_processados + _ = _
    rw [hp0]
    omega
  obtain ⟨hv1, hv2⟩ := invSimulacao_vazio cs es akf xsf rsf hkf2
  have hxsf : xsf = [] := hv1.mpr (by rw [hprocf, htot])
  refine ⟨s, akf, cs, hs, ?_, hinv.num_corridas_eq, htot, ?_, ?_, hprocf, hv2.mpr hxsf, ?_, ?_,
    ?_⟩
  · rw [hcor, hinv.num_demandas_eq]
  · unfold simulacaoDeEventos
    rw [hcor]
    exact hf1
  · have := hkf2.inseridos
    rw [hxsf] at this
    show akf.escalonador.total_eventos_inseridos = _
    rw [this, hprocf]
    rfl
  · intro k hk
    obtain ⟨ak, xsk, rsk, hk1, hk2, hk3⟩ := c1 k hk
    have hpk : ak.escalonador.total_eventos_processados = k := by
      rw [hk3]
      show s.escalonador.total_eventos_processados + _ = _
      rw [hp0]
      omega
    obtain ⟨hw1, hw2⟩ := invSimulacao_vazio cs es ak xsk rsk hk2
    refine ⟨ak, ?_, hpk, ?_⟩
    · rw [hcor]
      exact hk1
    · rw [hw2, hw1, hpk, htot]
  · rw [hcor]
    exact hkf1
  · rw [hcor]
    exact c2

end

/-- Instance of C33: scenario C, with 2 demands in one ride of 4 stops and a budget of 4
iterations. -/
theorem C33_simulation_event_count_witness :
    EntradaValida cenarioC ∧ 2 * cenarioC.num_demandas.toNat ≤ 4
    ∧ (∃ (s : Simulacao ℚ) (a : Andamento ℚ) (cs : List (Corrida ℚ)),
      construcaoDasCorridas raizExemplo cenarioC ((demandasLidas cenarioC).map some) = .ok s
      ∧ s.corridas = cs.map some ++ novoArr (cenarioC.num_demandas.toNat - cs.length)
      ∧ cs.length = s.num_corridas
      ∧ (cs.map fun c => c.getNumParadas).sum = 2 * cenarioC.num_demandas.toNat
      ∧ simulacaoDeEventos 4 s = .ok a
      ∧ getTotalEventosInseridos a.escalonador = 2 * cenarioC.num_demandas.toNat
      ∧ getTotalEventosProcessados a.escalonador = 2 * cenarioC.num_demandas.toNat
      ∧ estaVazio a.escalonador = true
      ∧ (∀ k, k ≤ 2 * cenarioC.num_demandas.toNat → ∃ ak : Andamento ℚ,
          simulacaoApos s.corridas k ⟨s.escalonador, novoArr s.num_corridas, 0⟩ = .ok (some ak)
          ∧ getTotalEventosProcessados ak.escalonador = k
          ∧ (estaVazio ak.escalonador = true ↔ k = 2 * cenarioC.num_demandas.toNat))
      ∧ simulacaoApos s.corridas (2 * cenarioC.num_demandas.toNat)
          ⟨s.escalonador, novoArr s.num_corridas, 0⟩ = .ok (some a)
      ∧ simulacaoApos s.corridas (2 * cenarioC.num_demandas.toNat + 1)
          ⟨s.escalonador, novoArr s.num_corridas, 0⟩ = .ok none)
    ∧ (construcaoDasCorridas raizExemplo cenarioC ((demandasLidas cenarioC).map some)
        >>= fun s => simulacaoDeEventos 4 s).map
        (fun a => (getTotalEventosInseridos a.escalonador,
          getTotalEventosProcessados a.escalonador, estaVazio a.escalonador))
      = .ok (4, 4, true) :=
  ⟨cenarioC_valida, by decide,
    C33_simulation_event_count raizExemplo cenarioC cenarioC_valida 4 (by decide), by decide!⟩


/-! ## Claim about the indices of a run (C34) -/

section
variable {R : Type} [LinearOrderedField R] (sqrt : R → R)

/-- C34: for every validated input and every budget of at least `2 * num_demandas`
iterations, `main` ends normally, so no array access of the run is out of range, and:
before the iteration `i` of the matching loop the array `corridas` has `num_demandas`
slots and `num_corridas < num_demandas` is the index at which the iteration writes it;
when the anchor is `DEMANDADA`, `demandas_corrida` has `eta` slots, the anchor is written
at index 0, the scan of the candidates returns a count of at most `eta`, and every slot
that the scan changes has an index from 1 to `eta - 1`; any scan of `tentarCombinar`
changes only slots of index below `eta`. In every state in which the simulation loop
finds a non-empty queue, the event `r` returned by `retiraProximoEvento` belongs to a
stored ride `c`, its stop index is at most `getNumParadas(c) - 1`; when it is the last
stop, the record is written at the index `num_resultados < num_corridas` of an array of
`num_corridas` slots; otherwise the stop index is at most `getNumParadas(c) - 2`, below
`getNumTrechos(c)`, and `trechos[indice]` holds a segment. -/
theorem C34_indices_in_range (e : Entrada R) (hv : EntradaValida e) (passos : Nat)
    (hp : 2 * e.num_demandas.toNat ≤ passos) :
    (∃ linhas : List (Linha R), main sqrt passos e = .ok linhas)
    ∧ (∀ i, i < e.num_demandas.toNat → ∃ s : Simulacao R,
        estadoApos sqrt e i = .ok s
        ∧ s.corridas.length = e.num_demandas.toNat
        ∧ s.num_corridas < e.num_demandas.toNat
        ∧ ∀ (di : Demanda R), ler s.demandas i = .ok di → di.estado = .DEMANDADA →
            ∃ (dc0 dc : Arr Nat) (num : Nat),
              gravar (novoArr e.eta.toNat) 0 i = .ok dc0
              ∧ (dc0.length : Int) = e.eta
              ∧ tentarCombinar sqrt s.demandas e.eta e.gama e.delta e.alfa e.beta e.lambda
                  di.tempo_solicitacao (List.range' (i + 1) (e.num_demandas.toNat - (i + 1)))
                  (dc0, 1) = .ok (dc, num)
              ∧ (num : Int) ≤ e.eta
              ∧ ∀ p : Nat, dc[p]? ≠ dc0[p]? → 1 ≤ p ∧ (p : Int) < e.eta)
    ∧ (∀ (demandas : Arr (Demanda R)) (tempo_base : R) (js : List Nat) (dc dc1 : Arr Nat)
        (n n1 : Nat),
        tentarCombinar sqrt demandas e.eta e.gama e.delta e.alfa e.beta e.lambda tempo_base
          js (dc, n) = .ok (dc1, n1) →
        ∀ p : Nat, dc1[p]? ≠ dc[p]? → (p : Int) < e.eta ∧ p < dc.length)
    ∧ ∃ s : Simulacao R,
        construcaoDasCorridas sqrt e ((demandasLidas e).map some) = .ok s
        ∧ ∀ (k : Nat) (a : Andamento R),
            simulacaoApos s.corridas k ⟨s.escalonador, novoArr s.num_corridas, 0⟩
              = .ok (some a) →
            getTamanho a.escalonador ≠ 0 →
            ∃ (r : Evento R) (e1 : Escalonador R) (c : Corrida R),
              retiraProximoEvento a.escalonador = .ok (some r, e1)
              ∧ r.corrida_associada < s.num_corridas
              ∧ ler s.corridas r.corrida_associada = .ok c
              ∧ r.indice_parada + 1 ≤ c.getNumParadas
              ∧ a.resultados.length = s.num_corridas
              ∧ ((r.indice_parada : Int) ≥ (c.getNumParadas : Int) - 1 →
                  a.num_resultados < s.num_corridas)
              ∧ (¬ (r.indice_parada : Int) ≥ (c.getNumParadas : Int) - 1 →
                  r.indice_parada + 2 ≤ c.getNumParadas
                  ∧ r.indice_parada < c.getNumTrechos
                  ∧ ∃ t : Trecho R, ler c.trechos r.indice_parada = .ok t) := by
  have hpar := validarParametros_ok _ _ _ _ _ _ hv.1
  refine ⟨main_ok sqrt e hv passos hp, ?_, ?_, ?_⟩
  · intro i hi
    obtain ⟨s, vs, cs, xs, es, gs, hs, hinv, _, hnc, _⟩ :=
      estadoApos_ok sqrt e hpar.1 hv.2.1 hv.2.2 i (by omega)
    obtain ⟨s1, hs1, hvar⟩ := varredura_ok sqrt e hpar.1 hv.2.1 hv.2.2 i hi
    have hss : s = s1 := Except.ok.inj (hs.symm.trans hs1)
    subst hss
    have hN := hinv.num_demandas_eq
    have hcl := hinv.num_corridas_eq
    refine ⟨s, hs, ?_, by omega, ?_⟩
    · rw [hinv.corridas_eq]
      simp [novoArr]
      omega
    · intro di hdi hest
      have heta : 0 < e.eta.toNat := by have := hpar.1; omega
      have hg0 : gravar (novoArr e.eta.toNat) 0 i
          = .ok ((novoArr e.eta.toNat : Arr Nat).set 0 (some i)) := by
        unfold gravar
        rw [if_pos (by simpa [novoArr] using heta)]
      obtain ⟨c, _, hc, _, _⟩ := hvar di _ hdi hest hg0
      obtain ⟨dc, num⟩ := c
      obtain ⟨_, _, h3, h4⟩ := tentarCombinar_escritas sqrt _ _ _ _ _ _ _ _ _ _ _ _ _ hc
      refine ⟨_, dc, num, hg0, ?_, hc, h3 (by have := hpar.1; omega), ?_⟩
      · simp [novoArr]
        have := hpar.1
        omega
      · intro p hp1
        obtain ⟨j1, j2, _⟩ := h4 p hp1
        exact ⟨j1, j2⟩
  · intro demandas tempo_base js dc dc1 n n1 h p hp1
    obtain ⟨_, _, _, h4⟩ := tentarCombinar_escritas sqrt _ _ _ _ _ _ _ _ _ _ _ _ _ h
    exact (h4 p hp1).2
  · obtain ⟨s, vs, cs, xs, es, hs, hinv⟩ := construcaoDasCorridas_ok sqrt e hpar.1 hv.2.1 hv.2.2
    obtain ⟨h0, _⟩ := invSimulacao_inicial sqrt e s vs cs xs es hinv
    refine ⟨s, hs, ?_⟩
    intro k a hk hne
    rw [hinv.corridas_eq] at hk ⊢
    obtain ⟨o, ho, hprop⟩ := simulacaoApos_ok cs es _ k _ xs [] h0
    have hoa : o = some a := Except.ok.inj (ho.symm.trans hk)
    obtain ⟨xs1, rs1, hinv1⟩ := hprop a hoa
    obtain ⟨r, e1, c, h1, h2, h3, h4, h5, h6, h7⟩ :=
      invSimulacao_indices cs es a xs1 rs1 hinv1 hne
    rw [← hinv.num_corridas_eq]
    refine ⟨r, e1, c, h1, h2, ?_, h4, h5, h6, h7⟩
    rw [ler_eq_ok, List.getElem?_append_left (by simpa using h2), List.getElem?_map, h3]
    rfl

end
/-- Instance of C34: scenario C with a budget of 4 iterations. -/
theorem C34_indices_in_range_witness :
    EntradaValida cenarioC ∧ 2 * cenarioC.num_demandas.toNat ≤ 4
    ∧ (∃ linhas : List (Linha ℚ), main raizExemplo 4 cenarioC = .ok linhas)
    ∧ (∀ i, i < cenarioC.num_demandas.toNat → ∃ s : Simulacao ℚ,
        estadoApos raizExemplo cenarioC i = .ok s
        ∧ s.corridas.length = cenarioC.num_demandas.toNat
        ∧ s.num_corridas < cenarioC.num_demandas.toNat
        ∧ ∀ (di : Demanda ℚ), ler s.demandas i = .ok di → di.estado = .DEMANDADA →
            ∃ (dc0 dc : Arr Nat) (num : Nat),
              gravar (novoArr cenarioC.eta.toNat) 0 i = .ok dc0
              ∧ (dc0.length : Int) = cenarioC.eta
              ∧ tentarCombinar raizExemplo s.demandas cenarioC.eta cenarioC.gama cenarioC.delta
                  cenarioC.alfa cenarioC.beta cenarioC.lambda di.tempo_solicitacao
                  (List.range' (i + 1) (cenarioC.num_demandas.toNat - (i + 1)))
                  (dc0, 1) = .ok (dc, num)
              ∧ (num : Int) ≤ cenarioC.eta
              ∧ ∀ p : Nat, dc[p]? ≠ dc0[p]? → 1 ≤ p ∧ (p : Int) < cenarioC.eta)
    ∧ (estadoApos raizExemplo cenarioC 0 >>= fun s =>
        tentarCombinar raizExemplo s.demandas 2 1 10 5 5 (1 / 2) 0 [1] ([some 0, none], 1))
      = .ok ([some 0, some 1], 2) :=
  ⟨cenarioC_valida, by decide,
    (C34_indices_in_range raizExemplo cenarioC cenarioC_valida 4 (by decide)).1,
    (C34_indices_in_range raizExemplo cenarioC cenarioC_valida 4 (by decide)).2.1,
    by decide!⟩


/-! ## Claim about the order of the clusters (C35) -/

section
variable {R : Type} [LinearOrderedField R] (sqrt : R → R)

/-- C35: for every input with `eta ≥ 1` (and a positive number of demands, all of them
present in the stream), the matching phase ends normally and there is a list `gs` of
clusters, one per stored ride, such that for every ride `h`: `gs[h]` lists the input
positions of the demands associated with the ride in strictly increasing order (so
without repetition), it is not empty, the ride stores as many ids as the cluster has
members and the `k`-th stored id is the id of the `k`-th member; the first members
(anchors) of the clusters increase strictly with the ride number; and the iteration `i`
of the outer loop creates a ride exactly when the demand `i` is still `DEMANDADA`, the
ride then gets the next ride number and the first member of its cluster is `i`. -/
theorem C35_cluster_order (e : Entrada R) (heta : 1 ≤ e.eta)
    (hpos : 0 < e.num_demandas) (hreg : e.num_demandas.toNat ≤ e.registros.length) :
    ∃ (s : Simulacao R) (gs : List (List Nat)),
      construcaoDasCorridas sqrt e ((demandasLidas e).map some) = .ok s
      ∧ gs.length = s.num_corridas
      ∧ (∀ (h : Nat) (g : List Nat), gs[h]? = some g →
          ∃ (c : Corrida R) (ms : List (Demanda R)),
            ler s.corridas h = .ok c ∧ MembrosDe s h g ms
            ∧ g ≠ [] ∧ g.Nodup ∧ (g.Pairwise fun a b => a < b)
            ∧ c.getNumDemandas = g.length ∧ ms.length = g.length
            ∧ ∀ (k : Nat) (d : Demanda R), ms[k]? = some d → ler c.ids_demandas k = .ok d.id)
      ∧ (gs.Pairwise fun g g1 => ∀ (a a1 : Nat), g.head? = some a → g1.head? = some a1 →
          a < a1)
      ∧ ∀ i, i < e.num_demandas.toNat →
          ∃ (si si1 : Simulacao R), estadoApos sqrt e i = .ok si
            ∧ estadoApos sqrt e (i + 1) = .ok si1
            ∧ ∀ (di : Demanda R), ler si.demandas i = .ok di →
                (di.estado ≠ .DEMANDADA → si1.num_corridas = si.num_corridas)
                ∧ (di.estado = .DEMANDADA → si1.num_corridas = si.num_corridas + 1
                    ∧ ∃ g : List Nat, gs[si.num_corridas]? = some g ∧ g.head? = some i) := by
  obtain ⟨s, vs, cs, xs, es, gs, hs, hinv, hgs⟩ :=
    construcaoDasCorridas_grupos sqrt e heta hpos hreg
  refine ⟨s, gs, hs, by rw [hgs.grupos_length, hinv.num_corridas_eq], ?_,
    hgs.ancoras_crescentes, ?_⟩
  · intro h g hg
    obtain ⟨c, hc, hgr, hmem⟩ := membrosDe_final sqrt e _ s vs cs xs es gs hinv hgs h g hg
    obtain ⟨_, hnd, hids, _⟩ := estado_membros sqrt e vs h g c hgr
    have hlm := length_membros vs g hgr.validos
    refine ⟨c, membros vs g, hc, hmem, hgr.nao_vazio, ?_, hgr.crescente, hnd, hlm, ?_⟩
    · exact hgr.crescente.imp (fun hab => Nat.ne_of_lt hab)
    · intro k d hk
      rw [hids, ler_eq_ok, List.getElem?_map, List.getElem?_map, hk]
      rfl
  · intro i hi
    obtain ⟨si, si1, sn, hsi, hsi1, hsn, hprop⟩ :=
      ancora_da_iteracao sqrt e heta hpos hreg i hi
    have hsn1 : s = sn := by
      rw [construcaoDasCorridas_estadoApos] at hs
      exact Except.ok.inj (hs.symm.trans hsn)
    subst hsn1
    refine ⟨si, si1, hsi, hsi1, ?_⟩
    intro di hdi
    obtain ⟨p1, p2⟩ := hprop di hdi
    refine ⟨p1, fun hest => ?_⟩
    obtain ⟨q1, ⟨d, hd, hdc⟩, q3⟩ := p2 hest
    refine ⟨q1, ?_⟩
    have hdv : vs[i]? = some d := by
      rw [hinv.demandas_eq] at hd
      exact ler_map_some_inv vs i d hd
    obtain ⟨g, hg, hig⟩ := hgs.associada i d _ hdv hdc
    obtain ⟨c, _, hgr⟩ := hgs.grupo _ g hg
    refine ⟨g, hg, ?_⟩
    have hmin : ∀ j ∈ g, i ≤ j := by
      intro j hj
      by_contra hlt
      have hjl := hgr.validos j hj
      have hvj : vs[j]? = some vs[j] := List.getElem?_eq_getElem hjl
      refine q3 j vs[j] (by omega) ?_ (hgr.membro j hj vs[j] hvj).2
      rw [hinv.demandas_eq]
      exact ler_map_some vs j hjl
    cases g with
    | nil => exact absurd rfl hgr.nao_vazio
    | cons a resto =>
      have ha := hmin a (List.mem_cons_self _ _)
      rcases List.mem_cons.mp hig with h1 | h1
      · rw [h1]
        rfl
      · have := (List.pairwise_cons.mp hgr.crescente).1 i h1
        omega

end

/-- Instance of C35: three simultaneous demands with capacity 2, whose rides have the
clusters of positions 0, 2 (ids 1, 3) and 1 (id 2). -/
theorem C35_cluster_order_witness :
    1 ≤ cenarioSalto.eta ∧ 0 < cenarioSalto.num_demandas
    ∧ cenarioSalto.num_demandas.toNat ≤ cenarioSalto.registros.length
    ∧ (∃ (s : Simulacao ℚ) (gs : List (List Nat)),
      construcaoDasCorridas raizExemplo cenarioSalto ((demandasLidas cenarioSalto).map some)
        = .ok s
      ∧ gs.length = s.num_corridas
      ∧ (∀ (h : Nat) (g : List Nat), gs[h]? = some g →
          ∃ (c : Corrida ℚ) (ms : List (Demanda ℚ)),
            ler s.corridas h = .ok c ∧ MembrosDe s h g ms
            ∧ g ≠ [] ∧ g.Nodup ∧ (g.Pairwise fun a b => a < b)
            ∧ c.getNumDemandas = g.length ∧ ms.length = g.length
            ∧ ∀ (k : Nat) (d : Demanda ℚ), ms[k]? = some d → ler c.ids_demandas k = .ok d.id)
      ∧ (gs.Pairwise fun g g1 => ∀ (a a1 : Nat), g.head? = some a → g1.head? = some a1 →
          a < a1)
      ∧ ∀ i, i < cenarioSalto.num_demandas.toNat →
          ∃ (si si1 : Simulacao ℚ), estadoApos raizExemplo cenarioSalto i = .ok si
            ∧ estadoApos raizExemplo cenarioSalto (i + 1) = .ok si1
            ∧ ∀ (di : Demanda ℚ), ler si.demandas i = .ok di →
                (di.estado ≠ .DEMANDADA → si1.num_corridas = si.num_corridas)
                ∧ (di.estado = .DEMANDADA → si1.num_corridas = si.num_corridas + 1
                    ∧ ∃ g : List Nat, gs[si.num_corridas]? = some g ∧ g.head? = some i))
    ∧ (construcaoDasCorridas raizExemplo cenarioSalto
          ((demandasLidas cenarioSalto).map some)).map
        (fun s => (s.corridas.map fun c => c.map fun x => x.ids_demandas,
          s.demandas.map fun d => d.map fun x => x.corrida_associada))
      = .ok ([some [some 1, some 3], some [some 2], none], [some (some 0), some (some 1),
          some (some 0)]) :=
  ⟨by decide, by decide, by decide,
    C35_cluster_order raizExemplo cenarioSalto (by decide) (by decide) (by decide), by decide!⟩


/-! ## Claim about the sort of the results (C36) -/

section
variable {R : Type} [LinearOrderedField R]

/-- C36: for every array holding `n ≥ 0` results `rs`, `ordenarResultados(resultados, n)`
ends normally and the array afterwards holds a permutation `rs1` of `rs`: the same
`(tempo_conclusao, corrida)` pairs with the same multiplicities, in `n` slots. The
recursion of `quicksort` on the whole array ends normally within every nesting depth of
at least `n - 1`, again with a permutation of `rs`. -/
theorem C36_sort_terminates_and_permutes (rs : List (ResultadoCorrida R)) :
    (∃ rs1 : List (ResultadoCorrida R),
      ordenarResultados (rs.map some) (rs.length : Int) = .ok (rs1.map some)
      ∧ rs1.Perm rs
      ∧ (↑rs1 : Multiset (ResultadoCorrida R)) = ↑rs
      ∧ rs1.length = rs.length)
    ∧ ∀ passos : Nat, rs.length ≤ passos + 1 →
        ∃ rs1 : List (ResultadoCorrida R),
          quicksortLoop passos (rs.map some) 0 ((rs.length : Int) - 1) = .ok (rs1.map some)
          ∧ rs1.Perm rs := by
  constructor
  · obtain ⟨rs1, h1, hperm, _⟩ := ordenarResultados_ok rs
    exact ⟨rs1, h1, hperm, Multiset.coe_eq_coe.mpr hperm, hperm.length_eq⟩
  · intro passos hp
    obtain ⟨S1, hq, hperm, _⟩ := quicksortLoop_ok passos [] rs [] hp
    simp only [List.nil_append, List.append_nil, List.length_nil, Int.ofNat_zero, Nat.cast_zero,
      zero_add] at hq
    exact ⟨S1, hq, hperm⟩

end
/-- Instance of C36: three results with the completion times 3, 1, 2, of which the
first two belong to the same ride. -/
theorem C36_sort_terminates_and_permutes_witness :
    (∃ rs1 : List (ResultadoCorrida ℚ),
      ordenarResultados (([⟨3, 0⟩, ⟨1, 0⟩, ⟨2, 1⟩] : List (ResultadoCorrida ℚ)).map some)
          (([⟨3, 0⟩, ⟨1, 0⟩, ⟨2, 1⟩] : List (ResultadoCorrida ℚ)).length : Int)
        = .ok (rs1.map some)
      ∧ rs1.Perm [⟨3, 0⟩, ⟨1, 0⟩, ⟨2, 1⟩])
    ∧ (ordenarResultados (([⟨3, 0⟩, ⟨1, 0⟩, ⟨2, 1⟩] : List (ResultadoCorrida ℚ)).map some) 3).map
        (fun a => a.map fun r => r.map fun x => (x.tempo_conclusao, x.corrida))
      = .ok [some (1, 0), some (2, 1), some (3, 0)] := by
  obtain ⟨rs1, h1, h2, _⟩ :=
    (C36_sort_terminates_and_permutes ([⟨3, 0⟩, ⟨1, 0⟩, ⟨2, 1⟩] : List (ResultadoCorrida ℚ))).1
  exact ⟨⟨rs1, h1, h2⟩, by decide!⟩

end TP2
